import Mathlib

/-!
# mcp-memories: the protocol engine and its record store

A shallow embedding of `internal/mcp` (server.go, handlers.go, tools.go) and of
`internal/db` (the SQLite-backed store), followed by the properties proved
about them.

Conventions of the embedding

* A byte is a `Nat` below 256; the input stream is a list of bytes.
* Go `error` values are the type `GoErr`; `io.EOF` and `bufio.ErrBufferFull`
  are constructors of their own because the code compares against them.
* Go library code (`bufio`, `strings`, `encoding/json`, `database/sql`) is
  modelled by what it computes; each such definition says so.
* Logging is left out: the logger is write-only and never read back.
-/

namespace McpMemories

/-! ## Errors -/

/-- Go `error` values met by the server: the sentinels the code compares
against (`io.EOF`, `bufio.ErrBufferFull`, `sql.ErrNoRows`), an error wrapping
`ErrUnknownTool`, and any other error with its text. -/
inductive GoErr where
  | EOF
  | ErrBufferFull
  | ErrNoRows
  | unknownTool (name : String)
  | msg (text : String)
  deriving DecidableEq, Repr

/-- The text `err.Error()` returns. -/
def GoErr.Error : GoErr → String
  | .EOF => "EOF"
  | .ErrBufferFull => "bufio: buffer full"
  | .ErrNoRows => "sql: no rows in result set"
  | .unknownTool name => "unknown tool: " ++ name
  | .msg text => text

/-- The value of `errors.Is(err, ErrUnknownTool)`. -/
def GoErr.isUnknownTool : GoErr → Bool
  | .unknownTool _ => true
  | _ => false

/-! ## bufio.Reader -/

/-- A `bufio.Reader` over an input stream: the bytes not yet consumed, the error
the stream reports once they are exhausted (`none` is `io.EOF`), and the
size of the buffer. -/
structure Reader where
  pending : List Nat
  failure : Option String
  size : Nat
  deriving DecidableEq, Repr

/-- The constructor `bufio.NewReaderSize`: a buffer is at least 16 bytes. -/
def NewReaderSize (input : List Nat) (failure : Option String) (size : Nat) : Reader :=
  { pending := input, failure := failure, size := max size 16 }

/-- The error a reader reports at the end of its stream. -/
def Reader.endErr (r : Reader) : GoErr :=
  match r.failure with
  | none => .EOF
  | some text => .msg text

/-- The prefix of `bs` up to and including the first `delim`, with the rest. -/
def splitAfter (delim : Nat) : List Nat → Option (List Nat × List Nat)
  | [] => none
  | b :: bs =>
    if b = delim then some ([b], bs)
    else match splitAfter delim bs with
      | none => none
      | some (line, rest) => some (b :: line, rest)

/-- The method `(*bufio.Reader).ReadSlice`: the bytes up to and including the
first delimiter when it lies within one buffer; a full buffer with
`ErrBufferFull` when the buffer fills first; otherwise what is left together
with the error of the stream. -/
def Reader.ReadSlice (r : Reader) (delim : Nat) : List Nat × Option GoErr × Reader :=
  match splitAfter delim (r.pending.take r.size) with
  | some (line, _) => (line, none, { r with pending := r.pending.drop line.length })
  | none =>
    if r.size ≤ r.pending.length then
      (r.pending.take r.size, some .ErrBufferFull, { r with pending := r.pending.drop r.size })
    else
      (r.pending, some r.endErr, { r with pending := [] })

/-! ## Frame reader (server.go) -/

def maxMessageBytes : Nat := 8 * 1024 * 1024

/-- The inner loop of `readLineLimited` that drains an oversized line. -/
def drainLine : Nat → Reader → Reader
  | 0, r => r
  | fuel + 1, r =>
    match r.ReadSlice 10 with
    | (_, none, r1) => r1
    | (_, some .ErrBufferFull, r1) => drainLine fuel r1
    | (_, some _, r1) => r1

/-- The loop of `readLineLimited`, with the frame read so far in `out`. -/
def readLineLimitedLoop : Nat → Reader → Nat → List Nat → Except GoErr (List Nat) × Reader
  | 0, r, _, _ => (.error (.msg "out of fuel"), r)
  | fuel + 1, r, max, out =>
    match r.ReadSlice 10 with
    | (frag, none, r1) =>
      let out1 := out ++ frag
      if out1.length > max then
        (.error (.msg ("message too large: " ++ toString out1.length ++ " bytes")), r1)
      else (.ok out1, r1)
    | (frag, some .ErrBufferFull, r1) =>
      let out1 := out ++ frag
      if out1.length > max then
        (.error (.msg ("message too large: exceeds " ++ toString max ++ " bytes")),
          drainLine (r1.pending.length + 1) r1)
      else readLineLimitedLoop fuel r1 max out1
    | (frag, some .EOF, r1) =>
      if frag.length > 0 then
        let out1 := out ++ frag
        if out1.length > max then
          (.error (.msg ("message too large: exceeds " ++ toString max ++ " bytes")), r1)
        else (.ok out1, r1)
      else (.error .EOF, r1)
    | (_, some err, r1) => (.error err, r1)

/-- The function `readLineLimited`: every pass of its loop consumes a full
buffer, so one more pass than there are pending bytes is enough. The passes
run out only for a buffer of size 0, which `NewReaderSize` never makes. -/
def readLineLimited (r : Reader) (max : Nat) : Except GoErr (List Nat) × Reader :=
  readLineLimitedLoop (r.pending.length + 1) r max []

/-- The UTF-8 encodings of the runes for which `unicode.IsSpace` holds: tab, line
feed, vertical tab, form feed, carriage return, space, U+0085, U+00A0, U+1680,
U+2000 to U+200A, U+2028, U+2029, U+202F, U+205F and U+3000. -/
def spaceRunes : List (List Nat) :=
  [[9], [10], [11], [12], [13], [32], [0xC2, 0x85], [0xC2, 0xA0], [0xE1, 0x9A, 0x80],
   [0xE2, 0x80, 0x80], [0xE2, 0x80, 0x81], [0xE2, 0x80, 0x82], [0xE2, 0x80, 0x83],
   [0xE2, 0x80, 0x84], [0xE2, 0x80, 0x85], [0xE2, 0x80, 0x86], [0xE2, 0x80, 0x87],
   [0xE2, 0x80, 0x88], [0xE2, 0x80, 0x89], [0xE2, 0x80, 0x8A], [0xE2, 0x80, 0xA8],
   [0xE2, 0x80, 0xA9], [0xE2, 0x80, 0xAF], [0xE2, 0x81, 0x9F], [0xE3, 0x80, 0x80]]

/-- The width in bytes of the white-space rune that `bs` starts with, 0 when it
starts with none. -/
def spaceWidth (bs : List Nat) : Nat :=
  match spaceRunes.find? (fun e => e.isPrefixOf bs) with
  | some e => e.length
  | none => 0

/-- The width in bytes of the white-space rune that `bs` ends with, given
`bs` reversed; 0 when it ends with none. -/
def spaceWidthRev (bs : List Nat) : Nat :=
  match spaceRunes.find? (fun e => e.reverse.isPrefixOf bs) with
  | some e => e.length
  | none => 0

/-- Drops white-space runes from the front, at most `fuel` of them. -/
def trimFront (width : List Nat → Nat) : Nat → List Nat → List Nat
  | 0, bs => bs
  | fuel + 1, bs =>
    match width bs with
    | 0 => bs
    | w + 1 => trimFront width fuel (bs.drop (w + 1))

/-- The function `strings.TrimSpace` on the bytes of a string: leading and
trailing white-space runes removed. -/
def TrimSpace (bs : List Nat) : List Nat :=
  let front := trimFront spaceWidth bs.length bs
  (trimFront spaceWidthRev front.length front.reverse).reverse

def bytesTrimSpaceCRLF (b : List Nat) : List Nat :=
  TrimSpace b

/-! ## JSON values of a request -/

/-- A JSON number as a decimal, `mant / 10 ^ scale`. Go holds it as a
`float64`; the handlers read it only through `int(v)` and `int64(v)`, which
drop the fraction. Rounding to binary and values outside the range of `int64`
are not modelled. -/
structure Number where
  mant : Int
  scale : Nat
  deriving DecidableEq, Repr

/-- The conversions `int(v)` and `int64(v)`: truncation toward zero. -/
def Number.toInt (v : Number) : Int :=
  v.mant.tdiv (10 ^ v.scale)

/-- What `json.Unmarshal` stores in an `interface{}`: `nil`, `bool`,
`float64`, `string`, `[]interface{}` or `map[string]interface{}`. An object is
its members in the order of the text; as a Go map, a key has the value of its
last member, which is how the decoder leaves it. -/
inductive JVal where
  | null
  | bool (b : Bool)
  | num (v : Number)
  | str (s : String)
  | arr (items : List JVal)
  | obj (fields : List (String × JVal))

/-- The arguments of a tool call, a `map[string]interface{}`; the nil map
is the empty list. -/
abbrev Args := List (String × JVal)

/-- The map index expression `args[key]`: the value of the last member with
the key. -/
def Args.get (args : Args) (key : String) : Option JVal :=
  args.reverse.lookup key

/-! ## Argument extraction (handlers.go) -/

def getString (args : Args) (key : String) : String :=
  match args.get key with
  | some (.str v) => v
  | _ => ""

def getStringPtr (args : Args) (key : String) : Option String :=
  match args.get key with
  | some (.str v) => some v
  | _ => none

def getInt (args : Args) (key : String) : Int :=
  match args.get key with
  | some (.num v) => v.toInt
  | _ => 0

def getIntPtr (args : Args) (key : String) : Option Int :=
  match args.get key with
  | some (.num v) => some v.toInt
  | _ => none

def getInt64 (args : Args) (key : String) : Int :=
  match args.get key with
  | some (.num v) => v.toInt
  | _ => 0

def getInt64Ptr (args : Args) (key : String) : Option Int :=
  match args.get key with
  | some (.num v) => some v.toInt
  | _ => none

def getBool (args : Args) (key : String) : Bool :=
  match args.get key with
  | some (.bool v) => v
  | _ => false

/-- The strings among the items of an array, in order. -/
def stringItems : List JVal → List String
  | [] => []
  | .str s :: rest => s :: stringItems rest
  | _ :: rest => stringItems rest

/-- The function `getStringArray`; `none` is the nil slice. -/
def getStringArray (args : Args) (key : String) : Option (List String) :=
  match args.get key with
  | some (.arr v) => some (stringItems v)
  | _ => none

def getStringArrayPtr (args : Args) (key : String) : Option (List String) :=
  match getStringArray args key with
  | some arr => some arr
  | none => none

/-! ## The record store (internal/db, internal/schema)

The SQLite database is a value: one list of rows per table of
`schema.Schema`, in rowid order. A statement fails only by a constraint of the
schema (`UNIQUE`, and `REFERENCES` with `PRAGMA foreign_keys=ON`); failures
of the storage itself are not modelled. `CURRENT_TIMESTAMP` is the field `now`.
A nullable text column is read through `sql.NullString`, so NULL is the empty
string. -/

structure Project where
  ID : Int
  Slug : String
  Name : String
  RootPath : String
  CreatedAt : Nat
  deriving DecidableEq, Repr

structure Memory where
  ID : Int
  ProjectID : Int
  Content : String
  Keywords : Option (List String)
  CreatedAt : Nat
  UpdatedAt : Nat
  deriving DecidableEq, Repr

structure Metadata where
  ID : Int
  ProjectID : Int
  Key : String
  Value : String
  deriving DecidableEq, Repr

structure Task where
  ID : Int
  ProjectID : Int
  ParentID : Option Int
  Title : String
  Description : String
  Status : String
  Priority : Int
  CreatedAt : Nat
  UpdatedAt : Nat
  deriving DecidableEq, Repr

structure FileAnnotation where
  ID : Int
  ProjectID : Int
  Path : String
  Note : String
  IsDir : Bool
  deriving DecidableEq, Repr

structure Guideline where
  ID : Int
  ProjectID : Int
  Category : String
  Title : String
  Content : String
  Tags : Option (List String)
  Priority : Int
  CreatedAt : Nat
  UpdatedAt : Nat
  deriving DecidableEq, Repr

structure Bookmark where
  ID : Int
  ProjectID : Int
  URL : String
  Title : String
  Excerpt : String
  Note : String
  DocType : String
  PageOrSection : String
  Tags : Option (List String)
  CreatedAt : Nat
  deriving DecidableEq, Repr

/-- The type `db.DB`: the tables and the default project of the session. -/
structure DB where
  projects : List Project
  memories : List Memory
  metadata : List Metadata
  tasks : List Task
  filetree : List FileAnnotation
  guidelines : List Guideline
  bookmarks : List Bookmark
  defaultProjectID : Int
  now : Nat
  deriving DecidableEq, Repr

/-- The function `db.Open` on a fresh database: the schema inserts the project
`global` with id 1 and the default project is 1. -/
def Open (now : Nat) : DB :=
  { projects := [{ ID := 1, Slug := "global", Name := "Global", RootPath := "", CreatedAt := now }],
    memories := [], metadata := [], tasks := [], filetree := [], guidelines := [],
    bookmarks := [], defaultProjectID := 1, now := now }

def DB.SetDefaultProject (db : DB) (projectID : Int) : DB :=
  { db with defaultProjectID := projectID }

def DB.DefaultProjectID (db : DB) : Int :=
  db.defaultProjectID

def DB.GetProjectID (db : DB) (projectID : Option Int) : Int :=
  match projectID with
  | some p => if p > 0 then p else db.defaultProjectID
  | none => db.defaultProjectID

/-- The rowid SQLite gives a new row of an `INTEGER PRIMARY KEY` table: one
more than the largest in use, 1 in an empty table. -/
def nextID (ids : List Int) : Int :=
  ids.foldl max 0 + 1

/-- The check `project_id REFERENCES projects(id)`. -/
def DB.hasProject (db : DB) (pid : Int) : Bool :=
  db.projects.any (fun p => p.ID == pid)

/-- The message of SQLite when a foreign key check fails. The driver, which is
not part of this repository, puts its own words around it. -/
def fkFailed : String := "FOREIGN KEY constraint failed"

/-- A stable insertion sort: `ORDER BY`, rows that compare equal staying in
rowid order. -/
def orderBy {α : Type} (le : α → α → Bool) (rows : List α) : List α :=
  rows.foldr (fun row sorted =>
    sorted.takeWhile (fun x => !le row x) ++ row :: sorted.dropWhile (fun x => !le row x)) []

/-- The ASCII lower-case of a character, as SQLite's `LIKE` folds it. -/
def likeFold (c : Char) : Char :=
  if 'A' ≤ c ∧ c ≤ 'Z' then Char.ofNat (c.toNat + 32) else c

/-- SQLite's `LIKE`: in the pattern `%` stands for any run of characters
and `_` for any one character; ASCII letters match regardless of case. -/
def likeMatch : List Char → List Char → Bool
  | [], text => text.isEmpty
  | p :: ps, text =>
    if p = '%' then text.tails.any (fun t => likeMatch ps t)
    else match text with
      | [] => false
      | c :: cs => (p = '_' || likeFold p = likeFold c) && likeMatch ps cs

/-- The SQL condition `text LIKE '%' || needle || '%'`. -/
def likeContains (needle text : String) : Bool :=
  likeMatch ('%' :: needle.toList ++ ['%']) text.toList

def hexDigit (n : Nat) : Char :=
  if n < 10 then Char.ofNat (48 + n) else Char.ofNat (87 + n)

/-- A character inside a JSON string as `json.Marshal` writes it. -/
def jsonEscape (c : Char) : List Char :=
  if c = '"' then ['\\', '"']
  else if c = '\\' then ['\\', '\\']
  else if c = '\n' then ['\\', 'n']
  else if c = '\r' then ['\\', 'r']
  else if c = '\t' then ['\\', 't']
  else if c.toNat < 32 ∨ c = '<' ∨ c = '>' ∨ c = '&' ∨ c.toNat = 0x2028 ∨ c.toNat = 0x2029 then
    ['\\', 'u', hexDigit (c.toNat / 4096 % 16), hexDigit (c.toNat / 256 % 16),
      hexDigit (c.toNat / 16 % 16), hexDigit (c.toNat % 16)]
  else [c]

/-- A Go string as `json.Marshal` writes it. -/
def jsonString (s : String) : String :=
  String.mk ('"' :: s.toList.flatMap jsonEscape ++ ['"'])

/-- A `[]string` as `json.Marshal` writes it, the text kept in the columns
`keywords` and `tags`; the nil slice is `null`. -/
def jsonStrings : Option (List String) → String
  | none => "null"
  | some items => "[" ++ ",".intercalate (items.map jsonString) ++ "]"

/-! ### projects.go -/

def DB.GetProjectByID (db : DB) (id : Int) : Except GoErr Project :=
  match db.projects.find? (fun p => p.ID == id) with
  | some p => .ok p
  | none => .error .ErrNoRows

def DB.GetProjectBySlug (db : DB) (slug : String) : Except GoErr Project :=
  match db.projects.find? (fun p => p.Slug == slug) with
  | some p => .ok p
  | none => .error .ErrNoRows

/-- The method `CreateProject`; the column `slug` is `UNIQUE`. -/
def DB.CreateProject (db : DB) (slug name rootPath : String) : DB × Except GoErr Project :=
  if db.projects.any (fun p => p.Slug == slug) then
    (db, .error (.msg "creating project: UNIQUE constraint failed: projects.slug"))
  else
    let id := nextID (db.projects.map (fun p => p.ID))
    let db1 := { db with projects := db.projects ++
      [{ ID := id, Slug := slug, Name := name, RootPath := rootPath, CreatedAt := db.now }] }
    (db1, db1.GetProjectByID id)

def DB.ListProjects (db : DB) : Except GoErr (List Project) :=
  .ok (orderBy (fun p q => decide (p.ID ≤ q.ID)) db.projects)

def DB.GetOrCreateProject (db : DB) (slug : String) : DB × Except GoErr Project :=
  match db.GetProjectBySlug slug with
  | .ok p => (db, .ok p)
  | .error .ErrNoRows => db.CreateProject slug "" ""
  | .error err => (db, .error err)

/-! ### memories.go -/

def DB.GetMemory (db : DB) (id : Int) : Except GoErr Memory :=
  match db.memories.find? (fun m => m.ID == id) with
  | some m => .ok m
  | none => .error .ErrNoRows

def DB.CreateMemory (db : DB) (projectID : Option Int) (content : String)
    (keywords : Option (List String)) : DB × Except GoErr Memory :=
  let pid := db.GetProjectID projectID
  if !db.hasProject pid then (db, .error (.msg ("creating memory: " ++ fkFailed)))
  else
    let id := nextID (db.memories.map (fun m => m.ID))
    let db1 := { db with memories := db.memories ++
      [{ ID := id, ProjectID := pid, Content := content, Keywords := keywords,
         CreatedAt := db.now, UpdatedAt := db.now }] }
    (db1, db1.GetMemory id)

/-- The `LIMIT` clause, added only for a positive limit. -/
def sqlLimit {α : Type} (limit : Int) (rows : List α) : List α :=
  if limit > 0 then rows.take limit.toNat else rows

def DB.SearchMemories (db : DB) (projectID : Option Int) (query : String)
    (keywords : Option (List String)) (limit : Int) : Except GoErr (List Memory) :=
  let pid := db.GetProjectID projectID
  let rows := db.memories.filter (fun m =>
    m.ProjectID == pid
    && (query == "" || likeContains query m.Content)
    && (keywords.getD []).all (fun kw =>
          likeContains ("\"" ++ kw ++ "\"") (jsonStrings m.Keywords)))
  .ok (sqlLimit limit (orderBy (fun m n => decide (n.UpdatedAt ≤ m.UpdatedAt)) rows))

def DB.DeleteMemory (db : DB) (id : Int) : DB × Option GoErr :=
  ({ db with memories := db.memories.filter (fun m => !(m.ID == id)) }, none)

/-! ### metadata.go -/

def DB.GetMetadata (db : DB) (projectID : Option Int) (key : String) :
    Except GoErr (Option Metadata) :=
  let pid := db.GetProjectID projectID
  .ok (db.metadata.find? (fun m => m.ProjectID == pid && m.Key == key))

/-- The method `SetMetadata`: an insert that, on a row with the same project
and key, sets the value of that row instead. -/
def DB.SetMetadata (db : DB) (projectID : Option Int) (key value : String) :
    DB × Except GoErr (Option Metadata) :=
  let pid := db.GetProjectID projectID
  if !db.hasProject pid then (db, .error (.msg fkFailed))
  else
    let db1 :=
      if db.metadata.any (fun m => m.ProjectID == pid && m.Key == key) then
        { db with metadata := db.metadata.map (fun m =>
            if m.ProjectID == pid && m.Key == key then { m with Value := value } else m) }
      else
        { db with metadata := db.metadata ++
            [{ ID := nextID (db.metadata.map (fun m => m.ID)), ProjectID := pid,
               Key := key, Value := value }] }
    (db1, db1.GetMetadata projectID key)

def DB.ListMetadata (db : DB) (projectID : Option Int) : Except GoErr (List Metadata) :=
  let pid := db.GetProjectID projectID
  .ok (orderBy (fun m n => decide (m.Key ≤ n.Key)) (db.metadata.filter (fun m => m.ProjectID == pid)))

def DB.DeleteMetadata (db : DB) (projectID : Option Int) (key : String) : DB × Option GoErr :=
  let pid := db.GetProjectID projectID
  ({ db with metadata := db.metadata.filter (fun m => !(m.ProjectID == pid && m.Key == key)) },
    none)

/-! ### filetree.go -/

def DB.GetFileAnnotation (db : DB) (projectID : Option Int) (path : String) :
    Except GoErr (Option FileAnnotation) :=
  let pid := db.GetProjectID projectID
  .ok (db.filetree.find? (fun f => f.ProjectID == pid && f.Path == path))

def DB.AnnotateFile (db : DB) (projectID : Option Int) (path note : String) (isDir : Bool) :
    DB × Except GoErr (Option FileAnnotation) :=
  let pid := db.GetProjectID projectID
  if !db.hasProject pid then (db, .error (.msg fkFailed))
  else
    let db1 :=
      if db.filetree.any (fun f => f.ProjectID == pid && f.Path == path) then
        { db with filetree := db.filetree.map (fun f =>
            if f.ProjectID == pid && f.Path == path then { f with Note := note, IsDir := isDir }
            else f) }
      else
        { db with filetree := db.filetree ++
            [{ ID := nextID (db.filetree.map (fun f => f.ID)), ProjectID := pid,
               Path := path, Note := note, IsDir := isDir }] }
    (db1, db1.GetFileAnnotation projectID path)

def DB.ListFileAnnotations (db : DB) (projectID : Option Int) :
    Except GoErr (List FileAnnotation) :=
  let pid := db.GetProjectID projectID
  .ok (orderBy (fun f g => decide (f.Path ≤ g.Path)) (db.filetree.filter (fun f => f.ProjectID == pid)))

def DB.DeleteFileAnnotation (db : DB) (projectID : Option Int) (path : String) :
    DB × Option GoErr :=
  let pid := db.GetProjectID projectID
  ({ db with filetree := db.filetree.filter (fun f => !(f.ProjectID == pid && f.Path == path)) },
    none)

/-! ### tasks.go -/

def DB.GetTask (db : DB) (id : Int) : Except GoErr Task :=
  match db.tasks.find? (fun t => t.ID == id) with
  | some t => .ok t
  | none => .error .ErrNoRows

/-- Whether the parent of `t` is one of `rows`. -/
def refersTo (rows : List Task) (t : Task) : Bool :=
  match t.ParentID with
  | none => false
  | some p => rows.any (fun r => r.ID == p)

/-- The check `parent_id REFERENCES tasks(id)` on a row, against the rows the
statement leaves in the table. -/
def parentPresent (rows : List Task) (t : Task) : Bool :=
  t.ParentID.isNone || refersTo rows t

/-- The method `CreateTask`; the column `status` takes its default, `todo`. -/
def DB.CreateTask (db : DB) (projectID : Option Int) (parentID : Option Int)
    (title description : String) (priority : Int) : DB × Except GoErr Task :=
  let pid := db.GetProjectID projectID
  let id := nextID (db.tasks.map (fun t => t.ID))
  let row : Task :=
    { ID := id, ProjectID := pid, ParentID := parentID, Title := title,
      Description := description, Status := "todo", Priority := priority,
      CreatedAt := db.now, UpdatedAt := db.now }
  if !db.hasProject pid || !parentPresent (db.tasks ++ [row]) row then
    (db, .error (.msg ("creating task: " ++ fkFailed)))
  else
    let db1 := { db with tasks := db.tasks ++ [row] }
    (db1, db1.GetTask id)

def DB.UpdateTask (db : DB) (id : Int) (title description status : Option String)
    (priority : Option Int) : DB × Except GoErr Task :=
  if title.isNone && description.isNone && status.isNone && priority.isNone then
    (db, db.GetTask id)
  else
    let db1 := { db with tasks := db.tasks.map (fun t =>
      if t.ID == id then
        { t with Title := title.getD t.Title, Description := description.getD t.Description,
                 Status := status.getD t.Status, Priority := priority.getD t.Priority,
                 UpdatedAt := db.now }
      else t) }
    (db1, db1.GetTask id)

def DB.ListTasks (db : DB) (projectID : Option Int) (status : Option String)
    (parentID : Option Int) : Except GoErr (List Task) :=
  let pid := db.GetProjectID projectID
  let rows := db.tasks.filter (fun t =>
    t.ProjectID == pid
    && (match status with
        | some s => t.Status == s
        | none => true)
    && (match parentID with
        | some p => if p == 0 then t.ParentID.isNone else t.ParentID == some p
        | none => true))
  .ok (orderBy (fun t u => decide (u.Priority < t.Priority) ||
      (t.Priority == u.Priority && decide (t.CreatedAt ≤ u.CreatedAt))) rows)

/-- The statement `DELETE FROM tasks WHERE ...`: it fails, deleting nothing, when a
row that stays refers to a row that goes. -/
def deleteTasks (rows : List Task) (goes : Task → Bool) : Except GoErr (List Task) :=
  let gone := rows.filter goes
  let kept := rows.filter (fun t => !goes t)
  if kept.any (fun t => refersTo gone t) then
    .error (.msg fkFailed)
  else .ok kept

def DB.DeleteTask (db : DB) (id : Int) : DB × Option GoErr :=
  match deleteTasks db.tasks (fun t => t.ParentID == some id) with
  | .error err => (db, some err)
  | .ok rows1 =>
    let db1 := { db with tasks := rows1 }
    match deleteTasks db1.tasks (fun t => t.ID == id) with
    | .error err => (db1, some err)
    | .ok rows2 => ({ db1 with tasks := rows2 }, none)

/-! ### guidelines.go -/

def DB.GetGuideline (db : DB) (id : Int) : Except GoErr Guideline :=
  match db.guidelines.find? (fun g => g.ID == id) with
  | some g => .ok g
  | none => .error .ErrNoRows

/-- The method `CreateGuideline`; a project has one guideline per category
and title (`UNIQUE(project_id, category, title)`). -/
def DB.CreateGuideline (db : DB) (projectID : Option Int) (category title content : String)
    (tags : Option (List String)) (priority : Int) : DB × Except GoErr Guideline :=
  let pid := db.GetProjectID projectID
  if db.guidelines.any (fun g => g.ProjectID == pid && g.Category == category && g.Title == title)
  then (db, .error (.msg ("creating guideline: UNIQUE constraint failed: " ++
          "guidelines.project_id, guidelines.category, guidelines.title")))
  else if !db.hasProject pid then (db, .error (.msg ("creating guideline: " ++ fkFailed)))
  else
    let id := nextID (db.guidelines.map (fun g => g.ID))
    let db1 := { db with guidelines := db.guidelines ++
      [{ ID := id, ProjectID := pid, Category := category, Title := title, Content := content,
         Tags := tags, Priority := priority, CreatedAt := db.now, UpdatedAt := db.now }] }
    (db1, db1.GetGuideline id)

def DB.UpdateGuideline (db : DB) (id : Int) (content : Option String)
    (tags : Option (List String)) (priority : Option Int) : DB × Except GoErr Guideline :=
  if content.isNone && tags.isNone && priority.isNone then (db, db.GetGuideline id)
  else
    let db1 := { db with guidelines := db.guidelines.map (fun g =>
      if g.ID == id then
        { g with Content := content.getD g.Content,
                 Tags := (match tags with
                          | some ts => some ts
                          | none => g.Tags),
                 Priority := priority.getD g.Priority, UpdatedAt := db.now }
      else g) }
    (db1, db1.GetGuideline id)

def DB.ListGuidelines (db : DB) (projectID : Option Int) (category : Option String) :
    Except GoErr (List Guideline) :=
  let pid := db.GetProjectID projectID
  let rows := db.guidelines.filter (fun g =>
    g.ProjectID == pid
    && (match category with
        | some c => g.Category == c
        | none => true))
  .ok (orderBy (fun g h => decide (h.Priority < g.Priority) ||
      (g.Priority == h.Priority && (decide (g.Category < h.Category) ||
        (g.Category == h.Category && decide (g.Title ≤ h.Title))))) rows)

def DB.SearchGuidelines (db : DB) (projectID : Option Int) (query : String)
    (category : Option String) : Except GoErr (List Guideline) :=
  let pid := db.GetProjectID projectID
  let rows := db.guidelines.filter (fun g =>
    g.ProjectID == pid
    && (query == "" || likeContains query g.Content || likeContains query g.Title
          || likeContains query (jsonStrings g.Tags))
    && (match category with
        | some c => g.Category == c
        | none => true))
  .ok (orderBy (fun g h => decide (h.Priority < g.Priority) ||
      (g.Priority == h.Priority && decide (h.UpdatedAt ≤ g.UpdatedAt))) rows)

def DB.DeleteGuideline (db : DB) (id : Int) : DB × Option GoErr :=
  ({ db with guidelines := db.guidelines.filter (fun g => !(g.ID == id)) }, none)

/-! ### bookmarks.go -/

def DB.GetBookmark (db : DB) (id : Int) : Except GoErr Bookmark :=
  match db.bookmarks.find? (fun b => b.ID == id) with
  | some b => .ok b
  | none => .error .ErrNoRows

def DB.CreateBookmark (db : DB) (projectID : Option Int)
    (url title excerpt note docType pageOrSection : String) (tags : Option (List String)) :
    DB × Except GoErr Bookmark :=
  let pid := db.GetProjectID projectID
  if !db.hasProject pid then (db, .error (.msg ("creating bookmark: " ++ fkFailed)))
  else
    let id := nextID (db.bookmarks.map (fun b => b.ID))
    let db1 := { db with bookmarks := db.bookmarks ++
      [{ ID := id, ProjectID := pid, URL := url, Title := title, Excerpt := excerpt,
         Note := note, DocType := docType, PageOrSection := pageOrSection, Tags := tags,
         CreatedAt := db.now }] }
    (db1, db1.GetBookmark id)

def DB.SearchBookmarks (db : DB) (projectID : Option Int) (query : String)
    (tags : Option (List String)) (docType : Option String) : Except GoErr (List Bookmark) :=
  let pid := db.GetProjectID projectID
  let rows := db.bookmarks.filter (fun b =>
    b.ProjectID == pid
    && (query == "" || likeContains query b.Title || likeContains query b.Excerpt
          || likeContains query b.Note || likeContains query b.URL)
    && (tags.getD []).all (fun tag => likeContains ("\"" ++ tag ++ "\"") (jsonStrings b.Tags))
    && (match docType with
        | some d => d == "" || b.DocType == d
        | none => true))
  .ok (orderBy (fun b c => decide (c.CreatedAt ≤ b.CreatedAt)) rows)

def DB.ListBookmarks (db : DB) (projectID : Option Int) : Except GoErr (List Bookmark) :=
  db.SearchBookmarks projectID "" none none

def DB.DeleteBookmark (db : DB) (id : Int) : DB × Option GoErr :=
  ({ db with bookmarks := db.bookmarks.filter (fun b => !(b.ID == id)) }, none)

/-! ## Tool handlers (handlers.go) -/

/-- What a tool handler returns in its `interface{}`: one constructor for each
Go type the handlers return. A pointer that may be nil is an `Option`; the maps
built by the handlers are the last five constructors. -/
inductive Value where
  | memory (m : Memory)
  | memories (ms : List Memory)
  | task (t : Task)
  | tasks (ts : List Task)
  | metadata (m : Option Metadata)
  | metadataList (ms : List Metadata)
  | fileNote (f : Option FileAnnotation)
  | fileAnnotations (fs : List FileAnnotation)
  | guideline (g : Guideline)
  | guidelines (gs : List Guideline)
  | project (p : Project)
  | projects (ps : List Project)
  | bookmark (b : Bookmark)
  | bookmarks (bs : List Bookmark)
  | deletedID (id : Int)
  | deletedKey (key : String)
  | deletedPath (path : String)
  | keyWithoutValue (key : String)
  | defaultProject (p : Project)
  deriving DecidableEq, Repr

/-- The result pair `(interface{}, error)` of a handler, with the store it leaves. -/
abbrev Handled := DB × Except GoErr Value

/-- A store result `(T, error)` as the handler passes it on. -/
def passOn {α : Type} (wrap : α → Value) (r : DB × Except GoErr α) : Handled :=
  (r.1, r.2.map wrap)

/-- A store result `error` turned into the handler's map on success. -/
def afterDelete (r : DB × Option GoErr) (done : Value) : Handled :=
  match r.2 with
  | some err => (r.1, .error err)
  | none => (r.1, .ok done)

def required (what : String) : GoErr :=
  .msg (what ++ " is required")

def getProjectID (database : DB) (args : Args) : DB × Option Int :=
  let slug := getString args "project"
  if slug ≠ "" then
    match database.GetOrCreateProject slug with
    | (db1, .ok p) => (db1, some p.ID)
    | (db1, .error _) => (db1, none)
  else (database, none)

def handleMemoryStore (database : DB) (args : Args) : Handled :=
  let content := getString args "content"
  if content = "" then (database, .error (required "content"))
  else
    let keywords := getStringArray args "keywords"
    let (db1, projectID) := getProjectID database args
    passOn .memory (db1.CreateMemory projectID content keywords)

def handleMemorySearch (database : DB) (args : Args) : Handled :=
  let query := getString args "query"
  let keywords := getStringArray args "keywords"
  let (db1, projectID) := getProjectID database args
  let limit := getInt args "limit"
  let limit := if limit = 0 then 20 else limit
  passOn .memories (db1, db1.SearchMemories projectID query keywords limit)

def handleMemoryDelete (database : DB) (args : Args) : Handled :=
  let id := getInt64 args "id"
  if id = 0 then (database, .error (required "id"))
  else afterDelete (database.DeleteMemory id) (.deletedID id)

def handleTaskCreate (database : DB) (args : Args) : Handled :=
  let title := getString args "title"
  if title = "" then (database, .error (required "title"))
  else
    let description := getString args "description"
    let parentID := getInt64Ptr args "parent_id"
    let priority := getInt args "priority"
    let (db1, projectID) := getProjectID database args
    passOn .task (db1.CreateTask projectID parentID title description priority)

def handleTaskUpdate (database : DB) (args : Args) : Handled :=
  let id := getInt64 args "id"
  if id = 0 then (database, .error (required "id"))
  else
    passOn .task (database.UpdateTask id (getStringPtr args "title")
      (getStringPtr args "description") (getStringPtr args "status") (getIntPtr args "priority"))

def handleTaskList (database : DB) (args : Args) : Handled :=
  let (db1, projectID) := getProjectID database args
  let status := getStringPtr args "status"
  let parentID := getInt64Ptr args "parent_id"
  passOn .tasks (db1, db1.ListTasks projectID status parentID)

def handleTaskDelete (database : DB) (args : Args) : Handled :=
  let id := getInt64 args "id"
  if id = 0 then (database, .error (required "id"))
  else afterDelete (database.DeleteTask id) (.deletedID id)

def handleMetadataSet (database : DB) (args : Args) : Handled :=
  let key := getString args "key"
  if key = "" then (database, .error (required "key"))
  else
    let value := getString args "value"
    let (db1, projectID) := getProjectID database args
    passOn .metadata (db1.SetMetadata projectID key value)

def handleMetadataGet (database : DB) (args : Args) : Handled :=
  let key := getString args "key"
  if key = "" then (database, .error (required "key"))
  else
    let (db1, projectID) := getProjectID database args
    match db1.GetMetadata projectID key with
    | .error err => (db1, .error err)
    | .ok none => (db1, .ok (.keyWithoutValue key))
    | .ok (some m) => (db1, .ok (.metadata (some m)))

def handleMetadataList (database : DB) (args : Args) : Handled :=
  let (db1, projectID) := getProjectID database args
  passOn .metadataList (db1, db1.ListMetadata projectID)

def handleMetadataDelete (database : DB) (args : Args) : Handled :=
  let key := getString args "key"
  if key = "" then (database, .error (required "key"))
  else
    let (db1, projectID) := getProjectID database args
    afterDelete (db1.DeleteMetadata projectID key) (.deletedKey key)

def handleFiletreeAnnotate (database : DB) (args : Args) : Handled :=
  let path := getString args "path"
  if path = "" then (database, .error (required "path"))
  else
    let note := getString args "note"
    if note = "" then (database, .error (required "note"))
    else
      let isDir := getBool args "is_dir"
      let (db1, projectID) := getProjectID database args
      passOn .fileNote (db1.AnnotateFile projectID path note isDir)

def handleFiletreeGet (database : DB) (args : Args) : Handled :=
  let (db1, projectID) := getProjectID database args
  let path := getString args "path"
  if path ≠ "" then passOn .fileNote (db1, db1.GetFileAnnotation projectID path)
  else passOn .fileAnnotations (db1, db1.ListFileAnnotations projectID)

def handleFiletreeDelete (database : DB) (args : Args) : Handled :=
  let path := getString args "path"
  if path = "" then (database, .error (required "path"))
  else
    let (db1, projectID) := getProjectID database args
    afterDelete (db1.DeleteFileAnnotation projectID path) (.deletedPath path)


def handleGuidelineCreate (database : DB) (args : Args) : Handled :=
  let category := getString args "category"
  if category = "" then (database, .error (required "category"))
  else
    let title := getString args "title"
    if title = "" then (database, .error (required "title"))
    else
      let content := getString args "content"
      if content = "" then (database, .error (required "content"))
      else
        let tags := getStringArray args "tags"
        let priority := getInt args "priority"
        let (db1, projectID) := getProjectID database args
        passOn .guideline (db1.CreateGuideline projectID category title content tags priority)

def handleGuidelineUpdate (database : DB) (args : Args) : Handled :=
  let id := getInt64 args "id"
  if id = 0 then (database, .error (required "id"))
  else
    passOn .guideline (database.UpdateGuideline id (getStringPtr args "content")
      (getStringArrayPtr args "tags") (getIntPtr args "priority"))

def handleGuidelineList (database : DB) (args : Args) : Handled :=
  let (db1, projectID) := getProjectID database args
  let category := getStringPtr args "category"
  passOn .guidelines (db1, db1.ListGuidelines projectID category)

def handleGuidelineSearch (database : DB) (args : Args) : Handled :=
  let query := getString args "query"
  if query = "" then (database, .error (required "query"))
  else
    let (db1, projectID) := getProjectID database args
    let category := getStringPtr args "category"
    passOn .guidelines (db1, db1.SearchGuidelines projectID query category)

def handleGuidelineGet (database : DB) (args : Args) : Handled :=
  let id := getInt64 args "id"
  if id = 0 then (database, .error (required "id"))
  else passOn .guideline (database, database.GetGuideline id)

def handleGuidelineDelete (database : DB) (args : Args) : Handled :=
  let id := getInt64 args "id"
  if id = 0 then (database, .error (required "id"))
  else afterDelete (database.DeleteGuideline id) (.deletedID id)

def handleProjectCreate (database : DB) (args : Args) : Handled :=
  let slug := getString args "slug"
  if slug = "" then (database, .error (required "slug"))
  else
    let name := getString args "name"
    let rootPath := getString args "root_path"
    passOn .project (database.CreateProject slug name rootPath)

def handleProjectList (database : DB) (_args : Args) : Handled :=
  passOn .projects (database, database.ListProjects)

def handleProjectSetDefault (database : DB) (args : Args) : Handled :=
  let slug := getString args "slug"
  if slug = "" then (database, .error (required "slug"))
  else
    match database.GetOrCreateProject slug with
    | (db1, .error err) => (db1, .error err)
    | (db1, .ok p) => (db1.SetDefaultProject p.ID, .ok (.defaultProject p))

def handleBookmarkCreate (database : DB) (args : Args) : Handled :=
  let url := getString args "url"
  if url = "" then (database, .error (required "url"))
  else
    let title := getString args "title"
    if title = "" then (database, .error (required "title"))
    else
      let excerpt := getString args "excerpt"
      let note := getString args "note"
      let docType := getString args "doc_type"
      let pageOrSection := getString args "page_or_section"
      let tags := getStringArray args "tags"
      let (db1, projectID) := getProjectID database args
      passOn .bookmark
        (db1.CreateBookmark projectID url title excerpt note docType pageOrSection tags)

def handleBookmarkSearch (database : DB) (args : Args) : Handled :=
  let query := getString args "query"
  let tags := getStringArray args "tags"
  let docType := getStringPtr args "doc_type"
  let (db1, projectID) := getProjectID database args
  passOn .bookmarks (db1, db1.SearchBookmarks projectID query tags docType)

def handleBookmarkList (database : DB) (args : Args) : Handled :=
  let (db1, projectID) := getProjectID database args
  passOn .bookmarks (db1, db1.ListBookmarks projectID)

def handleBookmarkDelete (database : DB) (args : Args) : Handled :=
  let id := getInt64 args "id"
  if id = 0 then (database, .error (required "id"))
  else afterDelete (database.DeleteBookmark id) (.deletedID id)

/-- The router `HandleToolCall`: the handler of the named tool, and an error
wrapping `ErrUnknownTool` for any other name. -/
def HandleToolCall (database : DB) (name : String) (args : Args) : Handled :=
  if name = "memory_store" then handleMemoryStore database args
  else if name = "memory_search" then handleMemorySearch database args
  else if name = "memory_delete" then handleMemoryDelete database args
  else if name = "task_create" then handleTaskCreate database args
  else if name = "task_update" then handleTaskUpdate database args
  else if name = "task_list" then handleTaskList database args
  else if name = "task_delete" then handleTaskDelete database args
  else if name = "metadata_set" then handleMetadataSet database args
  else if name = "metadata_get" then handleMetadataGet database args
  else if name = "metadata_list" then handleMetadataList database args
  else if name = "metadata_delete" then handleMetadataDelete database args
  else if name = "filetree_annotate" then handleFiletreeAnnotate database args
  else if name = "filetree_get" then handleFiletreeGet database args
  else if name = "filetree_delete" then handleFiletreeDelete database args
  else if name = "guideline_create" then handleGuidelineCreate database args
  else if name = "guideline_update" then handleGuidelineUpdate database args
  else if name = "guideline_list" then handleGuidelineList database args
  else if name = "guideline_search" then handleGuidelineSearch database args
  else if name = "guideline_get" then handleGuidelineGet database args
  else if name = "guideline_delete" then handleGuidelineDelete database args
  else if name = "project_create" then handleProjectCreate database args
  else if name = "project_list" then handleProjectList database args
  else if name = "project_set_default" then handleProjectSetDefault database args
  else if name = "bookmark_create" then handleBookmarkCreate database args
  else if name = "bookmark_search" then handleBookmarkSearch database args
  else if name = "bookmark_list" then handleBookmarkList database args
  else if name = "bookmark_delete" then handleBookmarkDelete database args
  else (database, .error (.unknownTool name))

/-! ## The tool catalog (tools.go) -/

/-- One entry of the `properties` map of an input schema. -/
structure Property where
  name : String
  type : String
  items : Option String
  enum : List String
  description : String
  deriving DecidableEq, Repr

/-- The `map[string]interface{}` held in `InputSchema`; a schema without
a `required` key has the empty list. -/
structure InputSchema where
  type : String
  required : List String
  properties : List Property
  deriving DecidableEq, Repr

structure ToolDefinition where
  Name : String
  Description : String
  InputSchema : InputSchema
  deriving DecidableEq, Repr

def GetToolDefinitions : List ToolDefinition :=
  [
    { Name := "memory_store",
      Description := "Store a new memory with optional keywords for later retrieval",
      InputSchema := { type := "object", required := ["content"], properties := [
        { name := "content", type := "string", items := none, enum := [],
          description := "The content to remember" },
        { name := "keywords", type := "array", items := some "string", enum := [],
          description := "Keywords for categorization and search" },
        { name := "project", type := "string", items := none, enum := [],
          description := "Project slug (optional, defaults to current project)" }] } },
    { Name := "memory_search",
      Description := "Search memories by content and/or keywords",
      InputSchema := { type := "object", required := [], properties := [
        { name := "query", type := "string", items := none, enum := [],
          description := "Text to search for in content" },
        { name := "keywords", type := "array", items := some "string", enum := [],
          description := "Keywords to filter by" },
        { name := "project", type := "string", items := none, enum := [],
          description := "Project slug (optional)" },
        { name := "limit", type := "integer", items := none, enum := [],
          description := "Maximum results to return" }] } },
    { Name := "memory_delete",
      Description := "Delete a memory by ID",
      InputSchema := { type := "object", required := ["id"], properties := [
        { name := "id", type := "integer", items := none, enum := [],
          description := "Memory ID to delete" }] } },
    { Name := "task_create",
      Description := "Create a new task with optional parent for subtasks",
      InputSchema := { type := "object", required := ["title"], properties := [
        { name := "title", type := "string", items := none, enum := [],
          description := "Task title" },
        { name := "description", type := "string", items := none, enum := [],
          description := "Detailed description" },
        { name := "parent_id", type := "integer", items := none, enum := [],
          description := "Parent task ID for subtasks" },
        { name := "priority", type := "integer", items := none, enum := [],
          description := "Priority (higher = more important)" },
        { name := "project", type := "string", items := none, enum := [],
          description := "Project slug (optional)" }] } },
    { Name := "task_update",
      Description := "Update a task's status, title, description, or priority",
      InputSchema := { type := "object", required := ["id"], properties := [
        { name := "id", type := "integer", items := none, enum := [],
          description := "Task ID" },
        { name := "status", type := "string", items := none, enum := ["todo", "in_progress", "done", "blocked"],
          description := "Task status" },
        { name := "title", type := "string", items := none, enum := [],
          description := "New title" },
        { name := "description", type := "string", items := none, enum := [],
          description := "New description" },
        { name := "priority", type := "integer", items := none, enum := [],
          description := "New priority" }] } },
    { Name := "task_list",
      Description := "List tasks with optional filters",
      InputSchema := { type := "object", required := [], properties := [
        { name := "project", type := "string", items := none, enum := [],
          description := "Project slug (optional)" },
        { name := "status", type := "string", items := none, enum := ["todo", "in_progress", "done", "blocked"],
          description := "Filter by status" },
        { name := "parent_id", type := "integer", items := none, enum := [],
          description := "Filter by parent (0 for root tasks)" }] } },
    { Name := "task_delete",
      Description := "Delete a task and its subtasks",
      InputSchema := { type := "object", required := ["id"], properties := [
        { name := "id", type := "integer", items := none, enum := [],
          description := "Task ID to delete" }] } },
    { Name := "metadata_set",
      Description := "Set a key-value metadata pair for a project",
      InputSchema := { type := "object", required := ["key", "value"], properties := [
        { name := "key", type := "string", items := none, enum := [],
          description := "Metadata key" },
        { name := "value", type := "string", items := none, enum := [],
          description := "Metadata value" },
        { name := "project", type := "string", items := none, enum := [],
          description := "Project slug (optional)" }] } },
    { Name := "metadata_get",
      Description := "Get a metadata value by key",
      InputSchema := { type := "object", required := ["key"], properties := [
        { name := "key", type := "string", items := none, enum := [],
          description := "Metadata key" },
        { name := "project", type := "string", items := none, enum := [],
          description := "Project slug (optional)" }] } },
    { Name := "metadata_list",
      Description := "List all metadata for a project",
      InputSchema := { type := "object", required := [], properties := [
        { name := "project", type := "string", items := none, enum := [],
          description := "Project slug (optional)" }] } },
    { Name := "metadata_delete",
      Description := "Delete a metadata key",
      InputSchema := { type := "object", required := ["key"], properties := [
        { name := "key", type := "string", items := none, enum := [],
          description := "Metadata key to delete" },
        { name := "project", type := "string", items := none, enum := [],
          description := "Project slug (optional)" }] } },
    { Name := "filetree_annotate",
      Description := "Add or update a note on a file or directory path",
      InputSchema := { type := "object", required := ["path", "note"], properties := [
        { name := "path", type := "string", items := none, enum := [],
          description := "File or directory path" },
        { name := "note", type := "string", items := none, enum := [],
          description := "Annotation note" },
        { name := "is_dir", type := "boolean", items := none, enum := [],
          description := "Whether path is a directory" },
        { name := "project", type := "string", items := none, enum := [],
          description := "Project slug (optional)" }] } },
    { Name := "filetree_get",
      Description := "Get file annotations for a project or specific path",
      InputSchema := { type := "object", required := [], properties := [
        { name := "path", type := "string", items := none, enum := [],
          description := "Specific path (optional, returns all if omitted)" },
        { name := "project", type := "string", items := none, enum := [],
          description := "Project slug (optional)" }] } },
    { Name := "filetree_delete",
      Description := "Delete a file annotation",
      InputSchema := { type := "object", required := ["path"], properties := [
        { name := "path", type := "string", items := none, enum := [],
          description := "Path to delete annotation for" },
        { name := "project", type := "string", items := none, enum := [],
          description := "Project slug (optional)" }] } },
    { Name := "guideline_create",
      Description := "Create a new guideline or how-to document for knowledge transfer",
      InputSchema := { type := "object", required := ["category", "title", "content"], properties := [
        { name := "category", type := "string", items := none, enum := [],
          description := "Category (e.g., coding_style, architecture, workflow, debugging)" },
        { name := "title", type := "string", items := none, enum := [],
          description := "Guideline title" },
        { name := "content", type := "string", items := none, enum := [],
          description := "Markdown content with instructions" },
        { name := "tags", type := "array", items := some "string", enum := [],
          description := "Tags for searchability" },
        { name := "priority", type := "integer", items := none, enum := [],
          description := "Priority (higher = more important)" },
        { name := "project", type := "string", items := none, enum := [],
          description := "Project slug (optional)" }] } },
    { Name := "guideline_update",
      Description := "Update a guideline's content, tags, or priority",
      InputSchema := { type := "object", required := ["id"], properties := [
        { name := "id", type := "integer", items := none, enum := [],
          description := "Guideline ID" },
        { name := "content", type := "string", items := none, enum := [],
          description := "New content" },
        { name := "tags", type := "array", items := some "string", enum := [],
          description := "New tags" },
        { name := "priority", type := "integer", items := none, enum := [],
          description := "New priority" }] } },
    { Name := "guideline_list",
      Description := "List guidelines, optionally filtered by category",
      InputSchema := { type := "object", required := [], properties := [
        { name := "category", type := "string", items := none, enum := [],
          description := "Filter by category" },
        { name := "project", type := "string", items := none, enum := [],
          description := "Project slug (optional)" }] } },
    { Name := "guideline_search",
      Description := "Search guidelines by content, title, or tags",
      InputSchema := { type := "object", required := ["query"], properties := [
        { name := "query", type := "string", items := none, enum := [],
          description := "Search query" },
        { name := "category", type := "string", items := none, enum := [],
          description := "Filter by category" },
        { name := "project", type := "string", items := none, enum := [],
          description := "Project slug (optional)" }] } },
    { Name := "guideline_get",
      Description := "Get a specific guideline with full content",
      InputSchema := { type := "object", required := ["id"], properties := [
        { name := "id", type := "integer", items := none, enum := [],
          description := "Guideline ID" }] } },
    { Name := "guideline_delete",
      Description := "Delete a guideline",
      InputSchema := { type := "object", required := ["id"], properties := [
        { name := "id", type := "integer", items := none, enum := [],
          description := "Guideline ID to delete" }] } },
    { Name := "project_create",
      Description := "Create a new project namespace",
      InputSchema := { type := "object", required := ["slug"], properties := [
        { name := "slug", type := "string", items := none, enum := [],
          description := "Unique project identifier" },
        { name := "name", type := "string", items := none, enum := [],
          description := "Human-readable name" },
        { name := "root_path", type := "string", items := none, enum := [],
          description := "Project root directory path" }] } },
    { Name := "project_list",
      Description := "List all projects",
      InputSchema := { type := "object", required := [], properties := [
] } },
    { Name := "project_set_default",
      Description := "Set the default project for this session",
      InputSchema := { type := "object", required := ["slug"], properties := [
        { name := "slug", type := "string", items := none, enum := [],
          description := "Project slug to set as default" }] } },
    { Name := "bookmark_create",
      Description := "Create a bookmark for an external document, PDF, image, or URL with notes",
      InputSchema := { type := "object", required := ["url", "title"], properties := [
        { name := "url", type := "string", items := none, enum := [],
          description := "File path or URL to bookmark" },
        { name := "title", type := "string", items := none, enum := [],
          description := "Descriptive title" },
        { name := "excerpt", type := "string", items := none, enum := [],
          description := "Relevant quote or key information from the document" },
        { name := "note", type := "string", items := none, enum := [],
          description := "Why this is useful, what to remember" },
        { name := "doc_type", type := "string", items := none, enum := [],
          description := "Document type (pdf, image, url, markdown, etc.)" },
        { name := "page_or_section", type := "string", items := none, enum := [],
          description := "Page number, section name, or anchor" },
        { name := "tags", type := "array", items := some "string", enum := [],
          description := "Tags for searchability" },
        { name := "project", type := "string", items := none, enum := [],
          description := "Project slug (optional)" }] } },
    { Name := "bookmark_search",
      Description := "Search bookmarks by query and/or tags",
      InputSchema := { type := "object", required := [], properties := [
        { name := "query", type := "string", items := none, enum := [],
          description := "Search in title, excerpt, note, or URL" },
        { name := "tags", type := "array", items := some "string", enum := [],
          description := "Filter by tags" },
        { name := "doc_type", type := "string", items := none, enum := [],
          description := "Filter by document type" },
        { name := "project", type := "string", items := none, enum := [],
          description := "Project slug (optional)" }] } },
    { Name := "bookmark_list",
      Description := "List all bookmarks for a project",
      InputSchema := { type := "object", required := [], properties := [
        { name := "project", type := "string", items := none, enum := [],
          description := "Project slug (optional)" }] } },
    { Name := "bookmark_delete",
      Description := "Delete a bookmark by ID",
      InputSchema := { type := "object", required := ["id"], properties := [
        { name := "id", type := "integer", items := none, enum := [],
          description := "Bookmark ID to delete" }] } }
  ]

/-! ## The server (server.go) -/

/-- The type `Request`. `ID` is `JVal.null` when the frame has no id or a
null one; `Params` is `none` when the frame has no params, and otherwise the
JSON value held in the `json.RawMessage`. -/
structure Request where
  JSONRPC : String
  ID : JVal
  Method : String
  Params : Option JVal

/-- The type `Error`; `Data` is always a string in this server. -/
structure Error where
  Code : Int
  Message : String
  Data : String

/-- What the server puts in `Response.Result`: the three maps it builds. -/
inductive Result where
  | handshake (protocolVersion : String) (listChanged : Bool) (name version : String)
  | tools (defs : List ToolDefinition)
  | content (text : String) (isError : Bool)

/-- The type `Response`; an `ID` of `JVal.null` is the nil interface. -/
structure Response where
  JSONRPC : String
  ID : JVal
  Result : Option Result
  Error : Option Error

def ParseError : Int := -32700
def InvalidRequest : Int := -32600
def MethodNotFound : Int := -32601
def InvalidParams : Int := -32602
def InternalError : Int := -32603

/-- How a call of the router ends: it returns, or it panics with a value
printed as `r`; either way it leaves a store behind. -/
inductive Outcome where
  | returned (db : DB) (result : Except GoErr Value)
  | panicked (db : DB) (r : String)

/-- The Go runtime and library the server runs on: `json.Unmarshal` of a frame
into a `Request`, `json.Marshal` of a tool result, and the call
`HandleToolCall(s.db, name, args)`, which in Go may end in a panic. -/
structure Runtime where
  Unmarshal : List Nat → Except String Request
  Marshal : Value → String
  call : DB → String → Args → Outcome

/-- The runtime in which the call of `HandleToolCall` runs the router of
handlers.go, which returns on every input. -/
def Runtime.shipped (unmarshal : List Nat → Except String Request) (marshal : Value → String) :
    Runtime :=
  { Unmarshal := unmarshal, Marshal := marshal,
    call := fun db name args => .returned (HandleToolCall db name args).1
      (HandleToolCall db name args).2 }

/-- The type `Server`: the store, the reader on standard input, and the
responses written to standard output so far. -/
structure Server where
  db : DB
  reader : Reader
  writer : List Response

/-- The method `send`: the response is marshalled and written as one line. The values
this server sends always marshal, so the error branch is left out. -/
def Server.send (s : Server) (resp : Response) : Server :=
  { s with writer := s.writer ++ [resp] }

def Server.sendResult (s : Server) (id : JVal) (result : Result) : Server :=
  s.send { JSONRPC := "2.0", ID := id, Result := some result, Error := none }

def Server.sendError (s : Server) (id : JVal) (code : Int) (message : String) (data : String) :
    Server :=
  s.send { JSONRPC := "2.0", ID := id, Result := none,
           Error := some { Code := code, Message := message, Data := data } }

/-- The function `validateRequestID`; the cases `int` and `int64` cannot come out
of `json.Unmarshal` and are the case `num` here. -/
def validateRequestID (id : JVal) : Option GoErr :=
  match id with
  | .null => some (.msg "missing id")
  | .str v => if v = "" then some (.msg "id must not be empty") else none
  | .num _ => none
  | _ => some (.msg "id must be string or number")

def Server.handleInitialize (s : Server) (req : Request) : Server :=
  s.sendResult req.ID (.handshake "2024-11-05" false "mcp-memories" "1.0.0")

def Server.handleToolsList (s : Server) (req : Request) : Server :=
  s.sendResult req.ID (.tools GetToolDefinitions)

/-- The anonymous struct `params` of `handleToolsCall`. -/
structure CallParams where
  Name : String
  Arguments : Args

/-- The character `encoding/json` compares the runes of a key by: letters are
compared without regard to case, and the long s (U+017F) and the Kelvin sign
(U+212A) count as `s` and `k`. No other rune is equal under folding to a letter
of the two field names. -/
def foldRune (c : Char) : Char :=
  if 'a' ≤ c ∧ c ≤ 'z' then Char.ofNat (c.toNat - 32)
  else if c.toNat = 0x17F then 'S'
  else if c.toNat = 0x212A then 'K'
  else c

/-- Whether the decoder takes the member key `key` for the struct field tagged
`field`: on an exact match and, failing that, on a match under folding; the
first is a case of the second. -/
def keyMatches (field key : String) : Bool :=
  key.toList.map foldRune == field.toList.map foldRune

/-- The decoder at work on the struct: the two fields as filled so far and
the first type error it has saved. -/
structure ParamsState where
  Name : String
  Arguments : Args
  err : Option String

/-- The method `saveError` of the decoder: only the first error is kept. -/
def ParamsState.saveError (st : ParamsState) (e : String) : ParamsState :=
  match st.err with
  | some _ => st
  | none => { st with err := some e }

/-- The decoder on one member of the object. A member whose key matches `name`
sets `Name` when its value is a string, leaves it when the value is `null`, and
is a type error otherwise. A member whose key matches `arguments` adds the
members of its object to the map, making the map if it is nil, sets the map
to nil when its value is `null`, and is a type error otherwise. Any other
member is skipped. After a type error the decoder goes on and keeps the first
error. The error texts stand for those of `encoding/json`. -/
def decodeMember (st : ParamsState) (member : String × JVal) : ParamsState :=
  if keyMatches "name" member.1 then
    match member.2 with
    | .null => st
    | .str n => { st with Name := n }
    | _ => st.saveError "json: cannot unmarshal value into Go struct field .name of type string"
  else if keyMatches "arguments" member.1 then
    match member.2 with
    | .null => { st with Arguments := [] }
    | .obj a => { st with Arguments := st.Arguments ++ a }
    | _ =>
      st.saveError ("json: cannot unmarshal value into Go struct field .arguments of " ++
        "type map[string]interface \x7b\x7d")
  else st

/-- The call `json.Unmarshal(req.Params, &params)` on the JSON value of the
params: no input at all is an error, `null` leaves the struct zero, an object
is decoded member by member, in the order of the text, and returns the first
type error if there was one; a value of another type is an error. -/
def unmarshalParams : Option JVal → Except String CallParams
  | none => .error "unexpected end of JSON input"
  | some .null => .ok { Name := "", Arguments := [] }
  | some (.obj members) =>
    match (members.foldl decodeMember { Name := "", Arguments := [], err := none }).err with
    | some e => .error e
    | none =>
      .ok { Name := (members.foldl decodeMember { Name := "", Arguments := [], err := none }).Name,
            Arguments :=
              (members.foldl decodeMember { Name := "", Arguments := [], err := none }).Arguments }
  | some _ => .error "json: cannot unmarshal value into Go value of type struct"

/-- The method `handleToolsCall`; the second component is the value of a panic
raised by the call of the router. -/
def Server.handleToolsCall (rt : Runtime) (s : Server) (req : Request) : Server × Option String :=
  match unmarshalParams req.Params with
  | .error err => (s.sendError req.ID InvalidParams "Invalid params" err, none)
  | .ok params =>
    if params.Name = "" then
      (s.sendError req.ID InvalidParams "Invalid params" "tool name is required", none)
    else
      match rt.call s.db params.Name params.Arguments with
      | .panicked db1 r => ({ s with db := db1 }, some r)
      | .returned db1 (.error err) =>
        let s1 := { s with db := db1 }
        if err.isUnknownTool then
          (s1.sendError req.ID InvalidParams "Unknown tool" err.Error, none)
        else (s1.sendResult req.ID (.content ("Error: " ++ err.Error) true), none)
      | .returned db1 (.ok result) =>
        let s1 := { s with db := db1 }
        (s1.sendResult req.ID (.content (rt.Marshal result) false), none)

def Server.handleRequest (rt : Runtime) (s : Server) (req : Request) : Server × Option String :=
  match (if req.Method ≠ "notifications/initialized" then validateRequestID req.ID else none) with
  | some err => (s.sendError .null InvalidRequest "Invalid request" err.Error, none)
  | none =>
    if req.Method = "initialize" then (s.handleInitialize req, none)
    else if req.Method = "tools/list" then (s.handleToolsList req, none)
    else if req.Method = "tools/call" then s.handleToolsCall rt req
    else if req.Method = "notifications/initialized" then (s, none)
    else (s.sendError req.ID MethodNotFound "Method not found" req.Method, none)

/-- The loop of `Run`. The function literal around `handleRequest` recovers a
panic and answers it with an internal error. -/
def Server.runLoop (rt : Runtime) : Nat → Server → Server × Option GoErr
  | 0, s => (s, some (.msg "out of fuel"))
  | fuel + 1, s =>
    match readLineLimited s.reader maxMessageBytes with
    | (.error err, r1) =>
      if err = .EOF then ({ s with reader := r1 }, none)
      else ({ s with reader := r1 }, some (.msg ("reading input: " ++ err.Error)))
    | (.ok line, r1) =>
      let s1 := { s with reader := r1 }
      let line := bytesTrimSpaceCRLF line
      if line.length = 0 then Server.runLoop rt fuel s1
      else
        match rt.Unmarshal line with
        | .error err => Server.runLoop rt fuel (s1.sendError .null ParseError "Parse error" err)
        | .ok req =>
          match s1.handleRequest rt req with
          | (s2, none) => Server.runLoop rt fuel s2
          | (s2, some r) =>
            Server.runLoop rt fuel
              (s2.sendError req.ID InternalError "Internal error" ("Panic: " ++ r))

/-- The method `Run`: it returns the error of the loop, `none` for `nil`. Every
frame read takes at least one byte off the input, so one more pass than there
are pending bytes is enough. -/
def Server.Run (rt : Runtime) (s : Server) : Server × Option GoErr :=
  Server.runLoop rt (s.reader.pending.length + 1) s

/-- The constructor `NewServer`, with standard input given as the bytes it
will deliver; nothing has been written yet. -/
def NewServer (database : DB) (stdin : List Nat) : Server :=
  { db := database, reader := NewReaderSize stdin none (64 * 1024), writer := [] }

/-- The server `s` with the responses `w` written before its own. -/
def Server.prepend (w : List Response) (s : Server) : Server :=
  { s with writer := w ++ s.writer }

/-- The responses `Run` writes when started in state `s`. -/
def Server.emitted (rt : Runtime) (s : Server) : List Response :=
  (Server.Run rt { s with writer := [] }).1.writer

/-! ## The test suite (handlers_test.go) -/

/-- The subtests of `TestAllTools`, each by the name of the tool it passes to
`HandleToolCall`, in the order they run. -/
def TestAllTools : List String :=
  ["project_create", "project_list", "project_set_default",
   "memory_store", "memory_search", "memory_delete",
   "task_create", "task_list", "task_update", "task_delete",
   "metadata_set", "metadata_get", "metadata_list", "metadata_delete",
   "filetree_annotate", "filetree_get", "filetree_delete",
   "guideline_create", "guideline_get", "guideline_update", "guideline_list",
   "guideline_search", "guideline_delete",
   "bookmark_create", "bookmark_search", "bookmark_list", "bookmark_delete"]

/-! ## Fixtures for the examples -/

/-- A stand-in for `json.Unmarshal` in the examples: the frame `i` is an
`initialize` request with id 1, the frame `c` a `tools/call` of `memory_store`
with id 2, and every other frame is rejected. -/
def exampleUnmarshal (frame : List Nat) : Except String Request :=
  if frame = [105] then
    .ok { JSONRPC := "2.0", ID := .num ⟨1, 0⟩, Method := "initialize", Params := none }
  else if frame = [99] then
    .ok { JSONRPC := "2.0", ID := .num ⟨2, 0⟩, Method := "tools/call",
          Params := some (.obj [("name", .str "memory_store"),
                                ("arguments", .obj [("content", .str "hello")])]) }
  else .error "invalid character"

/-- A stand-in for `json.Marshal` in the examples: it writes the kind of
value only. -/
def exampleMarshal : Value → String
  | .deletedID _ => "deleted"
  | .deletedKey _ => "deleted"
  | .deletedPath _ => "deleted"
  | .keyWithoutValue _ => "no value"
  | .fileNote none => "null"
  | .metadata none => "null"
  | _ => "record"

/-- The shipped runtime over the stand-ins. -/
def exampleRuntime : Runtime :=
  Runtime.shipped exampleUnmarshal exampleMarshal

/-- A runtime in which every call of the router panics before touching the store. -/
def panickingRuntime : Runtime :=
  { Unmarshal := exampleUnmarshal, Marshal := exampleMarshal,
    call := fun db _ _ => .panicked db "boom" }

/-- The state in which server `s`, its store now `db1`, has answered the
request `req` with a result envelope: one text item and the flag `isError`. -/
def Server.answered (s : Server) (db1 : DB) (req : Request) (text : String) (isError : Bool) :
    Server :=
  { s with db := db1, writer := s.writer ++
      [{ JSONRPC := "2.0", ID := req.ID, Result := some (.content text isError), Error := none }] }

/-- A `tools/call` request with id `id` for the tool `name` with the arguments `args`. -/
def toolsCall (id : JVal) (name : String) (args : Args) : Request :=
  { JSONRPC := "2.0", ID := id, Method := "tools/call",
    Params := some (.obj [("name", .str name), ("arguments", .obj args)]) }

/-- The project id a project-scoped handler's store operation works under: each
such handler passes the result of `getProjectID` to a store method, and each
such method starts with `pid := db.GetProjectID(projectID)`. -/
def actingProject (database : DB) (args : Args) : Int :=
  (getProjectID database args).1.GetProjectID (getProjectID database args).2

/-- The body of the loop of `Run` for one frame read: a blank frame is skipped, a
frame the decoder rejects is answered with a parse error, and a request is
handled, a panic being recovered and answered with an internal error. -/
def Server.handleFrame (rt : Runtime) (s : Server) (frame : List Nat) : Server :=
  if (bytesTrimSpaceCRLF frame).length = 0 then s
  else
    match rt.Unmarshal (bytesTrimSpaceCRLF frame) with
    | .error err => s.sendError .null ParseError "Parse error" err
    | .ok req =>
      match s.handleRequest rt req with
      | (s2, none) => s2
      | (s2, some r) => s2.sendError req.ID InternalError "Internal error" ("Panic: " ++ r)

/-- The responses to the frames `frames`, handled one after the other from state
`s`: the responses to the first frame, followed by the responses to the others
from the state the first frame left. -/
def Server.responsesTo (rt : Runtime) : Server → List (List Nat) → List Response
  | _, [] => []
  | s, frame :: frames =>
    (Server.handleFrame rt { s with writer := [] } frame).writer ++
      Server.responsesTo rt (Server.handleFrame rt s frame) frames

/-- A stand-in for `json.Unmarshal` in the examples: the frames `3` and `4` are
`initialize` requests with the ids 3 and 4, and every other frame is rejected. -/
def orderUnmarshal (frame : List Nat) : Except String Request :=
  if frame = [51] then
    .ok { JSONRPC := "2.0", ID := .num ⟨3, 0⟩, Method := "initialize", Params := none }
  else if frame = [52] then
    .ok { JSONRPC := "2.0", ID := .num ⟨4, 0⟩, Method := "initialize", Params := none }
  else .error "invalid character"

/-- The state of the projects that `Open` sets up and every tool keeps: the ids
of the projects are positive and the default project is one of them. -/
def DB.projectsOK (db : DB) : Prop :=
  (∀ p ∈ db.projects, 0 < p.ID) ∧ db.hasProject db.defaultProjectID = true

/-- The statuses the catalog allows for a task: the `enum` of the property
`status` of the tool `task_update` in tools.go. -/
def taskStatuses : List String :=
  match GetToolDefinitions.find? (fun d => d.Name == "task_update") with
  | none => []
  | some d =>
    match d.InputSchema.properties.find? (fun p => p.name == "status") with
    | none => []
    | some p => p.enum

/-- The store after the tool calls `calls`, each given by the name of the tool
and its arguments, made one after the other through the router. -/
def afterCalls (db : DB) (calls : List (String × Args)) : DB :=
  calls.foldl (fun d c => (HandleToolCall d c.1 c.2).1) db

/-- The constraint `UNIQUE(project_id, key)` of the table `metadata`: no two
rows have the same project and the same key. -/
def DB.metadataUnique (db : DB) : Prop :=
  db.metadata.Pairwise (fun a b => ¬ (a.ProjectID = b.ProjectID ∧ a.Key = b.Key))

/-- The errors the methods of the store return: `sql.ErrNoRows`, and the
failure of a constraint of the schema, bare or after the prefix the method
puts before it. -/
def storeErrors : List GoErr :=
  [.ErrNoRows, .msg fkFailed,
   .msg "creating project: UNIQUE constraint failed: projects.slug",
   .msg ("creating memory: " ++ fkFailed),
   .msg ("creating task: " ++ fkFailed),
   .msg ("creating guideline: UNIQUE constraint failed: " ++
          "guidelines.project_id, guidelines.category, guidelines.title"),
   .msg ("creating guideline: " ++ fkFailed),
   .msg ("creating bookmark: " ++ fkFailed)]

/-- The store `db2` holds the projects of `db`, in their order and before any
new one, and has the default project of `db`. -/
def DB.keepsProjects (db db2 : DB) : Prop :=
  (∃ ps, db2.projects = db.projects ++ ps) ∧ db2.defaultProjectID = db.defaultProjectID

/-- The function `getProjectID` with the method it calls, `GetOrCreateProject`,
as a parameter. The store of this development never fails a statement for a
reason outside the schema; a real database can (it may be locked or closed),
and with the call as a parameter the function can be followed then too. -/
def getProjectIDVia (getOrCreate : DB → String → DB × Except GoErr Project)
    (database : DB) (args : Args) : DB × Option Int :=
  let slug := getString args "project"
  if slug ≠ "" then
    match getOrCreate database slug with
    | (db1, .ok p) => (db1, some p.ID)
    | (db1, .error _) => (db1, none)
  else (database, none)

/-- The handler `handleMemoryStore` over `getProjectIDVia`. -/
def handleMemoryStoreVia (getOrCreate : DB → String → DB × Except GoErr Project)
    (database : DB) (args : Args) : Handled :=
  let content := getString args "content"
  if content = "" then (database, .error (required "content"))
  else
    let keywords := getStringArray args "keywords"
    let (db1, projectID) := getProjectIDVia getOrCreate database args
    passOn .memory (db1.CreateMemory projectID content keywords)

/-- A database on which every statement about projects fails: it is locked. -/
def lockedGetOrCreate (database : DB) (_slug : String) : DB × Except GoErr Project :=
  (database, .error (.msg "database is locked"))

/-! ## Concurrent callers of `send` (server.go)

`Server.send` above is the method as the loop of `Run` calls it, one call
after the other. Here the method is followed statement by statement for any
number of goroutines calling it at once, under any schedule. `fmt.Fprintf`
formats the line and hands it to the writer in one call of `Write`; the writer
is not taken to be atomic: it moves the bytes of the call to the stream one at
a time, and a step of another goroutine may come in between. -/

/-- Where a goroutine stands in its call of `send`: before `s.mu.Lock()`; holding
the mutex, before `json.Marshal`; inside the call of `Write` that `fmt.Fprintf`
makes, with the bytes still to be moved; after the body, before the deferred
`s.mu.Unlock()`; returned. -/
inductive SendPC where
  | start
  | locked
  | writing (rest : List Nat)
  | unlocking
  | done
  deriving DecidableEq, Repr

/-- Whether a goroutine at this point holds the mutex. -/
def SendPC.holdsLock : SendPC → Bool
  | .start => false
  | .done => false
  | _ => true

/-- The state shared by the callers of `send`: the mutex `s.mu`, the point each
goroutine is at, the bytes that have reached the output stream, and the
arguments of the calls of `Write` made so far. -/
structure SendState where
  mu : Bool
  pc : Nat → SendPC
  out : List Nat
  writes : List (List Nat)

/-- No goroutine has entered `send` yet. -/
def SendState.fresh : SendState :=
  { mu := false, pc := fun _ => .start, out := [], writes := [] }

/-- The state with goroutine `i` moved to the point `v`. -/
def SendState.moved (st : SendState) (i : Nat) (v : SendPC) : Nat → SendPC :=
  fun j => if j = i then v else st.pc j

/-- One step of goroutine `i`, which is sending `resp i`. At `s.mu.Lock()` it
waits while the mutex is held. When `json.Marshal` fails it logs and returns
without writing. Otherwise `fmt.Fprintf(s.writer, "%s\n", data)` makes one call
of `Write` with the line, whose bytes then reach the stream one per step. -/
def sendStep (marshal : Response → Except String (List Nat)) (resp : Nat → Response)
    (i : Nat) (st : SendState) : SendState :=
  match st.pc i with
  | .start => if st.mu then st else { st with mu := true, pc := st.moved i .locked }
  | .locked =>
    match marshal (resp i) with
    | .error _ => { st with pc := st.moved i .unlocking }
    | .ok data =>
      { st with pc := st.moved i (.writing (data ++ [10])), writes := st.writes ++ [data ++ [10]] }
  | .writing [] => { st with pc := st.moved i .unlocking }
  | .writing (b :: rest) => { st with out := st.out ++ [b], pc := st.moved i (.writing rest) }
  | .unlocking => { st with mu := false, pc := st.moved i .done }
  | .done => st

/-- The state after the goroutines have taken steps in the order `schedule`. -/
def sendRun (marshal : Response → Except String (List Nat)) (resp : Nat → Response)
    (schedule : List Nat) : SendState :=
  schedule.foldl (fun st i => sendStep marshal resp i st) SendState.fresh

/-- The line `send` writes for the response of goroutine `i`: its JSON and a
line feed; none when the response does not marshal. -/
def sendLine (marshal : Response → Except String (List Nat)) (resp : Nat → Response)
    (i : Nat) : Option (List Nat) :=
  match marshal (resp i) with
  | .error _ => none
  | .ok data => some (data ++ [10])

/-- What holds of the callers of `send` at every moment: at most one goroutine
holds the mutex, and the mutex is locked exactly when one does; the calls of
`Write` made are the lines of distinct goroutines, each past its `Marshal`; and
the bytes on the stream, with the bytes the goroutine inside `Write` has still
to move, are those calls one after the other. -/
def sendInv (marshal : Response → Except String (List Nat)) (resp : Nat → Response)
    (st : SendState) : Prop :=
  (∀ i j, (st.pc i).holdsLock = true → (st.pc j).holdsLock = true → i = j) ∧
  (st.mu = true ↔ ∃ i, (st.pc i).holdsLock = true) ∧
  (∃ order : List Nat, order.Nodup ∧ st.writes = order.filterMap (sendLine marshal resp) ∧
    ∀ i ∈ order, st.pc i ≠ .start ∧ st.pc i ≠ .locked) ∧
  (∀ i rest, st.pc i = .writing rest → st.out ++ rest = st.writes.flatten) ∧
  ((∀ i rest, st.pc i ≠ .writing rest) → st.out = st.writes.flatten)

/-- A stand-in for `json.Marshal` of a response in the examples: the response
with the number `n` as id is written as the single byte `n`, and a response
with another id does not marshal. -/
def exampleMarshalResponse (resp : Response) : Except String (List Nat) :=
  match resp.ID with
  | .num v => .ok [v.mant.toNat]
  | _ => .error "json: unsupported value"

/-- Goroutine `i` of the examples sends the result of `tools/list` with id `65 + i`. -/
def exampleResponses (i : Nat) : Response :=
  { JSONRPC := "2.0", ID := .num ⟨65 + i, 0⟩, Result := some (.tools []), Error := none }

/-- The store a project-scoped handler's store operation works on: the store
as `getProjectID` leaves it, with the project of the slug made if it was not there. -/
def actingStore (database : DB) (args : Args) : DB :=
  (getProjectID database args).1

/-- The project-scoped tools: those whose handler calls `getProjectID`. -/
def projectScopedTools : List String :=
  ["memory_store", "memory_search", "task_create", "task_list",
   "metadata_set", "metadata_get", "metadata_list", "metadata_delete",
   "filetree_annotate", "filetree_get", "filetree_delete",
   "guideline_create", "guideline_list", "guideline_search",
   "bookmark_create", "bookmark_search", "bookmark_list"]

/-- The project of every record a tool result holds. -/
def Value.projectIDs : Value → List Int
  | .memory m => [m.ProjectID]
  | .memories ms => ms.map (fun m => m.ProjectID)
  | .task t => [t.ProjectID]
  | .tasks ts => ts.map (fun t => t.ProjectID)
  | .metadata (some m) => [m.ProjectID]
  | .metadata none => []
  | .metadataList ms => ms.map (fun m => m.ProjectID)
  | .fileNote (some f) => [f.ProjectID]
  | .fileNote none => []
  | .fileAnnotations fs => fs.map (fun f => f.ProjectID)
  | .guideline g => [g.ProjectID]
  | .guidelines gs => gs.map (fun g => g.ProjectID)
  | .project _ => []
  | .projects _ => []
  | .bookmark b => [b.ProjectID]
  | .bookmarks bs => bs.map (fun b => b.ProjectID)
  | .deletedID _ => []
  | .deletedKey _ => []
  | .deletedPath _ => []
  | .keyWithoutValue _ => []
  | .defaultProject _ => []

/-- The steps a goroutine at this point of `send` has still to take before it
has returned, for goroutine `i`: after `Lock`, one for `Marshal`, one for each
byte of the line, one to return from `Write` and one for the deferred `Unlock`. -/
def sendStepsLeft (marshal : Response → Except String (List Nat)) (resp : Nat → Response)
    (i : Nat) : SendPC → Nat
  | .start => 0
  | .locked =>
    match marshal (resp i) with
    | .error _ => 2
    | .ok data => data.length + 4
  | .writing rest => rest.length + 2
  | .unlocking => 1
  | .done => 0

/-- The calls of `Write` goroutine `i` has still to make from this point of `send`. -/
def sendWritesLeft (marshal : Response → Except String (List Nat)) (resp : Nat → Response)
    (i : Nat) : SendPC → List (List Nat)
  | .locked => (sendLine marshal resp i).toList
  | _ => []

/-- The bytes goroutine `i` has still to put on the stream from this point of `send`. -/
def sendBytesLeft (marshal : Response → Except String (List Nat)) (resp : Nat → Response)
    (i : Nat) : SendPC → List Nat
  | .locked => (sendLine marshal resp i).getD []
  | .writing rest => rest
  | _ => []

/-! ## Lemmas on the frame reader and the loop -/

theorem splitAfter_line (d : Nat) (line rest : List Nat) (h : d ∉ line) :
    splitAfter d (line ++ d :: rest) = some (line ++ [d], rest) := by
  induction line with
  | nil => simp [splitAfter]
  | cons b bs ih =>
    have hb : b ≠ d := fun e => h (by simp [e])
    have hbs : d ∉ bs := fun e => h (by simp [e])
    simp [splitAfter, hb, ih hbs]

theorem splitAfter_none (d : Nat) (l : List Nat) (h : d ∉ l) : splitAfter d l = none := by
  induction l with
  | nil => simp [splitAfter]
  | cons b bs ih =>
    have hb : b ≠ d := fun e => h (by simp [e])
    have hbs : d ∉ bs := fun e => h (by simp [e])
    simp [splitAfter, hb, ih hbs]

theorem ReadSlice_line (r : Reader) (line rest : List Nat) (hp : r.pending = line ++ 10 :: rest)
    (h : 10 ∉ line) (hlt : line.length < r.size) :
    r.ReadSlice 10 = (line ++ [10], none, { r with pending := rest }) := by
  have htake : r.pending.take r.size = line ++ 10 :: rest.take (r.size - line.length - 1) := by
    rw [hp, List.take_append_eq_append_take, List.take_of_length_le (Nat.le_of_lt hlt)]
    obtain ⟨k, hk⟩ : ∃ k, r.size - line.length = k + 1 := ⟨r.size - line.length - 1, by omega⟩
    rw [hk, List.take_succ_cons]
    simp
  unfold Reader.ReadSlice
  rw [htake, splitAfter_line 10 line _ h]
  simp [hp]

theorem ReadSlice_full (r : Reader) (line rest : List Nat) (hp : r.pending = line ++ 10 :: rest)
    (h : 10 ∉ line) (hge : r.size ≤ line.length) :
    r.ReadSlice 10 = (line.take r.size, some .ErrBufferFull,
      { r with pending := line.drop r.size ++ 10 :: rest }) := by
  have htake : r.pending.take r.size = line.take r.size := by
    rw [hp, List.take_append_of_le_length hge]
  have hno : 10 ∉ line.take r.size := fun e => h (List.mem_of_mem_take e)
  have hdrop : r.pending.drop r.size = line.drop r.size ++ 10 :: rest := by
    rw [hp, List.drop_append_of_le_length hge]
  have hle : r.size ≤ r.pending.length := by rw [hp]; simp; omega
  unfold Reader.ReadSlice
  rw [htake, splitAfter_none 10 _ hno]
  simp [hle, htake, hdrop]
theorem drainLine_line (fuel : Nat) : ∀ (r : Reader) (line rest : List Nat),
    0 < r.size → r.pending = line ++ 10 :: rest → 10 ∉ line → line.length < fuel →
    drainLine fuel r = { r with pending := rest } := by
  induction fuel with
  | zero => intro r line rest _ _ _ hf; omega
  | succ fuel ih =>
    intro r line rest hs hp h hf
    by_cases hlt : line.length < r.size
    · simp [drainLine, ReadSlice_line r line rest hp h hlt]
    · have hge : r.size ≤ line.length := Nat.le_of_not_lt hlt
      simp only [drainLine, ReadSlice_full r line rest hp h hge]
      have := ih { r with pending := line.drop r.size ++ 10 :: rest } (line.drop r.size) rest
        hs rfl (fun e => h (List.mem_of_mem_drop e)) (by simp; omega)
      simpa using this

theorem readLineLimitedLoop_oversized (max fuel : Nat) : ∀ (r : Reader) (line rest out : List Nat),
    0 < r.size → r.pending = line ++ 10 :: rest → 10 ∉ line → line.length < fuel →
    max < out.length + line.length + 1 →
    ∃ m, readLineLimitedLoop fuel r max out =
      (.error (.msg ("message too large: " ++ m)), { r with pending := rest }) := by
  induction fuel with
  | zero => intro r line rest out _ _ _ hf; omega
  | succ fuel ih =>
    intro r line rest out hs hp h hf hmax
    by_cases hlt : line.length < r.size
    · refine ⟨toString (out ++ (line ++ [10])).length ++ " bytes", ?_⟩
      have : max < out.length + (line.length + 1) := by omega
      simp [readLineLimitedLoop, ReadSlice_line r line rest hp h hlt, this, String.append_assoc]
    · have hge : r.size ≤ line.length := Nat.le_of_not_lt hlt
      simp only [readLineLimitedLoop, ReadSlice_full r line rest hp h hge]
      by_cases hout : max < (out ++ line.take r.size).length
      · refine ⟨"exceeds " ++ toString max ++ " bytes", ?_⟩
        have hd := drainLine_line ((line.drop r.size ++ 10 :: rest).length + 1)
          { r with pending := line.drop r.size ++ 10 :: rest } (line.drop r.size) rest
          hs rfl (fun e => h (List.mem_of_mem_drop e)) (by simp; omega)
        have hm : "message too large: exceeds " = "message too large: " ++ "exceeds " := by decide
        have e : "message too large: exceeds " ++ toString max ++ " bytes" =
            "message too large: " ++ ("exceeds " ++ toString max ++ " bytes") := by
          rw [hm]; simp only [String.append_assoc]
        simp only [gt_iff_lt, hout, if_true]
        rw [hd, e]
      · simp only [gt_iff_lt, hout, if_false]
        have := ih { r with pending := line.drop r.size ++ 10 :: rest } (line.drop r.size) rest
          (out ++ line.take r.size) hs rfl (fun e => h (List.mem_of_mem_drop e))
          (by simp; omega) (by simp; omega)
        simpa using this

theorem readLineLimitedLoop_line (max fuel : Nat) : ∀ (r : Reader) (line rest out : List Nat),
    0 < r.size → r.pending = line ++ 10 :: rest → 10 ∉ line → line.length < fuel →
    out.length + line.length + 1 ≤ max →
    readLineLimitedLoop fuel r max out = (.ok (out ++ line ++ [10]), { r with pending := rest }) := by
  induction fuel with
  | zero => intro r line rest out _ _ _ hf; omega
  | succ fuel ih =>
    intro r line rest out hs hp h hf hmax
    by_cases hlt : line.length < r.size
    · have : ¬ max < out.length + (line.length + 1) := by omega
      simp [readLineLimitedLoop, ReadSlice_line r line rest hp h hlt, this]
    · have hge : r.size ≤ line.length := Nat.le_of_not_lt hlt
      simp only [readLineLimitedLoop, ReadSlice_full r line rest hp h hge]
      have hout : ¬ max < (out ++ line.take r.size).length := by simp; omega
      simp only [gt_iff_lt, hout, if_false]
      have := ih { r with pending := line.drop r.size ++ 10 :: rest } (line.drop r.size) rest
        (out ++ line.take r.size) hs rfl (fun e => h (List.mem_of_mem_drop e))
          (by simp; omega) (by simp; omega)
      simpa [List.append_assoc] using this
theorem readLineLimited_line (r : Reader) (max : Nat) (line rest : List Nat)
    (hs : 0 < r.size) (hp : r.pending = line ++ 10 :: rest) (h : 10 ∉ line)
    (hmax : line.length + 1 ≤ max) :
    readLineLimited r max = (.ok (line ++ [10]), { r with pending := rest }) := by
  have := readLineLimitedLoop_line max (r.pending.length + 1) r line rest [] hs hp h
    (by rw [hp]; simp; omega) (by simpa using hmax)
  simpa [readLineLimited] using this

theorem readLineLimited_oversized (r : Reader) (max : Nat) (line rest : List Nat)
    (hs : 0 < r.size) (hp : r.pending = line ++ 10 :: rest) (h : 10 ∉ line)
    (hmax : max < line.length + 1) :
    ∃ m, readLineLimited r max =
      (.error (.msg ("message too large: " ++ m)), { r with pending := rest }) := by
  have := readLineLimitedLoop_oversized max (r.pending.length + 1) r line rest [] hs hp h
    (by rw [hp]; simp; omega) (by simpa using hmax)
  simpa [readLineLimited] using this

theorem splitAfter_some (d : Nat) : ∀ (l line rest : List Nat),
    splitAfter d l = some (line, rest) → 0 < line.length ∧ line.length ≤ l.length := by
  intro l
  induction l with
  | nil => intro line rest h; simp [splitAfter] at h
  | cons b bs ih =>
    intro line rest h
    by_cases hb : b = d
    · simp [splitAfter, hb] at h
      rw [← h.1]; simp
    · simp only [splitAfter, hb, if_false] at h
      cases hsp : splitAfter d bs with
      | none => simp [hsp] at h
      | some p =>
        obtain ⟨l1, r1⟩ := p
        simp [hsp] at h
        have := ih l1 r1 hsp
        rw [← h.1]; simp; omega

theorem ReadSlice_pending (r : Reader) (frag : List Nat) (err : Option GoErr) (r1 : Reader)
    (h : r.ReadSlice 10 = (frag, err, r1)) :
    r1.pending.length ≤ r.pending.length ∧
    (err = none → r1.pending.length < r.pending.length) ∧
    (0 < frag.length → r1.pending.length < r.pending.length) := by
  unfold Reader.ReadSlice at h
  cases hsp : splitAfter 10 (r.pending.take r.size) with
  | some p =>
    obtain ⟨l1, x⟩ := p
    have hl := splitAfter_some 10 _ l1 x hsp
    have ht : (r.pending.take r.size).length ≤ r.pending.length := by simp
    simp only [hsp, Prod.mk.injEq] at h
    obtain ⟨_, _, h3⟩ := h
    subst h3
    simp
    omega
  | none =>
    simp only [hsp] at h
    by_cases hle : r.size ≤ r.pending.length
    · simp only [hle, if_true, Prod.mk.injEq] at h
      obtain ⟨h1, h2, h3⟩ := h
      subst h3 h2 h1
      simp
      omega
    · simp only [hle, if_false, Prod.mk.injEq] at h
      obtain ⟨h1, h2, h3⟩ := h
      subst h3 h1
      refine ⟨by simp, ?_, ?_⟩
      · intro he; rw [← h2] at he; simp at he
      · intro hf; simpa using hf
theorem readLineLimitedLoop_progress (max fuel : Nat) : ∀ (r : Reader) (out line : List Nat)
    (r1 : Reader), readLineLimitedLoop fuel r max out = (.ok line, r1) →
    r1.pending.length < r.pending.length := by
  induction fuel with
  | zero => intro r out line r1 h; simp [readLineLimitedLoop] at h
  | succ fuel ih =>
    intro r out line r1 h
    obtain ⟨frag, err, r2, hrs⟩ : ∃ frag err r2, r.ReadSlice 10 = (frag, err, r2) :=
      ⟨_, _, _, rfl⟩
    have hp := ReadSlice_pending r frag err r2 hrs
    unfold readLineLimitedLoop at h
    rw [hrs] at h
    cases err with
    | none =>
      simp only at h
      split at h
      · simp at h
      · simp only [Prod.mk.injEq] at h
        rw [← h.2]; exact hp.2.1 rfl
    | some e =>
      cases e with
      | ErrBufferFull =>
        simp only at h
        split at h
        · simp at h
        · exact Nat.lt_of_lt_of_le (ih r2 _ line r1 h) hp.1
      | EOF =>
        simp only at h
        split at h
        · split at h
          · simp at h
          · simp only [Prod.mk.injEq] at h
            rw [← h.2]; exact hp.2.2 (by assumption)
        · simp at h
      | ErrNoRows => simp at h
      | unknownTool n => simp at h
      | msg t => simp at h

theorem readLineLimited_progress (r : Reader) (max : Nat) (line : List Nat) (r1 : Reader)
    (h : readLineLimited r max = (.ok line, r1)) : r1.pending.length < r.pending.length :=
  readLineLimitedLoop_progress max _ r [] line r1 h
@[simp] theorem sendError_reader (s : Server) (id : JVal) (c : Int) (m d : String) :
    (s.sendError id c m d).reader = s.reader := rfl

@[simp] theorem sendResult_reader (s : Server) (id : JVal) (res : Result) :
    (s.sendResult id res).reader = s.reader := rfl

theorem handleToolsCall_reader (rt : Runtime) (s : Server) (req : Request) :
    (s.handleToolsCall rt req).1.reader = s.reader := by
  unfold Server.handleToolsCall
  split
  · rfl
  · split
    · rfl
    · split <;> (try split) <;> rfl

theorem handleRequest_reader (rt : Runtime) (s : Server) (req : Request) :
    (s.handleRequest rt req).1.reader = s.reader := by
  unfold Server.handleRequest
  split
  · rfl
  · split_ifs <;> first | rfl | exact handleToolsCall_reader rt s req

theorem runLoop_fuel (rt : Runtime) (fuel1 : Nat) : ∀ (fuel2 : Nat) (s : Server),
    s.reader.pending.length < fuel1 → s.reader.pending.length < fuel2 →
    Server.runLoop rt fuel1 s = Server.runLoop rt fuel2 s := by
  induction fuel1 with
  | zero => intro fuel2 s h1; omega
  | succ f1 ih =>
    intro fuel2 s h1 h2
    obtain ⟨f2, rfl⟩ : ∃ f2, fuel2 = f2 + 1 := ⟨fuel2 - 1, by omega⟩
    obtain ⟨res, r1, hrl⟩ : ∃ res r1, readLineLimited s.reader maxMessageBytes = (res, r1) :=
      ⟨_, _, rfl⟩
    unfold Server.runLoop
    rw [hrl]
    cases res with
    | error err => rfl
    | ok line =>
      have hlt := readLineLimited_progress _ _ _ _ hrl
      have key : ∀ s2 : Server, s2.reader = r1 →
          Server.runLoop rt f1 s2 = Server.runLoop rt f2 s2 := by
        intro s2 hr
        exact ih f2 s2 (by rw [hr]; omega) (by rw [hr]; omega)
      simp only
      split
      · exact key _ rfl
      · split
        · exact key _ rfl
        · have hr := handleRequest_reader rt { s with reader := r1 } (by assumption)
          split
          · next s2 heq => exact key _ (by rw [heq] at hr; exact hr)
          · next s2 r heq => exact key _ (by rw [heq] at hr; exact hr)

/-- The loop equation of `Run`: one frame is read and handled, and the loop
goes on from the server state that leaves. -/
theorem Run_eq (rt : Runtime) (s : Server) :
    s.Run rt =
      match readLineLimited s.reader maxMessageBytes with
      | (.error err, r1) =>
        if err = .EOF then ({ s with reader := r1 }, none)
        else ({ s with reader := r1 }, some (.msg ("reading input: " ++ err.Error)))
      | (.ok line, r1) =>
        if (bytesTrimSpaceCRLF line).length = 0 then Server.Run rt { s with reader := r1 }
        else
          match rt.Unmarshal (bytesTrimSpaceCRLF line) with
          | .error err =>
            Server.Run rt (Server.sendError { s with reader := r1 } .null ParseError
              "Parse error" err)
          | .ok req =>
            match Server.handleRequest rt { s with reader := r1 } req with
            | (s2, none) => Server.Run rt s2
            | (s2, some r) =>
              Server.Run rt (s2.sendError req.ID InternalError "Internal error" ("Panic: " ++ r)) := by
  obtain ⟨res, r1, hrl⟩ : ∃ res r1, readLineLimited s.reader maxMessageBytes = (res, r1) :=
    ⟨_, _, rfl⟩
  unfold Server.Run
  conv => lhs; unfold Server.runLoop
  rw [hrl]
  cases res with
  | error err => rfl
  | ok line =>
    have hlt := readLineLimited_progress _ _ _ _ hrl
    have key : ∀ s2 : Server, s2.reader = r1 →
        Server.runLoop rt s.reader.pending.length s2 =
          Server.runLoop rt (s2.reader.pending.length + 1) s2 := by
      intro s2 hr
      exact runLoop_fuel rt _ _ s2 (by rw [hr]; omega) (by omega)
    simp only
    split
    · exact key _ rfl
    · split
      · exact key _ rfl
      · have hr := handleRequest_reader rt { s with reader := r1 } (by assumption)
        split
        · next s2 heq => exact key _ (by rw [heq] at hr; exact hr)
        · next s2 r heq => exact key _ (by rw [heq] at hr; exact hr)

theorem sendError_prepend (w : List Response) (s : Server) (id : JVal) (c : Int) (m d : String) :
    (s.prepend w).sendError id c m d = (s.sendError id c m d).prepend w := by
  simp [Server.prepend, Server.sendError, Server.send, List.append_assoc]

theorem sendResult_prepend (w : List Response) (s : Server) (id : JVal) (res : Result) :
    (s.prepend w).sendResult id res = (s.sendResult id res).prepend w := by
  simp [Server.prepend, Server.sendResult, Server.send, List.append_assoc]

theorem handleToolsCall_prepend (rt : Runtime) (w : List Response) (s : Server) (req : Request) :
    (s.prepend w).handleToolsCall rt req =
      ((s.handleToolsCall rt req).1.prepend w, (s.handleToolsCall rt req).2) := by
  unfold Server.handleToolsCall
  split
  · simp [sendError_prepend]
  · split
    · simp [sendError_prepend]
    · have hdb : (s.prepend w).db = s.db := rfl
      rw [hdb]
      split
      · rfl
      · split <;>
          simp [Server.prepend, Server.sendError, Server.sendResult, Server.send,
            List.append_assoc]
      · simp [Server.prepend, Server.sendResult, Server.send, List.append_assoc]

theorem handleRequest_prepend (rt : Runtime) (w : List Response) (s : Server) (req : Request) :
    (s.prepend w).handleRequest rt req =
      ((s.handleRequest rt req).1.prepend w, (s.handleRequest rt req).2) := by
  unfold Server.handleRequest
  split
  · simp [sendError_prepend]
  · split_ifs
    · exact Prod.ext (sendResult_prepend w _ _ _) rfl
    · exact Prod.ext (sendResult_prepend w _ _ _) rfl
    · exact handleToolsCall_prepend rt w s req
    · rfl
    · exact Prod.ext (sendError_prepend w _ _ _ _ _) rfl

theorem runLoop_prepend (rt : Runtime) (w : List Response) (fuel : Nat) : ∀ s : Server,
    Server.runLoop rt fuel (s.prepend w) =
      ((Server.runLoop rt fuel s).1.prepend w, (Server.runLoop rt fuel s).2) := by
  induction fuel with
  | zero => intro s; rfl
  | succ fuel ih =>
    intro s
    have hrd : (s.prepend w).reader = s.reader := rfl
    unfold Server.runLoop
    rw [hrd]
    split
    · split <;> rfl
    · have e1 : ∀ r1 : Reader, ({ s.prepend w with reader := r1 } : Server) =
          Server.prepend w { s with reader := r1 } := fun _ => rfl
      simp only [e1]
      split
      · exact ih _
      · split
        · rw [sendError_prepend]; exact ih _
        · rw [handleRequest_prepend]
          split
          · next s2 heq =>
            simp only [Prod.mk.injEq] at heq
            split
            · next s3 heq3 => rw [← heq.1, heq3]; exact ih _
            · next s3 r heq3 => rw [heq3] at heq; simp at heq
          · next s2 r heq =>
            simp only [Prod.mk.injEq] at heq
            split
            · next s3 heq3 => rw [heq3] at heq; simp at heq
            · next s3 r3 heq3 =>
              rw [heq3] at heq
              simp only [Option.some.injEq] at heq
              rw [← heq.1, ← heq.2, sendError_prepend]; exact ih _

theorem Run_writer (rt : Runtime) (s : Server) :
    (s.Run rt).1.writer = s.writer ++ s.emitted rt ∧
    (s.Run rt).1.db = (Server.Run rt { s with writer := [] }).1.db ∧
    (s.Run rt).2 = (Server.Run rt { s with writer := [] }).2 := by
  have h := runLoop_prepend rt s.writer (s.reader.pending.length + 1) { s with writer := [] }
  have e : Server.prepend s.writer { s with writer := [] } = s := by
    simp [Server.prepend]
  rw [e] at h
  unfold Server.emitted Server.Run
  rw [h]
  exact ⟨rfl, rfl, rfl⟩

/-! ## Claims -/

/-- C1 (defect of the code): when the input starts with a line that, with its
terminator, is longer than `maxMessageBytes`, `Run` writes no response at all
and returns the error `reading input: message too large: ...`; the reader has
been moved past the line, but whatever follows it, a well-formed request
included, is never read. The claim asks for one fault response followed by the
response to the next frame. -/
theorem Run_oversized_frame_stops (rt : Runtime) (s : Server) (line rest : List Nat)
    (hsize : 0 < s.reader.size) (hin : s.reader.pending = line ++ 10 :: rest)
    (hline : 10 ∉ line) (hlong : maxMessageBytes < line.length + 1) :
    ∃ m, s.Run rt = ({ s with reader := { s.reader with pending := rest } },
      some (.msg ("reading input: message too large: " ++ m))) := by
  obtain ⟨m, hm⟩ := readLineLimited_oversized s.reader maxMessageBytes line rest hsize hin
    hline hlong
  refine ⟨m, ?_⟩
  have e : "reading input: message too large: " = "reading input: " ++ "message too large: " := by
    decide
  rw [Run_eq, hm, e, String.append_assoc]
  simp [GoErr.Error]

/-- C1, at an input: a line of 8 MiB of `x` and its terminator, followed by the
frame `i` (an `initialize` request with id 1), leaves the writer empty. -/
theorem Run_oversized_frame_stops_witness :
    ∃ m, (NewServer (Open 0) (List.replicate maxMessageBytes 120 ++ 10 :: [105, 10])).Run
        exampleRuntime =
      ({ NewServer (Open 0) (List.replicate maxMessageBytes 120 ++ 10 :: [105, 10]) with
          reader := { (NewServer (Open 0)
            (List.replicate maxMessageBytes 120 ++ 10 :: [105, 10])).reader with
            pending := [105, 10] } },
        some (.msg ("reading input: message too large: " ++ m))) :=
  Run_oversized_frame_stops exampleRuntime _ (List.replicate maxMessageBytes 120) [105, 10]
    (by simp [NewServer, NewReaderSize]) rfl (by simp [List.mem_replicate])
    (by simp)
theorem Run_prepend (rt : Runtime) (w : List Response) (s : Server) :
    (s.prepend w).Run rt = ((s.Run rt).1.prepend w, (s.Run rt).2) :=
  runLoop_prepend rt w _ s

/-- What `Run` does after a response has been written: the same as without it. -/
theorem Run_after_send (rt : Runtime) (s : Server) (resp : Response) :
    (Server.emitted rt (s.send resp) = s.emitted rt) ∧
    (Server.Run rt (s.send resp)).1.writer = s.writer ++ resp :: s.emitted rt ∧
    (Server.Run rt (s.send resp)).1.db = (s.Run rt).1.db ∧
    (Server.Run rt (s.send resp)).2 = (s.Run rt).2 := by
  have h1 := Run_writer rt (s.send resp)
  have h2 := Run_writer rt s
  have e : ({ s.send resp with writer := [] } : Server) = { s with writer := [] } := rfl
  have e2 : Server.emitted rt (s.send resp) = s.emitted rt := by
    unfold Server.emitted; rw [e]
  rw [e] at h1
  refine ⟨e2, ?_, ?_, ?_⟩
  · rw [h1.1, e2]; simp [Server.send]
  · rw [h1.2.1, h2.2.1]
  · rw [h1.2.2, h2.2.2]

/-- C5: a frame the frame reader delivers that is not blank and that
`json.Unmarshal` rejects makes `Run` write exactly one response, the error
-32700 with a null id, and leaves the store as it was; after it `Run` writes
what it writes on the rest of the input alone, and ends with the same store and
the same result. -/
theorem Run_parse_error (rt : Runtime) (s : Server) (frame : List Nat) (r1 : Reader)
    (err : String)
    (hread : readLineLimited s.reader maxMessageBytes = (.ok frame, r1))
    (hblank : (bytesTrimSpaceCRLF frame).length ≠ 0)
    (hbad : rt.Unmarshal (bytesTrimSpaceCRLF frame) = .error err) :
    s.Run rt = Server.Run rt
      (Server.sendError { s with reader := r1 } .null (-32700) "Parse error" err) ∧
    s.emitted rt =
      { JSONRPC := "2.0", ID := .null, Result := none,
        Error := some { Code := -32700, Message := "Parse error", Data := err } } ::
      Server.emitted rt { s with reader := r1 } ∧
    (s.Run rt).1.db = (Server.Run rt { s with reader := r1 }).1.db ∧
    (s.Run rt).2 = (Server.Run rt { s with reader := r1 }).2 := by
  have step : ∀ t : Server, t.reader = s.reader → t.Run rt = Server.Run rt
      (Server.sendError { t with reader := r1 } .null ParseError "Parse error" err) := by
    intro t ht
    rw [Run_eq, ht, hread]
    simp only [hblank, if_false, hbad]
  have h0 := step s rfl
  have hs := Run_after_send rt { s with reader := r1 }
    { JSONRPC := "2.0", ID := .null, Result := none,
      Error := some { Code := -32700, Message := "Parse error", Data := err } }
  refine ⟨h0, ?_, ?_, ?_⟩
  · unfold Server.emitted
    rw [step { s with writer := [] } rfl]
    exact (Run_after_send rt { s with reader := r1, writer := [] }
      { JSONRPC := "2.0", ID := .null, Result := none,
        Error := some { Code := -32700, Message := "Parse error", Data := err } }).2.1
  · rw [h0]; exact hs.2.2.1
  · rw [h0]; exact hs.2.2.2

/-- C5, at an input: the frame `x`, which the decoder rejects, followed by the
frame `i`. -/
theorem Run_parse_error_witness :
    Server.emitted exampleRuntime (NewServer (Open 0) [120, 10, 105, 10]) =
      { JSONRPC := "2.0", ID := .null, Result := none,
        Error := some { Code := -32700, Message := "Parse error",
                        Data := "invalid character" } } ::
      Server.emitted exampleRuntime
        { NewServer (Open 0) [120, 10, 105, 10] with
          reader := { (NewServer (Open 0) [120, 10, 105, 10]).reader with
                      pending := [105, 10] } } :=
  (Run_parse_error exampleRuntime (NewServer (Open 0) [120, 10, 105, 10]) [120, 10]
    { (NewServer (Open 0) [120, 10, 105, 10]).reader with pending := [105, 10] }
    "invalid character" rfl (by decide) rfl).2.1

/-- A request whose handling ends in a panic has written nothing. -/
theorem handleRequest_panicked (rt : Runtime) (s s2 : Server) (req : Request) (r : String)
    (h : s.handleRequest rt req = (s2, some r)) :
    s2.writer = s.writer ∧ s2.reader = s.reader := by
  unfold Server.handleRequest at h
  split at h
  · simp at h
  · split_ifs at h
    · simp at h
    · simp at h
    · unfold Server.handleToolsCall at h
      split at h
      · simp at h
      · split at h
        · simp at h
        · split at h
          · simp only [Prod.mk.injEq] at h
            rw [← h.1]; exact ⟨rfl, rfl⟩
          · split at h <;> simp at h
          · simp at h
    · simp at h
    · simp at h

/-- C9: when the handling of a request read from a frame ends in a panic with
value `r`, nothing has been written for the request before, `Run` writes
exactly one response for it, the error -32603 with the id of the request, and
goes on: after it `Run` writes what it writes on the rest of the input from the
state the panic left, and ends with the same store and the same result. -/
theorem Run_recovers_panic (rt : Runtime) (s s2 : Server) (frame : List Nat) (r1 : Reader)
    (req : Request) (r : String)
    (hread : readLineLimited s.reader maxMessageBytes = (.ok frame, r1))
    (hblank : (bytesTrimSpaceCRLF frame).length ≠ 0)
    (hreq : rt.Unmarshal (bytesTrimSpaceCRLF frame) = .ok req)
    (hpanic : Server.handleRequest rt { s with reader := r1 } req = (s2, some r)) :
    s2.writer = s.writer ∧
    s.Run rt = Server.Run rt (s2.sendError req.ID (-32603) "Internal error" ("Panic: " ++ r)) ∧
    s.emitted rt =
      { JSONRPC := "2.0", ID := req.ID, Result := none,
        Error := some { Code := -32603, Message := "Internal error", Data := "Panic: " ++ r } } ::
      s2.emitted rt ∧
    (s.Run rt).1.db = (s2.Run rt).1.db ∧
    (s.Run rt).2 = (s2.Run rt).2 := by
  have hw := (handleRequest_panicked rt _ s2 req r hpanic).1
  have h0 : s.Run rt =
      Server.Run rt (s2.sendError req.ID InternalError "Internal error" ("Panic: " ++ r)) := by
    rw [Run_eq, hread]
    simp only [hblank, if_false, hreq, hpanic]
  have hs := Run_after_send rt s2
    { JSONRPC := "2.0", ID := req.ID, Result := none,
      Error := some { Code := -32603, Message := "Internal error", Data := "Panic: " ++ r } }
  -- the same request handled with nothing written before
  have hpre := handleRequest_prepend rt s.writer { s with reader := r1, writer := [] } req
  have e1 : Server.prepend s.writer { s with reader := r1, writer := [] } =
      { s with reader := r1 } := by
    simp [Server.prepend]
  rw [e1, hpanic] at hpre
  obtain ⟨t, q, ht⟩ : ∃ t q, Server.handleRequest rt
      { s with reader := r1, writer := [] } req = (t, q) := ⟨_, _, rfl⟩
  rw [ht] at hpre
  simp only [Prod.mk.injEq] at hpre
  have hq : q = some r := hpre.2.symm
  subst hq
  have htw := (handleRequest_panicked rt _ t req r ht).1
  have hte : ({ s2 with writer := [] } : Server) = { t with writer := [] } := by
    rw [hpre.1]; rfl
  refine ⟨hw, h0, ?_, ?_, ?_⟩
  · have step : Server.Run rt { s with writer := [] } =
        Server.Run rt (t.sendError req.ID InternalError "Internal error" ("Panic: " ++ r)) := by
      rw [Run_eq]
      show (match readLineLimited s.reader maxMessageBytes with
        | (.error err, r1) => _
        | (.ok line, r1) => _) = _
      rw [hread]
      simp only [hblank, if_false, hreq, ht]
    have hs2 := Run_after_send rt t
      { JSONRPC := "2.0", ID := req.ID, Result := none,
        Error := some { Code := -32603, Message := "Internal error", Data := "Panic: " ++ r } }
    have : s2.emitted rt = t.emitted rt := by unfold Server.emitted; rw [hte]
    rw [this]
    unfold Server.emitted at hs2 ⊢
    rw [step]
    have h3 := hs2.2.1
    rw [htw] at h3
    simpa using h3
  · rw [h0]; exact hs.2.2.1
  · rw [h0]; exact hs.2.2.2

/-- C9, at an input: the frame `c`, a tool call, under a runtime whose router
panics, followed by the frame `i`. -/
theorem Run_recovers_panic_witness :
    Server.emitted panickingRuntime (NewServer (Open 0) [99, 10, 105, 10]) =
      { JSONRPC := "2.0", ID := .num ⟨2, 0⟩, Result := none,
        Error := some { Code := -32603, Message := "Internal error", Data := "Panic: boom" } } ::
      Server.emitted panickingRuntime
        { NewServer (Open 0) [99, 10, 105, 10] with
          reader := { (NewServer (Open 0) [99, 10, 105, 10]).reader with
                      pending := [105, 10] } } :=
  (Run_recovers_panic panickingRuntime (NewServer (Open 0) [99, 10, 105, 10])
    { NewServer (Open 0) [99, 10, 105, 10] with
      reader := { (NewServer (Open 0) [99, 10, 105, 10]).reader with pending := [105, 10] } }
    [99, 10]
    { (NewServer (Open 0) [99, 10, 105, 10]).reader with pending := [105, 10] }
    { JSONRPC := "2.0", ID := .num ⟨2, 0⟩, Method := "tools/call",
      Params := some (.obj [("name", .str "memory_store"),
                            ("arguments", .obj [("content", .str "hello")])]) }
    "boom" rfl (by decide) rfl rfl).2.2.1

theorem validateRequestID_iff (id : JVal) :
    validateRequestID id = none ↔ ((∃ v, id = .str v ∧ v ≠ "") ∨ ∃ n, id = .num n) := by
  cases id with
  | str v => by_cases hv : v = "" <;> simp [validateRequestID, hv]
  | _ => simp [validateRequestID]

/-- C6: a request whose method is not `notifications/initialized` and whose id
is neither a non-empty string nor a number is answered by exactly one
response, the error -32600 with a null id and the text of the id check as
data; the store is untouched and nothing is dispatched. And
`validateRequestID` accepts exactly the non-empty strings and the numbers. -/
theorem handleRequest_invalid_id (rt : Runtime) (s : Server) (req : Request)
    (hmethod : req.Method ≠ "notifications/initialized")
    (hid : ¬ ((∃ v, req.ID = .str v ∧ v ≠ "") ∨ ∃ n, req.ID = .num n)) :
    (∃ err, validateRequestID req.ID = some err ∧
      s.handleRequest rt req =
        ({ s with writer := s.writer ++
            [{ JSONRPC := "2.0", ID := .null, Result := none,
               Error := some { Code := -32600, Message := "Invalid request",
                               Data := err.Error } }] }, none)) ∧
    ∀ id, validateRequestID id = none ↔ ((∃ v, id = .str v ∧ v ≠ "") ∨ ∃ n, id = .num n) := by
  refine ⟨?_, validateRequestID_iff⟩
  cases hv : validateRequestID req.ID with
  | none => exact absurd ((validateRequestID_iff req.ID).1 hv) hid
  | some err =>
    refine ⟨err, rfl, ?_⟩
    simp [Server.handleRequest, hmethod, hv, Server.sendError, Server.send, InvalidRequest]

/-- C6, at an input: a `tools/call` whose id is the boolean `true`. -/
theorem handleRequest_invalid_id_witness :
    ∃ err, validateRequestID (.bool true) = some err ∧
      (NewServer (Open 0) []).handleRequest exampleRuntime
          { JSONRPC := "2.0", ID := .bool true, Method := "tools/call", Params := none } =
        ({ NewServer (Open 0) [] with writer := (NewServer (Open 0) []).writer ++
            [{ JSONRPC := "2.0", ID := .null, Result := none,
               Error := some { Code := -32600, Message := "Invalid request",
                               Data := err.Error } }] }, none) :=
  (handleRequest_invalid_id exampleRuntime (NewServer (Open 0) [])
    { JSONRPC := "2.0", ID := .bool true, Method := "tools/call", Params := none }
    (by decide) (by simp)).1

/-- C8: a request whose method is `notifications/initialized`, whatever its id
and its params, is handled without any response and without touching the
store: the server state is returned as it was. -/
theorem handleRequest_initialized_notification (rt : Runtime) (s : Server) (req : Request)
    (hmethod : req.Method = "notifications/initialized") :
    s.handleRequest rt req = (s, none) := by
  simp [Server.handleRequest, hmethod]

/-- C8, at an input: the notification sent with a boolean id and with params. -/
theorem handleRequest_initialized_notification_witness :
    (NewServer (Open 0) []).handleRequest exampleRuntime
        { JSONRPC := "2.0", ID := .bool true, Method := "notifications/initialized",
          Params := some (.arr []) } =
      (NewServer (Open 0) [], none) :=
  handleRequest_initialized_notification exampleRuntime (NewServer (Open 0) [])
    { JSONRPC := "2.0", ID := .bool true, Method := "notifications/initialized",
      Params := some (.arr []) } rfl

/-- Under the shipped router a tool call is answered exactly once, with the
id of the request. -/
theorem handleToolsCall_one_response (u : List Nat → Except String Request) (m : Value → String)
    (s : Server) (req : Request) :
    ∃ resp, (s.handleToolsCall (Runtime.shipped u m) req).1.writer = s.writer ++ [resp] ∧
      resp.ID = req.ID ∧ (s.handleToolsCall (Runtime.shipped u m) req).2 = none := by
  unfold Server.handleToolsCall
  split
  · exact ⟨_, rfl, rfl, rfl⟩
  · split
    · exact ⟨_, rfl, rfl, rfl⟩
    · simp only [Runtime.shipped]
      split
      · next heq => simp at heq
      · split <;> exact ⟨_, rfl, rfl, rfl⟩
      · exact ⟨_, rfl, rfl, rfl⟩

/-- C7, as stated, fails: a request with the valid id 1 whose method is
`notifications/initialized` is handled without any response. -/
theorem handleRequest_valid_id_no_response :
    ((NewServer (Open 0) []).handleRequest exampleRuntime
        { JSONRPC := "2.0", ID := .num ⟨1, 0⟩, Method := "notifications/initialized",
          Params := none }).1.writer = [] := rfl

/-- C7, amended: a request whose id is a non-empty string or a number and
whose method is not `notifications/initialized` is answered, under the shipped
router, by exactly one response, and the id of that response is the id of
the request. -/
theorem handleRequest_one_response (u : List Nat → Except String Request) (m : Value → String)
    (s : Server) (req : Request)
    (hid : (∃ v, req.ID = .str v ∧ v ≠ "") ∨ ∃ n, req.ID = .num n)
    (hmethod : req.Method ≠ "notifications/initialized") :
    ∃ resp, (s.handleRequest (Runtime.shipped u m) req).1.writer = s.writer ++ [resp] ∧
      resp.ID = req.ID ∧ (s.handleRequest (Runtime.shipped u m) req).2 = none := by
  have hv := (validateRequestID_iff req.ID).2 hid
  unfold Server.handleRequest
  simp only [hv, ite_self]
  split_ifs
  · exact ⟨_, rfl, rfl, rfl⟩
  · exact ⟨_, rfl, rfl, rfl⟩
  · exact handleToolsCall_one_response u m s req
  · exact ⟨_, rfl, rfl, rfl⟩

/-- C7 amended, at an input: the `memory_store` call with id 2 of the examples. -/
theorem handleRequest_one_response_witness :
    ∃ resp, ((NewServer (Open 0) []).handleRequest
        (Runtime.shipped exampleUnmarshal exampleMarshal)
        { JSONRPC := "2.0", ID := .num ⟨2, 0⟩, Method := "tools/call",
          Params := some (.obj [("name", .str "memory_store"),
                                ("arguments", .obj [("content", .str "hello")])]) }).1.writer =
        (NewServer (Open 0) []).writer ++ [resp] ∧
      resp.ID = .num ⟨2, 0⟩ ∧
      ((NewServer (Open 0) []).handleRequest
        (Runtime.shipped exampleUnmarshal exampleMarshal)
        { JSONRPC := "2.0", ID := .num ⟨2, 0⟩, Method := "tools/call",
          Params := some (.obj [("name", .str "memory_store"),
                                ("arguments", .obj [("content", .str "hello")])]) }).2 = none :=
  handleRequest_one_response exampleUnmarshal exampleMarshal (NewServer (Open 0) [])
    { JSONRPC := "2.0", ID := .num ⟨2, 0⟩, Method := "tools/call",
      Params := some (.obj [("name", .str "memory_store"),
                            ("arguments", .obj [("content", .str "hello")])]) }
    (Or.inr ⟨_, rfl⟩) (by decide)

/-- C3, as stated, fails: the catalog does not have 24 entries. -/
theorem GetToolDefinitions_length_ne_24 : GetToolDefinitions.length ≠ 24 := by decide

/-- C3, amended: `GetToolDefinitions` is a catalog of exactly 27 tool
definitions, and the subtests of `TestAllTools` call exactly these 27 tools,
each once. -/
theorem GetToolDefinitions_length_and_tests :
    GetToolDefinitions.length = 27 ∧
    List.Perm (GetToolDefinitions.map (fun d => d.Name)) TestAllTools := by
  refine ⟨by decide, ?_⟩
  decide

theorem HandleToolCall_unknown (db : DB) (name : String) (args : Args)
    (h : name ∉ GetToolDefinitions.map (fun d => d.Name)) :
    HandleToolCall db name args = (db, .error (.unknownTool name)) := by
  simp only [GetToolDefinitions, List.map_cons, List.map_nil, List.mem_cons, List.mem_singleton,
    not_or, List.not_mem_nil, not_false_eq_true, and_true] at h
  obtain ⟨h1, h2, h3, h4, h5, h6, h7, h8, h9, h10, h11, h12, h13, h14, h15, h16, h17, h18,
    h19, h20, h21, h22, h23, h24, h25, h26, h27⟩ := h
  simp only [HandleToolCall, h1, h2, h3, h4, h5, h6, h7, h8, h9, h10, h11, h12, h13, h14, h15,
    h16, h17, h18, h19, h20, h21, h22, h23, h24, h25, h26, h27, if_false]

/-- C4: a `tools/call` with a valid id whose params, if they decode at all,
name no tool of the catalog is answered by exactly one response, an error with
code -32602 and the id of the request and no result; the store is left as
it was. -/
theorem handleRequest_unknown_tool (u : List Nat → Except String Request) (m : Value → String)
    (s : Server) (req : Request)
    (hmethod : req.Method = "tools/call")
    (hid : (∃ v, req.ID = .str v ∧ v ≠ "") ∨ ∃ n, req.ID = .num n)
    (hname : ∀ params, unmarshalParams req.Params = .ok params →
      params.Name ∉ GetToolDefinitions.map (fun d => d.Name)) :
    ∃ message data, s.handleRequest (Runtime.shipped u m) req =
      ({ s with writer := s.writer ++
          [{ JSONRPC := "2.0", ID := req.ID, Result := none,
             Error := some { Code := -32602, Message := message, Data := data } }] }, none) := by
  have hv := (validateRequestID_iff req.ID).2 hid
  simp only [Server.handleRequest, hv, ite_self, hmethod]
  simp only [Server.handleToolsCall]
  cases hp : unmarshalParams req.Params with
  | error err => exact ⟨_, _, rfl⟩
  | ok params =>
    by_cases hn : params.Name = ""
    · simp only [hn, if_true]; exact ⟨_, _, rfl⟩
    · have hu := HandleToolCall_unknown s.db params.Name params.Arguments (hname params hp)
      simp only [hn, if_false, Runtime.shipped, hu, GoErr.isUnknownTool, if_true]
      exact ⟨_, _, rfl⟩

/-- C4, at the input of the spec: the tool `does_not_exist` called with id 2 and
no arguments. -/
theorem handleRequest_unknown_tool_witness :
    ∃ message data, (NewServer (Open 0) []).handleRequest
        (Runtime.shipped exampleUnmarshal exampleMarshal)
        { JSONRPC := "2.0", ID := .num ⟨2, 0⟩, Method := "tools/call",
          Params := some (.obj [("name", .str "does_not_exist"), ("arguments", .obj [])]) } =
      ({ NewServer (Open 0) [] with writer := (NewServer (Open 0) []).writer ++
          [{ JSONRPC := "2.0", ID := .num ⟨2, 0⟩, Result := none,
             Error := some { Code := -32602, Message := message, Data := data } }] }, none) :=
  handleRequest_unknown_tool exampleUnmarshal exampleMarshal (NewServer (Open 0) [])
    { JSONRPC := "2.0", ID := .num ⟨2, 0⟩, Method := "tools/call",
      Params := some (.obj [("name", .str "does_not_exist"), ("arguments", .obj [])]) }
    rfl (Or.inr ⟨_, rfl⟩)
    (by
      intro params hp
      have hdec : unmarshalParams
          (some (.obj [("name", .str "does_not_exist"), ("arguments", .obj [])])) =
          .ok ⟨"does_not_exist", []⟩ := rfl
      rw [hdec] at hp
      simp only [Except.ok.injEq] at hp
      rw [← hp]
      decide)

theorem getString_missing (args : Args) (key : String) (h : args.get key = none) :
    getString args key = "" := by
  simp [getString, h]

theorem getInt64_missing (args : Args) (key : String) (h : args.get key = none) :
    getInt64 args key = 0 := by
  simp [getInt64, h]

/-- Every required argument but the `value` of `metadata_set` is checked by its
handler before the store is touched. -/
theorem required_argument_checked (db : DB) (args : Args) (d : ToolDefinition)
    (hd : d ∈ GetToolDefinitions) (a : String) (ha : a ∈ d.InputSchema.required)
    (hne : ¬ (d.Name = "metadata_set" ∧ a = "value")) (hmiss : args.get a = none) :
    ∃ what, HandleToolCall db d.Name args = (db, .error (required what)) := by
  have hs := getString_missing args a hmiss
  have hi := getInt64_missing args a hmiss
  simp only [GetToolDefinitions, List.mem_cons, List.mem_singleton, List.not_mem_nil,
    or_false] at hd
  rcases hd with rfl | rfl | rfl | rfl | rfl | rfl | rfl | rfl | rfl | rfl | rfl | rfl | rfl |
    rfl | rfl | rfl | rfl | rfl | rfl | rfl | rfl | rfl | rfl | rfl | rfl | rfl | rfl <;>
  simp only [List.mem_cons, List.mem_singleton, List.not_mem_nil, or_false] at ha <;>
  (try (rcases ha with rfl | rfl | rfl)) <;>
  (try (simp at hne)) <;>
  simp only [HandleToolCall, handleMemoryStore, handleMemoryDelete, handleTaskCreate,
    handleTaskUpdate, handleTaskDelete, handleMetadataSet, handleMetadataGet,
    handleMetadataDelete, handleFiletreeAnnotate, handleFiletreeDelete, handleGuidelineCreate,
    handleGuidelineUpdate, handleGuidelineSearch, handleGuidelineGet, handleGuidelineDelete,
    handleProjectCreate, handleProjectSetDefault, handleBookmarkCreate, handleBookmarkDelete,
    hs, hi] <;>
  simp <;>
  (try split_ifs) <;>
  exact ⟨_, rfl⟩

/-- C2 (defect of the code): the schema of `metadata_set` lists `key` and `value`
as required, yet a call with id 1 that gives `key` and omits `value` is answered
with `isError` false, and the store gains the row with the empty value. The
claim asks for `isError` true. -/
theorem metadata_set_without_value :
    (GetToolDefinitions.find? (fun d => d.Name == "metadata_set")).map
        (fun d => d.InputSchema.required) = some ["key", "value"] ∧
    (NewServer (Open 0) []).handleRequest exampleRuntime
        (toolsCall (.num ⟨1, 0⟩) "metadata_set" [("key", .str "k")]) =
      ((NewServer (Open 0) []).answered
          { Open 0 with metadata := [{ ID := 1, ProjectID := 1, Key := "k", Value := "" }] }
          (toolsCall (.num ⟨1, 0⟩) "metadata_set" [("key", .str "k")]) "record" false,
        none) :=
  ⟨by decide, rfl⟩

theorem handleRequest_tool_ok (u : List Nat → Except String Request) (m : Value → String)
    (s : Server) (req : Request) (name : String) (args : Args) (db1 : DB) (v : Value)
    (hmethod : req.Method = "tools/call")
    (hid : (∃ v, req.ID = .str v ∧ v ≠ "") ∨ ∃ n, req.ID = .num n)
    (hparams : unmarshalParams req.Params = .ok ⟨name, args⟩) (hname : name ≠ "")
    (h : HandleToolCall s.db name args = (db1, .ok v)) :
    s.handleRequest (Runtime.shipped u m) req = (s.answered db1 req (m v) false, none) := by
  have hv := (validateRequestID_iff req.ID).2 hid
  simp only [Server.handleRequest, hv, ite_self, hmethod]
  simp [Server.handleToolsCall, hparams, hname, Runtime.shipped, h, Server.answered,
    Server.sendResult, Server.send]

theorem handleRequest_tool_err (u : List Nat → Except String Request) (m : Value → String)
    (s : Server) (req : Request) (name : String) (args : Args) (db1 : DB) (e : GoErr)
    (hmethod : req.Method = "tools/call")
    (hid : (∃ v, req.ID = .str v ∧ v ≠ "") ∨ ∃ n, req.ID = .num n)
    (hparams : unmarshalParams req.Params = .ok ⟨name, args⟩) (hname : name ≠ "")
    (h : HandleToolCall s.db name args = (db1, .error e)) (hk : e.isUnknownTool = false) :
    s.handleRequest (Runtime.shipped u m) req =
      (s.answered db1 req ("Error: " ++ e.Error) true, none) := by
  have hv := (validateRequestID_iff req.ID).2 hid
  simp only [Server.handleRequest, hv, ite_self, hmethod]
  simp [Server.handleToolsCall, hparams, hname, Runtime.shipped, h, hk, Server.answered,
    Server.sendResult, Server.send]

theorem DeleteMemory_absent (db : DB) (id : Int) (h : ∀ x ∈ db.memories, x.ID ≠ id) :
    db.DeleteMemory id = (db, none) := by
  have : db.memories.filter (fun m => !(m.ID == id)) = db.memories :=
    List.filter_eq_self.2 (fun x hx => by simpa using h x hx)
  simp [DB.DeleteMemory, this]

theorem DeleteGuideline_absent (db : DB) (id : Int) (h : ∀ x ∈ db.guidelines, x.ID ≠ id) :
    db.DeleteGuideline id = (db, none) := by
  have : db.guidelines.filter (fun m => !(m.ID == id)) = db.guidelines :=
    List.filter_eq_self.2 (fun x hx => by simpa using h x hx)
  simp [DB.DeleteGuideline, this]

theorem DeleteBookmark_absent (db : DB) (id : Int) (h : ∀ x ∈ db.bookmarks, x.ID ≠ id) :
    db.DeleteBookmark id = (db, none) := by
  have : db.bookmarks.filter (fun m => !(m.ID == id)) = db.bookmarks :=
    List.filter_eq_self.2 (fun x hx => by simpa using h x hx)
  simp [DB.DeleteBookmark, this]

theorem deleteTasks_none (rows : List Task) (goes : Task → Bool)
    (h : ∀ t ∈ rows, goes t = false) : deleteTasks rows goes = .ok rows := by
  have h1 : rows.filter goes = [] := List.filter_eq_nil_iff.2 (fun t ht => by simp [h t ht])
  have h2 : rows.filter (fun t => !goes t) = rows :=
    List.filter_eq_self.2 (fun t ht => by simp [h t ht])
  simp [deleteTasks, h1, h2, refersTo]
  intro t _
  cases t.ParentID <;> simp

theorem DeleteTask_absent (db : DB) (id : Int)
    (h : ∀ t ∈ db.tasks, t.ID ≠ id ∧ t.ParentID ≠ some id) :
    db.DeleteTask id = (db, none) := by
  have h1 := deleteTasks_none db.tasks (fun t => t.ParentID == some id)
    (fun t ht => by simpa using (h t ht).2)
  have h2 := deleteTasks_none db.tasks (fun t => t.ID == id)
    (fun t ht => by simpa using (h t ht).1)
  simp [DB.DeleteTask, h1, h2]

theorem GetGuideline_absent (db : DB) (id : Int) (h : ∀ x ∈ db.guidelines, x.ID ≠ id) :
    db.GetGuideline id = .error .ErrNoRows := by
  have : db.guidelines.find? (fun g => g.ID == id) = none :=
    List.find?_eq_none.2 (fun x hx => by simpa using h x hx)
  simp [DB.GetGuideline, this]

theorem UpdateTask_absent (db : DB) (id : Int) (title description status : Option String)
    (priority : Option Int) (h : ∀ t ∈ db.tasks, t.ID ≠ id) :
    db.UpdateTask id title description status priority = (db, .error .ErrNoRows) := by
  have hfind : db.tasks.find? (fun t => t.ID == id) = none :=
    List.find?_eq_none.2 (fun x hx => by simpa using h x hx)
  have hmap : db.tasks.map (fun t =>
      if t.ID == id then
        { t with Title := title.getD t.Title, Description := description.getD t.Description,
                 Status := status.getD t.Status, Priority := priority.getD t.Priority,
                 UpdatedAt := db.now }
      else t) = db.tasks := by
    conv_rhs => rw [← List.map_id db.tasks]
    apply List.map_congr_left
    intro t ht
    have : (t.ID == id) = false := by simpa using h t ht
    simp [this]
  unfold DB.UpdateTask
  split_ifs
  · simp [DB.GetTask, hfind]
  · simp only [hmap, DB.GetTask, hfind]

theorem UpdateGuideline_absent (db : DB) (id : Int) (content : Option String)
    (tags : Option (List String)) (priority : Option Int)
    (h : ∀ g ∈ db.guidelines, g.ID ≠ id) :
    db.UpdateGuideline id content tags priority = (db, .error .ErrNoRows) := by
  have hfind : db.guidelines.find? (fun g => g.ID == id) = none :=
    List.find?_eq_none.2 (fun x hx => by simpa using h x hx)
  have hmap : db.guidelines.map (fun g =>
      if g.ID == id then
        { g with Content := content.getD g.Content,
                 Tags := (match tags with
                          | some ts => some ts
                          | none => g.Tags),
                 Priority := priority.getD g.Priority, UpdatedAt := db.now }
      else g) = db.guidelines := by
    conv_rhs => rw [← List.map_id db.guidelines]
    apply List.map_congr_left
    intro g hg
    have : (g.ID == id) = false := by simpa using h g hg
    simp [this]
  unfold DB.UpdateGuideline
  split_ifs
  · simp [DB.GetGuideline, hfind]
  · simp only [hmap, DB.GetGuideline, hfind]

theorem DeleteMetadata_absent (db : DB) (projectID : Option Int) (key : String)
    (h : ∀ x ∈ db.metadata, ¬ (x.ProjectID = db.GetProjectID projectID ∧ x.Key = key)) :
    db.DeleteMetadata projectID key = (db, none) := by
  have hf : db.metadata.filter
      (fun m => !(m.ProjectID == db.GetProjectID projectID && m.Key == key)) = db.metadata := by
    rw [List.filter_eq_self]
    intro x hx
    have hx2 := h x hx
    simp only [Bool.not_eq_true', Bool.and_eq_false_iff, beq_eq_false_iff_ne, ne_eq]
    exact not_and_or.1 hx2
  simp only [DB.DeleteMetadata, hf]

theorem DeleteFileAnnotation_absent (db : DB) (projectID : Option Int) (path : String)
    (h : ∀ x ∈ db.filetree, ¬ (x.ProjectID = db.GetProjectID projectID ∧ x.Path = path)) :
    db.DeleteFileAnnotation projectID path = (db, none) := by
  have hf : db.filetree.filter
      (fun f => !(f.ProjectID == db.GetProjectID projectID && f.Path == path)) = db.filetree := by
    rw [List.filter_eq_self]
    intro x hx
    have hx2 := h x hx
    simp only [Bool.not_eq_true', Bool.and_eq_false_iff, beq_eq_false_iff_ne, ne_eq]
    exact not_and_or.1 hx2
  simp only [DB.DeleteFileAnnotation, hf]

/-- C10, as stated, fails: `memory_delete` with id 5, which no memory of the
fresh store has, is answered with `isError` false. -/
theorem memory_delete_missing_not_error :
    (NewServer (Open 0) []).handleRequest exampleRuntime
        (toolsCall (.num ⟨1, 0⟩) "memory_delete" [("id", .num ⟨5, 0⟩)]) =
      ((NewServer (Open 0) []).answered (Open 0)
          (toolsCall (.num ⟨1, 0⟩) "memory_delete" [("id", .num ⟨5, 0⟩)]) "deleted" false,
        none) := rfl

/-- C10, amended: a call that targets one record, by id, key or path, and
finds none is always answered by a result envelope carrying the id of the
request, but `isError` depends on the tool. `guideline_get`, and likewise
`task_update` and `guideline_update`, with an id no record has are answered with
`isError` true, the text being `Error: ` followed by the text of
`sql.ErrNoRows`. `memory_delete`, `task_delete`, `guideline_delete` and
`bookmark_delete` with an id no record has (for a task: no task has it or names
it as parent) are answered with `isError` false and the tool result
`deleted: true` with the id; so are `metadata_delete` and `filetree_delete`
with a key or path the acting project does not have. `metadata_get` with a key
the acting project does not have is answered with `isError` false and the key
with a null value; `filetree_get` with a path the acting project does not have
is answered with `isError` false and a null annotation. The store is left
as it was, but for the project of a `project` slug, which the metadata and
filetree tools make when it was not there. -/
theorem missing_record_answers (u : List Nat → Except String Request) (m : Value → String)
    (s : Server) (req : Request) (args : Args)
    (hmethod : req.Method = "tools/call")
    (hid : (∃ v, req.ID = .str v ∧ v ≠ "") ∨ ∃ n, req.ID = .num n) :
    (unmarshalParams req.Params = .ok ⟨"memory_delete", args⟩ → getInt64 args "id" ≠ 0 →
      (∀ x ∈ s.db.memories, x.ID ≠ getInt64 args "id") →
      s.handleRequest (Runtime.shipped u m) req =
        (s.answered s.db req (m (.deletedID (getInt64 args "id"))) false, none)) ∧
    (unmarshalParams req.Params = .ok ⟨"task_delete", args⟩ → getInt64 args "id" ≠ 0 →
      (∀ t ∈ s.db.tasks, t.ID ≠ getInt64 args "id" ∧ t.ParentID ≠ some (getInt64 args "id")) →
      s.handleRequest (Runtime.shipped u m) req =
        (s.answered s.db req (m (.deletedID (getInt64 args "id"))) false, none)) ∧
    (unmarshalParams req.Params = .ok ⟨"guideline_delete", args⟩ → getInt64 args "id" ≠ 0 →
      (∀ x ∈ s.db.guidelines, x.ID ≠ getInt64 args "id") →
      s.handleRequest (Runtime.shipped u m) req =
        (s.answered s.db req (m (.deletedID (getInt64 args "id"))) false, none)) ∧
    (unmarshalParams req.Params = .ok ⟨"bookmark_delete", args⟩ → getInt64 args "id" ≠ 0 →
      (∀ x ∈ s.db.bookmarks, x.ID ≠ getInt64 args "id") →
      s.handleRequest (Runtime.shipped u m) req =
        (s.answered s.db req (m (.deletedID (getInt64 args "id"))) false, none)) ∧
    (unmarshalParams req.Params = .ok ⟨"guideline_get", args⟩ → getInt64 args "id" ≠ 0 →
      (∀ x ∈ s.db.guidelines, x.ID ≠ getInt64 args "id") →
      s.handleRequest (Runtime.shipped u m) req =
        (s.answered s.db req "Error: sql: no rows in result set" true, none)) ∧
    (unmarshalParams req.Params = .ok ⟨"metadata_get", args⟩ → getString args "key" ≠ "" →
      (∀ x ∈ (getProjectID s.db args).1.metadata,
        ¬ (x.ProjectID = (getProjectID s.db args).1.GetProjectID (getProjectID s.db args).2 ∧
           x.Key = getString args "key")) →
      s.handleRequest (Runtime.shipped u m) req =
        (s.answered (getProjectID s.db args).1 req
          (m (.keyWithoutValue (getString args "key"))) false, none)) ∧
    (unmarshalParams req.Params = .ok ⟨"filetree_get", args⟩ → getString args "path" ≠ "" →
      (∀ x ∈ (getProjectID s.db args).1.filetree,
        ¬ (x.ProjectID = (getProjectID s.db args).1.GetProjectID (getProjectID s.db args).2 ∧
           x.Path = getString args "path")) →
      s.handleRequest (Runtime.shipped u m) req =
        (s.answered (getProjectID s.db args).1 req (m (.fileNote none)) false, none)) ∧
    (unmarshalParams req.Params = .ok ⟨"task_update", args⟩ → getInt64 args "id" ≠ 0 →
      (∀ t ∈ s.db.tasks, t.ID ≠ getInt64 args "id") →
      s.handleRequest (Runtime.shipped u m) req =
        (s.answered s.db req "Error: sql: no rows in result set" true, none)) ∧
    (unmarshalParams req.Params = .ok ⟨"guideline_update", args⟩ → getInt64 args "id" ≠ 0 →
      (∀ x ∈ s.db.guidelines, x.ID ≠ getInt64 args "id") →
      s.handleRequest (Runtime.shipped u m) req =
        (s.answered s.db req "Error: sql: no rows in result set" true, none)) ∧
    (unmarshalParams req.Params = .ok ⟨"metadata_delete", args⟩ → getString args "key" ≠ "" →
      (∀ x ∈ (getProjectID s.db args).1.metadata,
        ¬ (x.ProjectID = (getProjectID s.db args).1.GetProjectID (getProjectID s.db args).2 ∧
           x.Key = getString args "key")) →
      s.handleRequest (Runtime.shipped u m) req =
        (s.answered (getProjectID s.db args).1 req
          (m (.deletedKey (getString args "key"))) false, none)) ∧
    (unmarshalParams req.Params = .ok ⟨"filetree_delete", args⟩ → getString args "path" ≠ "" →
      (∀ x ∈ (getProjectID s.db args).1.filetree,
        ¬ (x.ProjectID = (getProjectID s.db args).1.GetProjectID (getProjectID s.db args).2 ∧
           x.Path = getString args "path")) →
      s.handleRequest (Runtime.shipped u m) req =
        (s.answered (getProjectID s.db args).1 req
          (m (.deletedPath (getString args "path"))) false, none)) := by
  refine ⟨?_, ?_, ?_, ?_, ?_, ?_, ?_, ?_, ?_, ?_, ?_⟩
  · intro hp h0 habs
    refine handleRequest_tool_ok u m s req _ args _ _ hmethod hid hp (by decide) ?_
    simp [HandleToolCall, handleMemoryDelete, h0, DeleteMemory_absent _ _ habs, afterDelete]
  · intro hp h0 habs
    refine handleRequest_tool_ok u m s req _ args _ _ hmethod hid hp (by decide) ?_
    simp [HandleToolCall, handleTaskDelete, h0, DeleteTask_absent _ _ habs, afterDelete]
  · intro hp h0 habs
    refine handleRequest_tool_ok u m s req _ args _ _ hmethod hid hp (by decide) ?_
    simp [HandleToolCall, handleGuidelineDelete, h0, DeleteGuideline_absent _ _ habs,
      afterDelete]
  · intro hp h0 habs
    refine handleRequest_tool_ok u m s req _ args _ _ hmethod hid hp (by decide) ?_
    simp [HandleToolCall, handleBookmarkDelete, h0, DeleteBookmark_absent _ _ habs, afterDelete]
  · intro hp h0 habs
    have := handleRequest_tool_err u m s req _ args s.db .ErrNoRows hmethod hid hp (by decide)
      (by simp [HandleToolCall, handleGuidelineGet, h0, GetGuideline_absent _ _ habs, passOn,
            Except.map])
      rfl
    simpa [GoErr.Error] using this
  · intro hp h0 habs
    refine handleRequest_tool_ok u m s req _ args _ _ hmethod hid hp (by decide) ?_
    have hf : (getProjectID s.db args).1.metadata.find?
        (fun x => x.ProjectID == (getProjectID s.db args).1.GetProjectID (getProjectID s.db args).2
          && x.Key == getString args "key") = none :=
      List.find?_eq_none.2 (fun x hx => by simpa using habs x hx)
    simp [HandleToolCall, handleMetadataGet, h0, DB.GetMetadata, hf]
  · intro hp h0 habs
    refine handleRequest_tool_ok u m s req _ args _ _ hmethod hid hp (by decide) ?_
    have hf : (getProjectID s.db args).1.filetree.find?
        (fun x => x.ProjectID == (getProjectID s.db args).1.GetProjectID (getProjectID s.db args).2
          && x.Path == getString args "path") = none :=
      List.find?_eq_none.2 (fun x hx => by simpa using habs x hx)
    simp [HandleToolCall, handleFiletreeGet, h0, DB.GetFileAnnotation, hf, passOn, Except.map]
  · intro hp h0 habs
    have := handleRequest_tool_err u m s req _ args s.db .ErrNoRows hmethod hid hp (by decide)
      (by simp [HandleToolCall, handleTaskUpdate, h0, UpdateTask_absent _ _ _ _ _ _ habs, passOn,
            Except.map])
      rfl
    simpa [GoErr.Error] using this
  · intro hp h0 habs
    have := handleRequest_tool_err u m s req _ args s.db .ErrNoRows hmethod hid hp (by decide)
      (by simp [HandleToolCall, handleGuidelineUpdate, h0,
            UpdateGuideline_absent _ _ _ _ _ habs, passOn, Except.map])
      rfl
    simpa [GoErr.Error] using this
  · intro hp h0 habs
    refine handleRequest_tool_ok u m s req _ args _ _ hmethod hid hp (by decide) ?_
    simp [HandleToolCall, handleMetadataDelete, h0, DeleteMetadata_absent _ _ _ habs,
      afterDelete]
  · intro hp h0 habs
    refine handleRequest_tool_ok u m s req _ args _ _ hmethod hid hp (by decide) ?_
    simp [HandleToolCall, handleFiletreeDelete, h0, DeleteFileAnnotation_absent _ _ _ habs,
      afterDelete]

/-- C10 amended, at an input: `guideline_get` with id 7 on the fresh store. -/
theorem missing_record_answers_witness :
    (NewServer (Open 0) []).handleRequest (Runtime.shipped exampleUnmarshal exampleMarshal)
        (toolsCall (.num ⟨1, 0⟩) "guideline_get" [("id", .num ⟨7, 0⟩)]) =
      ((NewServer (Open 0) []).answered (Open 0)
          (toolsCall (.num ⟨1, 0⟩) "guideline_get" [("id", .num ⟨7, 0⟩)])
          "Error: sql: no rows in result set" true, none) :=
  (missing_record_answers exampleUnmarshal exampleMarshal (NewServer (Open 0) [])
    (toolsCall (.num ⟨1, 0⟩) "guideline_get" [("id", .num ⟨7, 0⟩)]) [("id", .num ⟨7, 0⟩)]
    rfl (Or.inr ⟨_, rfl⟩)).2.2.2.2.1 rfl (by decide) (by simp [NewServer, Open])

/-- C11: a `tools/call` with a valid id whose params name a tool and whose
handler returns the value `v` without error is answered by exactly one
response: a result with no error object and the id of the request, whose
`isError` is false and whose content is the single text item holding
`json.Marshal` of `v`; the store is the one the handler left. -/
theorem handleRequest_tool_success (u : List Nat → Except String Request) (m : Value → String)
    (s : Server) (req : Request) (name : String) (args : Args) (db1 : DB) (v : Value)
    (hmethod : req.Method = "tools/call")
    (hid : (∃ v, req.ID = .str v ∧ v ≠ "") ∨ ∃ n, req.ID = .num n)
    (hparams : unmarshalParams req.Params = .ok ⟨name, args⟩) (hname : name ≠ "")
    (hcall : HandleToolCall s.db name args = (db1, .ok v)) :
    s.handleRequest (Runtime.shipped u m) req =
      ({ db := db1, reader := s.reader,
         writer := s.writer ++
          [{ JSONRPC := "2.0", ID := req.ID,
             Result := some (.content (m v) false), Error := none }] }, none) :=
  handleRequest_tool_ok u m s req name args db1 v hmethod hid hparams hname hcall

/-- C11, at the input of the spec: `memory_store` of the content `hello`, here
with id 2, on the fresh store. -/
theorem handleRequest_tool_success_witness :
    (NewServer (Open 0) []).handleRequest (Runtime.shipped exampleUnmarshal exampleMarshal)
        (toolsCall (.num ⟨2, 0⟩) "memory_store" [("content", .str "hello")]) =
      ({ db := { Open 0 with memories :=
                  [{ ID := 1, ProjectID := 1, Content := "hello", Keywords := none,
                     CreatedAt := 0, UpdatedAt := 0 }] },
         reader := (NewServer (Open 0) []).reader,
         writer := (NewServer (Open 0) []).writer ++
          [{ JSONRPC := "2.0", ID := .num ⟨2, 0⟩,
             Result := some (.content "record" false), Error := none }] }, none) :=
  handleRequest_tool_success exampleUnmarshal exampleMarshal (NewServer (Open 0) [])
    (toolsCall (.num ⟨2, 0⟩) "memory_store" [("content", .str "hello")]) "memory_store"
    [("content", .str "hello")] _ _ rfl (Or.inr ⟨_, rfl⟩) rfl (by decide) rfl

theorem saveError_err (st : ParamsState) (e : String) : (st.saveError e).err ≠ none := by
  unfold ParamsState.saveError
  split
  · next e2 h => rw [h]; simp
  · simp

theorem saveError_name (st : ParamsState) (e : String) : (st.saveError e).Name = st.Name := by
  unfold ParamsState.saveError
  split <;> rfl

theorem decodeMember_err (st : ParamsState) (member : String × JVal) (h : st.err ≠ none) :
    (decodeMember st member).err ≠ none := by
  unfold decodeMember
  split_ifs
  · split
    · exact h
    · exact h
    · exact saveError_err _ _
  · split
    · exact h
    · exact h
    · exact saveError_err _ _
  · exact h

theorem foldl_decodeMember_err (members : List (String × JVal)) :
    ∀ st : ParamsState, st.err ≠ none → (members.foldl decodeMember st).err ≠ none := by
  induction members with
  | nil => intro st h; exact h
  | cons mb rest ih => intro st h; exact ih _ (decodeMember_err st mb h)

theorem foldl_decodeMember_name (members : List (String × JVal))
    (hm : ∀ mb ∈ members, keyMatches "name" mb.1 = true → ∀ n, mb.2 = .str n → n = "") :
    ∀ st : ParamsState, st.Name = "" → (members.foldl decodeMember st).Name = "" := by
  induction members with
  | nil => intro st h; exact h
  | cons mb rest ih =>
    intro st h
    refine ih (fun x hx => hm x (List.mem_cons_of_mem _ hx)) _ ?_
    unfold decodeMember
    split_ifs with h1 h2
    · split
      · exact h
      · next n hn => exact hm mb (List.mem_cons_self _ _) h1 n hn
      · rw [saveError_name]; exact h
    · split
      · exact h
      · exact h
      · rw [saveError_name]; exact h
    · exact h

theorem foldl_decodeMember_bad (members : List (String × JVal))
    (hbad : ∃ mb ∈ members,
      (keyMatches "name" mb.1 = true ∧ mb.2 ≠ .null ∧ ∀ n, mb.2 ≠ .str n) ∨
      (keyMatches "name" mb.1 = false ∧ keyMatches "arguments" mb.1 = true ∧
        mb.2 ≠ .null ∧ ∀ a, mb.2 ≠ .obj a)) :
    ∀ st : ParamsState, (members.foldl decodeMember st).err ≠ none := by
  induction members with
  | nil => obtain ⟨mb, hmb, _⟩ := hbad; simp at hmb
  | cons x rest ih =>
    intro st
    obtain ⟨mb, hmb, hcase⟩ := hbad
    rcases List.mem_cons.1 hmb with rfl | hin
    · simp only [List.foldl_cons]
      apply foldl_decodeMember_err rest
      obtain ⟨k, v⟩ := mb
      unfold decodeMember
      rcases hcase with ⟨h1, h2, h3⟩ | ⟨h1, h2, h3, h4⟩
      · simp only at h1 h2 h3
        simp only [h1, if_true]
        cases v with
        | null => exact absurd rfl h2
        | str n => exact absurd rfl (h3 n)
        | bool b => exact saveError_err _ _
        | num n => exact saveError_err _ _
        | arr items => exact saveError_err _ _
        | obj a => exact saveError_err _ _
      · simp only at h1 h2 h3 h4
        simp only [h1, h2, Bool.false_eq_true, if_false, if_true]
        cases v with
        | null => exact absurd rfl h3
        | obj a => exact absurd rfl (h4 a)
        | bool b => exact saveError_err _ _
        | num n => exact saveError_err _ _
        | arr items => exact saveError_err _ _
        | str n => exact saveError_err _ _
    · exact ih ⟨mb, hin, hcase⟩ _

/-- The decoder on the params of a call whose key is written `Name`: the key
matches the field `name`, so the call names the tool `memory_store`; and of
two members `name` the last one counts. -/
theorem unmarshalParams_folds_keys :
    unmarshalParams (some (.obj [("Name", .str "memory_store"),
        ("arguments", .obj [("content", .str "hi")])])) =
      .ok ⟨"memory_store", [("content", .str "hi")]⟩ ∧
    unmarshalParams (some (.obj [("name", .str "memory_store"), ("name", .str "task_list")])) =
      .ok ⟨"task_list", []⟩ ∧
    getString [("content", .str "first"), ("content", .str "last")] "content" = "last" :=
  ⟨rfl, rfl, rfl⟩

/-- C17: a `tools/call` with a valid id whose params are absent, do not decode
into the struct of `name` and `arguments`, or decode with an empty name is
answered by exactly one response, the error -32602 with the id of the
request; the router is not called, whatever the runtime, and the store is left
as it was. The params do not decode when they are absent, when they are a
boolean, a number, a string or an array, and when they are an object in which
a member for `name` is neither a string nor `null` or a member for `arguments` is
neither an object nor `null`. They decode with an empty name when they are
`null`, and when they are an object in which every member for `name` is `null` or
the empty string, as when there is none. A member is for a field when its key
is the name of the field up to the case of its letters. -/
theorem handleRequest_bad_params (rt : Runtime) (s : Server) (req : Request)
    (hmethod : req.Method = "tools/call")
    (hid : (∃ v, req.ID = .str v ∧ v ≠ "") ∨ ∃ n, req.ID = .num n)
    (hbad : ∀ params, unmarshalParams req.Params = .ok params → params.Name = "") :
    (∃ data, s.handleRequest rt req =
      ({ s with writer := s.writer ++
          [{ JSONRPC := "2.0", ID := req.ID, Result := none,
             Error := some { Code := -32602, Message := "Invalid params", Data := data } }] },
        none)) ∧
    (∀ params, unmarshalParams none ≠ .ok params) ∧
    (∀ b params, unmarshalParams (some (.bool b)) ≠ .ok params) ∧
    (∀ n params, unmarshalParams (some (.num n)) ≠ .ok params) ∧
    (∀ t params, unmarshalParams (some (.str t)) ≠ .ok params) ∧
    (∀ items params, unmarshalParams (some (.arr items)) ≠ .ok params) ∧
    (∀ params, unmarshalParams (some .null) = .ok params → params.Name = "") ∧
    (∀ members params,
      (∃ mb ∈ members,
        (keyMatches "name" mb.1 = true ∧ mb.2 ≠ .null ∧ ∀ n, mb.2 ≠ .str n) ∨
        (keyMatches "name" mb.1 = false ∧ keyMatches "arguments" mb.1 = true ∧
          mb.2 ≠ .null ∧ ∀ a, mb.2 ≠ .obj a)) →
      unmarshalParams (some (.obj members)) ≠ .ok params) ∧
    (∀ members params,
      (∀ mb ∈ members, keyMatches "name" mb.1 = true → ∀ n, mb.2 = .str n → n = "") →
      unmarshalParams (some (.obj members)) = .ok params → params.Name = "") := by
  have hv := (validateRequestID_iff req.ID).2 hid
  refine ⟨?_, ?_, ?_, ?_, ?_, ?_, ?_, ?_, ?_⟩
  · simp only [Server.handleRequest, hv, ite_self, hmethod]
    simp only [Server.handleToolsCall]
    cases hp : unmarshalParams req.Params with
    | error err => exact ⟨_, rfl⟩
    | ok params =>
      simp only [hbad params hp, if_true]
      exact ⟨_, rfl⟩
  · intro params; simp [unmarshalParams]
  · intro b params; simp [unmarshalParams]
  · intro n params; simp [unmarshalParams]
  · intro t params; simp [unmarshalParams]
  · intro items params; simp [unmarshalParams]
  · intro params h
    simp only [unmarshalParams, Except.ok.injEq] at h
    rw [← h]
  · intro members params hb h
    have herr := foldl_decodeMember_bad members hb { Name := "", Arguments := [], err := none }
    simp only [unmarshalParams] at h
    split at h
    · simp at h
    · next hnone => exact herr hnone
  · intro members params hm h
    have hname := foldl_decodeMember_name members hm
      { Name := "", Arguments := [], err := none } rfl
    simp only [unmarshalParams] at h
    split at h
    · simp at h
    · simp only [Except.ok.injEq] at h
      rw [← h]
      exact hname

/-- C17, at an input: a `tools/call` with id 1 and no params, under the
runtime whose router would panic if it were called. -/
theorem handleRequest_bad_params_witness :
    ∃ data, (NewServer (Open 0) []).handleRequest panickingRuntime
        { JSONRPC := "2.0", ID := .num ⟨1, 0⟩, Method := "tools/call", Params := none } =
      ({ NewServer (Open 0) [] with writer := (NewServer (Open 0) []).writer ++
          [{ JSONRPC := "2.0", ID := .num ⟨1, 0⟩, Result := none,
             Error := some { Code := -32602, Message := "Invalid params", Data := data } }] },
        none) :=
  (handleRequest_bad_params panickingRuntime (NewServer (Open 0) [])
    { JSONRPC := "2.0", ID := .num ⟨1, 0⟩, Method := "tools/call", Params := none }
    rfl (Or.inr ⟨_, rfl⟩) (by intro params h; simp [unmarshalParams] at h)).1

/-- C18: a request with a valid id whose method is none of `initialize`,
`tools/list`, `tools/call` and `notifications/initialized` is answered by exactly
one response, the error -32601 with the id of the request and the method
string as data; the store is left as it was and nothing is dispatched. -/
theorem handleRequest_method_not_found (rt : Runtime) (s : Server) (req : Request)
    (hid : (∃ v, req.ID = .str v ∧ v ≠ "") ∨ ∃ n, req.ID = .num n)
    (h1 : req.Method ≠ "initialize") (h2 : req.Method ≠ "tools/list")
    (h3 : req.Method ≠ "tools/call") (h4 : req.Method ≠ "notifications/initialized") :
    s.handleRequest rt req =
      ({ s with writer := s.writer ++
          [{ JSONRPC := "2.0", ID := req.ID, Result := none,
             Error := some { Code := -32601, Message := "Method not found",
                             Data := req.Method } }] }, none) := by
  have hv := (validateRequestID_iff req.ID).2 hid
  simp only [Server.handleRequest, hv, ite_self, h1, h2, h3, h4, if_false]
  rfl

/-- C18, at an input: the method `resources/list` with the id `a`. -/
theorem handleRequest_method_not_found_witness :
    (NewServer (Open 0) []).handleRequest exampleRuntime
        { JSONRPC := "2.0", ID := .str "a", Method := "resources/list", Params := none } =
      ({ NewServer (Open 0) [] with writer := (NewServer (Open 0) []).writer ++
          [{ JSONRPC := "2.0", ID := .str "a", Result := none,
             Error := some { Code := -32601, Message := "Method not found",
                             Data := "resources/list" } }] }, none) :=
  handleRequest_method_not_found exampleRuntime (NewServer (Open 0) [])
    { JSONRPC := "2.0", ID := .str "a", Method := "resources/list", Params := none }
    (Or.inl ⟨_, rfl, by decide⟩) (by decide) (by decide) (by decide) (by decide)

theorem le_foldl_max (ids : List Int) : ∀ a : Int, a ≤ ids.foldl max a := by
  induction ids with
  | nil => intro a; simp
  | cons x xs ih => intro a; exact le_trans (le_max_left a x) (ih (max a x))

theorem mem_le_foldl_max (ids : List Int) : ∀ (a x : Int), x ∈ ids → x ≤ ids.foldl max a := by
  induction ids with
  | nil => intro a x h; simp at h
  | cons y ys ih =>
    intro a x h
    rcases List.mem_cons.1 h with rfl | h
    · exact le_trans (le_max_right a x) (le_foldl_max ys (max a x))
    · exact ih (max a y) x h

theorem nextID_pos (ids : List Int) : 0 < nextID ids := by
  have := le_foldl_max ids 0
  unfold nextID; omega

theorem lt_nextID (ids : List Int) (x : Int) (h : x ∈ ids) : x < nextID ids := by
  have := mem_le_foldl_max ids 0 x h
  unfold nextID; omega

theorem GetOrCreateProject_existing (db : DB) (slug : String)
    (h : ∃ p ∈ db.projects, p.Slug = slug) :
    ∃ p ∈ db.projects, p.Slug = slug ∧ db.GetOrCreateProject slug = (db, .ok p) := by
  obtain ⟨q, hq, hs⟩ := h
  cases hf : db.projects.find? (fun p => p.Slug == slug) with
  | none =>
    have := List.find?_eq_none.1 hf q hq
    simp [hs] at this
  | some p =>
    refine ⟨p, List.mem_of_find?_eq_some hf, ?_, ?_⟩
    · simpa using List.find?_some hf
    · simp [DB.GetOrCreateProject, DB.GetProjectBySlug, hf]

theorem GetOrCreateProject_new (db : DB) (slug : String)
    (h : ∀ p ∈ db.projects, p.Slug ≠ slug) :
    db.GetOrCreateProject slug =
      ({ db with projects := db.projects ++
          [{ ID := nextID (db.projects.map (fun p => p.ID)), Slug := slug, Name := "",
             RootPath := "", CreatedAt := db.now }] },
       .ok { ID := nextID (db.projects.map (fun p => p.ID)), Slug := slug, Name := "",
             RootPath := "", CreatedAt := db.now }) := by
  have hf : db.projects.find? (fun p => p.Slug == slug) = none :=
    List.find?_eq_none.2 (fun p hp => by simpa using h p hp)
  have hany : db.projects.any (fun p => p.Slug == slug) = false := by
    simpa using h
  have hid : db.projects.find? (fun p => p.ID == nextID (db.projects.map (fun p => p.ID))) = none :=
    List.find?_eq_none.2 (fun p hp => by
      have := lt_nextID (db.projects.map (fun p => p.ID)) p.ID (List.mem_map_of_mem _ hp)
      simp; omega)
  simp [DB.GetOrCreateProject, DB.GetProjectBySlug, hf, DB.CreateProject, hany,
    DB.GetProjectByID, List.find?_append, hid]

theorem getProjectID_cases (db : DB) (args : Args) (hpos : ∀ p ∈ db.projects, 0 < p.ID) :
    (getString args "project" ≠ "" →
      ((∃ p ∈ db.projects, p.Slug = getString args "project") →
        (getProjectID db args).1 = db ∧
        ∃ p ∈ db.projects, p.Slug = getString args "project" ∧ actingProject db args = p.ID) ∧
      ((∀ p ∈ db.projects, p.Slug ≠ getString args "project") →
        (getProjectID db args).1 =
          { db with projects := db.projects ++
              [{ ID := nextID (db.projects.map (fun p => p.ID)),
                 Slug := getString args "project", Name := "", RootPath := "",
                 CreatedAt := db.now }] } ∧
        actingProject db args = nextID (db.projects.map (fun p => p.ID)))) ∧
    (getString args "project" = "" →
      (getProjectID db args).1 = db ∧ actingProject db args = db.defaultProjectID) := by
  refine ⟨?_, ?_⟩
  · intro hne
    refine ⟨?_, ?_⟩
    · intro hex
      obtain ⟨p, hp, hs, hg⟩ := GetOrCreateProject_existing db _ hex
      have hpid := hpos p hp
      refine ⟨?_, p, hp, hs, ?_⟩
      · simp [getProjectID, hne, hg]
      · simp [actingProject, getProjectID, hne, hg, DB.GetProjectID, hpid]
    · intro hnew
      have hg := GetOrCreateProject_new db _ hnew
      have hn := nextID_pos (db.projects.map (fun p => p.ID))
      refine ⟨?_, ?_⟩
      · simp [getProjectID, hne, hg]
      · simp [actingProject, getProjectID, hne, hg, DB.GetProjectID, hn]
  · intro he
    simp [actingProject, getProjectID, he, DB.GetProjectID]

theorem CreateMemory_project (db : DB) (projectID : Option Int) (content : String)
    (keywords : Option (List String)) (h : db.hasProject (db.GetProjectID projectID) = true) :
    ∃ db2 mem, db.CreateMemory projectID content keywords = (db2, .ok mem) ∧
      mem.ProjectID = db.GetProjectID projectID ∧ mem.Content = content := by
  have hid : db.memories.find? (fun m => m.ID == nextID (db.memories.map (fun m => m.ID))) = none :=
    List.find?_eq_none.2 (fun m hm => by
      have := lt_nextID (db.memories.map (fun m => m.ID)) m.ID (List.mem_map_of_mem _ hm)
      simp; omega)
  refine ⟨{ db with memories := db.memories ++
      [{ ID := nextID (db.memories.map (fun m => m.ID)), ProjectID := db.GetProjectID projectID,
         Content := content, Keywords := keywords, CreatedAt := db.now, UpdatedAt := db.now }] },
    { ID := nextID (db.memories.map (fun m => m.ID)), ProjectID := db.GetProjectID projectID,
      Content := content, Keywords := keywords, CreatedAt := db.now, UpdatedAt := db.now },
    ?_, rfl, rfl⟩
  simp [DB.CreateMemory, h, DB.GetMemory, List.find?_append, hid]

theorem getProjectID_hasProject (db : DB) (args : Args) (hpos : ∀ p ∈ db.projects, 0 < p.ID)
    (hdef : db.hasProject db.defaultProjectID = true) :
    (getProjectID db args).1.hasProject (actingProject db args) = true := by
  have h := getProjectID_cases db args hpos
  by_cases he : getString args "project" = ""
  · obtain ⟨h1, h2⟩ := h.2 he
    rw [h1, h2]; exact hdef
  · by_cases hex : ∃ p ∈ db.projects, p.Slug = getString args "project"
    · obtain ⟨h1, p, hp, _, h2⟩ := (h.1 he).1 hex
      rw [h1, h2]
      simp only [DB.hasProject, List.any_eq_true, beq_iff_eq]
      exact ⟨p, hp, rfl⟩
    · have hnew : ∀ p ∈ db.projects, p.Slug ≠ getString args "project" := by
        intro p hp hs; exact hex ⟨p, hp, hs⟩
      obtain ⟨h1, h2⟩ := (h.1 he).2 hnew
      rw [h1, h2]
      simp [DB.hasProject]

theorem ReadSlice_last (r : Reader) (line : List Nat) (hp : r.pending = line)
    (h : 10 ∉ line) (hlt : line.length < r.size) :
    r.ReadSlice 10 = (line, some r.endErr, { r with pending := [] }) := by
  subst hp
  have htake : r.pending.take r.size = r.pending :=
    List.take_of_length_le (Nat.le_of_lt hlt)
  have hnot : ¬ r.size ≤ r.pending.length := by omega
  unfold Reader.ReadSlice
  rw [htake, splitAfter_none 10 _ h]
  simp only [hnot, if_false]

theorem ReadSlice_full_last (r : Reader) (line : List Nat) (hp : r.pending = line)
    (h : 10 ∉ line) (hge : r.size ≤ line.length) :
    r.ReadSlice 10 = (line.take r.size, some .ErrBufferFull,
      { r with pending := line.drop r.size }) := by
  subst hp
  have hno : 10 ∉ r.pending.take r.size := fun e => h (List.mem_of_mem_take e)
  unfold Reader.ReadSlice
  rw [splitAfter_none 10 _ hno]
  simp only [hge, if_true]

theorem drainLine_last (fuel : Nat) : ∀ (r : Reader) (line : List Nat),
    0 < r.size → r.pending = line → 10 ∉ line → line.length < fuel →
    drainLine fuel r = { r with pending := [] } := by
  induction fuel with
  | zero => intro r line _ _ _ hf; omega
  | succ fuel ih =>
    intro r line hs hp h hf
    by_cases hlt : line.length < r.size
    · simp only [drainLine, ReadSlice_last r line hp h hlt]
      cases hfail : r.failure <;> simp [Reader.endErr, hfail]
    · have hge : r.size ≤ line.length := Nat.le_of_not_lt hlt
      simp only [drainLine, ReadSlice_full_last r line hp h hge]
      have := ih { r with pending := line.drop r.size } (line.drop r.size)
        hs rfl (fun e => h (List.mem_of_mem_drop e)) (by simp; omega)
      simpa using this

/-- A final line without terminator whose length is a multiple of the buffer
size is read buffer by buffer into `out`, after which the reader reports
`io.EOF` with an empty fragment and `out` is dropped. -/
theorem readLineLimitedLoop_drops (max : Nat) (k : Nat) : ∀ (fuel : Nat) (r : Reader)
    (line out : List Nat),
    0 < r.size → r.pending = line → 10 ∉ line → r.failure = none →
    line.length = k * r.size → line.length < fuel → out.length + line.length ≤ max →
    readLineLimitedLoop fuel r max out = (.error .EOF, { r with pending := [] }) := by
  induction k with
  | zero =>
    intro fuel r line out hs hp h hf hk hfuel hmax
    obtain ⟨f, rfl⟩ : ∃ f, fuel = f + 1 := ⟨fuel - 1, by omega⟩
    have hl : line.length < r.size := by omega
    simp [readLineLimitedLoop, ReadSlice_last r line hp h hl, Reader.endErr, hf]
    have : line = [] := List.length_eq_zero.1 (by omega)
    simp [this]
  | succ k ih =>
    intro fuel r line out hs hp h hf hk hfuel hmax
    obtain ⟨f, rfl⟩ : ∃ f, fuel = f + 1 := ⟨fuel - 1, by omega⟩
    have hge : r.size ≤ line.length := by
      rw [hk, Nat.succ_mul]; omega
    have hout : ¬ max < (out ++ line.take r.size).length := by simp; omega
    simp only [readLineLimitedLoop, ReadSlice_full_last r line hp h hge, gt_iff_lt, hout,
      if_false]
    have := ih f { r with pending := line.drop r.size } (line.drop r.size)
      (out ++ line.take r.size) hs rfl (fun e => h (List.mem_of_mem_drop e)) hf
      (by simp; rw [hk, Nat.succ_mul]; omega) (by simp; omega) (by simp; omega)
    simpa using this

/-- A final line without terminator that is within the bound and whose length
is not a multiple of the buffer size is returned whole. -/
theorem readLineLimitedLoop_final (max : Nat) (fuel : Nat) : ∀ (r : Reader)
    (line out : List Nat),
    0 < r.size → r.pending = line → 10 ∉ line → r.failure = none →
    ¬ r.size ∣ line.length → line.length < fuel → out.length + line.length ≤ max →
    readLineLimitedLoop fuel r max out = (.ok (out ++ line), { r with pending := [] }) := by
  induction fuel with
  | zero => intro r line out _ _ _ _ _ hf; omega
  | succ fuel ih =>
    intro r line out hs hp h hf hdvd hfuel hmax
    by_cases hlt : line.length < r.size
    · have hpos : 0 < line.length := by
        rcases Nat.eq_zero_or_pos line.length with h0 | h0
        · exact absurd (h0 ▸ Nat.dvd_zero r.size) hdvd
        · exact h0
      have hout : ¬ max < out.length + line.length := by omega
      simp [readLineLimitedLoop, ReadSlice_last r line hp h hlt, Reader.endErr, hf, hpos, hout]
    · have hge : r.size ≤ line.length := Nat.le_of_not_lt hlt
      have hout : ¬ max < (out ++ line.take r.size).length := by simp; omega
      simp only [readLineLimitedLoop, ReadSlice_full_last r line hp h hge, gt_iff_lt, hout,
        if_false]
      have hd : ¬ r.size ∣ (line.drop r.size).length := by
        intro hd
        apply hdvd
        have : line.length = (line.drop r.size).length + r.size := by simp; omega
        rw [this]
        exact Nat.dvd_add hd (Nat.dvd_refl _)
      have := ih { r with pending := line.drop r.size } (line.drop r.size)
        (out ++ line.take r.size) hs rfl (fun e => h (List.mem_of_mem_drop e)) hf hd
        (by simp; omega) (by simp; omega)
      simpa [List.append_assoc] using this

theorem readLineLimited_final (r : Reader) (max : Nat) (hs : 0 < r.size)
    (h : 10 ∉ r.pending) (hf : r.failure = none) (hdvd : ¬ r.size ∣ r.pending.length)
    (hmax : r.pending.length ≤ max) :
    readLineLimited r max = (.ok r.pending, { r with pending := [] }) := by
  have := readLineLimitedLoop_final max (r.pending.length + 1) r r.pending [] hs rfl h hf hdvd
    (by omega) (by simpa using hmax)
  simpa [readLineLimited] using this

theorem readLineLimitedLoop_oversized_last (max fuel : Nat) : ∀ (r : Reader)
    (line out : List Nat),
    0 < r.size → r.pending = line → 10 ∉ line → r.failure = none → line.length < fuel →
    out.length ≤ max → max < out.length + line.length →
    ∃ m, readLineLimitedLoop fuel r max out =
      (.error (.msg ("message too large: " ++ m)), { r with pending := [] }) := by
  have e : "message too large: exceeds " ++ toString max ++ " bytes" =
      "message too large: " ++ ("exceeds " ++ toString max ++ " bytes") := by
    have hm : "message too large: exceeds " = "message too large: " ++ "exceeds " := by decide
    rw [hm]; simp only [String.append_assoc]
  induction fuel with
  | zero => intro r line out _ _ _ _ hf; omega
  | succ fuel ih =>
    intro r line out hs hp h hf hfuel hout hmax
    by_cases hlt : line.length < r.size
    · refine ⟨"exceeds " ++ toString max ++ " bytes", ?_⟩
      have hpos : 0 < line.length := by omega
      have hbig : max < out.length + line.length := hmax
      simp only [readLineLimitedLoop, ReadSlice_last r line hp h hlt, Reader.endErr, hf]
      simp only [gt_iff_lt, hpos, if_true, List.length_append, hbig, e]
    · have hge : r.size ≤ line.length := Nat.le_of_not_lt hlt
      simp only [readLineLimitedLoop, ReadSlice_full_last r line hp h hge]
      by_cases hbig : max < (out ++ line.take r.size).length
      · refine ⟨"exceeds " ++ toString max ++ " bytes", ?_⟩
        have hd := drainLine_last ((line.drop r.size).length + 1)
          { r with pending := line.drop r.size } (line.drop r.size)
          hs rfl (fun e => h (List.mem_of_mem_drop e)) (by omega)
        simp only [gt_iff_lt, hbig, if_true]
        rw [hd, e]
      · simp only [gt_iff_lt, hbig, if_false]
        have := ih { r with pending := line.drop r.size } (line.drop r.size)
          (out ++ line.take r.size) hs rfl (fun e => h (List.mem_of_mem_drop e)) hf
          (by simp; omega) (by omega) (by simp; omega)
        simpa using this

/-- C13 (defect of the code): a final line without terminator whose length is
a positive multiple of the buffer size, although within the bound, is never
returned: `readLineLimited` reads it buffer by buffer, then meets `io.EOF` with
an empty fragment and returns `io.EOF`, dropping what it has read; `Run` then
ends without having handled the frame. The claim asks for the final line to
be returned before `io.EOF`. -/
theorem readLineLimited_drops_final_line (rt : Runtime) (s : Server) (max k : Nat)
    (hsize : 0 < s.reader.size) (hline : 10 ∉ s.reader.pending)
    (hfail : s.reader.failure = none) (hk : 0 < k)
    (hlen : s.reader.pending.length = k * s.reader.size)
    (hfit : s.reader.pending.length ≤ max) :
    s.reader.pending ≠ [] ∧
    readLineLimited s.reader max = (.error .EOF, { s.reader with pending := [] }) ∧
    (max = maxMessageBytes →
      s.Run rt = ({ s with reader := { s.reader with pending := [] } }, none)) := by
  have hne : s.reader.pending ≠ [] := by
    intro h0
    rw [h0] at hlen
    have : 0 < k * s.reader.size := Nat.mul_pos hk hsize
    simp at hlen
    omega
  have h1 : readLineLimited s.reader max = (.error .EOF, { s.reader with pending := [] }) := by
    have := readLineLimitedLoop_drops max k (s.reader.pending.length + 1) s.reader
      s.reader.pending [] hsize rfl hline hfail hlen (by omega) (by simpa using hfit)
    simpa [readLineLimited] using this
  refine ⟨hne, h1, ?_⟩
  intro hm
  rw [Run_eq, ← hm, h1]
  simp

/-- C13, at an input: standard input holding 65536 bytes `x`, one buffer of
the server, with no terminator. -/
theorem readLineLimited_drops_final_line_witness :
    readLineLimited (NewServer (Open 0) (List.replicate 65536 120)).reader maxMessageBytes =
      (.error .EOF,
        { (NewServer (Open 0) (List.replicate 65536 120)).reader with pending := [] }) :=
  (readLineLimited_drops_final_line exampleRuntime
    (NewServer (Open 0) (List.replicate 65536 120)) maxMessageBytes 1
    (by simp only [NewServer, NewReaderSize]; decide)
    (by simp only [NewServer, NewReaderSize, List.mem_replicate]; decide)
    rfl (by decide)
    (by simp only [NewServer, NewReaderSize, List.length_replicate]; decide)
    (by simp only [NewServer, NewReaderSize, List.length_replicate, maxMessageBytes];
        decide)).2.1

/-- C14: a line longer than `max`, counted with its terminator, makes
`readLineLimited` return a message-too-large error, so no bytes of the line,
with the reader at the first byte after the terminator of the line; a final line
without terminator longer than `max` does the same and leaves the reader at
the end of the stream. The next call then returns the next line whole when
that one is within the bound. -/
theorem readLineLimited_oversized_resync (r : Reader) (max : Nat) (line rest : List Nat)
    (hsize : 0 < r.size) (hline : 10 ∉ line) :
    (r.pending = line ++ 10 :: rest → max < line.length + 1 →
      ∃ m, readLineLimited r max =
        (.error (.msg ("message too large: " ++ m)), { r with pending := rest })) ∧
    (r.pending = line → r.failure = none → max < line.length →
      ∃ m, readLineLimited r max =
        (.error (.msg ("message too large: " ++ m)), { r with pending := [] })) ∧
    (∀ line2 rest2, rest = line2 ++ 10 :: rest2 → 10 ∉ line2 → line2.length + 1 ≤ max →
      readLineLimited { r with pending := rest } max =
        (.ok (line2 ++ [10]), { r with pending := rest2 })) := by
  refine ⟨?_, ?_, ?_⟩
  · intro hp hmax
    exact readLineLimited_oversized r max line rest hsize hp hline hmax
  · intro hp hf hmax
    have := readLineLimitedLoop_oversized_last max (r.pending.length + 1) r line [] hsize hp hline
      hf (by rw [hp]; omega) (by simp) (by simpa using hmax)
    simpa [readLineLimited] using this
  · intro line2 rest2 hr h2 hfit
    exact readLineLimited_line { r with pending := rest } max line2 rest2 hsize hr h2 hfit

/-- C14, at an input: with a bound of 20 bytes and a buffer of 16, a line of 40
bytes `x` followed by the line `i`. -/
theorem readLineLimited_oversized_resync_witness :
    ∃ m, readLineLimited (NewReaderSize (List.replicate 40 120 ++ 10 :: [105, 10]) none 16) 20 =
      (.error (.msg ("message too large: " ++ m)),
        { NewReaderSize (List.replicate 40 120 ++ 10 :: [105, 10]) none 16 with
          pending := [105, 10] }) :=
  (readLineLimited_oversized_resync
    (NewReaderSize (List.replicate 40 120 ++ 10 :: [105, 10]) none 16) 20
    (List.replicate 40 120) [105, 10] (by decide) (by decide)).1 rfl (by decide)

theorem ReadSlice_shape (r : Reader) (frag : List Nat) (err : Option GoErr) (r1 : Reader)
    (h : r.ReadSlice 10 = (frag, err, r1)) :
    r1.size = r.size ∧ r1.failure = r.failure ∧
    (err = none ∨
      (err = some .ErrBufferFull ∧ r1.pending.length + r.size = r.pending.length) ∨
      (err = some r.endErr ∧ r1.pending = [])) := by
  unfold Reader.ReadSlice at h
  cases hsp : splitAfter 10 (r.pending.take r.size) with
  | some p =>
    obtain ⟨l1, x⟩ := p
    simp only [hsp, Prod.mk.injEq] at h
    obtain ⟨_, h2, h3⟩ := h
    subst h3
    exact ⟨rfl, rfl, Or.inl h2.symm⟩
  | none =>
    simp only [hsp] at h
    by_cases hle : r.size ≤ r.pending.length
    · simp only [hle, if_true, Prod.mk.injEq] at h
      obtain ⟨_, h2, h3⟩ := h
      subst h3
      refine ⟨rfl, rfl, Or.inr (Or.inl ⟨h2.symm, ?_⟩)⟩
      simp; omega
    · simp only [hle, if_false, Prod.mk.injEq] at h
      obtain ⟨_, h2, h3⟩ := h
      subst h3
      exact ⟨rfl, rfl, Or.inr (Or.inr ⟨h2.symm, rfl⟩)⟩

theorem endErr_cases (r : Reader) :
    (r.failure = none ∧ r.endErr = .EOF) ∨ (∃ t, r.failure = some t ∧ r.endErr = .msg t) := by
  unfold Reader.endErr
  cases r.failure with
  | none => exact Or.inl ⟨rfl, rfl⟩
  | some t => exact Or.inr ⟨t, rfl, rfl⟩

theorem drainLine_shape (fuel : Nat) : ∀ r : Reader,
    (drainLine fuel r).size = r.size ∧ (drainLine fuel r).failure = r.failure := by
  induction fuel with
  | zero => intro r; exact ⟨rfl, rfl⟩
  | succ fuel ih =>
    intro r
    obtain ⟨frag, err, r2, hrs⟩ : ∃ frag err r2, r.ReadSlice 10 = (frag, err, r2) :=
      ⟨_, _, _, rfl⟩
    have hsh := ReadSlice_shape r frag err r2 hrs
    unfold drainLine
    rw [hrs]
    cases err with
    | none => exact ⟨hsh.1, hsh.2.1⟩
    | some e =>
      cases e with
      | ErrBufferFull =>
        have := ih r2
        exact ⟨this.1.trans hsh.1, this.2.trans hsh.2.1⟩
      | _ => exact ⟨hsh.1, hsh.2.1⟩

/-- What a call of `readLineLimited` can end in: a frame, `io.EOF` at the end of
a stream without failure, a message-too-large error, or the failure of the
stream. -/
theorem readLineLimitedLoop_result (max fuel : Nat) : ∀ (r : Reader) (out : List Nat)
    (res : Except GoErr (List Nat)) (r1 : Reader),
    0 < r.size → r.pending.length < fuel →
    readLineLimitedLoop fuel r max out = (res, r1) →
    r1.size = r.size ∧ r1.failure = r.failure ∧
    ((∃ frame, res = .ok frame) ∨
     (res = .error .EOF ∧ r1.pending = [] ∧ r.failure = none) ∨
     (∃ m, res = .error (.msg ("message too large: " ++ m))) ∨
     (∃ t, r.failure = some t ∧ res = .error (.msg t))) := by
  have e : "message too large: exceeds " ++ toString max ++ " bytes" =
      "message too large: " ++ ("exceeds " ++ toString max ++ " bytes") := by
    have hm : "message too large: exceeds " = "message too large: " ++ "exceeds " := by decide
    rw [hm]; simp only [String.append_assoc]
  induction fuel with
  | zero => intro r out res r1 _ hf; omega
  | succ fuel ih =>
    intro r out res r1 hs hf h
    obtain ⟨frag, err, r2, hrs⟩ : ∃ frag err r2, r.ReadSlice 10 = (frag, err, r2) :=
      ⟨_, _, _, rfl⟩
    have hsh := ReadSlice_shape r frag err r2 hrs
    unfold readLineLimitedLoop at h
    rw [hrs] at h
    rcases hsh.2.2 with hnone | ⟨hfull, hlen⟩ | ⟨hend, hnil⟩
    · subst hnone
      simp only at h
      split at h
      · simp only [Prod.mk.injEq] at h
        obtain ⟨h1, h2⟩ := h
        subst h2
        refine ⟨hsh.1, hsh.2.1, Or.inr (Or.inr (Or.inl
          ⟨toString (out ++ frag).length ++ " bytes", ?_⟩))⟩
        rw [← h1, String.append_assoc]
      · simp only [Prod.mk.injEq] at h
        obtain ⟨h1, h2⟩ := h
        subst h2
        exact ⟨hsh.1, hsh.2.1, Or.inl ⟨_, h1.symm⟩⟩
    · subst hfull
      simp only at h
      split at h
      · simp only [Prod.mk.injEq] at h
        obtain ⟨h1, h2⟩ := h
        have hd := drainLine_shape (r2.pending.length + 1) r2
        rw [h2] at hd
        refine ⟨hd.1.trans hsh.1, hd.2.trans hsh.2.1, Or.inr (Or.inr (Or.inl
          ⟨"exceeds " ++ toString max ++ " bytes", ?_⟩))⟩
        rw [← h1, e]
      · have := ih r2 _ res r1 (by rw [hsh.1]; exact hs) (by omega) h
        rw [hsh.1, hsh.2.1] at this
        exact this
    · rcases endErr_cases r with ⟨hfn, hE⟩ | ⟨t, hft, hE⟩
      · rw [hE] at hend
        subst hend
        simp only at h
        split at h
        · split at h
          · simp only [Prod.mk.injEq] at h
            obtain ⟨h1, h2⟩ := h
            subst h2
            refine ⟨hsh.1, hsh.2.1, Or.inr (Or.inr (Or.inl
              ⟨"exceeds " ++ toString max ++ " bytes", ?_⟩))⟩
            rw [← h1, e]
          · simp only [Prod.mk.injEq] at h
            obtain ⟨h1, h2⟩ := h
            subst h2
            exact ⟨hsh.1, hsh.2.1, Or.inl ⟨_, h1.symm⟩⟩
        · simp only [Prod.mk.injEq] at h
          obtain ⟨h1, h2⟩ := h
          subst h2
          exact ⟨hsh.1, hsh.2.1, Or.inr (Or.inl ⟨h1.symm, hnil, hfn⟩)⟩
      · rw [hE] at hend
        subst hend
        simp only [Prod.mk.injEq] at h
        obtain ⟨h1, h2⟩ := h
        subst h2
        exact ⟨hsh.1, hsh.2.1, Or.inr (Or.inr (Or.inr ⟨t, hft, h1.symm⟩))⟩

theorem readLineLimited_result (r : Reader) (max : Nat) (res : Except GoErr (List Nat))
    (r1 : Reader) (hs : 0 < r.size) (h : readLineLimited r max = (res, r1)) :
    r1.size = r.size ∧ r1.failure = r.failure ∧
    ((∃ frame, res = .ok frame) ∨
     (res = .error .EOF ∧ r1.pending = [] ∧ r.failure = none) ∨
     (∃ m, res = .error (.msg ("message too large: " ++ m))) ∨
     (∃ t, r.failure = some t ∧ res = .error (.msg t))) :=
  readLineLimitedLoop_result max _ r [] res r1 hs (Nat.lt_succ_self _) h

theorem runLoop_stops (rt : Runtime) (fuel : Nat) : ∀ s : Server,
    0 < s.reader.size → s.reader.pending.length < fuel →
    ((Server.runLoop rt fuel s).2 = none ∧ (Server.runLoop rt fuel s).1.reader.pending = [] ∧
      s.reader.failure = none) ∨
    (∃ e : GoErr, (Server.runLoop rt fuel s).2 = some (.msg ("reading input: " ++ e.Error)) ∧
      ((∃ m, e = .msg ("message too large: " ++ m)) ∨
       ∃ t, s.reader.failure = some t ∧ e = .msg t)) := by
  induction fuel with
  | zero => intro s _ hf; omega
  | succ fuel ih =>
    intro s hs hf
    obtain ⟨res, r1, hrl⟩ : ∃ res r1, readLineLimited s.reader maxMessageBytes = (res, r1) :=
      ⟨_, _, rfl⟩
    have hres := readLineLimited_result s.reader maxMessageBytes res r1 hs hrl
    unfold Server.runLoop
    rw [hrl]
    cases res with
    | error err =>
      rcases hres.2.2 with ⟨f, hf⟩ | ⟨he, hnil, hfn⟩ | ⟨m, hm⟩ | ⟨t, hft, ht⟩
      · simp at hf
      · simp only [Except.error.injEq] at he
        subst he
        exact Or.inl ⟨rfl, hnil, hfn⟩
      · simp only [Except.error.injEq] at hm
        subst hm
        exact Or.inr ⟨_, rfl, Or.inl ⟨m, rfl⟩⟩
      · simp only [Except.error.injEq] at ht
        subst ht
        exact Or.inr ⟨_, rfl, Or.inr ⟨t, hft, rfl⟩⟩
    | ok line =>
      have hlt := readLineLimited_progress _ _ _ _ hrl
      have key : ∀ s2 : Server, s2.reader = r1 →
          ((Server.runLoop rt fuel s2).2 = none ∧
            (Server.runLoop rt fuel s2).1.reader.pending = [] ∧ s.reader.failure = none) ∨
          (∃ e : GoErr, (Server.runLoop rt fuel s2).2 = some (.msg ("reading input: " ++ e.Error)) ∧
            ((∃ m, e = .msg ("message too large: " ++ m)) ∨
             ∃ t, s.reader.failure = some t ∧ e = .msg t)) := by
        intro s2 hr
        have := ih s2 (by rw [hr, hres.1]; exact hs) (by rw [hr]; omega)
        rw [hr, hres.2.1] at this
        exact this
      simp only
      split
      · exact key _ rfl
      · split
        · exact key _ rfl
        · have hr := handleRequest_reader rt { s with reader := r1 } (by assumption)
          split
          · next s2 heq => exact key _ (by rw [heq] at hr; exact hr)
          · next s2 r heq => exact key _ (by rw [heq] at hr; exact hr)

theorem spaceRunes_prefix_free :
    ∀ e ∈ spaceRunes, ∀ f ∈ spaceRunes, (e.isPrefixOf f = true ∨ f.isPrefixOf e = true) →
      e = f := by
  decide

theorem spaceRunes_pos : ∀ e ∈ spaceRunes, 0 < e.length := by decide

theorem spaceRunes_find (check : List Nat → Bool) (e : List Nat)
    (he : e ∈ spaceRunes) (hc : check e = true)
    (huniq : ∀ f ∈ spaceRunes, check f = true → f = e) :
    spaceRunes.find? check = some e := by
  cases hf : spaceRunes.find? check with
  | none =>
    have := List.find?_eq_none.1 hf e he
    simp [hc] at this
  | some f =>
    have h1 := List.mem_of_find?_eq_some hf
    have h2 := List.find?_some hf
    rw [huniq f h1 h2]

theorem spaceWidth_rune (e : List Nat) (he : e ∈ spaceRunes) (rest : List Nat) :
    spaceWidth (e ++ rest) = e.length := by
  have hfind : spaceRunes.find? (fun f => f.isPrefixOf (e ++ rest)) = some e := by
    apply spaceRunes_find _ e he
    · simp
    · intro f hf hp
      simp only [List.isPrefixOf_iff_prefix] at hp
      have := List.prefix_or_prefix_of_prefix hp (List.prefix_append e rest)
      apply spaceRunes_prefix_free f hf e he
      simpa [List.isPrefixOf_iff_prefix] using this
  simp [spaceWidth, hfind]

theorem spaceWidthRev_rune (e : List Nat) (he : e ∈ spaceRunes) (rest : List Nat) :
    spaceWidthRev (e.reverse ++ rest) = e.length := by
  have hrev : ∀ f ∈ spaceRunes, ∀ g ∈ spaceRunes,
      (f.reverse.isPrefixOf g.reverse = true ∨ g.reverse.isPrefixOf f.reverse = true) →
        f = g := by
    decide
  have hfind : spaceRunes.find? (fun f => f.reverse.isPrefixOf (e.reverse ++ rest)) = some e := by
    apply spaceRunes_find _ e he
    · simp
    · intro f hf hp
      simp only [List.isPrefixOf_iff_prefix] at hp
      have := List.prefix_or_prefix_of_prefix hp (List.prefix_append e.reverse rest)
      apply hrev f hf e he
      simpa [List.isPrefixOf_iff_prefix] using this
  simp [spaceWidthRev, hfind]

theorem spaceWidth_take (bs : List Nat) (k : Nat) (h : spaceWidth bs = k + 1) :
    ∃ e ∈ spaceRunes, e.length = k + 1 ∧ bs = e ++ bs.drop (k + 1) := by
  unfold spaceWidth at h
  cases hf : spaceRunes.find? (fun e => e.isPrefixOf bs) with
  | none => simp [hf] at h
  | some e =>
    simp only [hf] at h
    have h1 := List.mem_of_find?_eq_some hf
    have h2 := List.find?_some hf
    simp only [List.isPrefixOf_iff_prefix] at h2
    obtain ⟨t, ht⟩ := h2
    refine ⟨e, h1, h, ?_⟩
    rw [← ht, ← h, List.drop_left]

theorem spaceWidthRev_take (bs : List Nat) (k : Nat) (h : spaceWidthRev bs = k + 1) :
    ∃ e ∈ spaceRunes, e.length = k + 1 ∧ bs = e.reverse ++ bs.drop (k + 1) := by
  unfold spaceWidthRev at h
  cases hf : spaceRunes.find? (fun e => e.reverse.isPrefixOf bs) with
  | none => simp [hf] at h
  | some e =>
    simp only [hf] at h
    have h1 := List.mem_of_find?_eq_some hf
    have h2 := List.find?_some hf
    simp only [List.isPrefixOf_iff_prefix] at h2
    obtain ⟨t, ht⟩ := h2
    refine ⟨e, h1, h, ?_⟩
    have hl : e.reverse.length = k + 1 := by simpa using h
    rw [← ht, ← hl, List.drop_left]

theorem trimFront_empty (width : List Nat → Nat) : ∀ fuel, trimFront width fuel [] = [] := by
  intro fuel
  induction fuel with
  | zero => rfl
  | succ fuel ih =>
    unfold trimFront
    split
    · rfl
    · simpa using ih

theorem trimFront_decomp (width : List Nat → Nat) (enc : List Nat → List Nat)
    (hT : ∀ bs k, width bs = k + 1 →
      ∃ e ∈ spaceRunes, e.length = k + 1 ∧ bs = enc e ++ bs.drop (k + 1)) :
    ∀ fuel bs, trimFront width fuel bs = [] →
      ∃ runes : List (List Nat), (∀ e ∈ runes, e ∈ spaceRunes) ∧ bs = (runes.map enc).flatten := by
  intro fuel
  induction fuel with
  | zero =>
    intro bs h
    exact ⟨[], by simp, by simpa [trimFront] using h⟩
  | succ fuel ih =>
    intro bs h
    unfold trimFront at h
    split at h
    · exact ⟨[], by simp, by simpa using h⟩
    · next w hw =>
      obtain ⟨e, he, _, hbs⟩ := hT bs w hw
      obtain ⟨runes, hr, hd⟩ := ih _ h
      refine ⟨e :: runes, ?_, ?_⟩
      · intro x hx
        rcases List.mem_cons.1 hx with rfl | hx
        · exact he
        · exact hr x hx
      · rw [List.map_cons, List.flatten_cons, ← hd]
        exact hbs

theorem trimFront_runes (width : List Nat → Nat) (enc : List Nat → List Nat)
    (hR : ∀ e ∈ spaceRunes, ∀ rest, width (enc e ++ rest) = e.length)
    (hlen : ∀ e, (enc e).length = e.length) :
    ∀ runes : List (List Nat), (∀ e ∈ runes, e ∈ spaceRunes) → ∀ fuel, runes.length ≤ fuel →
      trimFront width fuel (runes.map enc).flatten = [] := by
  intro runes
  induction runes with
  | nil => intro _ fuel _; simpa using trimFront_empty width fuel
  | cons e runes ih =>
    intro hr fuel hf
    obtain ⟨f, rfl⟩ : ∃ f, fuel = f + 1 := ⟨fuel - 1, by simp at hf; omega⟩
    have he := hr e (List.mem_cons_self _ _)
    have hw := hR e he (runes.map enc).flatten
    have hpos := spaceRunes_pos e he
    obtain ⟨k, hk⟩ : ∃ k, e.length = k + 1 := ⟨e.length - 1, by omega⟩
    rw [List.map_cons, List.flatten_cons]
    unfold trimFront
    rw [hw, hk]
    simp only
    have hd : (enc e ++ (runes.map enc).flatten).drop (k + 1) = (runes.map enc).flatten := by
      rw [← hk, ← hlen e, List.drop_left]
    rw [hd]
    exact ih (fun x hx => hr x (List.mem_cons_of_mem _ hx)) f (by simp at hf; omega)

theorem trimFront_fixed (width : List Nat → Nat)
    (hT : ∀ bs k, width bs = k + 1 → k + 1 ≤ bs.length) :
    ∀ fuel bs, bs.length ≤ fuel →
      trimFront width fuel bs = [] ∨ width (trimFront width fuel bs) = 0 := by
  intro fuel
  induction fuel with
  | zero =>
    intro bs h
    left
    have : bs = [] := List.length_eq_zero.1 (by omega)
    simp [trimFront, this]
  | succ fuel ih =>
    intro bs h
    unfold trimFront
    split
    · next hw => exact Or.inr hw
    · next w hw =>
      have := hT bs w hw
      exact ih _ (by simp; omega)

theorem runes_length_le (runes : List (List Nat)) (h : ∀ e ∈ runes, e ∈ spaceRunes) :
    runes.length ≤ runes.flatten.length := by
  induction runes with
  | nil => simp
  | cons e runes ih =>
    have := spaceRunes_pos e (h e (List.mem_cons_self _ _))
    have := ih (fun x hx => h x (List.mem_cons_of_mem _ hx))
    simp only [List.length_cons, List.flatten_cons, List.length_append]
    omega

/-- The frames `strings.TrimSpace` empties: those made of white-space runes only. -/
theorem TrimSpace_eq_nil (b : List Nat) :
    TrimSpace b = [] ↔
      ∃ runes : List (List Nat), (∀ e ∈ runes, e ∈ spaceRunes) ∧ b = runes.flatten := by
  constructor
  · intro h
    unfold TrimSpace at h
    simp only [List.reverse_eq_nil_iff] at h
    -- the back of what the front pass leaves is made of white-space runes
    obtain ⟨runes, hr, hd⟩ := trimFront_decomp spaceWidthRev List.reverse
      spaceWidthRev_take _ _ h
    have hfront : trimFront spaceWidth b.length b = [] := by
      rcases trimFront_fixed spaceWidth
        (fun bs k hk => by
          obtain ⟨e, _, hl, hbs⟩ := spaceWidth_take bs k hk
          have := congrArg List.length hbs
          simp at this; omega) b.length b (Nat.le_refl _) with h0 | h0
      · exact h0
      · cases hrunes : runes.reverse with
        | nil =>
          have : runes = [] := by simpa using hrunes
          subst this
          simpa using hd
        | cons e rest =>
          have he : e ∈ spaceRunes := hr e (by
            have : e ∈ runes.reverse := by rw [hrunes]; exact List.mem_cons_self _ _
            simpa using this)
          have hfr : trimFront spaceWidth b.length b = e ++ rest.flatten := by
            have := congrArg List.reverse hd
            rw [List.reverse_reverse, List.reverse_flatten, List.map_map] at this
            have hid : (List.reverse ∘ List.reverse : List Nat → List Nat) = id := by
              funext x; simp
            rw [hid, List.map_id, hrunes, List.flatten_cons] at this
            exact this
          rw [hfr, spaceWidth_rune e he] at h0
          have := spaceRunes_pos e he
          omega
    obtain ⟨runes2, hr2, hd2⟩ := trimFront_decomp spaceWidth id
      (fun bs k hk => by simpa using spaceWidth_take bs k hk) _ _ hfront
    exact ⟨runes2, hr2, by simpa using hd2⟩
  · rintro ⟨runes, hr, rfl⟩
    have h1 : trimFront spaceWidth runes.flatten.length runes.flatten = [] := by
      have := trimFront_runes spaceWidth id (fun e he rest => by simpa using spaceWidth_rune e he rest)
        (fun _ => rfl) runes hr runes.flatten.length (runes_length_le runes hr)
      simpa using this
    show (trimFront spaceWidthRev (trimFront spaceWidth runes.flatten.length runes.flatten).length
      (trimFront spaceWidth runes.flatten.length runes.flatten).reverse).reverse = []
    rw [h1]
    rfl

/-- C15, as stated, fails: the frame holding a vertical tab and a line feed is
trimmed to the empty slice, though a vertical tab is none of space, tab, CR
and LF. -/
theorem bytesTrimSpaceCRLF_vertical_tab :
    bytesTrimSpaceCRLF [11, 10] = [] ∧ 11 ∉ [32, 9, 13, 10] := by decide

/-- C15, amended: a frame the frame reader delivers that is made only of
white-space runes, as `strings.TrimSpace` knows them (space, tab, CR, LF, and
also vertical tab, form feed, U+0085, U+00A0 and the other Unicode spaces of
`spaceRunes`), makes `Run` write no response and leave the store as it
was, and `Run` goes on with the next frame; and `bytesTrimSpaceCRLF` returns the
empty slice exactly for the byte strings made only of such runes, the empty
one included. -/
theorem Run_blank_frame (rt : Runtime) (s : Server) (frame : List Nat) (r1 : Reader)
    (hread : readLineLimited s.reader maxMessageBytes = (.ok frame, r1))
    (hblank : ∃ runes : List (List Nat), (∀ e ∈ runes, e ∈ spaceRunes) ∧ frame = runes.flatten) :
    s.Run rt = Server.Run rt { s with reader := r1 } ∧
    ∀ b, bytesTrimSpaceCRLF b = [] ↔
      ∃ runes : List (List Nat), (∀ e ∈ runes, e ∈ spaceRunes) ∧ b = runes.flatten := by
  refine ⟨?_, fun b => TrimSpace_eq_nil b⟩
  have h0 : bytesTrimSpaceCRLF frame = [] := (TrimSpace_eq_nil frame).2 hblank
  rw [Run_eq, hread]
  simp [h0]

/-- C15 amended, at an input: a frame of a space, a tab, a carriage return and a
line feed, followed by the frame `i`. -/
theorem Run_blank_frame_witness :
    (NewServer (Open 0) [32, 9, 13, 10, 105, 10]).Run exampleRuntime =
      Server.Run exampleRuntime
        { NewServer (Open 0) [32, 9, 13, 10, 105, 10] with
          reader := { (NewServer (Open 0) [32, 9, 13, 10, 105, 10]).reader with
                      pending := [105, 10] } } :=
  (Run_blank_frame exampleRuntime (NewServer (Open 0) [32, 9, 13, 10, 105, 10])
    [32, 9, 13, 10]
    { (NewServer (Open 0) [32, 9, 13, 10, 105, 10]).reader with pending := [105, 10] }
    rfl ⟨[[32], [9], [13], [10]], by decide, rfl⟩).1

theorem handleFrame_reader (rt : Runtime) (s : Server) (frame : List Nat) :
    (s.handleFrame rt frame).reader = s.reader := by
  unfold Server.handleFrame
  split
  · rfl
  · split
    · rfl
    · have hr := handleRequest_reader rt s (by assumption)
      split
      · next s2 heq => rw [heq] at hr; exact hr
      · next s2 r heq => rw [heq] at hr; exact hr

theorem handleFrame_prepend (rt : Runtime) (w : List Response) (s : Server) (frame : List Nat) :
    (s.prepend w).handleFrame rt frame = (s.handleFrame rt frame).prepend w := by
  unfold Server.handleFrame
  split
  · rfl
  · split
    · exact sendError_prepend w s _ _ _ _
    · rw [handleRequest_prepend]
      split
      · next s2 heq =>
        simp only [Prod.mk.injEq] at heq
        split
        · next s3 heq3 => rw [← heq.1, heq3]
        · next s3 r heq3 => rw [heq3] at heq; simp at heq
      · next s2 r heq =>
        simp only [Prod.mk.injEq] at heq
        split
        · next s3 heq3 => rw [heq3] at heq; simp at heq
        · next s3 r3 heq3 =>
          rw [heq3] at heq
          simp only [Option.some.injEq] at heq
          rw [← heq.1, ← heq.2, sendError_prepend]

theorem Run_handleFrame (rt : Runtime) (s : Server) (frame : List Nat) (r1 : Reader)
    (hread : readLineLimited s.reader maxMessageBytes = (.ok frame, r1)) :
    s.Run rt = Server.Run rt (Server.handleFrame rt { s with reader := r1 } frame) := by
  rw [Run_eq, hread]
  unfold Server.handleFrame
  simp only
  split
  · rfl
  · split
    · rfl
    · split <;> rfl

theorem handleToolsCall_setReader (rt : Runtime) (r : Reader) (s : Server) (req : Request) :
    Server.handleToolsCall rt { s with reader := r } req =
      ({ (s.handleToolsCall rt req).1 with reader := r }, (s.handleToolsCall rt req).2) := by
  unfold Server.handleToolsCall
  split
  · rfl
  · split
    · rfl
    · simp only
      split
      · rfl
      · split <;> rfl
      · rfl

theorem handleRequest_setReader (rt : Runtime) (r : Reader) (s : Server) (req : Request) :
    Server.handleRequest rt { s with reader := r } req =
      ({ (s.handleRequest rt req).1 with reader := r }, (s.handleRequest rt req).2) := by
  unfold Server.handleRequest
  split
  · rfl
  · split_ifs
    · rfl
    · rfl
    · exact handleToolsCall_setReader rt r s req
    · rfl
    · rfl

theorem handleFrame_setReader (rt : Runtime) (r : Reader) (s : Server) (frame : List Nat) :
    Server.handleFrame rt { s with reader := r } frame =
      { s.handleFrame rt frame with reader := r } := by
  unfold Server.handleFrame
  split
  · rfl
  · split
    · rfl
    · rw [handleRequest_setReader]
      split
      · next s2 heq =>
        simp only [Prod.mk.injEq] at heq
        split
        · next s3 heq3 => rw [← heq.1, heq3]
        · next s3 r3 heq3 => rw [heq3] at heq; simp at heq
      · next s2 r2 heq =>
        simp only [Prod.mk.injEq] at heq
        split
        · next s3 heq3 => rw [heq3] at heq; simp at heq
        · next s3 r3 heq3 =>
          rw [heq3] at heq
          simp only [Option.some.injEq] at heq
          rw [← heq.1, ← heq.2]
          rfl

theorem foldl_handleFrame_setReader (rt : Runtime) (r : Reader) (frames : List (List Nat)) :
    ∀ s : Server, frames.foldl (Server.handleFrame rt) { s with reader := r } =
      { frames.foldl (Server.handleFrame rt) s with reader := r } := by
  induction frames with
  | nil => intro s; rfl
  | cons f fs ih =>
    intro s
    simp only [List.foldl_cons]
    rw [handleFrame_setReader, ih]

theorem responsesTo_prepend (rt : Runtime) (w : List Response) (frames : List (List Nat)) :
    ∀ s : Server, Server.responsesTo rt (s.prepend w) frames = Server.responsesTo rt s frames := by
  induction frames with
  | nil => intro s; rfl
  | cons f fs ih =>
    intro s
    simp only [Server.responsesTo]
    rw [handleFrame_prepend, ih]
    rfl

theorem foldl_handleFrame_writer (rt : Runtime) (frames : List (List Nat)) :
    ∀ s : Server, (frames.foldl (Server.handleFrame rt) s).writer =
      s.writer ++ Server.responsesTo rt s frames := by
  induction frames with
  | nil => intro s; simp [Server.responsesTo]
  | cons f fs ih =>
    intro s
    have e : s = Server.prepend s.writer { s with writer := [] } := by simp [Server.prepend]
    have hw : (s.handleFrame rt f).writer =
        s.writer ++ (Server.handleFrame rt { s with writer := [] } f).writer := by
      conv => lhs; rw [e, handleFrame_prepend]
      rfl
    simp only [List.foldl_cons, Server.responsesTo]
    rw [ih, hw, List.append_assoc]

theorem readLineLimited_empty (r : Reader) (max : Nat) (hs : 0 < r.size)
    (hp : r.pending = []) (hf : r.failure = none) :
    readLineLimited r max = (.error .EOF, { r with pending := [] }) := by
  have := readLineLimitedLoop_drops max 0 (r.pending.length + 1) r [] [] hs hp (by simp) hf
    (by simp) (by simp) (by simp)
  simpa [readLineLimited] using this

theorem Run_frames (rt : Runtime) (lines : List (List Nat)) : ∀ s : Server,
    0 < s.reader.size → s.reader.failure = none →
    (∀ l ∈ lines, 10 ∉ l ∧ l.length + 1 ≤ maxMessageBytes) →
    s.reader.pending = (lines.map (fun l => l ++ [10])).flatten →
    s.Run rt =
      ({ (lines.map (fun l => l ++ [10])).foldl (Server.handleFrame rt) s with
          reader := { s.reader with pending := [] } }, none) := by
  induction lines with
  | nil =>
    intro s hs hf _ hp
    rw [Run_eq, readLineLimited_empty s.reader _ hs (by simpa using hp) hf]
    simp
  | cons l ls ih =>
    intro s hs hf hl hp
    have hp2 : s.reader.pending = l ++ 10 :: (ls.map (fun l => l ++ [10])).flatten := by
      rw [hp]; simp
    have h1 := hl l (List.mem_cons_self _ _)
    have hrd := readLineLimited_line s.reader maxMessageBytes l _ hs hp2 h1.1 h1.2
    rw [Run_handleFrame rt s _ _ hrd, handleFrame_setReader]
    have hnext := ih
      { s.handleFrame rt (l ++ [10]) with
        reader := { s.reader with pending := (ls.map (fun l => l ++ [10])).flatten } }
      hs hf (fun x hx => hl x (List.mem_cons_of_mem _ hx)) rfl
    rw [hnext]
    simp only [List.map_cons, List.foldl_cons]
    rw [foldl_handleFrame_setReader]

/-- C19: on an input made of frames within the bound, each ended by a line
feed, `Run` writes the responses to the first frame, then the responses to the
second frame from the state the first left, and so on: what it writes is the
concatenation, in the order the frames were read, of the responses to the
single frames; it then returns nil at the end of the stream. -/
theorem Run_in_order (rt : Runtime) (s : Server) (lines : List (List Nat))
    (hsize : 0 < s.reader.size) (hfail : s.reader.failure = none)
    (hlines : ∀ l ∈ lines, 10 ∉ l ∧ l.length + 1 ≤ maxMessageBytes)
    (hin : s.reader.pending = (lines.map (fun l => l ++ [10])).flatten) :
    s.emitted rt = Server.responsesTo rt s (lines.map (fun l => l ++ [10])) ∧
    (s.Run rt).1.writer = s.writer ++ Server.responsesTo rt s (lines.map (fun l => l ++ [10])) ∧
    (s.Run rt).1.db = ((lines.map (fun l => l ++ [10])).foldl (Server.handleFrame rt) s).db ∧
    (s.Run rt).2 = none := by
  have h := Run_frames rt lines s hsize hfail hlines hin
  have h0 := Run_frames rt lines { s with writer := [] } hsize hfail hlines hin
  have hr : Server.responsesTo rt { s with writer := [] } (lines.map (fun l => l ++ [10])) =
      Server.responsesTo rt s (lines.map (fun l => l ++ [10])) := by
    have := responsesTo_prepend rt s.writer (lines.map (fun l => l ++ [10]))
      { s with writer := [] }
    have e2 : Server.prepend s.writer { s with writer := [] } = s := by simp [Server.prepend]
    rw [e2] at this
    exact this.symm
  refine ⟨?_, ?_, ?_, ?_⟩
  · unfold Server.emitted
    rw [h0]
    simp only
    rw [foldl_handleFrame_writer, hr]
    simp
  · rw [h]
    simp only
    rw [foldl_handleFrame_writer]
  · rw [h]
  · rw [h]

/-- C19, at the input of the spec: the requests with the ids 3 and 4, in this
order, are answered 3 then 4. -/
theorem Run_in_order_witness :
    Server.emitted (Runtime.shipped orderUnmarshal exampleMarshal)
        (NewServer (Open 0) [51, 10, 52, 10]) =
      Server.responsesTo (Runtime.shipped orderUnmarshal exampleMarshal)
        (NewServer (Open 0) [51, 10, 52, 10]) [[51, 10], [52, 10]] ∧
    (Server.responsesTo (Runtime.shipped orderUnmarshal exampleMarshal)
        (NewServer (Open 0) [51, 10, 52, 10]) [[51, 10], [52, 10]]).map (fun r => r.ID) =
      [.num ⟨3, 0⟩, .num ⟨4, 0⟩] :=
  ⟨(Run_in_order (Runtime.shipped orderUnmarshal exampleMarshal)
      (NewServer (Open 0) [51, 10, 52, 10]) [[51], [52]] (by decide) rfl (by decide) rfl).1,
    rfl⟩

/-- C20 (defect of the code): `DeleteTask` deletes the direct subtasks only, so
when a subtask of the task has a subtask of its own, the first `DELETE` would
leave that one without its parent; with foreign keys on, as `Open` sets them,
the statement fails, `DeleteTask` returns the error and removes nothing. The
claim asks for the task and all its subtasks, at any depth, to be removed. -/
theorem DeleteTask_fails_on_grandchild (db : DB) (id : Int) (child grand : Task)
    (hchild : child ∈ db.tasks) (hparent : child.ParentID = some id)
    (hgrand : grand ∈ db.tasks) (hgp : grand.ParentID = some child.ID)
    (hdeep : child.ID ≠ id) :
    db.DeleteTask id = (db, some (.msg "FOREIGN KEY constraint failed")) := by
  have hkept : grand ∈ db.tasks.filter (fun t => !(t.ParentID == some id)) := by
    simp only [List.mem_filter, hgrand, true_and, hgp]
    simpa using hdeep
  have hgone : child ∈ db.tasks.filter (fun t => t.ParentID == some id) := by
    simp [List.mem_filter, hchild, hparent]
  have hany : (db.tasks.filter (fun t => !(t.ParentID == some id))).any
      (fun t => refersTo (db.tasks.filter (fun t => t.ParentID == some id)) t) = true := by
    rw [List.any_eq_true]
    refine ⟨grand, hkept, ?_⟩
    simp only [refersTo, hgp, List.any_eq_true]
    exact ⟨child, hgone, by simp⟩
  simp [DB.DeleteTask, deleteTasks, hany, fkFailed]

/-- C20, at an input: task 1, its subtask 2 and the subtask 3 of task 2;
deleting task 1 fails and all three tasks stay. -/
theorem DeleteTask_fails_on_grandchild_witness :
    DB.DeleteTask
        { Open 0 with tasks :=
            [{ ID := 1, ProjectID := 1, ParentID := none, Title := "a", Description := "",
               Status := "todo", Priority := 0, CreatedAt := 0, UpdatedAt := 0 },
             { ID := 2, ProjectID := 1, ParentID := some 1, Title := "b", Description := "",
               Status := "todo", Priority := 0, CreatedAt := 0, UpdatedAt := 0 },
             { ID := 3, ProjectID := 1, ParentID := some 2, Title := "c", Description := "",
               Status := "todo", Priority := 0, CreatedAt := 0, UpdatedAt := 0 }] } 1 =
      ({ Open 0 with tasks :=
            [{ ID := 1, ProjectID := 1, ParentID := none, Title := "a", Description := "",
               Status := "todo", Priority := 0, CreatedAt := 0, UpdatedAt := 0 },
             { ID := 2, ProjectID := 1, ParentID := some 1, Title := "b", Description := "",
               Status := "todo", Priority := 0, CreatedAt := 0, UpdatedAt := 0 },
             { ID := 3, ProjectID := 1, ParentID := some 2, Title := "c", Description := "",
               Status := "todo", Priority := 0, CreatedAt := 0, UpdatedAt := 0 }] },
        some (.msg "FOREIGN KEY constraint failed")) :=
  DeleteTask_fails_on_grandchild _ 1
    { ID := 2, ProjectID := 1, ParentID := some 1, Title := "b", Description := "",
      Status := "todo", Priority := 0, CreatedAt := 0, UpdatedAt := 0 }
    { ID := 3, ProjectID := 1, ParentID := some 2, Title := "c", Description := "",
      Status := "todo", Priority := 0, CreatedAt := 0, UpdatedAt := 0 }
    (by decide) rfl (by decide) rfl (by decide)

/-! ## The projects of a reachable store -/

/-- A store with the same projects and the same default project is in the same
state of the projects. -/
theorem projectsOK_of_eq (db db2 : DB) (h : db.projectsOK)
    (hp : db2.projects = db.projects) (hd : db2.defaultProjectID = db.defaultProjectID) :
    db2.projectsOK := by
  unfold DB.projectsOK DB.hasProject at *
  rw [hp, hd]; exact h

/-- The store that `Open` returns has one project, of id 1, which is the default. -/
theorem Open_projectsOK (now : Nat) : (Open now).projectsOK := by
  unfold DB.projectsOK
  exact ⟨by simp [Open], by simp [Open, DB.hasProject]⟩

/-- The step `CreateProject` keeps the state of the projects, and a project it
creates is in the store afterwards. -/
theorem CreateProject_projectsOK (db : DB) (slug name rootPath : String) (h : db.projectsOK) :
    (db.CreateProject slug name rootPath).1.projectsOK ∧
    ∀ p, (db.CreateProject slug name rootPath).2 = .ok p →
      (db.CreateProject slug name rootPath).1.hasProject p.ID = true := by
  unfold DB.CreateProject
  split
  · exact ⟨h, by intro p hp; simp at hp⟩
  · have hn := nextID_pos (db.projects.map (fun p => p.ID))
    have hid : db.projects.find? (fun p => p.ID == nextID (db.projects.map (fun p => p.ID))) = none :=
      List.find?_eq_none.2 (fun p hp => by
        have := lt_nextID (db.projects.map (fun p => p.ID)) p.ID (List.mem_map_of_mem _ hp)
        simp; omega)
    refine ⟨⟨?_, ?_⟩, ?_⟩
    · intro p hp
      simp only [List.mem_append, List.mem_singleton] at hp
      rcases hp with hp | rfl
      · exact h.1 p hp
      · exact hn
    · have := h.2
      simp only [DB.hasProject, List.any_append, Bool.or_eq_true] at this ⊢
      exact Or.inl this
    · intro p hp
      simp only [DB.GetProjectByID, List.find?_append, hid, Option.none_or, List.find?_cons,
        beq_self_eq_true, Except.ok.injEq] at hp
      rw [← hp]
      simp [DB.hasProject]

/-- The step `GetOrCreateProject` keeps the state of the projects, and the
project it returns is in the store afterwards. -/
theorem GetOrCreateProject_projectsOK (db : DB) (slug : String) (h : db.projectsOK) :
    (db.GetOrCreateProject slug).1.projectsOK ∧
    ∀ p, (db.GetOrCreateProject slug).2 = .ok p →
      (db.GetOrCreateProject slug).1.hasProject p.ID = true := by
  unfold DB.GetOrCreateProject
  cases hf : db.projects.find? (fun p => p.Slug == slug) with
  | none =>
    simp only [DB.GetProjectBySlug, hf]
    exact CreateProject_projectsOK db slug "" "" h
  | some q =>
    simp only [DB.GetProjectBySlug, hf]
    refine ⟨h, ?_⟩
    intro p hp
    simp only [Except.ok.injEq] at hp
    subst hp
    simp only [DB.hasProject, List.any_eq_true, beq_iff_eq]
    exact ⟨q, List.mem_of_find?_eq_some hf, rfl⟩

/-- Resolving the acting project keeps the state of the projects. -/
theorem getProjectID_projectsOK (db : DB) (args : Args) (h : db.projectsOK) :
    (getProjectID db args).1.projectsOK := by
  have hg := (GetOrCreateProject_projectsOK db (getString args "project") h).1
  simp only [getProjectID]
  split_ifs
  · split
    · next db1 p heq => rw [heq] at hg; exact hg
    · next db1 e heq => rw [heq] at hg; exact hg
  · exact h

/-- The memory, task, metadata and file tree handlers keep the state of the projects. -/
theorem handlers_projectsOK (db : DB) (args : Args) (h : db.projectsOK) :
    (handleMemoryStore db args).1.projectsOK ∧ (handleMemorySearch db args).1.projectsOK ∧
    (handleMemoryDelete db args).1.projectsOK ∧ (handleTaskCreate db args).1.projectsOK ∧
    (handleTaskUpdate db args).1.projectsOK ∧ (handleTaskList db args).1.projectsOK ∧
    (handleTaskDelete db args).1.projectsOK ∧ (handleMetadataSet db args).1.projectsOK ∧
    (handleMetadataGet db args).1.projectsOK ∧ (handleMetadataList db args).1.projectsOK ∧
    (handleMetadataDelete db args).1.projectsOK ∧
    (handleFiletreeAnnotate db args).1.projectsOK ∧ (handleFiletreeGet db args).1.projectsOK ∧
    (handleFiletreeDelete db args).1.projectsOK := by
  have hg := getProjectID_projectsOK db args h
  refine ⟨?_, ?_, ?_, ?_, ?_, ?_, ?_, ?_, ?_, ?_, ?_, ?_, ?_, ?_⟩
  · simp only [handleMemoryStore]
    split_ifs
    · exact h
    · apply projectsOK_of_eq _ _ hg <;>
        (simp only [passOn, DB.CreateMemory]; split_ifs <;> rfl)
  · exact hg
  · simp only [handleMemoryDelete]
    split_ifs
    · exact h
    · exact projectsOK_of_eq _ _ h rfl rfl
  · simp only [handleTaskCreate]
    split_ifs
    · exact h
    · apply projectsOK_of_eq _ _ hg <;>
        (simp only [passOn, DB.CreateTask]; split_ifs <;> rfl)
  · simp only [handleTaskUpdate]
    split_ifs
    · exact h
    · apply projectsOK_of_eq _ _ h <;>
        (simp only [passOn, DB.UpdateTask]; split_ifs <;> rfl)
  · exact hg
  · simp only [handleTaskDelete]
    split_ifs
    · exact h
    · apply projectsOK_of_eq _ _ h <;>
        (simp only [afterDelete, DB.DeleteTask]; repeat' split) <;> rfl
  · simp only [handleMetadataSet]
    split_ifs
    · exact h
    · apply projectsOK_of_eq _ _ hg <;>
        (simp only [passOn, DB.SetMetadata]; split_ifs <;> rfl)
  · simp only [handleMetadataGet]
    split_ifs
    · exact h
    · split <;> exact hg
  · exact hg
  · simp only [handleMetadataDelete]
    split_ifs
    · exact h
    · exact projectsOK_of_eq _ _ hg rfl rfl
  · simp only [handleFiletreeAnnotate]
    split_ifs
    · exact h
    · exact h
    · apply projectsOK_of_eq _ _ hg <;>
        (simp only [passOn, DB.AnnotateFile]; split_ifs <;> rfl)
  · simp only [handleFiletreeGet]
    split_ifs <;> exact hg
  · simp only [handleFiletreeDelete]
    split_ifs
    · exact h
    · exact projectsOK_of_eq _ _ hg rfl rfl

/-- The guideline, project and bookmark handlers keep the state of the projects. -/
theorem handlers_projectsOK_rest (db : DB) (args : Args) (h : db.projectsOK) :
    (handleGuidelineCreate db args).1.projectsOK ∧ (handleGuidelineUpdate db args).1.projectsOK ∧
    (handleGuidelineList db args).1.projectsOK ∧ (handleGuidelineSearch db args).1.projectsOK ∧
    (handleGuidelineGet db args).1.projectsOK ∧ (handleGuidelineDelete db args).1.projectsOK ∧
    (handleProjectCreate db args).1.projectsOK ∧ (handleProjectList db args).1.projectsOK ∧
    (handleProjectSetDefault db args).1.projectsOK ∧
    (handleBookmarkCreate db args).1.projectsOK ∧ (handleBookmarkSearch db args).1.projectsOK ∧
    (handleBookmarkList db args).1.projectsOK ∧ (handleBookmarkDelete db args).1.projectsOK := by
  have hg := getProjectID_projectsOK db args h
  refine ⟨?_, ?_, ?_, ?_, ?_, ?_, ?_, ?_, ?_, ?_, ?_, ?_, ?_⟩
  · simp only [handleGuidelineCreate]
    split_ifs
    · exact h
    · exact h
    · exact h
    · apply projectsOK_of_eq _ _ hg <;>
        (simp only [passOn, DB.CreateGuideline]; split_ifs <;> rfl)
  · simp only [handleGuidelineUpdate]
    split_ifs
    · exact h
    · apply projectsOK_of_eq _ _ h <;>
        (simp only [passOn, DB.UpdateGuideline]; split_ifs <;> rfl)
  · exact hg
  · simp only [handleGuidelineSearch]
    split_ifs
    · exact h
    · exact hg
  · simp only [handleGuidelineGet]
    split_ifs <;> exact h
  · simp only [handleGuidelineDelete]
    split_ifs
    · exact h
    · exact projectsOK_of_eq _ _ h rfl rfl
  · simp only [handleProjectCreate]
    split_ifs
    · exact h
    · exact (CreateProject_projectsOK db _ _ _ h).1
  · exact h
  · simp only [handleProjectSetDefault]
    split_ifs
    · exact h
    · have hc := GetOrCreateProject_projectsOK db (getString args "slug") h
      split
      · next db1 e heq => rw [heq] at hc; exact hc.1
      · next db1 p heq =>
        rw [heq] at hc
        exact ⟨hc.1.1, hc.2 p rfl⟩
  · simp only [handleBookmarkCreate]
    split_ifs
    · exact h
    · exact h
    · apply projectsOK_of_eq _ _ hg <;>
        (simp only [passOn, DB.CreateBookmark]; split_ifs <;> rfl)
  · exact hg
  · exact hg
  · simp only [handleBookmarkDelete]
    split_ifs
    · exact h
    · exact projectsOK_of_eq _ _ h rfl rfl

/-- Every tool call keeps the state of the projects that `Open` sets up. -/
theorem HandleToolCall_projectsOK (db : DB) (name : String) (args : Args) (h : db.projectsOK) :
    (HandleToolCall db name args).1.projectsOK := by
  have h1 := handlers_projectsOK db args h
  have h2 := handlers_projectsOK_rest db args h
  obtain ⟨a1, a2, a3, a4, a5, a6, a7, a8, a9, a10, a11, a12, a13, a14⟩ := h1
  obtain ⟨b1, b2, b3, b4, b5, b6, b7, b8, b9, b10, b11, b12, b13⟩ := h2
  have step : ∀ (c : Prop) [Decidable c] (a b : Handled),
      a.1.projectsOK → b.1.projectsOK → (if c then a else b).1.projectsOK := by
    intro c _ a b ha hb
    split_ifs <;> assumption
  unfold HandleToolCall
  apply step _ _ _ a1
  apply step _ _ _ a2
  apply step _ _ _ a3
  apply step _ _ _ a4
  apply step _ _ _ a5
  apply step _ _ _ a6
  apply step _ _ _ a7
  apply step _ _ _ a8
  apply step _ _ _ a9
  apply step _ _ _ a10
  apply step _ _ _ a11
  apply step _ _ _ a12
  apply step _ _ _ a13
  apply step _ _ _ a14
  apply step _ _ _ b1
  apply step _ _ _ b2
  apply step _ _ _ b3
  apply step _ _ _ b4
  apply step _ _ _ b5
  apply step _ _ _ b6
  apply step _ _ _ b7
  apply step _ _ _ b8
  apply step _ _ _ b9
  apply step _ _ _ b10
  apply step _ _ _ b11
  apply step _ _ _ b12
  apply step _ _ _ b13
  exact h

/-- With the router of handlers.go a `tools/call` keeps the state of the projects. -/
theorem handleToolsCall_projectsOK (u : List Nat → Except String Request) (m : Value → String)
    (s : Server) (req : Request) (h : s.db.projectsOK) :
    (s.handleToolsCall (Runtime.shipped u m) req).1.db.projectsOK := by
  unfold Server.handleToolsCall
  split
  · exact h
  · next params _ =>
    have hc := HandleToolCall_projectsOK s.db params.Name params.Arguments h
    split
    · exact h
    · split
      · next db1 r heq => simp [Runtime.shipped] at heq
      · next db1 err heq =>
        simp only [Runtime.shipped, Outcome.returned.injEq] at heq
        rw [heq.1] at hc
        split <;> exact hc
      · next db1 result heq =>
        simp only [Runtime.shipped, Outcome.returned.injEq] at heq
        rw [heq.1] at hc
        exact hc

/-- With the router of handlers.go every request keeps the state of the
projects, so that it holds of every store the server reaches from `Open`. -/
theorem handleRequest_projectsOK (u : List Nat → Except String Request) (m : Value → String)
    (s : Server) (req : Request) (h : s.db.projectsOK) :
    (s.handleRequest (Runtime.shipped u m) req).1.db.projectsOK := by
  unfold Server.handleRequest
  split
  · exact h
  · split_ifs <;> first | exact h | exact handleToolsCall_projectsOK u m s req h

/-! ## Claims on the store and the handlers -/

theorem UpdateTask_status (db : DB) (t : Task) (title description : Option String) (st : String)
    (priority : Option Int) (ht : t ∈ db.tasks) :
    ∃ t2, db.UpdateTask t.ID title description (some st) priority =
        ({ db with tasks := db.tasks.map (fun u =>
            if u.ID == t.ID then
              { u with Title := title.getD u.Title, Description := description.getD u.Description,
                       Status := st, Priority := priority.getD u.Priority, UpdatedAt := db.now }
            else u) }, .ok t2) ∧
      t2.ID = t.ID ∧ t2.Status = st ∧
      t2 ∈ (db.UpdateTask t.ID title description (some st) priority).1.tasks := by
  have hsome : ∃ t2, (db.tasks.map (fun u =>
            if u.ID == t.ID then
              { u with Title := title.getD u.Title, Description := description.getD u.Description,
                       Status := st, Priority := priority.getD u.Priority, UpdatedAt := db.now }
            else u)).find? (fun u => u.ID == t.ID) = some t2 := by
    rw [← Option.isSome_iff_exists, List.find?_isSome]
    refine ⟨_, List.mem_map.2 ⟨t, ht, rfl⟩, ?_⟩
    simp
  obtain ⟨t2, h2⟩ := hsome
  have hmem := List.mem_of_find?_eq_some h2
  have hp := List.find?_some h2
  refine ⟨t2, ?_, ?_, ?_, ?_⟩
  · simp only [DB.UpdateTask, Option.isNone_some, Bool.and_false, Bool.false_and,
      Bool.false_eq_true, if_false, DB.GetTask, h2, Option.getD_some]
  · simpa using hp
  · obtain ⟨u, _, hu⟩ := List.mem_map.1 hmem
    have hid : t2.ID = t.ID := by simpa using hp
    by_cases hc : u.ID = t.ID
    · simp only [hc, beq_self_eq_true, if_true] at hu
      rw [← hu]
    · have : (u.ID == t.ID) = false := by simpa using hc
      simp only [this, Bool.false_eq_true, if_false] at hu
      rw [← hu] at hid
      exact absurd hid hc
  · simp only [DB.UpdateTask, Option.isNone_some, Bool.and_false, Bool.false_and,
      Bool.false_eq_true, if_false, Option.getD_some]
    exact hmem

/-- C21 (defect of the code): `task_update` writes whatever string it is given
as `status` into the task: the handler passes the argument on unchecked,
`UpdateTask` sets the column to it, and the schema has no constraint on the
column. So, for any string, a call that names an existing task succeeds and leaves that
task with this status, whether or not the string is one of the four statuses of the catalog. -/
theorem task_update_any_status (db : DB) (args : Args) (t : Task) (st : String)
    (ht : t ∈ db.tasks) (hnz : t.ID ≠ 0) (hid : getInt64 args "id" = t.ID)
    (hst : args.get "status" = some (.str st)) :
    ∃ t2, (HandleToolCall db "task_update" args).2 = .ok (.task t2) ∧
      t2.ID = t.ID ∧ t2.Status = st ∧
      t2 ∈ (HandleToolCall db "task_update" args).1.tasks := by
  have hptr : getStringPtr args "status" = some st := by simp [getStringPtr, hst]
  obtain ⟨t2, h1, h2, h3, h4⟩ := UpdateTask_status db t (getStringPtr args "title")
    (getStringPtr args "description") st (getIntPtr args "priority") ht
  have hcall : HandleToolCall db "task_update" args =
      passOn .task (db.UpdateTask t.ID (getStringPtr args "title")
        (getStringPtr args "description") (some st) (getIntPtr args "priority")) := by
    simp [HandleToolCall, handleTaskUpdate, hid, hnz, hptr]
  rw [hcall]
  refine ⟨t2, ?_, h2, h3, ?_⟩
  · simp only [passOn, h1]; rfl
  · simpa only [passOn] using h4

/-- C21, at an input: on a fresh store a task is created and then updated with the
status `bogus`, which is none of the statuses of the catalog; the update succeeds
and the store reached holds a task with that status. -/
theorem task_update_any_status_witness :
    "bogus" ∉ taskStatuses ∧
    ∃ t2, (HandleToolCall (afterCalls (Open 0) [("task_create", [("title", .str "t")])])
        "task_update" [("id", .num ⟨1, 0⟩), ("status", .str "bogus")]).2 = .ok (.task t2) ∧
      t2.ID = 1 ∧ t2.Status = "bogus" ∧
      t2 ∈ (afterCalls (Open 0) [("task_create", [("title", .str "t")]),
        ("task_update", [("id", .num ⟨1, 0⟩), ("status", .str "bogus")])]).tasks :=
  ⟨by decide,
   task_update_any_status (afterCalls (Open 0) [("task_create", [("title", .str "t")])])
    [("id", .num ⟨1, 0⟩), ("status", .str "bogus")]
    { ID := 1, ProjectID := 1, ParentID := none, Title := "t", Description := "",
      Status := "todo", Priority := 0, CreatedAt := 0, UpdatedAt := 0 } "bogus"
    (by decide) (by decide) (by decide) rfl⟩

theorem getProjectID_again (db db2 : DB) (args args2 : Args)
    (hslug : getString args2 "project" = getString args "project")
    (hproj : db2.projects = (getProjectID db args).1.projects) :
    getProjectID db2 args2 = (db2, (getProjectID db args).2) := by
  by_cases hs : getString args "project" = ""
  · simp [getProjectID, hslug, hs]
  · by_cases hex : ∃ p ∈ db.projects, p.Slug = getString args "project"
    · obtain ⟨p, hp, hps, hgo⟩ := GetOrCreateProject_existing db _ hex
      have h1 : getProjectID db args = (db, some p.ID) := by
        simp [getProjectID, hs, hgo]
      rw [h1] at hproj ⊢
      have hex2 : ∃ p ∈ db2.projects, p.Slug = getString args "project" := by
        rw [hproj]; exact hex
      have hfind : db2.GetOrCreateProject (getString args "project") = (db2, .ok p) := by
        have hf : db.GetOrCreateProject (getString args "project") = (db, .ok p) := hgo
        simp only [DB.GetOrCreateProject, DB.GetProjectBySlug] at hf ⊢
        simp only at hproj
        rw [hproj]
        cases hq : db.projects.find? (fun p => p.Slug == getString args "project") with
        | none =>
          exfalso
          obtain ⟨q, hq1, hq2⟩ := hex
          have := List.find?_eq_none.1 hq q hq1
          simp [hq2] at this
        | some q =>
          rw [hq] at hf
          simp only [Prod.mk.injEq, Except.ok.injEq, true_and] at hf
          rw [hf]
      simp [getProjectID, hslug, hs, hfind]
    · have hall : ∀ p ∈ db.projects, p.Slug ≠ getString args "project" := by
        intro p hp hps; exact hex ⟨p, hp, hps⟩
      have hgo := GetOrCreateProject_new db _ hall
      have h1 : getProjectID db args =
          ({ db with projects := db.projects ++
              [{ ID := nextID (db.projects.map (fun p => p.ID)),
                 Slug := getString args "project", Name := "", RootPath := "",
                 CreatedAt := db.now }] },
            some (nextID (db.projects.map (fun p => p.ID)))) := by
        simp [getProjectID, hs, hgo]
      rw [h1] at hproj ⊢
      simp only at hproj
      have hnone : db.projects.find? (fun p => p.Slug == getString args "project") = none := by
        rw [List.find?_eq_none]
        intro p hp
        simpa using hall p hp
      have hfind : db2.GetOrCreateProject (getString args "project") =
          (db2, Except.ok
            { ID := nextID (db.projects.map (fun p => p.ID)), Slug := getString args "project",
              Name := "", RootPath := "", CreatedAt := db.now }) := by
        simp [DB.GetOrCreateProject, DB.GetProjectBySlug, hproj, List.find?_append, hnone]
      simp [getProjectID, hslug, hs, hfind]

theorem SetMetadata_get (db : DB) (projectID : Option Int) (key value : String)
    (r : Option Metadata) (hok : (db.SetMetadata projectID key value).2 = .ok r) :
    ∃ m, r = some m ∧ m.Key = key ∧ m.Value = value ∧ m.ProjectID = db.GetProjectID projectID ∧
      (db.SetMetadata projectID key value).1.GetMetadata projectID key = .ok (some m) ∧
      m ∈ (db.SetMetadata projectID key value).1.metadata ∧
      (db.SetMetadata projectID key value).1.projects = db.projects ∧
      (db.SetMetadata projectID key value).1.defaultProjectID = db.defaultProjectID := by
  unfold DB.SetMetadata at hok ⊢
  simp only at hok ⊢
  by_cases hfk : db.hasProject (db.GetProjectID projectID) = true
  · simp only [hfk, Bool.not_true, Bool.false_eq_true, if_false] at hok ⊢
    by_cases hany : db.metadata.any
        (fun m => m.ProjectID == db.GetProjectID projectID && m.Key == key) = true
    · simp only [hany, if_true] at hok ⊢
      obtain ⟨m0, hm0, hp0⟩ : ∃ m0, db.metadata.find?
          (fun m => m.ProjectID == db.GetProjectID projectID && m.Key == key) = some m0 ∧
          (m0.ProjectID == db.GetProjectID projectID && m0.Key == key) = true := by
        obtain ⟨x, hx, hpx⟩ := List.any_eq_true.1 hany
        cases hf : db.metadata.find?
          (fun m => m.ProjectID == db.GetProjectID projectID && m.Key == key) with
        | none =>
          have := List.find?_eq_none.1 hf x hx
          exact absurd hpx this
        | some m0 =>
          have hp := List.find?_some hf
          exact ⟨m0, rfl, hp⟩
      have hget : (db.metadata.map (fun m =>
            if (m.ProjectID == db.GetProjectID projectID && m.Key == key) = true
            then { m with Value := value } else m)).find?
          (fun m => m.ProjectID == db.GetProjectID projectID && m.Key == key) =
          some { m0 with Value := value } := by
        rw [List.find?_map]
        have hcomp : ((fun m : Metadata => m.ProjectID == db.GetProjectID projectID && m.Key == key) ∘
            (fun m => if (m.ProjectID == db.GetProjectID projectID && m.Key == key) = true
              then { m with Value := value } else m)) =
            (fun m => m.ProjectID == db.GetProjectID projectID && m.Key == key) := by
          funext m
          simp only [Function.comp]
          split_ifs <;> rfl
        rw [hcomp, hm0]
        simp only [Option.map_some', hp0, if_true]
      have hg : DB.GetMetadata { db with metadata := db.metadata.map (fun m =>
            if (m.ProjectID == db.GetProjectID projectID && m.Key == key) = true
            then { m with Value := value } else m) } projectID key =
          .ok (some { m0 with Value := value }) := by
        simp only [DB.GetMetadata, DB.GetProjectID] at hget ⊢
        rw [hget]
      rw [hg] at hok ⊢
      simp only [Except.ok.injEq] at hok
      simp only [Bool.and_eq_true, beq_iff_eq] at hp0
      refine ⟨_, hok.symm, hp0.2, rfl, hp0.1, ?_, ?_, ?_, ?_⟩
      · rfl
      · exact List.mem_of_find?_eq_some hget
      · first | rfl | trivial
      · first | rfl | trivial
    · simp only [hany, Bool.false_eq_true, if_false] at hok ⊢
      have hnone : db.metadata.find?
          (fun m => m.ProjectID == db.GetProjectID projectID && m.Key == key) = none := by
        rw [List.find?_eq_none]
        intro x hx hpx
        exact hany (List.any_eq_true.2 ⟨x, hx, hpx⟩)
      have hg : DB.GetMetadata { db with metadata := db.metadata ++
            [{ ID := nextID (db.metadata.map (fun m => m.ID)),
               ProjectID := db.GetProjectID projectID, Key := key, Value := value }] }
            projectID key =
          .ok (some
            { ID := nextID (db.metadata.map (fun m => m.ID)),
              ProjectID := db.GetProjectID projectID, Key := key, Value := value }) := by
        simp only [DB.GetMetadata, DB.GetProjectID] at hnone ⊢
        rw [List.find?_append, hnone]
        simp
      rw [hg] at hok ⊢
      simp only [Except.ok.injEq] at hok
      refine ⟨_, hok.symm, rfl, rfl, rfl, ?_, ?_, ?_, ?_⟩
      · rfl
      · simp
      · first | rfl | trivial
      · first | rfl | trivial
  · simp [hfk] at hok

theorem CreateProject_frame (db : DB) (slug name rootPath : String) :
    ∃ ps, (db.CreateProject slug name rootPath).1 = { db with projects := db.projects ++ ps } := by
  unfold DB.CreateProject
  split_ifs
  · exact ⟨[], by simp⟩
  · exact ⟨_, rfl⟩

theorem GetOrCreateProject_frame (db : DB) (slug : String) :
    ∃ ps, (db.GetOrCreateProject slug).1 = { db with projects := db.projects ++ ps } := by
  unfold DB.GetOrCreateProject
  split
  · exact ⟨[], by simp⟩
  · exact CreateProject_frame db slug "" ""
  · exact ⟨[], by simp⟩

theorem getProjectID_frame (db : DB) (args : Args) :
    ∃ ps, (getProjectID db args).1 = { db with projects := db.projects ++ ps } := by
  obtain ⟨ps, hps⟩ := GetOrCreateProject_frame db (getString args "project")
  simp only [getProjectID]
  split_ifs
  · split
    · next db1 p heq => rw [heq] at hps; exact ⟨ps, hps⟩
    · next db1 e heq => rw [heq] at hps; exact ⟨ps, hps⟩
  · exact ⟨[], by simp⟩

theorem metadataUnique_filter (rows : List Metadata) (pid : Int) (key : String)
    (h : rows.Pairwise (fun a b => ¬ (a.ProjectID = b.ProjectID ∧ a.Key = b.Key))) :
    (rows.filter (fun m => m.ProjectID == pid && m.Key == key)).length ≤ 1 := by
  induction rows with
  | nil => simp
  | cons a l ih =>
    rw [List.pairwise_cons] at h
    by_cases ha : (a.ProjectID == pid && a.Key == key) = true
    · have hnil : l.filter (fun m => m.ProjectID == pid && m.Key == key) = [] := by
        rw [List.filter_eq_nil_iff]
        intro b hb hpb
        simp only [Bool.and_eq_true, beq_iff_eq] at ha hpb
        exact h.1 b hb ⟨ha.1.trans hpb.1.symm, ha.2.trans hpb.2.symm⟩
      simp [List.filter_cons, ha, hnil]
    · simp only [List.filter_cons, ha, Bool.false_eq_true, if_false]
      exact ih h.2

theorem SetMetadata_unique (db : DB) (projectID : Option Int) (key value : String)
    (h : db.metadataUnique) : (db.SetMetadata projectID key value).1.metadataUnique := by
  unfold DB.SetMetadata DB.metadataUnique at *
  simp only
  split_ifs with hfk hany
  · exact h
  · simp only
    refine List.Pairwise.map _ ?_ h
    intro a b hab
    split_ifs <;> exact hab
  · simp only
    rw [List.pairwise_append]
    refine ⟨h, List.pairwise_singleton _ _, ?_⟩
    intro a ha b hb hab
    rw [List.mem_singleton] at hb
    subst hb
    apply hany
    rw [List.any_eq_true]
    exact ⟨a, ha, by simp [hab.1, hab.2]⟩

theorem eq_singleton_of_mem {α : Type} (l : List α) (m : α) (hle : l.length ≤ 1) (hin : m ∈ l) :
    l = [m] := by
  match l, hle, hin with
  | [x], _, hin =>
    simp only [List.mem_singleton] at hin
    rw [hin]
  | _ :: _ :: _, hle, _ => simp at hle

/-- C22: when `metadata_set` with a non-empty key succeeds, the record it
returns has that key and the value given (the empty string when the argument
`value` is not a string), and a `metadata_get` of the same key with the same
`project` argument, made on the store the set left, changes nothing and returns that
same record. This holds whatever the store held before, so also when the key had
another value. In a store that keeps the `UNIQUE(project_id, key)` constraint
the set keeps it as well, and the record is the only one of its project and key. -/
theorem metadata_set_then_get (db : DB) (setArgs getArgs : Args) (v : Value)
    (hkey : getString setArgs "key" ≠ "")
    (hk : getString getArgs "key" = getString setArgs "key")
    (hp : getString getArgs "project" = getString setArgs "project")
    (hok : (HandleToolCall db "metadata_set" setArgs).2 = .ok v) :
    ∃ m, v = .metadata (some m) ∧
      HandleToolCall (HandleToolCall db "metadata_set" setArgs).1 "metadata_get" getArgs =
        ((HandleToolCall db "metadata_set" setArgs).1, .ok (.metadata (some m))) ∧
      m.Key = getString setArgs "key" ∧ m.Value = getString setArgs "value" ∧
      m.ProjectID = actingProject db setArgs ∧
      (db.metadataUnique →
        (HandleToolCall db "metadata_set" setArgs).1.metadataUnique ∧
        (HandleToolCall db "metadata_set" setArgs).1.metadata.filter
          (fun r => r.ProjectID == m.ProjectID && r.Key == m.Key) = [m]) := by
  have hset : HandleToolCall db "metadata_set" setArgs =
      passOn .metadata ((getProjectID db setArgs).1.SetMetadata (getProjectID db setArgs).2
        (getString setArgs "key") (getString setArgs "value")) := by
    simp [HandleToolCall, handleMetadataSet, hkey]
  rw [hset] at hok ⊢
  cases hr : ((getProjectID db setArgs).1.SetMetadata (getProjectID db setArgs).2
      (getString setArgs "key") (getString setArgs "value")).2 with
  | error e => simp [passOn, hr, Except.map] at hok
  | ok r =>
    obtain ⟨m, hrm, hmk, hmv, hmp, hget, hmem, hproj, hdef⟩ := SetMetadata_get _ _ _ _ _ hr
    have hv : v = .metadata (some m) := by
      simp only [passOn, hr, Except.map, Except.ok.injEq] at hok
      rw [← hok, hrm]
    have hagain := getProjectID_again db
      ((getProjectID db setArgs).1.SetMetadata (getProjectID db setArgs).2
        (getString setArgs "key") (getString setArgs "value")).1 setArgs getArgs hp hproj
    refine ⟨m, hv, ?_, hmk, hmv, hmp, ?_⟩
    · have hkey2 : getString getArgs "key" ≠ "" := by rw [hk]; exact hkey
      simp only [HandleToolCall, handleMetadataGet, passOn, hkey2, hagain, hk, hget]
      simp [hkey]
    · intro hu
      have hu1 : (getProjectID db setArgs).1.metadataUnique := by
        obtain ⟨ps, hps⟩ := getProjectID_frame db setArgs
        rw [hps]
        exact hu
      have hu2 := SetMetadata_unique (getProjectID db setArgs).1 (getProjectID db setArgs).2
        (getString setArgs "key") (getString setArgs "value") hu1
      refine ⟨hu2, ?_⟩
      have hle := metadataUnique_filter _ m.ProjectID m.Key hu2
      have hin : m ∈ ((getProjectID db setArgs).1.SetMetadata (getProjectID db setArgs).2
          (getString setArgs "key") (getString setArgs "value")).1.metadata.filter
            (fun r => r.ProjectID == m.ProjectID && r.Key == m.Key) := by
        simp [List.mem_filter, hmem]
      simp only [passOn]
      exact eq_singleton_of_mem _ _ hle hin

/-- C22, at an input: on a fresh store the key `k` is set to `old` and then to
`new`; the second set succeeds, a get of `k` returns the record with the value `new`,
and it is the only record of the key. -/
theorem metadata_set_then_get_witness :
    HandleToolCall
      (afterCalls (Open 0)
        [("metadata_set", [("key", .str "k"), ("value", .str "old")]),
         ("metadata_set", [("key", .str "k"), ("value", .str "new")])])
      "metadata_get" [("key", .str "k")] =
      (afterCalls (Open 0)
        [("metadata_set", [("key", .str "k"), ("value", .str "old")]),
         ("metadata_set", [("key", .str "k"), ("value", .str "new")])],
       .ok (.metadata (some { ID := 1, ProjectID := 1, Key := "k", Value := "new" }))) ∧
    (afterCalls (Open 0)
        [("metadata_set", [("key", .str "k"), ("value", .str "old")]),
         ("metadata_set", [("key", .str "k"), ("value", .str "new")])]).metadata =
      [{ ID := 1, ProjectID := 1, Key := "k", Value := "new" }] := by
  obtain ⟨m, hv, hget, -, -, -, -⟩ := metadata_set_then_get
    (afterCalls (Open 0) [("metadata_set", [("key", .str "k"), ("value", .str "old")])])
    [("key", .str "k"), ("value", .str "new")] [("key", .str "k")]
    (.metadata (some { ID := 1, ProjectID := 1, Key := "k", Value := "new" }))
    (by decide) (by decide) (by decide) rfl
  simp only [Value.metadata.injEq, Option.some.injEq] at hv
  subst hv
  exact ⟨hget, by decide⟩


theorem CreateMemory_row (db : DB) (projectID : Option Int) (content : String)
    (keywords : Option (List String)) (h : db.hasProject (db.GetProjectID projectID) = true) :
    db.CreateMemory projectID content keywords =
      ({ db with memories := db.memories ++
          [{ ID := nextID (db.memories.map (fun m => m.ID)),
             ProjectID := db.GetProjectID projectID, Content := content, Keywords := keywords,
             CreatedAt := db.now, UpdatedAt := db.now }] },
       .ok { ID := nextID (db.memories.map (fun m => m.ID)),
             ProjectID := db.GetProjectID projectID, Content := content, Keywords := keywords,
             CreatedAt := db.now, UpdatedAt := db.now }) := by
  have hid : db.memories.find? (fun m => m.ID == nextID (db.memories.map (fun m => m.ID))) = none :=
    List.find?_eq_none.2 (fun m hm => by
      have := lt_nextID (db.memories.map (fun m => m.ID)) m.ID (List.mem_map_of_mem _ hm)
      simp; omega)
  simp [DB.CreateMemory, h, DB.GetMemory, List.find?_append, hid]

/-- C23: on a store whose projects are as `Open` and the tools leave them (their
ids positive, the default project among them), `memory_store` with a non-empty
string `content`, with or without keywords, returns without error the memory
it has added to the store: its content is the content given and its keywords
the strings of the array given, if any. A `tools/call` of it with a valid id
is then answered by exactly one response: a result with the id of the request,
`isError` false, and as text `json.Marshal` of that memory, whose field `Content`
the struct tag writes as `content`. -/
theorem memory_store_returns_content (u : List Nat → Except String Request) (m : Value → String)
    (s : Server) (id : JVal) (args : Args)
    (hid : (∃ v, id = .str v ∧ v ≠ "") ∨ ∃ n, id = .num n)
    (hdb : s.db.projectsOK) (hcontent : getString args "content" ≠ "") :
    ∃ db2 mem, HandleToolCall s.db "memory_store" args = (db2, .ok (.memory mem)) ∧
      mem.Content = getString args "content" ∧
      mem.Keywords = getStringArray args "keywords" ∧
      db2.memories = (getProjectID s.db args).1.memories ++ [mem] ∧
      s.handleRequest (Runtime.shipped u m) (toolsCall id "memory_store" args) =
        ({ db := db2, reader := s.reader,
           writer := s.writer ++
            [{ JSONRPC := "2.0", ID := id,
               Result := some (.content (m (.memory mem)) false), Error := none }] }, none) := by
  have hrow := CreateMemory_row (getProjectID s.db args).1 (getProjectID s.db args).2
    (getString args "content") (getStringArray args "keywords")
    (getProjectID_hasProject s.db args hdb.1 hdb.2)
  obtain ⟨db2, mem, hcm, hc, hk, hmem⟩ : ∃ db2 mem,
      (getProjectID s.db args).1.CreateMemory (getProjectID s.db args).2
        (getString args "content") (getStringArray args "keywords") = (db2, .ok mem) ∧
      mem.Content = getString args "content" ∧
      mem.Keywords = getStringArray args "keywords" ∧
      db2.memories = (getProjectID s.db args).1.memories ++ [mem] :=
    ⟨_, _, hrow, rfl, rfl, rfl⟩
  have hcall : HandleToolCall s.db "memory_store" args = (db2, .ok (.memory mem)) := by
    simp only [HandleToolCall, handleMemoryStore, hcontent, if_true, if_false, passOn, hcm,
      Except.map]
  refine ⟨db2, mem, hcall, hc, hk, hmem, ?_⟩
  exact handleRequest_tool_ok u m s (toolsCall id "memory_store" args) "memory_store" args _ _
    rfl hid rfl (by decide) hcall

/-- C23, at the input of the spec: `memory_store` of the content `hello` with id 1 on a
fresh store is answered by a result with id 1 and `isError` false, holding the
memory with content `hello`. -/
theorem memory_store_returns_content_witness :
    ∃ db2 mem, HandleToolCall (Open 0) "memory_store" [("content", .str "hello")] =
        (db2, .ok (.memory mem)) ∧
      mem.Content = "hello" ∧ mem.Keywords = none ∧
      db2.memories = [mem] ∧
      (NewServer (Open 0) []).handleRequest (Runtime.shipped exampleUnmarshal exampleMarshal)
          (toolsCall (.num ⟨1, 0⟩) "memory_store" [("content", .str "hello")]) =
        ({ db := db2, reader := (NewServer (Open 0) []).reader,
           writer :=
            [{ JSONRPC := "2.0", ID := .num ⟨1, 0⟩,
               Result := some (.content (exampleMarshal (.memory mem)) false),
               Error := none }] }, none) :=
  memory_store_returns_content exampleUnmarshal exampleMarshal (NewServer (Open 0) [])
    (.num ⟨1, 0⟩) [("content", .str "hello")] (Or.inr ⟨_, rfl⟩) (Open_projectsOK 0) (by decide)


/-! ## The errors of the handlers -/

theorem GetMemory_error (db : DB) (id : Int) (e : GoErr) (h : db.GetMemory id = .error e) :
    e ∈ storeErrors := by
  unfold DB.GetMemory at h
  split at h <;> simp at h
  subst h; simp [storeErrors]

theorem GetTask_error (db : DB) (id : Int) (e : GoErr) (h : db.GetTask id = .error e) :
    e ∈ storeErrors := by
  unfold DB.GetTask at h
  split at h <;> simp at h
  subst h; simp [storeErrors]

theorem GetGuideline_error (db : DB) (id : Int) (e : GoErr) (h : db.GetGuideline id = .error e) :
    e ∈ storeErrors := by
  unfold DB.GetGuideline at h
  split at h <;> simp at h
  subst h; simp [storeErrors]

theorem GetBookmark_error (db : DB) (id : Int) (e : GoErr) (h : db.GetBookmark id = .error e) :
    e ∈ storeErrors := by
  unfold DB.GetBookmark at h
  split at h <;> simp at h
  subst h; simp [storeErrors]

theorem GetProjectByID_error (db : DB) (id : Int) (e : GoErr)
    (h : db.GetProjectByID id = .error e) : e ∈ storeErrors := by
  unfold DB.GetProjectByID at h
  split at h <;> simp at h
  subst h; simp [storeErrors]

theorem CreateMemory_error (db : DB) (projectID : Option Int) (content : String)
    (keywords : Option (List String)) (e : GoErr)
    (h : (db.CreateMemory projectID content keywords).2 = .error e) : e ∈ storeErrors := by
  unfold DB.CreateMemory at h
  simp only at h
  split_ifs at h
  · simp only [Except.error.injEq] at h
    subst h; simp [storeErrors]
  · exact GetMemory_error _ _ _ h

theorem CreateTask_error (db : DB) (projectID parentID : Option Int) (title description : String)
    (priority : Int) (e : GoErr)
    (h : (db.CreateTask projectID parentID title description priority).2 = .error e) :
    e ∈ storeErrors := by
  unfold DB.CreateTask at h
  simp only at h
  split_ifs at h
  · simp only [Except.error.injEq] at h
    subst h; simp [storeErrors]
  · exact GetTask_error _ _ _ h

theorem UpdateTask_error (db : DB) (id : Int) (title description status : Option String)
    (priority : Option Int) (e : GoErr)
    (h : (db.UpdateTask id title description status priority).2 = .error e) :
    e ∈ storeErrors := by
  unfold DB.UpdateTask at h
  split_ifs at h <;> exact GetTask_error _ _ _ h

theorem deleteTasks_error (rows : List Task) (goes : Task → Bool) (e : GoErr)
    (h : deleteTasks rows goes = .error e) : e ∈ storeErrors := by
  unfold deleteTasks at h
  simp only at h
  split_ifs at h
  simp only [Except.error.injEq] at h
  subst h; simp [storeErrors]

theorem DeleteTask_error (db : DB) (id : Int) (e : GoErr) (h : (db.DeleteTask id).2 = some e) :
    e ∈ storeErrors := by
  unfold DB.DeleteTask at h
  split at h
  · next err heq =>
    simp only [Option.some.injEq] at h
    subst h
    exact deleteTasks_error _ _ _ heq
  · simp only at h
    split at h
    · next err heq =>
      simp only [Option.some.injEq] at h
      subst h
      exact deleteTasks_error _ _ _ heq
    · simp at h

theorem SetMetadata_error (db : DB) (projectID : Option Int) (key value : String) (e : GoErr)
    (h : (db.SetMetadata projectID key value).2 = .error e) : e ∈ storeErrors := by
  unfold DB.SetMetadata at h
  simp only at h
  split_ifs at h
  · simp only [Except.error.injEq] at h
    subst h; simp [storeErrors]
  · simp [DB.GetMetadata] at h
  · simp [DB.GetMetadata] at h

theorem AnnotateFile_error (db : DB) (projectID : Option Int) (path note : String) (isDir : Bool)
    (e : GoErr) (h : (db.AnnotateFile projectID path note isDir).2 = .error e) :
    e ∈ storeErrors := by
  unfold DB.AnnotateFile at h
  simp only at h
  split_ifs at h
  · simp only [Except.error.injEq] at h
    subst h; simp [storeErrors]
  · simp [DB.GetFileAnnotation] at h
  · simp [DB.GetFileAnnotation] at h

theorem CreateGuideline_error (db : DB) (projectID : Option Int) (category title content : String)
    (tags : Option (List String)) (priority : Int) (e : GoErr)
    (h : (db.CreateGuideline projectID category title content tags priority).2 = .error e) :
    e ∈ storeErrors := by
  unfold DB.CreateGuideline at h
  simp only at h
  split_ifs at h
  · simp only [Except.error.injEq] at h
    subst h; simp [storeErrors]
  · simp only [Except.error.injEq] at h
    subst h; simp [storeErrors]
  · exact GetGuideline_error _ _ _ h

theorem UpdateGuideline_error (db : DB) (id : Int) (content : Option String)
    (tags : Option (List String)) (priority : Option Int) (e : GoErr)
    (h : (db.UpdateGuideline id content tags priority).2 = .error e) : e ∈ storeErrors := by
  unfold DB.UpdateGuideline at h
  split_ifs at h <;> exact GetGuideline_error _ _ _ h

theorem CreateBookmark_error (db : DB) (projectID : Option Int)
    (url title excerpt note docType pageOrSection : String) (tags : Option (List String))
    (e : GoErr)
    (h : (db.CreateBookmark projectID url title excerpt note docType pageOrSection tags).2 =
      .error e) : e ∈ storeErrors := by
  unfold DB.CreateBookmark at h
  simp only at h
  split_ifs at h
  · simp only [Except.error.injEq] at h
    subst h; simp [storeErrors]
  · exact GetBookmark_error _ _ _ h

theorem CreateProject_error (db : DB) (slug name rootPath : String) (e : GoErr)
    (h : (db.CreateProject slug name rootPath).2 = .error e) : e ∈ storeErrors := by
  unfold DB.CreateProject at h
  simp only at h
  split_ifs at h
  · simp only [Except.error.injEq] at h
    subst h; simp [storeErrors]
  · exact GetProjectByID_error _ _ _ h

theorem GetOrCreateProject_error (db : DB) (slug : String) (e : GoErr)
    (h : (db.GetOrCreateProject slug).2 = .error e) : e ∈ storeErrors := by
  unfold DB.GetOrCreateProject at h
  split at h
  · simp at h
  · exact CreateProject_error _ _ _ _ _ h
  · next err hne heq =>
    simp only [Except.error.injEq] at h
    subst h
    unfold DB.GetProjectBySlug at heq
    split at heq <;> simp at heq
    exact absurd heq.symm (hne)

theorem passOn_error {α : Type} (wrap : α → Value) (r : DB × Except GoErr α) (e : GoErr)
    (h : (passOn wrap r).2 = .error e) : r.2 = .error e := by
  unfold passOn at h
  cases hr : r.2 with
  | error e2 =>
    simp only [hr, Except.map, Except.error.injEq] at h
    rw [h]
  | ok v => simp [hr, Except.map] at h

theorem afterDelete_error (r : DB × Option GoErr) (done : Value) (e : GoErr)
    (h : (afterDelete r done).2 = .error e) : r.2 = some e := by
  unfold afterDelete at h
  split at h
  · next err heq =>
    simp only [Except.error.injEq] at h
    rw [heq, h]
  · simp at h

theorem handleMemoryStore_error (db : DB) (args : Args) (e : GoErr)
    (h : (handleMemoryStore db args).2 = .error e) :
    e ∈ storeErrors ∨ ((handleMemoryStore db args).1 = db ∧ ∃ w, e = required w) := by
  rcases hg : getProjectID db args with ⟨db1, pid⟩
  simp only [handleMemoryStore, hg] at h ⊢
  split_ifs at h ⊢
  · right
    simp only [Except.error.injEq] at h
    exact ⟨rfl, _, h.symm⟩
  · left
    exact CreateMemory_error _ _ _ _ _ (passOn_error _ _ _ h)

theorem handleMemorySearch_error (db : DB) (args : Args) (e : GoErr)
    (h : (handleMemorySearch db args).2 = .error e) :
    e ∈ storeErrors ∨ ((handleMemorySearch db args).1 = db ∧ ∃ w, e = required w) := by
  rcases hg : getProjectID db args with ⟨db1, pid⟩
  simp only [handleMemorySearch, hg] at h ⊢
  exfalso
  have h2 := passOn_error _ _ _ h
  simp [DB.SearchMemories] at h2

theorem handleMemoryDelete_error (db : DB) (args : Args) (e : GoErr)
    (h : (handleMemoryDelete db args).2 = .error e) :
    e ∈ storeErrors ∨ ((handleMemoryDelete db args).1 = db ∧ ∃ w, e = required w) := by
  rcases hg : getProjectID db args with ⟨db1, pid⟩
  simp only [handleMemoryDelete, hg] at h ⊢
  split_ifs at h ⊢
  · right
    simp only [Except.error.injEq] at h
    exact ⟨rfl, _, h.symm⟩
  · exfalso
    have h2 := afterDelete_error _ _ _ h
    simp [DB.DeleteMemory] at h2

theorem handleTaskCreate_error (db : DB) (args : Args) (e : GoErr)
    (h : (handleTaskCreate db args).2 = .error e) :
    e ∈ storeErrors ∨ ((handleTaskCreate db args).1 = db ∧ ∃ w, e = required w) := by
  rcases hg : getProjectID db args with ⟨db1, pid⟩
  simp only [handleTaskCreate, hg] at h ⊢
  split_ifs at h ⊢
  · right
    simp only [Except.error.injEq] at h
    exact ⟨rfl, _, h.symm⟩
  · left
    exact CreateTask_error _ _ _ _ _ _ _ (passOn_error _ _ _ h)

theorem handleTaskUpdate_error (db : DB) (args : Args) (e : GoErr)
    (h : (handleTaskUpdate db args).2 = .error e) :
    e ∈ storeErrors ∨ ((handleTaskUpdate db args).1 = db ∧ ∃ w, e = required w) := by
  rcases hg : getProjectID db args with ⟨db1, pid⟩
  simp only [handleTaskUpdate, hg] at h ⊢
  split_ifs at h ⊢
  · right
    simp only [Except.error.injEq] at h
    exact ⟨rfl, _, h.symm⟩
  · left
    exact UpdateTask_error _ _ _ _ _ _ _ (passOn_error _ _ _ h)

theorem handleTaskList_error (db : DB) (args : Args) (e : GoErr)
    (h : (handleTaskList db args).2 = .error e) :
    e ∈ storeErrors ∨ ((handleTaskList db args).1 = db ∧ ∃ w, e = required w) := by
  rcases hg : getProjectID db args with ⟨db1, pid⟩
  simp only [handleTaskList, hg] at h ⊢
  exfalso
  have h2 := passOn_error _ _ _ h
  simp [DB.ListTasks] at h2

theorem handleTaskDelete_error (db : DB) (args : Args) (e : GoErr)
    (h : (handleTaskDelete db args).2 = .error e) :
    e ∈ storeErrors ∨ ((handleTaskDelete db args).1 = db ∧ ∃ w, e = required w) := by
  rcases hg : getProjectID db args with ⟨db1, pid⟩
  simp only [handleTaskDelete, hg] at h ⊢
  split_ifs at h ⊢
  · right
    simp only [Except.error.injEq] at h
    exact ⟨rfl, _, h.symm⟩
  · left
    exact DeleteTask_error _ _ _ (afterDelete_error _ _ _ h)

theorem handleMetadataSet_error (db : DB) (args : Args) (e : GoErr)
    (h : (handleMetadataSet db args).2 = .error e) :
    e ∈ storeErrors ∨ ((handleMetadataSet db args).1 = db ∧ ∃ w, e = required w) := by
  rcases hg : getProjectID db args with ⟨db1, pid⟩
  simp only [handleMetadataSet, hg] at h ⊢
  split_ifs at h ⊢
  · right
    simp only [Except.error.injEq] at h
    exact ⟨rfl, _, h.symm⟩
  · left
    exact SetMetadata_error _ _ _ _ _ (passOn_error _ _ _ h)

theorem handleMetadataGet_error (db : DB) (args : Args) (e : GoErr)
    (h : (handleMetadataGet db args).2 = .error e) :
    e ∈ storeErrors ∨ ((handleMetadataGet db args).1 = db ∧ ∃ w, e = required w) := by
  rcases hg : getProjectID db args with ⟨db1, pid⟩
  simp only [handleMetadataGet, hg] at h ⊢
  split_ifs at h ⊢
  · right
    simp only [Except.error.injEq] at h
    exact ⟨rfl, _, h.symm⟩
  · exfalso
    unfold DB.GetMetadata at h
    split at h
    · next err heq => simp at heq
    · simp at h
    · simp at h

theorem handleMetadataList_error (db : DB) (args : Args) (e : GoErr)
    (h : (handleMetadataList db args).2 = .error e) :
    e ∈ storeErrors ∨ ((handleMetadataList db args).1 = db ∧ ∃ w, e = required w) := by
  rcases hg : getProjectID db args with ⟨db1, pid⟩
  simp only [handleMetadataList, hg] at h ⊢
  exfalso
  have h2 := passOn_error _ _ _ h
  simp [DB.ListMetadata] at h2

theorem handleMetadataDelete_error (db : DB) (args : Args) (e : GoErr)
    (h : (handleMetadataDelete db args).2 = .error e) :
    e ∈ storeErrors ∨ ((handleMetadataDelete db args).1 = db ∧ ∃ w, e = required w) := by
  rcases hg : getProjectID db args with ⟨db1, pid⟩
  simp only [handleMetadataDelete, hg] at h ⊢
  split_ifs at h ⊢
  · right
    simp only [Except.error.injEq] at h
    exact ⟨rfl, _, h.symm⟩
  · exfalso
    have h2 := afterDelete_error _ _ _ h
    simp [DB.DeleteMetadata] at h2

theorem handleFiletreeAnnotate_error (db : DB) (args : Args) (e : GoErr)
    (h : (handleFiletreeAnnotate db args).2 = .error e) :
    e ∈ storeErrors ∨ ((handleFiletreeAnnotate db args).1 = db ∧ ∃ w, e = required w) := by
  rcases hg : getProjectID db args with ⟨db1, pid⟩
  simp only [handleFiletreeAnnotate, hg] at h ⊢
  split_ifs at h ⊢
  · right
    simp only [Except.error.injEq] at h
    exact ⟨rfl, _, h.symm⟩
  · right
    simp only [Except.error.injEq] at h
    exact ⟨rfl, _, h.symm⟩
  · left
    exact AnnotateFile_error _ _ _ _ _ _ (passOn_error _ _ _ h)

theorem handleFiletreeGet_error (db : DB) (args : Args) (e : GoErr)
    (h : (handleFiletreeGet db args).2 = .error e) :
    e ∈ storeErrors ∨ ((handleFiletreeGet db args).1 = db ∧ ∃ w, e = required w) := by
  rcases hg : getProjectID db args with ⟨db1, pid⟩
  simp only [handleFiletreeGet, hg] at h ⊢
  split_ifs at h ⊢
  · exfalso
    have h2 := passOn_error _ _ _ h
    simp [DB.GetFileAnnotation] at h2
  · exfalso
    have h2 := passOn_error _ _ _ h
    simp [DB.ListFileAnnotations] at h2

theorem handleFiletreeDelete_error (db : DB) (args : Args) (e : GoErr)
    (h : (handleFiletreeDelete db args).2 = .error e) :
    e ∈ storeErrors ∨ ((handleFiletreeDelete db args).1 = db ∧ ∃ w, e = required w) := by
  rcases hg : getProjectID db args with ⟨db1, pid⟩
  simp only [handleFiletreeDelete, hg] at h ⊢
  split_ifs at h ⊢
  · right
    simp only [Except.error.injEq] at h
    exact ⟨rfl, _, h.symm⟩
  · exfalso
    have h2 := afterDelete_error _ _ _ h
    simp [DB.DeleteFileAnnotation] at h2

theorem handleGuidelineCreate_error (db : DB) (args : Args) (e : GoErr)
    (h : (handleGuidelineCreate db args).2 = .error e) :
    e ∈ storeErrors ∨ ((handleGuidelineCreate db args).1 = db ∧ ∃ w, e = required w) := by
  rcases hg : getProjectID db args with ⟨db1, pid⟩
  simp only [handleGuidelineCreate, hg] at h ⊢
  split_ifs at h ⊢
  · right
    simp only [Except.error.injEq] at h
    exact ⟨rfl, _, h.symm⟩
  · right
    simp only [Except.error.injEq] at h
    exact ⟨rfl, _, h.symm⟩
  · right
    simp only [Except.error.injEq] at h
    exact ⟨rfl, _, h.symm⟩
  · left
    exact CreateGuideline_error _ _ _ _ _ _ _ _ (passOn_error _ _ _ h)

theorem handleGuidelineUpdate_error (db : DB) (args : Args) (e : GoErr)
    (h : (handleGuidelineUpdate db args).2 = .error e) :
    e ∈ storeErrors ∨ ((handleGuidelineUpdate db args).1 = db ∧ ∃ w, e = required w) := by
  rcases hg : getProjectID db args with ⟨db1, pid⟩
  simp only [handleGuidelineUpdate, hg] at h ⊢
  split_ifs at h ⊢
  · right
    simp only [Except.error.injEq] at h
    exact ⟨rfl, _, h.symm⟩
  · left
    exact UpdateGuideline_error _ _ _ _ _ _ (passOn_error _ _ _ h)

theorem handleGuidelineList_error (db : DB) (args : Args) (e : GoErr)
    (h : (handleGuidelineList db args).2 = .error e) :
    e ∈ storeErrors ∨ ((handleGuidelineList db args).1 = db ∧ ∃ w, e = required w) := by
  rcases hg : getProjectID db args with ⟨db1, pid⟩
  simp only [handleGuidelineList, hg] at h ⊢
  exfalso
  have h2 := passOn_error _ _ _ h
  simp [DB.ListGuidelines] at h2

theorem handleGuidelineSearch_error (db : DB) (args : Args) (e : GoErr)
    (h : (handleGuidelineSearch db args).2 = .error e) :
    e ∈ storeErrors ∨ ((handleGuidelineSearch db args).1 = db ∧ ∃ w, e = required w) := by
  rcases hg : getProjectID db args with ⟨db1, pid⟩
  simp only [handleGuidelineSearch, hg] at h ⊢
  split_ifs at h ⊢
  · right
    simp only [Except.error.injEq] at h
    exact ⟨rfl, _, h.symm⟩
  · exfalso
    have h2 := passOn_error _ _ _ h
    simp [DB.SearchGuidelines] at h2

theorem handleGuidelineGet_error (db : DB) (args : Args) (e : GoErr)
    (h : (handleGuidelineGet db args).2 = .error e) :
    e ∈ storeErrors ∨ ((handleGuidelineGet db args).1 = db ∧ ∃ w, e = required w) := by
  rcases hg : getProjectID db args with ⟨db1, pid⟩
  simp only [handleGuidelineGet, hg] at h ⊢
  split_ifs at h ⊢
  · right
    simp only [Except.error.injEq] at h
    exact ⟨rfl, _, h.symm⟩
  · left
    exact GetGuideline_error _ _ _ (passOn_error _ _ _ h)

theorem handleGuidelineDelete_error (db : DB) (args : Args) (e : GoErr)
    (h : (handleGuidelineDelete db args).2 = .error e) :
    e ∈ storeErrors ∨ ((handleGuidelineDelete db args).1 = db ∧ ∃ w, e = required w) := by
  rcases hg : getProjectID db args with ⟨db1, pid⟩
  simp only [handleGuidelineDelete, hg] at h ⊢
  split_ifs at h ⊢
  · right
    simp only [Except.error.injEq] at h
    exact ⟨rfl, _, h.symm⟩
  · exfalso
    have h2 := afterDelete_error _ _ _ h
    simp [DB.DeleteGuideline] at h2

theorem handleProjectCreate_error (db : DB) (args : Args) (e : GoErr)
    (h : (handleProjectCreate db args).2 = .error e) :
    e ∈ storeErrors ∨ ((handleProjectCreate db args).1 = db ∧ ∃ w, e = required w) := by
  rcases hg : getProjectID db args with ⟨db1, pid⟩
  simp only [handleProjectCreate, hg] at h ⊢
  split_ifs at h ⊢
  · right
    simp only [Except.error.injEq] at h
    exact ⟨rfl, _, h.symm⟩
  · left
    exact CreateProject_error _ _ _ _ _ (passOn_error _ _ _ h)

theorem handleProjectList_error (db : DB) (args : Args) (e : GoErr)
    (h : (handleProjectList db args).2 = .error e) :
    e ∈ storeErrors ∨ ((handleProjectList db args).1 = db ∧ ∃ w, e = required w) := by
  rcases hg : getProjectID db args with ⟨db1, pid⟩
  simp only [handleProjectList, hg] at h ⊢
  exfalso
  have h2 := passOn_error _ _ _ h
  simp [DB.ListProjects] at h2

theorem handleProjectSetDefault_error (db : DB) (args : Args) (e : GoErr)
    (h : (handleProjectSetDefault db args).2 = .error e) :
    e ∈ storeErrors ∨ ((handleProjectSetDefault db args).1 = db ∧ ∃ w, e = required w) := by
  rcases hg : getProjectID db args with ⟨db1, pid⟩
  simp only [handleProjectSetDefault, hg] at h ⊢
  split_ifs at h ⊢
  · right
    simp only [Except.error.injEq] at h
    exact ⟨rfl, _, h.symm⟩
  · left
    split at h
    · next db2 err heq =>
      simp only [Except.error.injEq] at h
      subst h
      exact GetOrCreateProject_error db _ _ (by rw [heq])
    · simp at h

theorem handleBookmarkCreate_error (db : DB) (args : Args) (e : GoErr)
    (h : (handleBookmarkCreate db args).2 = .error e) :
    e ∈ storeErrors ∨ ((handleBookmarkCreate db args).1 = db ∧ ∃ w, e = required w) := by
  rcases hg : getProjectID db args with ⟨db1, pid⟩
  simp only [handleBookmarkCreate, hg] at h ⊢
  split_ifs at h ⊢
  · right
    simp only [Except.error.injEq] at h
    exact ⟨rfl, _, h.symm⟩
  · right
    simp only [Except.error.injEq] at h
    exact ⟨rfl, _, h.symm⟩
  · left
    exact CreateBookmark_error _ _ _ _ _ _ _ _ _ _ (passOn_error _ _ _ h)

theorem handleBookmarkSearch_error (db : DB) (args : Args) (e : GoErr)
    (h : (handleBookmarkSearch db args).2 = .error e) :
    e ∈ storeErrors ∨ ((handleBookmarkSearch db args).1 = db ∧ ∃ w, e = required w) := by
  rcases hg : getProjectID db args with ⟨db1, pid⟩
  simp only [handleBookmarkSearch, hg] at h ⊢
  exfalso
  have h2 := passOn_error _ _ _ h
  simp [DB.SearchBookmarks] at h2

theorem handleBookmarkList_error (db : DB) (args : Args) (e : GoErr)
    (h : (handleBookmarkList db args).2 = .error e) :
    e ∈ storeErrors ∨ ((handleBookmarkList db args).1 = db ∧ ∃ w, e = required w) := by
  rcases hg : getProjectID db args with ⟨db1, pid⟩
  simp only [handleBookmarkList, hg] at h ⊢
  exfalso
  have h2 := passOn_error _ _ _ h
  simp [DB.ListBookmarks, DB.SearchBookmarks] at h2

theorem handleBookmarkDelete_error (db : DB) (args : Args) (e : GoErr)
    (h : (handleBookmarkDelete db args).2 = .error e) :
    e ∈ storeErrors ∨ ((handleBookmarkDelete db args).1 = db ∧ ∃ w, e = required w) := by
  rcases hg : getProjectID db args with ⟨db1, pid⟩
  simp only [handleBookmarkDelete, hg] at h ⊢
  split_ifs at h ⊢
  · right
    simp only [Except.error.injEq] at h
    exact ⟨rfl, _, h.symm⟩
  · exfalso
    have h2 := afterDelete_error _ _ _ h
    simp [DB.DeleteBookmark] at h2


theorem required_ending (w : String) :
    (w ++ " is required").data.reverse.take 3 = ['d', 'e', 'r'] := by
  rw [String.data_append, List.reverse_append]
  rfl

theorem storeErrors_not_required (e : GoErr) (h : e ∈ storeErrors) (w : String) :
    e ≠ required w := by
  intro he
  subst he
  have hend := required_ending w
  simp only [storeErrors, required, List.mem_cons, List.mem_singleton, List.not_mem_nil,
    or_false, GoErr.msg.injEq, reduceCtorEq, false_or] at h
  rcases h with h | h | h | h | h | h | h <;>
  · rw [h] at hend
    revert hend
    decide

theorem storeErrors_not_unknownTool (e : GoErr) (h : e ∈ storeErrors) :
    e.isUnknownTool = false := by
  simp only [storeErrors, List.mem_cons, List.mem_singleton, List.not_mem_nil, or_false] at h
  rcases h with h | h | h | h | h | h | h | h <;> (subst h; rfl)

theorem HandleToolCall_error (db : DB) (name : String) (args : Args) (e : GoErr)
    (h : (HandleToolCall db name args).2 = .error e) :
    (e = .unknownTool name ∧ name ∉ GetToolDefinitions.map (fun d => d.Name)) ∨
    (name ∈ GetToolDefinitions.map (fun d => d.Name) ∧
      (e ∈ storeErrors ∨ ((HandleToolCall db name args).1 = db ∧ ∃ w, e = required w))) := by
  by_cases hn : name ∈ GetToolDefinitions.map (fun d => d.Name)
  · right
    refine ⟨hn, ?_⟩
    simp only [GetToolDefinitions, List.map_cons, List.map_nil, List.mem_cons,
      List.mem_singleton, List.not_mem_nil, or_false] at hn
    rcases hn with rfl | rfl | rfl | rfl | rfl | rfl | rfl | rfl | rfl | rfl | rfl | rfl | rfl |
      rfl | rfl | rfl | rfl | rfl | rfl | rfl | rfl | rfl | rfl | rfl | rfl | rfl | rfl
    · exact handleMemoryStore_error db args e h
    · exact handleMemorySearch_error db args e h
    · exact handleMemoryDelete_error db args e h
    · exact handleTaskCreate_error db args e h
    · exact handleTaskUpdate_error db args e h
    · exact handleTaskList_error db args e h
    · exact handleTaskDelete_error db args e h
    · exact handleMetadataSet_error db args e h
    · exact handleMetadataGet_error db args e h
    · exact handleMetadataList_error db args e h
    · exact handleMetadataDelete_error db args e h
    · exact handleFiletreeAnnotate_error db args e h
    · exact handleFiletreeGet_error db args e h
    · exact handleFiletreeDelete_error db args e h
    · exact handleGuidelineCreate_error db args e h
    · exact handleGuidelineUpdate_error db args e h
    · exact handleGuidelineList_error db args e h
    · exact handleGuidelineSearch_error db args e h
    · exact handleGuidelineGet_error db args e h
    · exact handleGuidelineDelete_error db args e h
    · exact handleProjectCreate_error db args e h
    · exact handleProjectList_error db args e h
    · exact handleProjectSetDefault_error db args e h
    · exact handleBookmarkCreate_error db args e h
    · exact handleBookmarkSearch_error db args e h
    · exact handleBookmarkList_error db args e h
    · exact handleBookmarkDelete_error db args e h
  · left
    rw [HandleToolCall_unknown db name args hn] at h
    simp only [Except.error.injEq] at h
    exact ⟨h.symm, hn⟩

/-- C25: the router and the catalog agree. For every name, `HandleToolCall`
returns an error wrapping `ErrUnknownTool` exactly when the name is not the
name of an entry of `GetToolDefinitions`; it then leaves the store as it was
and the error names the tool. A name of the catalog is routed to a handler,
and no error a handler returns wraps `ErrUnknownTool`. -/
theorem HandleToolCall_unknown_iff (db : DB) (name : String) (args : Args) :
    ((∃ e, (HandleToolCall db name args).2 = .error e ∧ e.isUnknownTool = true) ↔
      name ∉ GetToolDefinitions.map (fun d => d.Name)) ∧
    (name ∉ GetToolDefinitions.map (fun d => d.Name) →
      HandleToolCall db name args = (db, .error (.unknownTool name))) ∧
    (name ∈ GetToolDefinitions.map (fun d => d.Name) →
      ∀ e, (HandleToolCall db name args).2 = .error e → e.isUnknownTool = false) := by
  have hin : name ∈ GetToolDefinitions.map (fun d => d.Name) →
      ∀ e, (HandleToolCall db name args).2 = .error e → e.isUnknownTool = false := by
    intro hn e he
    rcases HandleToolCall_error db name args e he with h | h
    · exact absurd hn h.2
    · rcases h.2 with h2 | h2
      · exact storeErrors_not_unknownTool e h2
      · obtain ⟨_, w, hw⟩ := h2
        rw [hw]; rfl
  refine ⟨⟨?_, ?_⟩, HandleToolCall_unknown db name args, hin⟩
  · rintro ⟨e, he, hu⟩ hn
    rw [hin hn e he] at hu
    exact absurd hu (by decide)
  · intro hn
    exact ⟨.unknownTool name, by rw [HandleToolCall_unknown db name args hn], rfl⟩

/-- C26: whenever a tool call returns a validation error, an error whose text is
`... is required`, the store is left exactly as it was: every handler makes its
checks before it resolves the project and before any store method, so in
particular no project is created for the slug given as `project`. -/
theorem validation_error_keeps_store (db : DB) (name : String) (args : Args) (what : String)
    (h : (HandleToolCall db name args).2 = .error (required what)) :
    (HandleToolCall db name args).1 = db := by
  rcases HandleToolCall_error db name args _ h with h1 | h1
  · exact absurd h1.1 (by simp [required])
  · rcases h1.2 with h2 | h2
    · exact absurd rfl (storeErrors_not_required _ h2 what)
    · exact h2.1

/-- C26, at an input: `memory_store` without content, for the new project `docs`,
on a fresh store: the error is `content is required` and the store is
unchanged, whereas resolving the project would have added it to the store. -/
theorem validation_error_keeps_store_witness :
    (HandleToolCall (Open 0) "memory_store" [("project", .str "docs")]).2 =
        .error (.msg "content is required") ∧
      (HandleToolCall (Open 0) "memory_store" [("project", .str "docs")]).1 = Open 0 ∧
      (getProjectID (Open 0) [("project", .str "docs")]).1 ≠ Open 0 :=
  ⟨rfl,
   validation_error_keeps_store (Open 0) "memory_store" [("project", .str "docs")] "content" rfl,
   by decide⟩


/-! ## What the handlers do to the projects -/

theorem keepsProjects_refl (db : DB) : db.keepsProjects db :=
  ⟨⟨[], by simp⟩, rfl⟩

theorem keepsProjects_of_eq (db db1 db2 : DB) (h : db.keepsProjects db1)
    (hp : db2.projects = db1.projects) (hd : db2.defaultProjectID = db1.defaultProjectID) :
    db.keepsProjects db2 := by
  unfold DB.keepsProjects at *
  rw [hp, hd]; exact h

theorem getProjectID_keeps (db : DB) (args : Args) : db.keepsProjects (getProjectID db args).1 := by
  obtain ⟨ps, hps⟩ := getProjectID_frame db args
  rw [hps]
  exact ⟨⟨ps, rfl⟩, rfl⟩

theorem handleMemoryStore_keeps (db : DB) (args : Args) : db.keepsProjects (handleMemoryStore db args).1 := by
  have h := keepsProjects_refl db
  have hg := getProjectID_keeps db args
  simp only [handleMemoryStore]
  split_ifs
  · exact h
  · apply keepsProjects_of_eq _ _ _ hg <;>
      (simp only [passOn, DB.CreateMemory]; split_ifs <;> rfl)

theorem handleMemorySearch_keeps (db : DB) (args : Args) : db.keepsProjects (handleMemorySearch db args).1 := by
  have h := keepsProjects_refl db
  have hg := getProjectID_keeps db args
  exact hg

theorem handleMemoryDelete_keeps (db : DB) (args : Args) : db.keepsProjects (handleMemoryDelete db args).1 := by
  have h := keepsProjects_refl db
  have hg := getProjectID_keeps db args
  simp only [handleMemoryDelete]
  split_ifs
  · exact h
  · exact keepsProjects_of_eq _ _ _ h rfl rfl

theorem handleTaskCreate_keeps (db : DB) (args : Args) : db.keepsProjects (handleTaskCreate db args).1 := by
  have h := keepsProjects_refl db
  have hg := getProjectID_keeps db args
  simp only [handleTaskCreate]
  split_ifs
  · exact h
  · apply keepsProjects_of_eq _ _ _ hg <;>
      (simp only [passOn, DB.CreateTask]; split_ifs <;> rfl)

theorem handleTaskUpdate_keeps (db : DB) (args : Args) : db.keepsProjects (handleTaskUpdate db args).1 := by
  have h := keepsProjects_refl db
  have hg := getProjectID_keeps db args
  simp only [handleTaskUpdate]
  split_ifs
  · exact h
  · apply keepsProjects_of_eq _ _ _ h <;>
      (simp only [passOn, DB.UpdateTask]; split_ifs <;> rfl)

theorem handleTaskList_keeps (db : DB) (args : Args) : db.keepsProjects (handleTaskList db args).1 := by
  have h := keepsProjects_refl db
  have hg := getProjectID_keeps db args
  exact hg

theorem handleTaskDelete_keeps (db : DB) (args : Args) : db.keepsProjects (handleTaskDelete db args).1 := by
  have h := keepsProjects_refl db
  have hg := getProjectID_keeps db args
  simp only [handleTaskDelete]
  split_ifs
  · exact h
  · apply keepsProjects_of_eq _ _ _ h <;>
      (simp only [afterDelete, DB.DeleteTask]; repeat' split) <;> rfl

theorem handleMetadataSet_keeps (db : DB) (args : Args) : db.keepsProjects (handleMetadataSet db args).1 := by
  have h := keepsProjects_refl db
  have hg := getProjectID_keeps db args
  simp only [handleMetadataSet]
  split_ifs
  · exact h
  · apply keepsProjects_of_eq _ _ _ hg <;>
      (simp only [passOn, DB.SetMetadata]; split_ifs <;> rfl)

theorem handleMetadataGet_keeps (db : DB) (args : Args) : db.keepsProjects (handleMetadataGet db args).1 := by
  have h := keepsProjects_refl db
  have hg := getProjectID_keeps db args
  simp only [handleMetadataGet]
  split_ifs
  · exact h
  · split <;> exact hg

theorem handleMetadataList_keeps (db : DB) (args : Args) : db.keepsProjects (handleMetadataList db args).1 := by
  have h := keepsProjects_refl db
  have hg := getProjectID_keeps db args
  exact hg

theorem handleMetadataDelete_keeps (db : DB) (args : Args) : db.keepsProjects (handleMetadataDelete db args).1 := by
  have h := keepsProjects_refl db
  have hg := getProjectID_keeps db args
  simp only [handleMetadataDelete]
  split_ifs
  · exact h
  · exact keepsProjects_of_eq _ _ _ hg rfl rfl

theorem handleFiletreeAnnotate_keeps (db : DB) (args : Args) : db.keepsProjects (handleFiletreeAnnotate db args).1 := by
  have h := keepsProjects_refl db
  have hg := getProjectID_keeps db args
  simp only [handleFiletreeAnnotate]
  split_ifs
  · exact h
  · exact h
  · apply keepsProjects_of_eq _ _ _ hg <;>
      (simp only [passOn, DB.AnnotateFile]; split_ifs <;> rfl)

theorem handleFiletreeGet_keeps (db : DB) (args : Args) : db.keepsProjects (handleFiletreeGet db args).1 := by
  have h := keepsProjects_refl db
  have hg := getProjectID_keeps db args
  simp only [handleFiletreeGet]
  split_ifs <;> exact hg

theorem handleFiletreeDelete_keeps (db : DB) (args : Args) : db.keepsProjects (handleFiletreeDelete db args).1 := by
  have h := keepsProjects_refl db
  have hg := getProjectID_keeps db args
  simp only [handleFiletreeDelete]
  split_ifs
  · exact h
  · exact keepsProjects_of_eq _ _ _ hg rfl rfl

theorem handleGuidelineCreate_keeps (db : DB) (args : Args) : db.keepsProjects (handleGuidelineCreate db args).1 := by
  have h := keepsProjects_refl db
  have hg := getProjectID_keeps db args
  simp only [handleGuidelineCreate]
  split_ifs
  · exact h
  · exact h
  · exact h
  · apply keepsProjects_of_eq _ _ _ hg <;>
      (simp only [passOn, DB.CreateGuideline]; split_ifs <;> rfl)

theorem handleGuidelineUpdate_keeps (db : DB) (args : Args) : db.keepsProjects (handleGuidelineUpdate db args).1 := by
  have h := keepsProjects_refl db
  have hg := getProjectID_keeps db args
  simp only [handleGuidelineUpdate]
  split_ifs
  · exact h
  · apply keepsProjects_of_eq _ _ _ h <;>
      (simp only [passOn, DB.UpdateGuideline]; split_ifs <;> rfl)

theorem handleGuidelineList_keeps (db : DB) (args : Args) : db.keepsProjects (handleGuidelineList db args).1 := by
  have h := keepsProjects_refl db
  have hg := getProjectID_keeps db args
  exact hg

theorem handleGuidelineSearch_keeps (db : DB) (args : Args) : db.keepsProjects (handleGuidelineSearch db args).1 := by
  have h := keepsProjects_refl db
  have hg := getProjectID_keeps db args
  simp only [handleGuidelineSearch]
  split_ifs
  · exact h
  · exact hg

theorem handleGuidelineGet_keeps (db : DB) (args : Args) : db.keepsProjects (handleGuidelineGet db args).1 := by
  have h := keepsProjects_refl db
  have hg := getProjectID_keeps db args
  simp only [handleGuidelineGet]
  split_ifs <;> exact h

theorem handleGuidelineDelete_keeps (db : DB) (args : Args) : db.keepsProjects (handleGuidelineDelete db args).1 := by
  have h := keepsProjects_refl db
  have hg := getProjectID_keeps db args
  simp only [handleGuidelineDelete]
  split_ifs
  · exact h
  · exact keepsProjects_of_eq _ _ _ h rfl rfl

theorem handleProjectCreate_keeps (db : DB) (args : Args) : db.keepsProjects (handleProjectCreate db args).1 := by
  have h := keepsProjects_refl db
  have hg := getProjectID_keeps db args
  simp only [handleProjectCreate]
  split_ifs
  · exact h
  · obtain ⟨ps, hps⟩ := CreateProject_frame db (getString args "slug") (getString args "name")
      (getString args "root_path")
    simp only [passOn]
    rw [hps]
    exact ⟨⟨ps, rfl⟩, rfl⟩

theorem handleProjectList_keeps (db : DB) (args : Args) : db.keepsProjects (handleProjectList db args).1 := by
  have h := keepsProjects_refl db
  have hg := getProjectID_keeps db args
  exact h

theorem handleBookmarkCreate_keeps (db : DB) (args : Args) : db.keepsProjects (handleBookmarkCreate db args).1 := by
  have h := keepsProjects_refl db
  have hg := getProjectID_keeps db args
  simp only [handleBookmarkCreate]
  split_ifs
  · exact h
  · exact h
  · apply keepsProjects_of_eq _ _ _ hg <;>
      (simp only [passOn, DB.CreateBookmark]; split_ifs <;> rfl)

theorem handleBookmarkSearch_keeps (db : DB) (args : Args) : db.keepsProjects (handleBookmarkSearch db args).1 := by
  have h := keepsProjects_refl db
  have hg := getProjectID_keeps db args
  exact hg

theorem handleBookmarkList_keeps (db : DB) (args : Args) : db.keepsProjects (handleBookmarkList db args).1 := by
  have h := keepsProjects_refl db
  have hg := getProjectID_keeps db args
  exact hg

theorem handleBookmarkDelete_keeps (db : DB) (args : Args) : db.keepsProjects (handleBookmarkDelete db args).1 := by
  have h := keepsProjects_refl db
  have hg := getProjectID_keeps db args
  simp only [handleBookmarkDelete]
  split_ifs
  · exact h
  · exact keepsProjects_of_eq _ _ _ h rfl rfl

theorem GetOrCreateProject_result (db : DB) (slug : String) (db1 : DB) (p : Project)
    (h : db.GetOrCreateProject slug = (db1, .ok p)) :
    p.Slug = slug ∧ p ∈ db1.projects := by
  by_cases hex : ∃ q ∈ db.projects, q.Slug = slug
  · obtain ⟨q, hq, hs, hgo⟩ := GetOrCreateProject_existing db slug hex
    rw [hgo] at h
    simp only [Prod.mk.injEq, Except.ok.injEq] at h
    rw [← h.1, ← h.2]
    exact ⟨hs, hq⟩
  · have hall : ∀ q ∈ db.projects, q.Slug ≠ slug := fun q hq hs => hex ⟨q, hq, hs⟩
    rw [GetOrCreateProject_new db slug hall] at h
    simp only [Prod.mk.injEq, Except.ok.injEq] at h
    rw [← h.1, ← h.2]
    exact ⟨rfl, by simp⟩

theorem handleProjectSetDefault_projects (db : DB) (args : Args) :
    (∃ ps, (handleProjectSetDefault db args).1.projects = db.projects ++ ps) ∧
    ((handleProjectSetDefault db args).1.defaultProjectID = db.defaultProjectID ∨
      ∃ p, (handleProjectSetDefault db args).2 = .ok (.defaultProject p) ∧
        p.Slug = getString args "slug" ∧ p ∈ (handleProjectSetDefault db args).1.projects ∧
        (handleProjectSetDefault db args).1.defaultProjectID = p.ID) := by
  obtain ⟨ps, hps⟩ := GetOrCreateProject_frame db (getString args "slug")
  simp only [handleProjectSetDefault]
  split_ifs
  · exact ⟨⟨[], by simp⟩, Or.inl rfl⟩
  · split
    · next db1 err heq =>
      rw [heq] at hps
      simp only at hps
      rw [hps]
      exact ⟨⟨ps, rfl⟩, Or.inl rfl⟩
    · next db1 p heq =>
      have hres := GetOrCreateProject_result db _ db1 p heq
      rw [heq] at hps
      simp only at hps
      refine ⟨⟨ps, ?_⟩, Or.inr ⟨p, rfl, hres.1, ?_, rfl⟩⟩
      · rw [hps]; rfl
      · exact hres.2

theorem HandleToolCall_keeps (db : DB) (name : String) (args : Args)
    (hne : name ≠ "project_set_default") : db.keepsProjects (HandleToolCall db name args).1 := by
  by_cases hn : name ∈ GetToolDefinitions.map (fun d => d.Name)
  · simp only [GetToolDefinitions, List.map_cons, List.map_nil, List.mem_cons,
      List.mem_singleton, List.not_mem_nil, or_false] at hn
    rcases hn with rfl | rfl | rfl | rfl | rfl | rfl | rfl | rfl | rfl | rfl | rfl | rfl | rfl |
      rfl | rfl | rfl | rfl | rfl | rfl | rfl | rfl | rfl | rfl | rfl | rfl | rfl | rfl
    · exact handleMemoryStore_keeps db args
    · exact handleMemorySearch_keeps db args
    · exact handleMemoryDelete_keeps db args
    · exact handleTaskCreate_keeps db args
    · exact handleTaskUpdate_keeps db args
    · exact handleTaskList_keeps db args
    · exact handleTaskDelete_keeps db args
    · exact handleMetadataSet_keeps db args
    · exact handleMetadataGet_keeps db args
    · exact handleMetadataList_keeps db args
    · exact handleMetadataDelete_keeps db args
    · exact handleFiletreeAnnotate_keeps db args
    · exact handleFiletreeGet_keeps db args
    · exact handleFiletreeDelete_keeps db args
    · exact handleGuidelineCreate_keeps db args
    · exact handleGuidelineUpdate_keeps db args
    · exact handleGuidelineList_keeps db args
    · exact handleGuidelineSearch_keeps db args
    · exact handleGuidelineGet_keeps db args
    · exact handleGuidelineDelete_keeps db args
    · exact handleProjectCreate_keeps db args
    · exact handleProjectList_keeps db args
    · exact absurd rfl hne
    · exact handleBookmarkCreate_keeps db args
    · exact handleBookmarkSearch_keeps db args
    · exact handleBookmarkList_keeps db args
    · exact handleBookmarkDelete_keeps db args
  · rw [HandleToolCall_unknown db name args hn]
    exact keepsProjects_refl db

theorem afterCalls_projectsOK (db : DB) (calls : List (String × Args)) (h : db.projectsOK) :
    (afterCalls db calls).projectsOK := by
  induction calls generalizing db with
  | nil => exact h
  | cons c rest ih =>
    simp only [afterCalls, List.foldl_cons]
    exact ih _ (HandleToolCall_projectsOK db c.1 c.2 h)

/-- C27: in every store reached from `Open` by any sequence of tool calls, the
default project is a project of the store. In the store `Open` returns it is
project 1, the project `global` that the schema inserts. No tool call removes
or reorders a project: the projects of the store before are the first projects
of the store after. Every tool but `project_set_default` leaves the default
project as it was, and `project_set_default` either leaves it, when it returns
an error, or sets it to the id of the project of the given slug that it
returns, which is then in the store. -/
theorem default_project_exists (now : Nat) (calls : List (String × Args)) :
    (afterCalls (Open now) calls).hasProject (afterCalls (Open now) calls).defaultProjectID = true ∧
    (Open now).defaultProjectID = 1 ∧
    (Open now).projects.map (fun p => (p.ID, p.Slug)) = [(1, "global")] ∧
    (∀ (db : DB) (name : String) (args : Args),
      ∃ ps, (HandleToolCall db name args).1.projects = db.projects ++ ps) ∧
    (∀ (db : DB) (name : String) (args : Args), name ≠ "project_set_default" →
      (HandleToolCall db name args).1.defaultProjectID = db.defaultProjectID) ∧
    (∀ (db : DB) (args : Args),
      (HandleToolCall db "project_set_default" args).1.defaultProjectID = db.defaultProjectID ∨
      ∃ p, (HandleToolCall db "project_set_default" args).2 = .ok (.defaultProject p) ∧
        p.Slug = getString args "slug" ∧
        p ∈ (HandleToolCall db "project_set_default" args).1.projects ∧
        (HandleToolCall db "project_set_default" args).1.defaultProjectID = p.ID) := by
  refine ⟨(afterCalls_projectsOK _ calls (Open_projectsOK now)).2, rfl, rfl, ?_, ?_, ?_⟩
  · intro db name args
    by_cases hne : name = "project_set_default"
    · subst hne
      exact (handleProjectSetDefault_projects db args).1
    · exact (HandleToolCall_keeps db name args hne).1
  · intro db name args hne
    exact (HandleToolCall_keeps db name args hne).2
  · intro db args
    exact (handleProjectSetDefault_projects db args).2


/-! ## Searching the memories -/

theorem orderBy_perm {α : Type} (le : α → α → Bool) (rows : List α) :
    (orderBy le rows).Perm rows := by
  induction rows with
  | nil => exact List.Perm.refl _
  | cons row rest ih =>
    have h : orderBy le (row :: rest) =
        (orderBy le rest).takeWhile (fun x => !le row x) ++
          row :: (orderBy le rest).dropWhile (fun x => !le row x) := rfl
    rw [h]
    refine List.perm_middle.trans (List.Perm.cons row ?_)
    rw [List.takeWhile_append_dropWhile]
    exact ih

theorem sqlLimit_sublist {α : Type} (limit : Int) (rows : List α) :
    (sqlLimit limit rows).Sublist rows := by
  unfold sqlLimit
  split_ifs
  · exact List.take_sublist _ _
  · exact List.Sublist.refl _

theorem sqlLimit_length {α : Type} (n : Nat) (rows : List α) (h : 0 < n) :
    (sqlLimit (n : Int) rows).length ≤ n := by
  unfold sqlLimit
  have hn : (n : Int) > 0 := by omega
  simp only [hn, if_true, Int.toNat_ofNat]
  exact List.length_take_le _ _

theorem SearchMemories_project (db : DB) (projectID : Option Int) (query : String)
    (keywords : Option (List String)) (limit : Int) :
    ∃ ms, db.SearchMemories projectID query keywords limit = .ok ms ∧
      ∀ m ∈ ms, m.ProjectID = db.GetProjectID projectID ∧ m ∈ db.memories := by
  refine ⟨_, rfl, ?_⟩
  intro m hm
  have h1 := (sqlLimit_sublist _ _).subset hm
  have h2 := (orderBy_perm _ _).subset h1
  simp only [List.mem_filter, Bool.and_eq_true, beq_iff_eq] at h2
  exact ⟨h2.2.1.1, h2.1⟩

theorem SearchMemories_length (db : DB) (projectID : Option Int) (query : String)
    (keywords : Option (List String)) (n : Nat) (h : 0 < n) (ms : List Memory)
    (hs : db.SearchMemories projectID query keywords (n : Int) = .ok ms) : ms.length ≤ n := by
  simp only [DB.SearchMemories, Except.ok.injEq] at hs
  rw [← hs]
  exact sqlLimit_length n _ h

/-- A limit below zero adds no `LIMIT` clause: the search returns every match. -/
theorem sqlLimit_negative {α : Type} (limit : Int) (rows : List α) (h : limit < 0) :
    sqlLimit limit rows = rows := by
  unfold sqlLimit
  have hn : ¬ (limit > 0) := by omega
  simp only [hn, if_false]

/-- C29: `memory_search` never fails, returns only memories of the acting project,
and bounds the result by its `limit`: when the argument is absent, is not a
number, or gives 0, the search is the one of the store with limit 20 and
at most 20 memories come back; when it gives a positive `n`, as the integer `n`
does, the search is the one with limit `n` and at most `n` memories come back. -/
theorem memory_search_bounded (db : DB) (args : Args) :
    ∃ ms, HandleToolCall db "memory_search" args =
        ((getProjectID db args).1, .ok (.memories ms)) ∧
      (∀ m ∈ ms, m.ProjectID = actingProject db args ∧ m ∈ (getProjectID db args).1.memories) ∧
      ((args.get "limit" = none ∨ (∀ v, args.get "limit" ≠ some (.num v)) ∨
          getInt args "limit" = 0) →
        DB.SearchMemories (getProjectID db args).1 (getProjectID db args).2
            (getString args "query") (getStringArray args "keywords") 20 = .ok ms ∧
          ms.length ≤ 20) ∧
      (∀ n : Nat, 0 < n → getInt args "limit" = (n : Int) →
        DB.SearchMemories (getProjectID db args).1 (getProjectID db args).2
            (getString args "query") (getStringArray args "keywords") (n : Int) = .ok ms ∧
          ms.length ≤ n) ∧
      (∀ n : Nat, args.get "limit" = some (.num ⟨(n : Int), 0⟩) →
        getInt args "limit" = (n : Int)) := by
  obtain ⟨ms, hms, hproj⟩ := SearchMemories_project (getProjectID db args).1
    (getProjectID db args).2 (getString args "query") (getStringArray args "keywords")
    (if getInt args "limit" = 0 then 20 else getInt args "limit")
  have hcall : HandleToolCall db "memory_search" args =
      ((getProjectID db args).1, .ok (.memories ms)) := by
    simp only [HandleToolCall, handleMemorySearch, passOn]
    simp only [if_true, hms, Except.map]
    simp
  refine ⟨ms, hcall, hproj, ?_, ?_, ?_⟩
  · intro h
    have h0 : getInt args "limit" = 0 := by
      rcases h with h | h | h
      · simp [getInt, h]
      · unfold getInt
        split
        · next v hv => exact absurd hv (h v)
        · rfl
      · exact h
    rw [h0] at hms
    simp only [if_true] at hms
    exact ⟨hms, SearchMemories_length _ _ _ _ 20 (by decide) ms hms⟩
  · intro n hn hl
    have hne : ¬ ((n : Int) = 0) := by omega
    rw [hl] at hms
    simp only [hne, if_false] at hms
    exact ⟨hms, SearchMemories_length _ _ _ _ n hn ms hms⟩
  · intro n h
    simp [getInt, h, Number.toInt]


/-! ## The protocol-version tag -/

theorem handleToolsCall_jsonrpc (rt : Runtime) (s : Server) (req : Request) :
    ∃ rs, (s.handleToolsCall rt req).1.writer = s.writer ++ rs ∧
      ∀ r ∈ rs, r.JSONRPC = "2.0" := by
  unfold Server.handleToolsCall
  split
  · exact ⟨[_], rfl, by simp⟩
  · split
    · exact ⟨[_], rfl, by simp⟩
    · split
      · exact ⟨[], by simp, by simp⟩
      · simp only
        split
        · exact ⟨[_], rfl, by simp⟩
        · exact ⟨[_], rfl, by simp⟩
      · exact ⟨[_], rfl, by simp⟩

/-- C30: the field `jsonrpc` of a request is never read. Replacing it by any
string, the empty string of an absent field included, changes neither the
responses `handleRequest` writes, nor the store it leaves, nor whether the
router panics; and every response `handleRequest` writes, like the response
`Run` writes for a frame, carries the tag `2.0`. -/
theorem handleRequest_ignores_jsonrpc (rt : Runtime) (s : Server) (req : Request)
    (tag : String) :
    s.handleRequest rt { req with JSONRPC := tag } = s.handleRequest rt req ∧
    (∃ rs, (s.handleRequest rt req).1.writer = s.writer ++ rs ∧
      ∀ r ∈ rs, r.JSONRPC = "2.0") ∧
    (∀ frame, ∃ rs, (s.handleFrame rt frame).writer = s.writer ++ rs ∧
      ∀ r ∈ rs, r.JSONRPC = "2.0") := by
  have hreq : ∀ (s : Server) (req : Request),
      ∃ rs, (s.handleRequest rt req).1.writer = s.writer ++ rs ∧
        ∀ r ∈ rs, r.JSONRPC = "2.0" := by
    intro s req
    unfold Server.handleRequest
    split
    · exact ⟨[_], rfl, by simp⟩
    · split_ifs
      · exact ⟨[_], rfl, by simp [Server.handleInitialize, Server.sendResult, Server.send]⟩
      · exact ⟨[_], rfl, by simp [Server.handleToolsList, Server.sendResult, Server.send]⟩
      · exact handleToolsCall_jsonrpc rt s req
      · exact ⟨[], by simp, by simp⟩
      · exact ⟨[_], rfl, by simp⟩
  refine ⟨rfl, hreq s req, ?_⟩
  intro frame
  unfold Server.handleFrame
  split_ifs
  · exact ⟨[], by simp, by simp⟩
  · split
    · exact ⟨[_], rfl, by simp⟩
    · next req2 _ =>
      obtain ⟨rs, hrs, hall⟩ := hreq s req2
      split
      · next s2 heq =>
        rw [heq] at hrs
        exact ⟨rs, hrs, hall⟩
      · next s2 r heq =>
        rw [heq] at hrs
        simp only at hrs
        refine ⟨rs ++
          [{ JSONRPC := "2.0", ID := req2.ID, Result := none,
             Error := some
              { Code := InternalError, Message := "Internal error",
                Data := "Panic: " ++ r } }], ?_, ?_⟩
        · simp only [Server.sendError, Server.send]
          rw [hrs, List.append_assoc]
        · intro x hx
          rcases List.mem_append.1 hx with hx | hx
          · exact hall x hx
          · simp only [List.mem_singleton] at hx
            rw [hx]


/-! ## A project that cannot be resolved -/

/-- On the store of this development, which fails a statement only by a
constraint of the schema, looking up or creating a project always succeeds. -/
theorem GetOrCreateProject_ok (db : DB) (slug : String) :
    ∃ p, (db.GetOrCreateProject slug).2 = .ok p := by
  by_cases hex : ∃ q ∈ db.projects, q.Slug = slug
  · obtain ⟨q, _, _, hgo⟩ := GetOrCreateProject_existing db slug hex
    exact ⟨q, by rw [hgo]⟩
  · have hall : ∀ q ∈ db.projects, q.Slug ≠ slug := fun q hq hs => hex ⟨q, hq, hs⟩
    exact ⟨_, by rw [GetOrCreateProject_new db slug hall]⟩

/-- C28: when the arguments carry a non-empty `project` slug and the call of
`GetOrCreateProject` for it fails, `getProjectID` returns nil, and the error is
dropped. `DB.GetProjectID` then gives the default project, so a handler goes on
under the default project and reports nothing: `memory_store` with a content,
on a store whose default project exists, succeeds and returns a memory of the
default project. With the method of the store for the call, these are
`getProjectID` and `handleMemoryStore` themselves. -/
theorem getProjectID_swallows_failure
    (getOrCreate : DB → String → DB × Except GoErr Project) (db db1 : DB) (args : Args)
    (e : GoErr) (hslug : getString args "project" ≠ "")
    (hfail : getOrCreate db (getString args "project") = (db1, .error e)) :
    getProjectIDVia getOrCreate db args = (db1, none) ∧
    db1.GetProjectID (getProjectIDVia getOrCreate db args).2 = db1.defaultProjectID ∧
    (getString args "content" ≠ "" → db1.hasProject db1.defaultProjectID = true →
      ∃ db2 mem, handleMemoryStoreVia getOrCreate db args = (db2, .ok (.memory mem)) ∧
        mem.ProjectID = db1.defaultProjectID ∧ mem.Content = getString args "content" ∧
        db2.memories = db1.memories ++ [mem]) ∧
    getProjectIDVia DB.GetOrCreateProject = getProjectID ∧
    handleMemoryStoreVia DB.GetOrCreateProject = handleMemoryStore := by
  have h1 : getProjectIDVia getOrCreate db args = (db1, none) := by
    simp only [getProjectIDVia, hslug, ne_eq, not_false_eq_true, if_true, hfail]
  refine ⟨h1, ?_, ?_, rfl, rfl⟩
  · rw [h1]; rfl
  · intro hc hdef
    have hrow := CreateMemory_row db1 none (getString args "content")
      (getStringArray args "keywords") hdef
    obtain ⟨db2, mem, hcm, hp, hc2, hmem⟩ : ∃ db2 mem,
        db1.CreateMemory none (getString args "content") (getStringArray args "keywords") =
          (db2, .ok mem) ∧
        mem.ProjectID = db1.defaultProjectID ∧ mem.Content = getString args "content" ∧
        db2.memories = db1.memories ++ [mem] :=
      ⟨_, _, hrow, rfl, rfl, rfl⟩
    refine ⟨db2, mem, ?_, hp, hc2, hmem⟩
    simp only [handleMemoryStoreVia, hc, if_false, h1, passOn, hcm, Except.map]

/-- C28, at an input: `memory_store` of `hello` for the project `docs` on a fresh
store whose database is locked when the project is looked up: the call
succeeds, the memory is stored under project 1, the default, and no project
`docs` exists. -/
theorem getProjectID_swallows_failure_witness :
    getProjectIDVia lockedGetOrCreate (Open 0)
        [("content", .str "hello"), ("project", .str "docs")] = (Open 0, none) ∧
    handleMemoryStoreVia lockedGetOrCreate (Open 0)
        [("content", .str "hello"), ("project", .str "docs")] =
      ({ Open 0 with memories :=
          [{ ID := 1, ProjectID := 1, Content := "hello", Keywords := none,
             CreatedAt := 0, UpdatedAt := 0 }] },
       .ok (.memory { ID := 1, ProjectID := 1, Content := "hello", Keywords := none,
                      CreatedAt := 0, UpdatedAt := 0 })) :=
  ⟨(getProjectID_swallows_failure lockedGetOrCreate (Open 0) (Open 0)
      [("content", .str "hello"), ("project", .str "docs")] (.msg "database is locked")
      (by decide) rfl).1,
   rfl⟩


/-! ## Concurrent callers of `send` -/

theorem moved_same (st : SendState) (i : Nat) (v : SendPC) : st.moved i v i = v := by
  simp [SendState.moved]

theorem moved_other (st : SendState) (i j : Nat) (v : SendPC) (h : j ≠ i) :
    st.moved i v j = st.pc j := by
  simp [SendState.moved, h]

theorem sendInv_fresh (marshal : Response → Except String (List Nat)) (resp : Nat → Response) :
    sendInv marshal resp SendState.fresh := by
  refine ⟨?_, ?_, ⟨[], List.nodup_nil, rfl, by simp⟩, ?_, ?_⟩
  · intro i j hi; simp [SendState.fresh, SendPC.holdsLock] at hi
  · simp [SendState.fresh, SendPC.holdsLock]
  · intro i rest h; simp [SendState.fresh] at h
  · intro _; rfl

/-- A step that moves the goroutine holding the mutex to another point where it
holds it keeps the first two parts of `sendInv`. -/
theorem moved_holder (st : SendState) (i : Nat) (v : SendPC)
    (h1 : ∀ a b, (st.pc a).holdsLock = true → (st.pc b).holdsLock = true → a = b)
    (h2 : st.mu = true ↔ ∃ a, (st.pc a).holdsLock = true)
    (hi : (st.pc i).holdsLock = true) (hv : v.holdsLock = true) :
    (∀ a b, (st.moved i v a).holdsLock = true → (st.moved i v b).holdsLock = true → a = b) ∧
    (st.mu = true ↔ ∃ a, (st.moved i v a).holdsLock = true) := by
  have hold : ∀ a, (st.moved i v a).holdsLock = true → (st.pc a).holdsLock = true := by
    intro a ha
    by_cases hai : a = i
    · rw [hai]; exact hi
    · rw [moved_other st i a v hai] at ha; exact ha
  refine ⟨fun a b ha hb => h1 a b (hold a ha) (hold b hb), ?_⟩
  constructor
  · intro _
    exact ⟨i, by rw [moved_same]; exact hv⟩
  · intro _
    exact h2.2 ⟨i, hi⟩

theorem sendStep_inv (marshal : Response → Except String (List Nat)) (resp : Nat → Response)
    (i : Nat) (st : SendState) (h : sendInv marshal resp st) :
    sendInv marshal resp (sendStep marshal resp i st) := by
  obtain ⟨h1, h2, ⟨order, hnd, hw, hord⟩, h4, h5⟩ := h
  have hwriter : ∀ a rest, st.pc a = .writing rest → (st.pc i).holdsLock = true → a = i := by
    intro a rest ha hi
    exact h1 a i (by rw [ha]; rfl) hi
  unfold sendStep
  split
  · next hpc =>
    split_ifs with hmu
    · exact ⟨h1, h2, ⟨order, hnd, hw, hord⟩, h4, h5⟩
    · have hnone : ∀ a, (st.pc a).holdsLock = false := by
        intro a
        cases hh : (st.pc a).holdsLock with
        | false => rfl
        | true => exact absurd (h2.2 ⟨a, hh⟩) hmu
      have hold : ∀ a, (st.moved i .locked a).holdsLock = true → a = i := by
        intro a ha
        by_contra hai
        rw [moved_other st i a _ hai, hnone a] at ha
        exact absurd ha (by decide)
      refine ⟨?_, ?_, ⟨order, hnd, hw, ?_⟩, ?_, ?_⟩
      · intro a b ha hb
        rw [hold a ha, hold b hb]
      · simp only [true_iff]
        exact ⟨i, by rw [moved_same]; rfl⟩
      · intro a ha
        have hai : a ≠ i := by
          intro hai
          rw [hai] at ha
          exact (hord i ha).1 hpc
        simp only [moved_other st i a _ hai]
        exact hord a ha
      · intro a rest ha
        have hai : a ≠ i := by
          intro hai
          simp only [hai, moved_same] at ha
          exact absurd ha (by simp)
        simp only [moved_other st i a _ hai] at ha
        exact h4 a rest ha
      · intro hall
        apply h5
        intro a rest ha
        by_cases hai : a = i
        · rw [hai, hpc] at ha
          exact absurd ha (by simp)
        · exact hall a rest (by simp only [moved_other st i a _ hai]; exact ha)
  · next hpc =>
    have hi : (st.pc i).holdsLock = true := by rw [hpc]; rfl
    have hnw : ∀ a rest, st.pc a ≠ .writing rest := by
      intro a rest ha
      have := hwriter a rest ha hi
      rw [this, hpc] at ha
      exact absurd ha (by simp)
    have hnot : i ∉ order := fun hin => (hord i hin).2 hpc
    split
    · next err hm =>
      obtain ⟨g1, g2⟩ := moved_holder st i .unlocking h1 h2 hi rfl
      refine ⟨g1, g2, ⟨order, hnd, hw, ?_⟩, ?_, ?_⟩
      · intro a ha
        have hai : a ≠ i := fun hai => hnot (hai ▸ ha)
        simp only [moved_other st i a _ hai]
        exact hord a ha
      · intro a rest ha
        by_cases hai : a = i
        · simp only [hai, moved_same] at ha
          exact absurd ha (by simp)
        · simp only [moved_other st i a _ hai] at ha
          exact absurd ha (hnw a rest)
      · intro _
        exact h5 hnw
    · next data hm =>
      obtain ⟨g1, g2⟩ := moved_holder st i (.writing (data ++ [10])) h1 h2 hi rfl
      have hline : sendLine marshal resp i = some (data ++ [10]) := by
        simp [sendLine, hm]
      refine ⟨g1, g2, ⟨order ++ [i], ?_, ?_, ?_⟩, ?_, ?_⟩
      · rw [List.nodup_append]
        refine ⟨hnd, List.nodup_singleton i, ?_⟩
        intro a ha hb
        simp only [List.mem_singleton] at hb
        exact hnot (hb ▸ ha)
      · simp only [List.filterMap_append, List.filterMap_cons, List.filterMap_nil, hline, hw]
      · intro a ha
        rcases List.mem_append.1 ha with ha | ha
        · have hai : a ≠ i := fun hai => hnot (hai ▸ ha)
          simp only [moved_other st i a _ hai]
          exact hord a ha
        · simp only [List.mem_singleton] at ha
          simp only [ha, moved_same]
          exact ⟨by simp, by simp⟩
      · intro a rest ha
        by_cases hai : a = i
        · simp only [hai, moved_same, SendPC.writing.injEq] at ha
          simp only [List.flatten_append, List.flatten_cons, List.flatten_nil,
            List.append_nil]
          rw [← ha, h5 hnw]
        · simp only [moved_other st i a _ hai] at ha
          exact absurd ha (hnw a rest)
      · intro hall
        exact absurd (moved_same st i (.writing (data ++ [10]))) (hall i _)
  · next hpc =>
    have hi : (st.pc i).holdsLock = true := by rw [hpc]; rfl
    obtain ⟨g1, g2⟩ := moved_holder st i .unlocking h1 h2 hi rfl
    refine ⟨g1, g2, ⟨order, hnd, hw, ?_⟩, ?_, ?_⟩
    · intro a ha
      by_cases hai : a = i
      · simp only [hai, moved_same]
        exact ⟨by simp, by simp⟩
      · simp only [moved_other st i a _ hai]
        exact hord a ha
    · intro a rest ha
      by_cases hai : a = i
      · simp only [hai, moved_same] at ha
        exact absurd ha (by simp)
      · simp only [moved_other st i a _ hai] at ha
        exact absurd (hwriter a rest ha hi) hai
    · intro _
      have := h4 i [] hpc
      simpa using this
  · next b rest hpc =>
    have hi : (st.pc i).holdsLock = true := by rw [hpc]; rfl
    obtain ⟨g1, g2⟩ := moved_holder st i (.writing rest) h1 h2 hi rfl
    refine ⟨g1, g2, ⟨order, hnd, hw, ?_⟩, ?_, ?_⟩
    · intro a ha
      by_cases hai : a = i
      · simp only [hai, moved_same]
        exact ⟨by simp, by simp⟩
      · simp only [moved_other st i a _ hai]
        exact hord a ha
    · intro a r ha
      by_cases hai : a = i
      · simp only [hai, moved_same, SendPC.writing.injEq] at ha
        have := h4 i (b :: rest) hpc
        simp only [List.append_assoc, List.singleton_append]
        rw [← ha]; exact this
      · simp only [moved_other st i a _ hai] at ha
        exact absurd (hwriter a r ha hi) hai
    · intro hall
      exact absurd (moved_same st i (.writing rest)) (hall i _)
  · next hpc =>
    have hi : (st.pc i).holdsLock = true := by rw [hpc]; rfl
    have hnone : ∀ a, (st.moved i .done a).holdsLock = true → False := by
      intro a ha
      by_cases hai : a = i
      · simp only [hai, moved_same] at ha
        exact absurd ha (by decide)
      · rw [moved_other st i a _ hai] at ha
        exact hai (h1 a i ha hi)
    have hnw : ∀ a rest, st.pc a ≠ .writing rest := by
      intro a rest ha
      have := hwriter a rest ha hi
      rw [this, hpc] at ha
      exact absurd ha (by simp)
    refine ⟨?_, ?_, ⟨order, hnd, hw, ?_⟩, ?_, ?_⟩
    · intro a b ha _
      exact absurd ha (fun h => hnone a h)
    · constructor
      · intro hf
        exact absurd hf (by simp)
      · rintro ⟨a, ha⟩
        exact absurd ha (fun h => hnone a h)
    · intro a ha
      by_cases hai : a = i
      · simp only [hai, moved_same]
        exact ⟨by simp, by simp⟩
      · simp only [moved_other st i a _ hai]
        exact hord a ha
    · intro a rest ha
      by_cases hai : a = i
      · simp only [hai, moved_same] at ha
        exact absurd ha (by simp)
      · simp only [moved_other st i a _ hai] at ha
        exact absurd ha (hnw a rest)
    · intro _
      exact h5 hnw
  · exact ⟨h1, h2, ⟨order, hnd, hw, hord⟩, h4, h5⟩

theorem sendRun_inv (marshal : Response → Except String (List Nat)) (resp : Nat → Response)
    (schedule : List Nat) : sendInv marshal resp (sendRun marshal resp schedule) := by
  unfold sendRun
  induction schedule using List.reverseRecOn with
  | nil => exact sendInv_fresh marshal resp
  | append_singleton l i ih =>
    rw [List.foldl_append]
    exact sendStep_inv marshal resp i _ ih

/-- An example: goroutines 0 and 1 take their steps in turn. Goroutine 1
waits at the mutex until goroutine 0 has unlocked it, and the stream holds the
line of goroutine 0 and then the line of goroutine 1, written in two calls. -/
theorem sendRun_two_goroutines :
    (sendRun exampleMarshalResponse exampleResponses
        [0, 1, 0, 1, 0, 1, 0, 1, 0, 1, 0, 1, 1, 1, 1, 1, 1]).out = [65, 10, 66, 10] ∧
    (sendRun exampleMarshalResponse exampleResponses
        [0, 1, 0, 1, 0, 1, 0, 1, 0, 1, 0, 1, 1, 1, 1, 1, 1]).writes = [[65, 10], [66, 10]] ∧
    (sendRun exampleMarshalResponse exampleResponses [0, 1, 0, 1, 0]).out = [65] ∧
    (sendRun exampleMarshalResponse exampleResponses [0, 1, 0, 1, 0]).pc 1 = .start := by
  decide


/-! ## The metadata of a reachable store -/

theorem metadataUnique_of_eq (db db2 : DB) (h : db.metadataUnique)
    (hm : db2.metadata = db.metadata) : db2.metadataUnique := by
  unfold DB.metadataUnique at *
  rw [hm]; exact h

theorem getProjectID_metadataUnique (db : DB) (args : Args) (h : db.metadataUnique) :
    (getProjectID db args).1.metadataUnique := by
  obtain ⟨ps, hps⟩ := getProjectID_frame db args
  rw [hps]
  exact h

theorem DeleteMetadata_unique (db : DB) (projectID : Option Int) (key : String)
    (h : db.metadataUnique) : (db.DeleteMetadata projectID key).1.metadataUnique := by
  unfold DB.DeleteMetadata DB.metadataUnique at *
  exact List.Pairwise.filter _ h

theorem handleMemoryStore_metadataUnique (db : DB) (args : Args) (h : db.metadataUnique) :
    (handleMemoryStore db args).1.metadataUnique := by
  have hg := getProjectID_metadataUnique db args h
  simp only [handleMemoryStore]
  split_ifs
  · exact h
  · apply metadataUnique_of_eq _ _ hg
    simp only [passOn, DB.CreateMemory]
    split_ifs <;> rfl

theorem handleMemorySearch_metadataUnique (db : DB) (args : Args) (h : db.metadataUnique) :
    (handleMemorySearch db args).1.metadataUnique := by
  have hg := getProjectID_metadataUnique db args h
  exact hg

theorem handleMemoryDelete_metadataUnique (db : DB) (args : Args) (h : db.metadataUnique) :
    (handleMemoryDelete db args).1.metadataUnique := by
  have hg := getProjectID_metadataUnique db args h
  simp only [handleMemoryDelete]
  split_ifs
  · exact h
  · exact metadataUnique_of_eq _ _ h rfl

theorem handleTaskCreate_metadataUnique (db : DB) (args : Args) (h : db.metadataUnique) :
    (handleTaskCreate db args).1.metadataUnique := by
  have hg := getProjectID_metadataUnique db args h
  simp only [handleTaskCreate]
  split_ifs
  · exact h
  · apply metadataUnique_of_eq _ _ hg
    simp only [passOn, DB.CreateTask]
    split_ifs <;> rfl

theorem handleTaskUpdate_metadataUnique (db : DB) (args : Args) (h : db.metadataUnique) :
    (handleTaskUpdate db args).1.metadataUnique := by
  have hg := getProjectID_metadataUnique db args h
  simp only [handleTaskUpdate]
  split_ifs
  · exact h
  · apply metadataUnique_of_eq _ _ h
    simp only [passOn, DB.UpdateTask]
    split_ifs <;> rfl

theorem handleTaskList_metadataUnique (db : DB) (args : Args) (h : db.metadataUnique) :
    (handleTaskList db args).1.metadataUnique := by
  have hg := getProjectID_metadataUnique db args h
  exact hg

theorem handleTaskDelete_metadataUnique (db : DB) (args : Args) (h : db.metadataUnique) :
    (handleTaskDelete db args).1.metadataUnique := by
  have hg := getProjectID_metadataUnique db args h
  simp only [handleTaskDelete]
  split_ifs
  · exact h
  · apply metadataUnique_of_eq _ _ h
    simp only [afterDelete, DB.DeleteTask]
    repeat' split
    all_goals rfl

theorem handleMetadataSet_metadataUnique (db : DB) (args : Args) (h : db.metadataUnique) :
    (handleMetadataSet db args).1.metadataUnique := by
  have hg := getProjectID_metadataUnique db args h
  simp only [handleMetadataSet]
  split_ifs
  · exact h
  · simp only [passOn]
    exact SetMetadata_unique _ _ _ _ hg

theorem handleMetadataGet_metadataUnique (db : DB) (args : Args) (h : db.metadataUnique) :
    (handleMetadataGet db args).1.metadataUnique := by
  have hg := getProjectID_metadataUnique db args h
  simp only [handleMetadataGet]
  split_ifs
  · exact h
  · split <;> exact hg

theorem handleMetadataList_metadataUnique (db : DB) (args : Args) (h : db.metadataUnique) :
    (handleMetadataList db args).1.metadataUnique := by
  have hg := getProjectID_metadataUnique db args h
  exact hg

theorem handleMetadataDelete_metadataUnique (db : DB) (args : Args) (h : db.metadataUnique) :
    (handleMetadataDelete db args).1.metadataUnique := by
  have hg := getProjectID_metadataUnique db args h
  simp only [handleMetadataDelete]
  split_ifs
  · exact h
  · simp only [afterDelete]
    exact DeleteMetadata_unique _ _ _ hg

theorem handleFiletreeAnnotate_metadataUnique (db : DB) (args : Args) (h : db.metadataUnique) :
    (handleFiletreeAnnotate db args).1.metadataUnique := by
  have hg := getProjectID_metadataUnique db args h
  simp only [handleFiletreeAnnotate]
  split_ifs
  · exact h
  · exact h
  · apply metadataUnique_of_eq _ _ hg
    simp only [passOn, DB.AnnotateFile]
    split_ifs <;> rfl

theorem handleFiletreeGet_metadataUnique (db : DB) (args : Args) (h : db.metadataUnique) :
    (handleFiletreeGet db args).1.metadataUnique := by
  have hg := getProjectID_metadataUnique db args h
  simp only [handleFiletreeGet]
  split_ifs <;> exact hg

theorem handleFiletreeDelete_metadataUnique (db : DB) (args : Args) (h : db.metadataUnique) :
    (handleFiletreeDelete db args).1.metadataUnique := by
  have hg := getProjectID_metadataUnique db args h
  simp only [handleFiletreeDelete]
  split_ifs
  · exact h
  · exact metadataUnique_of_eq _ _ hg rfl

theorem handleGuidelineCreate_metadataUnique (db : DB) (args : Args) (h : db.metadataUnique) :
    (handleGuidelineCreate db args).1.metadataUnique := by
  have hg := getProjectID_metadataUnique db args h
  simp only [handleGuidelineCreate]
  split_ifs
  · exact h
  · exact h
  · exact h
  · apply metadataUnique_of_eq _ _ hg
    simp only [passOn, DB.CreateGuideline]
    split_ifs <;> rfl

theorem handleGuidelineUpdate_metadataUnique (db : DB) (args : Args) (h : db.metadataUnique) :
    (handleGuidelineUpdate db args).1.metadataUnique := by
  have hg := getProjectID_metadataUnique db args h
  simp only [handleGuidelineUpdate]
  split_ifs
  · exact h
  · apply metadataUnique_of_eq _ _ h
    simp only [passOn, DB.UpdateGuideline]
    split_ifs <;> rfl

theorem handleGuidelineList_metadataUnique (db : DB) (args : Args) (h : db.metadataUnique) :
    (handleGuidelineList db args).1.metadataUnique := by
  have hg := getProjectID_metadataUnique db args h
  exact hg

theorem handleGuidelineSearch_metadataUnique (db : DB) (args : Args) (h : db.metadataUnique) :
    (handleGuidelineSearch db args).1.metadataUnique := by
  have hg := getProjectID_metadataUnique db args h
  simp only [handleGuidelineSearch]
  split_ifs
  · exact h
  · exact hg

theorem handleGuidelineGet_metadataUnique (db : DB) (args : Args) (h : db.metadataUnique) :
    (handleGuidelineGet db args).1.metadataUnique := by
  have hg := getProjectID_metadataUnique db args h
  simp only [handleGuidelineGet]
  split_ifs <;> exact h

theorem handleGuidelineDelete_metadataUnique (db : DB) (args : Args) (h : db.metadataUnique) :
    (handleGuidelineDelete db args).1.metadataUnique := by
  have hg := getProjectID_metadataUnique db args h
  simp only [handleGuidelineDelete]
  split_ifs
  · exact h
  · exact metadataUnique_of_eq _ _ h rfl

theorem handleProjectCreate_metadataUnique (db : DB) (args : Args) (h : db.metadataUnique) :
    (handleProjectCreate db args).1.metadataUnique := by
  have hg := getProjectID_metadataUnique db args h
  simp only [handleProjectCreate]
  split_ifs
  · exact h
  · obtain ⟨ps, hps⟩ := CreateProject_frame db (getString args "slug") (getString args "name")
      (getString args "root_path")
    simp only [passOn]
    rw [hps]
    exact h

theorem handleProjectList_metadataUnique (db : DB) (args : Args) (h : db.metadataUnique) :
    (handleProjectList db args).1.metadataUnique := by
  have hg := getProjectID_metadataUnique db args h
  exact h

theorem handleProjectSetDefault_metadataUnique (db : DB) (args : Args) (h : db.metadataUnique) :
    (handleProjectSetDefault db args).1.metadataUnique := by
  have hg := getProjectID_metadataUnique db args h
  simp only [handleProjectSetDefault]
  split_ifs
  · exact h
  · obtain ⟨ps, hps⟩ := GetOrCreateProject_frame db (getString args "slug")
    split
    · next db1 err heq =>
      rw [heq] at hps
      simp only at hps
      rw [hps]
      exact h
    · next db1 p heq =>
      rw [heq] at hps
      simp only at hps
      rw [hps]
      exact h

theorem handleBookmarkCreate_metadataUnique (db : DB) (args : Args) (h : db.metadataUnique) :
    (handleBookmarkCreate db args).1.metadataUnique := by
  have hg := getProjectID_metadataUnique db args h
  simp only [handleBookmarkCreate]
  split_ifs
  · exact h
  · exact h
  · apply metadataUnique_of_eq _ _ hg
    simp only [passOn, DB.CreateBookmark]
    split_ifs <;> rfl

theorem handleBookmarkSearch_metadataUnique (db : DB) (args : Args) (h : db.metadataUnique) :
    (handleBookmarkSearch db args).1.metadataUnique := by
  have hg := getProjectID_metadataUnique db args h
  exact hg

theorem handleBookmarkList_metadataUnique (db : DB) (args : Args) (h : db.metadataUnique) :
    (handleBookmarkList db args).1.metadataUnique := by
  have hg := getProjectID_metadataUnique db args h
  exact hg

theorem handleBookmarkDelete_metadataUnique (db : DB) (args : Args) (h : db.metadataUnique) :
    (handleBookmarkDelete db args).1.metadataUnique := by
  have hg := getProjectID_metadataUnique db args h
  simp only [handleBookmarkDelete]
  split_ifs
  · exact h
  · exact metadataUnique_of_eq _ _ h rfl

theorem HandleToolCall_metadataUnique (db : DB) (name : String) (args : Args)
    (h : db.metadataUnique) : (HandleToolCall db name args).1.metadataUnique := by
  by_cases hn : name ∈ GetToolDefinitions.map (fun d => d.Name)
  · simp only [GetToolDefinitions, List.map_cons, List.map_nil, List.mem_cons,
      List.mem_singleton, List.not_mem_nil, or_false] at hn
    rcases hn with rfl | rfl | rfl | rfl | rfl | rfl | rfl | rfl | rfl | rfl | rfl | rfl | rfl |
      rfl | rfl | rfl | rfl | rfl | rfl | rfl | rfl | rfl | rfl | rfl | rfl | rfl | rfl
    · exact handleMemoryStore_metadataUnique db args h
    · exact handleMemorySearch_metadataUnique db args h
    · exact handleMemoryDelete_metadataUnique db args h
    · exact handleTaskCreate_metadataUnique db args h
    · exact handleTaskUpdate_metadataUnique db args h
    · exact handleTaskList_metadataUnique db args h
    · exact handleTaskDelete_metadataUnique db args h
    · exact handleMetadataSet_metadataUnique db args h
    · exact handleMetadataGet_metadataUnique db args h
    · exact handleMetadataList_metadataUnique db args h
    · exact handleMetadataDelete_metadataUnique db args h
    · exact handleFiletreeAnnotate_metadataUnique db args h
    · exact handleFiletreeGet_metadataUnique db args h
    · exact handleFiletreeDelete_metadataUnique db args h
    · exact handleGuidelineCreate_metadataUnique db args h
    · exact handleGuidelineUpdate_metadataUnique db args h
    · exact handleGuidelineList_metadataUnique db args h
    · exact handleGuidelineSearch_metadataUnique db args h
    · exact handleGuidelineGet_metadataUnique db args h
    · exact handleGuidelineDelete_metadataUnique db args h
    · exact handleProjectCreate_metadataUnique db args h
    · exact handleProjectList_metadataUnique db args h
    · exact handleProjectSetDefault_metadataUnique db args h
    · exact handleBookmarkCreate_metadataUnique db args h
    · exact handleBookmarkSearch_metadataUnique db args h
    · exact handleBookmarkList_metadataUnique db args h
    · exact handleBookmarkDelete_metadataUnique db args h
  · rw [HandleToolCall_unknown db name args hn]
    exact h

/-- Every store reached from `Open` by tool calls keeps the constraint
`UNIQUE(project_id, key)` of the table `metadata`. -/
theorem afterCalls_metadataUnique (now : Nat) (calls : List (String × Args)) :
    (afterCalls (Open now) calls).metadataUnique := by
  have hgen : ∀ (db : DB), db.metadataUnique → (afterCalls db calls).metadataUnique := by
    induction calls with
    | nil => intro db h; exact h
    | cons c rest ih =>
      intro db h
      simp only [afterCalls, List.foldl_cons]
      exact ih _ (HandleToolCall_metadataUnique db c.1 c.2 h)
  exact hgen _ (by simp [DB.metadataUnique, Open])


/-! ## The project a store method works under -/

theorem GetProjectID_idem (db : DB) (projectID : Option Int) :
    db.GetProjectID (some (db.GetProjectID projectID)) = db.GetProjectID projectID := by
  unfold DB.GetProjectID
  cases projectID with
  | none => simp
  | some p =>
    by_cases hp : p > 0
    · simp [hp]
    · simp [hp]

theorem CreateMemory_under (db : DB) (projectID : Option Int) (content : String)
    (keywords : Option (List String)) :
    db.CreateMemory projectID content keywords =
      db.CreateMemory (some (db.GetProjectID projectID)) content keywords := by
  simp only [DB.CreateMemory, GetProjectID_idem]

theorem SearchMemories_under (db : DB) (projectID : Option Int) (query : String)
    (keywords : Option (List String)) (limit : Int) :
    db.SearchMemories projectID query keywords limit =
      db.SearchMemories (some (db.GetProjectID projectID)) query keywords limit := by
  simp only [DB.SearchMemories, GetProjectID_idem]

theorem CreateTask_under (db : DB) (projectID parentID : Option Int) (title description : String)
    (priority : Int) :
    db.CreateTask projectID parentID title description priority =
      db.CreateTask (some (db.GetProjectID projectID)) parentID title description priority := by
  simp only [DB.CreateTask, GetProjectID_idem]

theorem ListTasks_under (db : DB) (projectID : Option Int) (status : Option String)
    (parentID : Option Int) :
    db.ListTasks projectID status parentID =
      db.ListTasks (some (db.GetProjectID projectID)) status parentID := by
  simp only [DB.ListTasks, GetProjectID_idem]

theorem GetProjectID_same (db db2 : DB) (projectID : Option Int)
    (h : db2.defaultProjectID = db.defaultProjectID) :
    db2.GetProjectID projectID = db.GetProjectID projectID := by
  unfold DB.GetProjectID
  rw [h]

theorem GetMetadata_under (db : DB) (projectID : Option Int) (key : String) :
    db.GetMetadata projectID key = db.GetMetadata (some (db.GetProjectID projectID)) key := by
  simp only [DB.GetMetadata, GetProjectID_idem]

theorem GetMetadata_other (db0 db : DB) (projectID : Option Int) (key : String)
    (h : db0.defaultProjectID = db.defaultProjectID) :
    db0.GetMetadata projectID key = db0.GetMetadata (some (db.GetProjectID projectID)) key := by
  have h1 := GetProjectID_same db db0 projectID h
  have h2 := GetProjectID_same db db0 (some (db.GetProjectID projectID)) h
  simp only [DB.GetMetadata, h1, h2, GetProjectID_idem]

theorem SetMetadata_under (db : DB) (projectID : Option Int) (key value : String) :
    db.SetMetadata projectID key value =
      db.SetMetadata (some (db.GetProjectID projectID)) key value := by
  simp only [DB.SetMetadata, GetProjectID_idem]
  split_ifs
  · rfl
  · exact Prod.ext rfl (GetMetadata_other _ db projectID key rfl)
  · exact Prod.ext rfl (GetMetadata_other _ db projectID key rfl)

theorem ListMetadata_under (db : DB) (projectID : Option Int) :
    db.ListMetadata projectID = db.ListMetadata (some (db.GetProjectID projectID)) := by
  simp only [DB.ListMetadata, GetProjectID_idem]

theorem DeleteMetadata_under (db : DB) (projectID : Option Int) (key : String) :
    db.DeleteMetadata projectID key =
      db.DeleteMetadata (some (db.GetProjectID projectID)) key := by
  simp only [DB.DeleteMetadata, GetProjectID_idem]

theorem GetFileAnnotation_under (db : DB) (projectID : Option Int) (path : String) :
    db.GetFileAnnotation projectID path =
      db.GetFileAnnotation (some (db.GetProjectID projectID)) path := by
  simp only [DB.GetFileAnnotation, GetProjectID_idem]

theorem GetFileAnnotation_other (db0 db : DB) (projectID : Option Int) (path : String)
    (h : db0.defaultProjectID = db.defaultProjectID) :
    db0.GetFileAnnotation projectID path =
      db0.GetFileAnnotation (some (db.GetProjectID projectID)) path := by
  have h1 := GetProjectID_same db db0 projectID h
  have h2 := GetProjectID_same db db0 (some (db.GetProjectID projectID)) h
  simp only [DB.GetFileAnnotation, h1, h2, GetProjectID_idem]

theorem AnnotateFile_under (db : DB) (projectID : Option Int) (path note : String)
    (isDir : Bool) :
    db.AnnotateFile projectID path note isDir =
      db.AnnotateFile (some (db.GetProjectID projectID)) path note isDir := by
  simp only [DB.AnnotateFile, GetProjectID_idem]
  split_ifs
  · rfl
  · exact Prod.ext rfl (GetFileAnnotation_other _ db projectID path rfl)
  · exact Prod.ext rfl (GetFileAnnotation_other _ db projectID path rfl)

theorem ListFileAnnotations_under (db : DB) (projectID : Option Int) :
    db.ListFileAnnotations projectID =
      db.ListFileAnnotations (some (db.GetProjectID projectID)) := by
  simp only [DB.ListFileAnnotations, GetProjectID_idem]

theorem DeleteFileAnnotation_under (db : DB) (projectID : Option Int) (path : String) :
    db.DeleteFileAnnotation projectID path =
      db.DeleteFileAnnotation (some (db.GetProjectID projectID)) path := by
  simp only [DB.DeleteFileAnnotation, GetProjectID_idem]

theorem CreateGuideline_under (db : DB) (projectID : Option Int)
    (category title content : String) (tags : Option (List String)) (priority : Int) :
    db.CreateGuideline projectID category title content tags priority =
      db.CreateGuideline (some (db.GetProjectID projectID)) category title content tags
        priority := by
  simp only [DB.CreateGuideline, GetProjectID_idem]

theorem ListGuidelines_under (db : DB) (projectID : Option Int) (category : Option String) :
    db.ListGuidelines projectID category =
      db.ListGuidelines (some (db.GetProjectID projectID)) category := by
  simp only [DB.ListGuidelines, GetProjectID_idem]

theorem SearchGuidelines_under (db : DB) (projectID : Option Int) (query : String)
    (category : Option String) :
    db.SearchGuidelines projectID query category =
      db.SearchGuidelines (some (db.GetProjectID projectID)) query category := by
  simp only [DB.SearchGuidelines, GetProjectID_idem]

theorem CreateBookmark_under (db : DB) (projectID : Option Int)
    (url title excerpt note docType pageOrSection : String) (tags : Option (List String)) :
    db.CreateBookmark projectID url title excerpt note docType pageOrSection tags =
      db.CreateBookmark (some (db.GetProjectID projectID)) url title excerpt note docType
        pageOrSection tags := by
  simp only [DB.CreateBookmark, GetProjectID_idem]

theorem SearchBookmarks_under (db : DB) (projectID : Option Int) (query : String)
    (tags : Option (List String)) (docType : Option String) :
    db.SearchBookmarks projectID query tags docType =
      db.SearchBookmarks (some (db.GetProjectID projectID)) query tags docType := by
  simp only [DB.SearchBookmarks, GetProjectID_idem]

theorem ListBookmarks_under (db : DB) (projectID : Option Int) :
    db.ListBookmarks projectID = db.ListBookmarks (some (db.GetProjectID projectID)) := by
  simp only [DB.ListBookmarks, SearchBookmarks_under db projectID]

theorem passOn_ok {α : Type} (wrap : α → Value) (r : DB × Except GoErr α) (v : Value)
    (h : (passOn wrap r).2 = .ok v) : ∃ a, r.2 = .ok a ∧ v = wrap a := by
  unfold passOn at h
  cases hr : r.2 with
  | error e => simp [hr, Except.map] at h
  | ok a =>
    simp only [hr, Except.map, Except.ok.injEq] at h
    exact ⟨a, rfl, h.symm⟩

theorem CreateMemory_projectOf (db : DB) (projectID : Option Int) (content : String)
    (keywords : Option (List String)) (r : Memory)
    (h : (db.CreateMemory projectID content keywords).2 = .ok r) :
    r.ProjectID = db.GetProjectID projectID := by
  have hid : db.memories.find? (fun m => m.ID == nextID (db.memories.map (fun m => m.ID))) = none :=
    List.find?_eq_none.2 (fun m hm => by
      have := lt_nextID (db.memories.map (fun m => m.ID)) m.ID (List.mem_map_of_mem _ hm)
      simp; omega)
  unfold DB.CreateMemory at h
  simp only at h
  split_ifs at h
  simp only [DB.GetMemory, List.find?_append, hid] at h
  simp at h
  rw [← h]

theorem CreateTask_projectOf (db : DB) (projectID parentID : Option Int)
    (title description : String) (priority : Int) (r : Task)
    (h : (db.CreateTask projectID parentID title description priority).2 = .ok r) :
    r.ProjectID = db.GetProjectID projectID := by
  have hid : db.tasks.find? (fun t => t.ID == nextID (db.tasks.map (fun t => t.ID))) = none :=
    List.find?_eq_none.2 (fun t ht => by
      have := lt_nextID (db.tasks.map (fun t => t.ID)) t.ID (List.mem_map_of_mem _ ht)
      simp; omega)
  unfold DB.CreateTask at h
  simp only at h
  split_ifs at h
  simp only [DB.GetTask, List.find?_append, hid] at h
  simp at h
  rw [← h]

theorem CreateGuideline_projectOf (db : DB) (projectID : Option Int)
    (category title content : String) (tags : Option (List String)) (priority : Int)
    (r : Guideline)
    (h : (db.CreateGuideline projectID category title content tags priority).2 = .ok r) :
    r.ProjectID = db.GetProjectID projectID := by
  have hid : db.guidelines.find?
      (fun g => g.ID == nextID (db.guidelines.map (fun g => g.ID))) = none :=
    List.find?_eq_none.2 (fun g hg => by
      have := lt_nextID (db.guidelines.map (fun g => g.ID)) g.ID (List.mem_map_of_mem _ hg)
      simp; omega)
  unfold DB.CreateGuideline at h
  simp only at h
  split_ifs at h
  simp only [DB.GetGuideline, List.find?_append, hid] at h
  simp at h
  rw [← h]

theorem CreateBookmark_projectOf (db : DB) (projectID : Option Int)
    (url title excerpt note docType pageOrSection : String) (tags : Option (List String))
    (r : Bookmark)
    (h : (db.CreateBookmark projectID url title excerpt note docType pageOrSection tags).2 =
      .ok r) :
    r.ProjectID = db.GetProjectID projectID := by
  have hid : db.bookmarks.find?
      (fun b => b.ID == nextID (db.bookmarks.map (fun b => b.ID))) = none :=
    List.find?_eq_none.2 (fun b hb => by
      have := lt_nextID (db.bookmarks.map (fun b => b.ID)) b.ID (List.mem_map_of_mem _ hb)
      simp; omega)
  unfold DB.CreateBookmark at h
  simp only at h
  split_ifs at h
  simp only [DB.GetBookmark, List.find?_append, hid] at h
  simp at h
  rw [← h]

theorem GetMetadata_projectOf (db : DB) (projectID : Option Int) (key : String) (m : Metadata)
    (h : db.GetMetadata projectID key = .ok (some m)) :
    m.ProjectID = db.GetProjectID projectID := by
  simp only [DB.GetMetadata, Except.ok.injEq] at h
  have hp := List.find?_some h
  simp only [Bool.and_eq_true, beq_iff_eq] at hp
  exact hp.1

theorem SetMetadata_projectOf (db : DB) (projectID : Option Int) (key value : String)
    (m : Metadata) (h : (db.SetMetadata projectID key value).2 = .ok (some m)) :
    m.ProjectID = db.GetProjectID projectID := by
  unfold DB.SetMetadata at h
  simp only at h
  split_ifs at h
  · have h2 : DB.GetMetadata _ projectID key = .ok (some m) := h
    have h3 := GetMetadata_projectOf _ _ _ _ h2
    exact h3
  · have h2 : DB.GetMetadata _ projectID key = .ok (some m) := h
    have h3 := GetMetadata_projectOf _ _ _ _ h2
    exact h3

theorem GetFileAnnotation_projectOf (db : DB) (projectID : Option Int) (path : String)
    (f : FileAnnotation) (h : db.GetFileAnnotation projectID path = .ok (some f)) :
    f.ProjectID = db.GetProjectID projectID := by
  simp only [DB.GetFileAnnotation, Except.ok.injEq] at h
  have hp := List.find?_some h
  simp only [Bool.and_eq_true, beq_iff_eq] at hp
  exact hp.1

theorem AnnotateFile_projectOf (db : DB) (projectID : Option Int) (path note : String)
    (isDir : Bool) (f : FileAnnotation)
    (h : (db.AnnotateFile projectID path note isDir).2 = .ok (some f)) :
    f.ProjectID = db.GetProjectID projectID := by
  unfold DB.AnnotateFile at h
  simp only at h
  split_ifs at h
  · have h2 : DB.GetFileAnnotation _ projectID path = .ok (some f) := h
    have h3 := GetFileAnnotation_projectOf _ _ _ _ h2
    exact h3
  · have h2 : DB.GetFileAnnotation _ projectID path = .ok (some f) := h
    have h3 := GetFileAnnotation_projectOf _ _ _ _ h2
    exact h3

theorem ListTasks_projectOf (db : DB) (projectID : Option Int) (status : Option String)
    (parentID : Option Int) (ts : List Task) (h : db.ListTasks projectID status parentID = .ok ts) :
    ∀ t ∈ ts, t.ProjectID = db.GetProjectID projectID := by
  simp only [DB.ListTasks, Except.ok.injEq] at h
  intro t ht
  rw [← h] at ht
  have h2 := (orderBy_perm _ _).subset ht
  simp only [List.mem_filter, Bool.and_eq_true, beq_iff_eq] at h2
  exact h2.2.1.1

theorem ListMetadata_projectOf (db : DB) (projectID : Option Int) (ms : List Metadata)
    (h : db.ListMetadata projectID = .ok ms) :
    ∀ m ∈ ms, m.ProjectID = db.GetProjectID projectID := by
  simp only [DB.ListMetadata, Except.ok.injEq] at h
  intro m hm
  rw [← h] at hm
  have h2 := (orderBy_perm _ _).subset hm
  simp only [List.mem_filter, beq_iff_eq] at h2
  exact h2.2

theorem ListFileAnnotations_projectOf (db : DB) (projectID : Option Int)
    (fs : List FileAnnotation) (h : db.ListFileAnnotations projectID = .ok fs) :
    ∀ f ∈ fs, f.ProjectID = db.GetProjectID projectID := by
  simp only [DB.ListFileAnnotations, Except.ok.injEq] at h
  intro f hf
  rw [← h] at hf
  have h2 := (orderBy_perm _ _).subset hf
  simp only [List.mem_filter, beq_iff_eq] at h2
  exact h2.2

theorem ListGuidelines_projectOf (db : DB) (projectID : Option Int) (category : Option String)
    (gs : List Guideline) (h : db.ListGuidelines projectID category = .ok gs) :
    ∀ g ∈ gs, g.ProjectID = db.GetProjectID projectID := by
  simp only [DB.ListGuidelines, Except.ok.injEq] at h
  intro g hg
  rw [← h] at hg
  have h2 := (orderBy_perm _ _).subset hg
  simp only [List.mem_filter, Bool.and_eq_true, beq_iff_eq] at h2
  exact h2.2.1

theorem SearchGuidelines_projectOf (db : DB) (projectID : Option Int) (query : String)
    (category : Option String) (gs : List Guideline)
    (h : db.SearchGuidelines projectID query category = .ok gs) :
    ∀ g ∈ gs, g.ProjectID = db.GetProjectID projectID := by
  simp only [DB.SearchGuidelines, Except.ok.injEq] at h
  intro g hg
  rw [← h] at hg
  have h2 := (orderBy_perm _ _).subset hg
  simp only [List.mem_filter, Bool.and_eq_true, beq_iff_eq] at h2
  exact h2.2.1.1

theorem SearchBookmarks_projectOf (db : DB) (projectID : Option Int) (query : String)
    (tags : Option (List String)) (docType : Option String) (bs : List Bookmark)
    (h : db.SearchBookmarks projectID query tags docType = .ok bs) :
    ∀ b ∈ bs, b.ProjectID = db.GetProjectID projectID := by
  simp only [DB.SearchBookmarks, Except.ok.injEq] at h
  intro b hb
  rw [← h] at hb
  have h2 := (orderBy_perm _ _).subset hb
  simp only [List.mem_filter, Bool.and_eq_true, beq_iff_eq] at h2
  exact h2.2.1.1.1

theorem handleMemoryStore_projectIDs (db : DB) (args : Args) (v : Value)
    (h : (handleMemoryStore db args).2 = .ok v) : ∀ p ∈ v.projectIDs, p = actingProject db args := by
  rcases hg : getProjectID db args with ⟨db1, pid⟩
  have ha : actingProject db args = db1.GetProjectID pid := by simp only [actingProject, hg]
  simp only [handleMemoryStore, hg] at h
  split_ifs at h
  obtain ⟨a, h1, rfl⟩ := passOn_ok _ _ _ h
  intro p hp
  simp only [Value.projectIDs, List.mem_singleton] at hp
  rw [hp, ha]
  exact CreateMemory_projectOf _ _ _ _ _ h1

theorem handleMemorySearch_projectIDs (db : DB) (args : Args) (v : Value)
    (h : (handleMemorySearch db args).2 = .ok v) : ∀ p ∈ v.projectIDs, p = actingProject db args := by
  rcases hg : getProjectID db args with ⟨db1, pid⟩
  have ha : actingProject db args = db1.GetProjectID pid := by simp only [actingProject, hg]
  simp only [handleMemorySearch, hg] at h
  obtain ⟨a, h1, rfl⟩ := passOn_ok _ _ _ h
  intro p hp
  simp only [Value.projectIDs, List.mem_map] at hp
  obtain ⟨x, hx, rfl⟩ := hp
  rw [ha]
  obtain ⟨ms, hms, hall⟩ := SearchMemories_project db1 pid (getString args "query")
    (getStringArray args "keywords")
    (if getInt args "limit" = 0 then 20 else getInt args "limit")
  have h2 : db1.SearchMemories pid (getString args "query") (getStringArray args "keywords")
      (if getInt args "limit" = 0 then 20 else getInt args "limit") = .ok a := h1
  rw [hms] at h2
  simp only [Except.ok.injEq] at h2
  rw [← h2] at hx
  exact (hall x hx).1

theorem handleTaskCreate_projectIDs (db : DB) (args : Args) (v : Value)
    (h : (handleTaskCreate db args).2 = .ok v) : ∀ p ∈ v.projectIDs, p = actingProject db args := by
  rcases hg : getProjectID db args with ⟨db1, pid⟩
  have ha : actingProject db args = db1.GetProjectID pid := by simp only [actingProject, hg]
  simp only [handleTaskCreate, hg] at h
  split_ifs at h
  obtain ⟨a, h1, rfl⟩ := passOn_ok _ _ _ h
  intro p hp
  simp only [Value.projectIDs, List.mem_singleton] at hp
  rw [hp, ha]
  exact CreateTask_projectOf _ _ _ _ _ _ _ h1

theorem handleTaskList_projectIDs (db : DB) (args : Args) (v : Value)
    (h : (handleTaskList db args).2 = .ok v) : ∀ p ∈ v.projectIDs, p = actingProject db args := by
  rcases hg : getProjectID db args with ⟨db1, pid⟩
  have ha : actingProject db args = db1.GetProjectID pid := by simp only [actingProject, hg]
  simp only [handleTaskList, hg] at h
  obtain ⟨a, h1, rfl⟩ := passOn_ok _ _ _ h
  intro p hp
  simp only [Value.projectIDs, List.mem_map] at hp
  obtain ⟨x, hx, rfl⟩ := hp
  rw [ha]
  exact ListTasks_projectOf _ _ _ _ _ h1 x hx

theorem handleMetadataSet_projectIDs (db : DB) (args : Args) (v : Value)
    (h : (handleMetadataSet db args).2 = .ok v) : ∀ p ∈ v.projectIDs, p = actingProject db args := by
  rcases hg : getProjectID db args with ⟨db1, pid⟩
  have ha : actingProject db args = db1.GetProjectID pid := by simp only [actingProject, hg]
  simp only [handleMetadataSet, hg] at h
  split_ifs at h
  obtain ⟨a, h1, rfl⟩ := passOn_ok _ _ _ h
  intro p hp
  cases a with
  | none => simp [Value.projectIDs] at hp
  | some x =>
    simp only [Value.projectIDs, List.mem_singleton] at hp
    rw [hp, ha]
    exact SetMetadata_projectOf _ _ _ _ _ h1

theorem handleMetadataGet_projectIDs (db : DB) (args : Args) (v : Value)
    (h : (handleMetadataGet db args).2 = .ok v) : ∀ p ∈ v.projectIDs, p = actingProject db args := by
  rcases hg : getProjectID db args with ⟨db1, pid⟩
  have ha : actingProject db args = db1.GetProjectID pid := by simp only [actingProject, hg]
  simp only [handleMetadataGet, hg] at h
  split_ifs at h
  intro p hp
  cases hm : db1.GetMetadata pid (getString args "key") with
  | error e => simp [hm] at h
  | ok r =>
    cases r with
    | none =>
      simp only [hm, Except.ok.injEq] at h
      rw [← h] at hp
      simp [Value.projectIDs] at hp
    | some x =>
      simp only [hm, Except.ok.injEq] at h
      rw [← h] at hp
      simp only [Value.projectIDs, List.mem_singleton] at hp
      rw [hp, ha]
      exact GetMetadata_projectOf _ _ _ _ hm

theorem handleMetadataList_projectIDs (db : DB) (args : Args) (v : Value)
    (h : (handleMetadataList db args).2 = .ok v) : ∀ p ∈ v.projectIDs, p = actingProject db args := by
  rcases hg : getProjectID db args with ⟨db1, pid⟩
  have ha : actingProject db args = db1.GetProjectID pid := by simp only [actingProject, hg]
  simp only [handleMetadataList, hg] at h
  obtain ⟨a, h1, rfl⟩ := passOn_ok _ _ _ h
  intro p hp
  simp only [Value.projectIDs, List.mem_map] at hp
  obtain ⟨x, hx, rfl⟩ := hp
  rw [ha]
  exact ListMetadata_projectOf _ _ _ h1 x hx

theorem handleMetadataDelete_projectIDs (db : DB) (args : Args) (v : Value)
    (h : (handleMetadataDelete db args).2 = .ok v) : ∀ p ∈ v.projectIDs, p = actingProject db args := by
  rcases hg : getProjectID db args with ⟨db1, pid⟩
  have ha : actingProject db args = db1.GetProjectID pid := by simp only [actingProject, hg]
  simp only [handleMetadataDelete, hg] at h
  split_ifs at h
  intro p hp
  simp only [afterDelete, DB.DeleteMetadata, Except.ok.injEq] at h
  rw [← h] at hp
  simp [Value.projectIDs] at hp

theorem handleFiletreeAnnotate_projectIDs (db : DB) (args : Args) (v : Value)
    (h : (handleFiletreeAnnotate db args).2 = .ok v) : ∀ p ∈ v.projectIDs, p = actingProject db args := by
  rcases hg : getProjectID db args with ⟨db1, pid⟩
  have ha : actingProject db args = db1.GetProjectID pid := by simp only [actingProject, hg]
  simp only [handleFiletreeAnnotate, hg] at h
  split_ifs at h
  obtain ⟨a, h1, rfl⟩ := passOn_ok _ _ _ h
  intro p hp
  cases a with
  | none => simp [Value.projectIDs] at hp
  | some x =>
    simp only [Value.projectIDs, List.mem_singleton] at hp
    rw [hp, ha]
    exact AnnotateFile_projectOf _ _ _ _ _ _ h1

theorem handleFiletreeGet_projectIDs (db : DB) (args : Args) (v : Value)
    (h : (handleFiletreeGet db args).2 = .ok v) : ∀ p ∈ v.projectIDs, p = actingProject db args := by
  rcases hg : getProjectID db args with ⟨db1, pid⟩
  have ha : actingProject db args = db1.GetProjectID pid := by simp only [actingProject, hg]
  simp only [handleFiletreeGet, hg] at h
  split_ifs at h
  · obtain ⟨a, h1, rfl⟩ := passOn_ok _ _ _ h
    intro p hp
    cases a with
    | none => simp [Value.projectIDs] at hp
    | some x =>
      simp only [Value.projectIDs, List.mem_singleton] at hp
      rw [hp, ha]
      exact GetFileAnnotation_projectOf _ _ _ _ h1
  · obtain ⟨a, h1, rfl⟩ := passOn_ok _ _ _ h
    intro p hp
    simp only [Value.projectIDs, List.mem_map] at hp
    obtain ⟨x, hx, rfl⟩ := hp
    rw [ha]
    exact ListFileAnnotations_projectOf _ _ _ h1 x hx

theorem handleFiletreeDelete_projectIDs (db : DB) (args : Args) (v : Value)
    (h : (handleFiletreeDelete db args).2 = .ok v) : ∀ p ∈ v.projectIDs, p = actingProject db args := by
  rcases hg : getProjectID db args with ⟨db1, pid⟩
  have ha : actingProject db args = db1.GetProjectID pid := by simp only [actingProject, hg]
  simp only [handleFiletreeDelete, hg] at h
  split_ifs at h
  intro p hp
  simp only [afterDelete, DB.DeleteFileAnnotation, Except.ok.injEq] at h
  rw [← h] at hp
  simp [Value.projectIDs] at hp

theorem handleGuidelineCreate_projectIDs (db : DB) (args : Args) (v : Value)
    (h : (handleGuidelineCreate db args).2 = .ok v) : ∀ p ∈ v.projectIDs, p = actingProject db args := by
  rcases hg : getProjectID db args with ⟨db1, pid⟩
  have ha : actingProject db args = db1.GetProjectID pid := by simp only [actingProject, hg]
  simp only [handleGuidelineCreate, hg] at h
  split_ifs at h
  obtain ⟨a, h1, rfl⟩ := passOn_ok _ _ _ h
  intro p hp
  simp only [Value.projectIDs, List.mem_singleton] at hp
  rw [hp, ha]
  exact CreateGuideline_projectOf _ _ _ _ _ _ _ _ h1

theorem handleGuidelineList_projectIDs (db : DB) (args : Args) (v : Value)
    (h : (handleGuidelineList db args).2 = .ok v) : ∀ p ∈ v.projectIDs, p = actingProject db args := by
  rcases hg : getProjectID db args with ⟨db1, pid⟩
  have ha : actingProject db args = db1.GetProjectID pid := by simp only [actingProject, hg]
  simp only [handleGuidelineList, hg] at h
  obtain ⟨a, h1, rfl⟩ := passOn_ok _ _ _ h
  intro p hp
  simp only [Value.projectIDs, List.mem_map] at hp
  obtain ⟨x, hx, rfl⟩ := hp
  rw [ha]
  exact ListGuidelines_projectOf _ _ _ _ h1 x hx

theorem handleGuidelineSearch_projectIDs (db : DB) (args : Args) (v : Value)
    (h : (handleGuidelineSearch db args).2 = .ok v) : ∀ p ∈ v.projectIDs, p = actingProject db args := by
  rcases hg : getProjectID db args with ⟨db1, pid⟩
  have ha : actingProject db args = db1.GetProjectID pid := by simp only [actingProject, hg]
  simp only [handleGuidelineSearch, hg] at h
  split_ifs at h
  obtain ⟨a, h1, rfl⟩ := passOn_ok _ _ _ h
  intro p hp
  simp only [Value.projectIDs, List.mem_map] at hp
  obtain ⟨x, hx, rfl⟩ := hp
  rw [ha]
  exact SearchGuidelines_projectOf _ _ _ _ _ h1 x hx

theorem handleBookmarkCreate_projectIDs (db : DB) (args : Args) (v : Value)
    (h : (handleBookmarkCreate db args).2 = .ok v) : ∀ p ∈ v.projectIDs, p = actingProject db args := by
  rcases hg : getProjectID db args with ⟨db1, pid⟩
  have ha : actingProject db args = db1.GetProjectID pid := by simp only [actingProject, hg]
  simp only [handleBookmarkCreate, hg] at h
  split_ifs at h
  obtain ⟨a, h1, rfl⟩ := passOn_ok _ _ _ h
  intro p hp
  simp only [Value.projectIDs, List.mem_singleton] at hp
  rw [hp, ha]
  exact CreateBookmark_projectOf _ _ _ _ _ _ _ _ _ _ h1

theorem handleBookmarkSearch_projectIDs (db : DB) (args : Args) (v : Value)
    (h : (handleBookmarkSearch db args).2 = .ok v) : ∀ p ∈ v.projectIDs, p = actingProject db args := by
  rcases hg : getProjectID db args with ⟨db1, pid⟩
  have ha : actingProject db args = db1.GetProjectID pid := by simp only [actingProject, hg]
  simp only [handleBookmarkSearch, hg] at h
  obtain ⟨a, h1, rfl⟩ := passOn_ok _ _ _ h
  intro p hp
  simp only [Value.projectIDs, List.mem_map] at hp
  obtain ⟨x, hx, rfl⟩ := hp
  rw [ha]
  exact SearchBookmarks_projectOf _ _ _ _ _ _ h1 x hx

theorem handleBookmarkList_projectIDs (db : DB) (args : Args) (v : Value)
    (h : (handleBookmarkList db args).2 = .ok v) : ∀ p ∈ v.projectIDs, p = actingProject db args := by
  rcases hg : getProjectID db args with ⟨db1, pid⟩
  have ha : actingProject db args = db1.GetProjectID pid := by simp only [actingProject, hg]
  simp only [handleBookmarkList, hg] at h
  obtain ⟨a, h1, rfl⟩ := passOn_ok _ _ _ h
  intro p hp
  simp only [Value.projectIDs, List.mem_map] at hp
  obtain ⟨x, hx, rfl⟩ := hp
  rw [ha]
  have h2 : db1.SearchBookmarks pid "" none none = .ok a := h1
  exact SearchBookmarks_projectOf _ _ _ _ _ _ h2 x hx

theorem HandleToolCall_scoped_projectIDs (db : DB) (args : Args) (name : String)
    (hn : name ∈ projectScopedTools) (v : Value)
    (h : (HandleToolCall db name args).2 = .ok v) :
    ∀ p ∈ v.projectIDs, p = actingProject db args := by
  simp only [projectScopedTools, List.mem_cons, List.mem_singleton, List.not_mem_nil,
    or_false] at hn
  rcases hn with rfl | rfl | rfl | rfl | rfl | rfl | rfl | rfl | rfl | rfl | rfl | rfl | rfl |
    rfl | rfl | rfl | rfl
  · exact handleMemoryStore_projectIDs db args v h
  · exact handleMemorySearch_projectIDs db args v h
  · exact handleTaskCreate_projectIDs db args v h
  · exact handleTaskList_projectIDs db args v h
  · exact handleMetadataSet_projectIDs db args v h
  · exact handleMetadataGet_projectIDs db args v h
  · exact handleMetadataList_projectIDs db args v h
  · exact handleMetadataDelete_projectIDs db args v h
  · exact handleFiletreeAnnotate_projectIDs db args v h
  · exact handleFiletreeGet_projectIDs db args v h
  · exact handleFiletreeDelete_projectIDs db args v h
  · exact handleGuidelineCreate_projectIDs db args v h
  · exact handleGuidelineList_projectIDs db args v h
  · exact handleGuidelineSearch_projectIDs db args v h
  · exact handleBookmarkCreate_projectIDs db args v h
  · exact handleBookmarkSearch_projectIDs db args v h
  · exact handleBookmarkList_projectIDs db args v h

/-- C12: the project a project-scoped tool call works under. With a non-empty
string under `project` in the arguments it is the project of that slug: the
one already in the store, which is left as it is, or else a project created
with that slug and the next id. Without one (the key absent, its value empty
or not a string) the store is left as it is and the project is the current
default project. The project-scoped tools are the seventeen tools whose
schema has the property `project`. Each of their handlers, once its required
arguments are there, is the store method it calls, run under that project on
the store so left; every record such a call returns belongs to that project,
and `metadata_delete` and `filetree_delete` leave the records of every other project in
place. So, for one, `memory_store` succeeds and returns a memory of that
project. The ids of the projects in the store are positive and the default
project exists, as in every store made by `Open` and the tools. -/
theorem getProjectID_order (db : DB) (args : Args) (hpos : ∀ p ∈ db.projects, 0 < p.ID)
    (hdef : db.hasProject db.defaultProjectID = true) :
    (getString args "project" ≠ "" →
      ((∃ p ∈ db.projects, p.Slug = getString args "project") →
        (getProjectID db args).1 = db ∧
        ∃ p ∈ db.projects, p.Slug = getString args "project" ∧ actingProject db args = p.ID) ∧
      ((∀ p ∈ db.projects, p.Slug ≠ getString args "project") →
        (getProjectID db args).1 =
          { db with projects := db.projects ++
              [{ ID := nextID (db.projects.map (fun p => p.ID)),
                 Slug := getString args "project", Name := "", RootPath := "",
                 CreatedAt := db.now }] } ∧
        actingProject db args = nextID (db.projects.map (fun p => p.ID)))) ∧
    (getString args "project" = "" →
      (getProjectID db args).1 = db ∧ actingProject db args = db.defaultProjectID) ∧
    (getString args "project" = "" ↔
      (args.get "project" = none ∨ args.get "project" = some (.str "") ∨
        ∀ v, args.get "project" ≠ some (.str v))) ∧
    (getString args "content" ≠ "" →
      ∃ db2 mem, HandleToolCall db "memory_store" args = (db2, .ok (.memory mem)) ∧
        mem.ProjectID = actingProject db args) ∧
    (∀ d ∈ GetToolDefinitions,
      d.Name ∈ projectScopedTools ↔ d.InputSchema.properties.any (fun p => p.name == "project")) ∧
    (∀ name ∈ projectScopedTools, ∀ v, (HandleToolCall db name args).2 = .ok v →
      ∀ p ∈ v.projectIDs, p = actingProject db args) ∧
    (getString args "content" ≠ "" →
      HandleToolCall db "memory_store" args =
        passOn .memory ((actingStore db args).CreateMemory (some (actingProject db args))
          (getString args "content") (getStringArray args "keywords"))) ∧
    HandleToolCall db "memory_search" args =
      passOn .memories (actingStore db args,
        (actingStore db args).SearchMemories (some (actingProject db args))
          (getString args "query") (getStringArray args "keywords")
          (if getInt args "limit" = 0 then 20 else getInt args "limit")) ∧
    (getString args "title" ≠ "" →
      HandleToolCall db "task_create" args =
        passOn .task ((actingStore db args).CreateTask (some (actingProject db args))
          (getInt64Ptr args "parent_id") (getString args "title")
          (getString args "description") (getInt args "priority"))) ∧
    HandleToolCall db "task_list" args =
      passOn .tasks (actingStore db args,
        (actingStore db args).ListTasks (some (actingProject db args))
          (getStringPtr args "status") (getInt64Ptr args "parent_id")) ∧
    (getString args "key" ≠ "" →
      HandleToolCall db "metadata_set" args =
        passOn .metadata ((actingStore db args).SetMetadata (some (actingProject db args))
          (getString args "key") (getString args "value"))) ∧
    (getString args "key" ≠ "" →
      HandleToolCall db "metadata_get" args =
        (match (actingStore db args).GetMetadata (some (actingProject db args))
            (getString args "key") with
          | .error err => (actingStore db args, .error err)
          | .ok none => (actingStore db args, .ok (.keyWithoutValue (getString args "key")))
          | .ok (some m) => (actingStore db args, .ok (.metadata (some m))))) ∧
    HandleToolCall db "metadata_list" args =
      passOn .metadataList (actingStore db args,
        (actingStore db args).ListMetadata (some (actingProject db args))) ∧
    (getString args "key" ≠ "" →
      HandleToolCall db "metadata_delete" args =
        afterDelete ((actingStore db args).DeleteMetadata (some (actingProject db args))
          (getString args "key")) (.deletedKey (getString args "key"))) ∧
    (getString args "path" ≠ "" → getString args "note" ≠ "" →
      HandleToolCall db "filetree_annotate" args =
        passOn .fileNote ((actingStore db args).AnnotateFile (some (actingProject db args))
          (getString args "path") (getString args "note") (getBool args "is_dir"))) ∧
    HandleToolCall db "filetree_get" args =
      (if getString args "path" ≠ "" then
        passOn .fileNote (actingStore db args,
          DB.GetFileAnnotation (actingStore db args) (some (actingProject db args))
            (getString args "path"))
      else
        passOn .fileAnnotations (actingStore db args,
          (actingStore db args).ListFileAnnotations (some (actingProject db args)))) ∧
    (getString args "path" ≠ "" →
      HandleToolCall db "filetree_delete" args =
        afterDelete ( DB.DeleteFileAnnotation (actingStore db args)
            (some (actingProject db args)) (getString args "path"))
          (.deletedPath (getString args "path"))) ∧
    (getString args "category" ≠ "" → getString args "title" ≠ "" →
      getString args "content" ≠ "" →
      HandleToolCall db "guideline_create" args =
        passOn .guideline ((actingStore db args).CreateGuideline (some (actingProject db args))
          (getString args "category") (getString args "title") (getString args "content")
          (getStringArray args "tags") (getInt args "priority"))) ∧
    HandleToolCall db "guideline_list" args =
      passOn .guidelines (actingStore db args,
        (actingStore db args).ListGuidelines (some (actingProject db args))
          (getStringPtr args "category")) ∧
    (getString args "query" ≠ "" →
      HandleToolCall db "guideline_search" args =
        passOn .guidelines (actingStore db args,
          (actingStore db args).SearchGuidelines (some (actingProject db args))
            (getString args "query") (getStringPtr args "category"))) ∧
    (getString args "url" ≠ "" → getString args "title" ≠ "" →
      HandleToolCall db "bookmark_create" args =
        passOn .bookmark ((actingStore db args).CreateBookmark (some (actingProject db args))
          (getString args "url") (getString args "title") (getString args "excerpt")
          (getString args "note") (getString args "doc_type")
          (getString args "page_or_section") (getStringArray args "tags"))) ∧
    HandleToolCall db "bookmark_search" args =
      passOn .bookmarks (actingStore db args,
        (actingStore db args).SearchBookmarks (some (actingProject db args))
          (getString args "query") (getStringArray args "tags")
          (getStringPtr args "doc_type")) ∧
    HandleToolCall db "bookmark_list" args =
      passOn .bookmarks (actingStore db args,
        (actingStore db args).ListBookmarks (some (actingProject db args))) ∧
    (∀ x ∈ (actingStore db args).metadata, x.ProjectID ≠ actingProject db args →
      x ∈ (HandleToolCall db "metadata_delete" args).1.metadata) ∧
    (∀ x ∈ (actingStore db args).filetree, x.ProjectID ≠ actingProject db args →
      x ∈ (HandleToolCall db "filetree_delete" args).1.filetree) := by
  have h := getProjectID_cases db args hpos
  refine ⟨h.1, h.2, ?_, ?_, by decide,
    fun name hn v hv => HandleToolCall_scoped_projectIDs db args name hn v hv, ?_⟩
  · unfold getString
    cases hget : args.get "project" with
    | none => simp
    | some v => cases v <;> simp
  · intro hc
    obtain ⟨db2, mem, h1, h2, _⟩ := CreateMemory_project (getProjectID db args).1
      (getProjectID db args).2 (getString args "content") (getStringArray args "keywords")
      (getProjectID_hasProject db args hpos hdef)
    refine ⟨db2, mem, ?_, h2⟩
    simp [HandleToolCall, handleMemoryStore, hc, h1, passOn, Except.map]
  rcases hg : getProjectID db args with ⟨db1, pid⟩
  have hs : actingStore db args = db1 := by simp only [actingStore, hg]
  have ha : actingProject db args = db1.GetProjectID pid := by simp only [actingProject, hg]
  rw [hs, ha]
  refine ⟨?_, ?_, ?_, ?_, ?_, ?_, ?_, ?_, ?_, ?_, ?_, ?_, ?_, ?_, ?_, ?_, ?_, ?_, ?_⟩
  · intro hc
    show handleMemoryStore db args = _
    simp only [handleMemoryStore, hc, if_false, hg]
    rw [← CreateMemory_under]
  · show handleMemorySearch db args = _
    simp only [handleMemorySearch, hg]
    rw [← SearchMemories_under]
  · intro hc
    show handleTaskCreate db args = _
    simp only [handleTaskCreate, hc, if_false, hg]
    rw [← CreateTask_under]
  · show handleTaskList db args = _
    simp only [handleTaskList, hg]
    rw [← ListTasks_under]
  · intro hc
    show handleMetadataSet db args = _
    simp only [handleMetadataSet, hc, if_false, hg]
    rw [← SetMetadata_under]
  · intro hc
    show handleMetadataGet db args = _
    simp only [handleMetadataGet, hc, if_false, hg]
    rw [← GetMetadata_under]
  · show handleMetadataList db args = _
    simp only [handleMetadataList, hg]
    rw [← ListMetadata_under]
  · intro hc
    show handleMetadataDelete db args = _
    simp only [handleMetadataDelete, hc, if_false, hg]
    rw [← DeleteMetadata_under]
  · intro hc hn
    show handleFiletreeAnnotate db args = _
    simp only [handleFiletreeAnnotate, hc, hn, if_false, hg]
    rw [← AnnotateFile_under]
  · show handleFiletreeGet db args = _
    simp only [handleFiletreeGet, hg]
    rw [← GetFileAnnotation_under, ← ListFileAnnotations_under]
  · intro hc
    show handleFiletreeDelete db args = _
    simp only [handleFiletreeDelete, hc, if_false, hg]
    rw [← DeleteFileAnnotation_under]
  · intro h1 h2 h3
    show handleGuidelineCreate db args = _
    simp only [handleGuidelineCreate, h1, h2, h3, if_false, hg]
    rw [← CreateGuideline_under]
  · show handleGuidelineList db args = _
    simp only [handleGuidelineList, hg]
    rw [← ListGuidelines_under]
  · intro hc
    show handleGuidelineSearch db args = _
    simp only [handleGuidelineSearch, hc, if_false, hg]
    rw [← SearchGuidelines_under]
  · intro h1 h2
    show handleBookmarkCreate db args = _
    simp only [handleBookmarkCreate, h1, h2, if_false, hg]
    rw [← CreateBookmark_under]
  · show handleBookmarkSearch db args = _
    simp only [handleBookmarkSearch, hg]
    rw [← SearchBookmarks_under]
  · show handleBookmarkList db args = _
    simp only [handleBookmarkList, hg]
    rw [← ListBookmarks_under]
  · intro x hx hne
    show x ∈ (handleMetadataDelete db args).1.metadata
    simp only [handleMetadataDelete, hg]
    split_ifs
    · obtain ⟨ps, hps⟩ := getProjectID_frame db args
      rw [hg] at hps
      simp only at hps
      rw [hps] at hx
      exact hx
    · simp only [afterDelete, DB.DeleteMetadata, List.mem_filter, hx, true_and]
      simp [hne]
  · intro x hx hne
    show x ∈ (handleFiletreeDelete db args).1.filetree
    simp only [handleFiletreeDelete, hg]
    split_ifs
    · obtain ⟨ps, hps⟩ := getProjectID_frame db args
      rw [hg] at hps
      simp only at hps
      rw [hps] at hx
      exact hx
    · simp only [afterDelete, DB.DeleteFileAnnotation, List.mem_filter, hx, true_and]
      simp [hne]

/-- C12, at an input: on the fresh store `task_create` with the slug `docs`
makes project 2 and creates the task under it. -/
theorem getProjectID_order_witness :
    (getProjectID (Open 0) [("title", .str "t"), ("project", .str "docs")]).1 =
        { Open 0 with projects := (Open 0).projects ++
            [{ ID := nextID ((Open 0).projects.map (fun p => p.ID)),
               Slug := getString [("title", .str "t"), ("project", .str "docs")] "project",
               Name := "", RootPath := "", CreatedAt := (Open 0).now }] } ∧
      actingProject (Open 0) [("title", .str "t"), ("project", .str "docs")] =
        nextID ((Open 0).projects.map (fun p => p.ID)) ∧
      (HandleToolCall (Open 0) "task_create" [("title", .str "t"), ("project", .str "docs")]).2 =
        .ok (.task { ID := 1, ProjectID := 2, ParentID := none, Title := "t", Description := "",
                     Status := "todo", Priority := 0, CreatedAt := 0, UpdatedAt := 0 }) ∧
      ∀ p ∈ (Value.task { ID := 1, ProjectID := 2, ParentID := none, Title := "t",
                          Description := "", Status := "todo", Priority := 0, CreatedAt := 0,
                          UpdatedAt := 0 }).projectIDs,
        p = actingProject (Open 0) [("title", .str "t"), ("project", .str "docs")] :=
  ⟨(((getProjectID_order (Open 0) [("title", .str "t"), ("project", .str "docs")]
        (by decide) (by decide)).1 (by decide)).2 (by decide)).1,
   (((getProjectID_order (Open 0) [("title", .str "t"), ("project", .str "docs")]
        (by decide) (by decide)).1 (by decide)).2 (by decide)).2,
   rfl,
   (getProjectID_order (Open 0) [("title", .str "t"), ("project", .str "docs")]
        (by decide) (by decide)).2.2.2.2.2.1 "task_create" (by decide) _ rfl⟩


/-! ## How `Run` stops -/

/-- What `Run` returns, and the reader it leaves, depend on the reader alone:
not on the store, on what has been written, or on what the decoder, the router
and the handlers do with the frames. -/
theorem Run_reader_only (rt rt2 : Runtime) : ∀ (n : Nat) (s s2 : Server),
    s.reader.pending.length < n → s2.reader = s.reader →
    (s2.Run rt2).2 = (s.Run rt).2 ∧ (s2.Run rt2).1.reader = (s.Run rt).1.reader := by
  intro n
  induction n with
  | zero => intro s s2 h; omega
  | succ n ih =>
    intro s s2 hlen hr
    rcases hread : readLineLimited s.reader maxMessageBytes with ⟨res, r1⟩
    cases res with
    | error err =>
      rw [Run_eq rt s, Run_eq rt2 s2, hr, hread]
      simp only
      split_ifs <;> exact ⟨rfl, rfl⟩
    | ok frame =>
      have hread2 : readLineLimited s2.reader maxMessageBytes = (.ok frame, r1) := by
        rw [hr]; exact hread
      rw [Run_handleFrame rt s frame r1 hread, Run_handleFrame rt2 s2 frame r1 hread2]
      have hp := readLineLimited_progress s.reader maxMessageBytes frame r1 hread
      apply ih
      · rw [handleFrame_reader]
        simp only
        omega
      · rw [handleFrame_reader, handleFrame_reader]

/-- At the end of a stream that fails, a last line without terminator, within
the bound, is not returned: the read returns the failure of the stream. -/
theorem readLineLimitedLoop_failure (max : Nat) (t : String) (fuel : Nat) : ∀ (r : Reader)
    (line out : List Nat),
    0 < r.size → r.pending = line → 10 ∉ line → r.failure = some t →
    line.length < fuel → out.length + line.length ≤ max →
    readLineLimitedLoop fuel r max out = (.error (.msg t), { r with pending := [] }) := by
  induction fuel with
  | zero => intro r line out _ _ _ _ hf; omega
  | succ fuel ih =>
    intro r line out hs hp h hf hfuel hmax
    by_cases hlt : line.length < r.size
    · simp [readLineLimitedLoop, ReadSlice_last r line hp h hlt, Reader.endErr, hf]
    · have hge : r.size ≤ line.length := Nat.le_of_not_lt hlt
      have hout : ¬ max < (out ++ line.take r.size).length := by simp; omega
      simp only [readLineLimitedLoop, ReadSlice_full_last r line hp h hge, gt_iff_lt, hout,
        if_false]
      have := ih { r with pending := line.drop r.size } (line.drop r.size)
        (out ++ line.take r.size) hs rfl (fun e => h (List.mem_of_mem_drop e)) hf
        (by simp; omega) (by simp; omega)
      simpa using this

/-- The end of the input: what is left holds no line feed and is within the bound. -/
theorem Run_last (rt : Runtime) (s : Server) (hsize : 0 < s.reader.size)
    (hline : 10 ∉ s.reader.pending) (hfit : s.reader.pending.length ≤ maxMessageBytes) :
    (s.Run rt).1.reader.pending = [] ∧
    (s.reader.failure = none → (s.Run rt).2 = none) ∧
    (∀ t, s.reader.failure = some t → (s.Run rt).2 = some (.msg ("reading input: " ++ t))) := by
  have hempty : ∀ s0 : Server, 0 < s0.reader.size → s0.reader.pending = [] →
      s0.reader.failure = none →
      (s0.Run rt).1.reader.pending = [] ∧ (s0.Run rt).2 = none := by
    intro s0 h0 hp hf
    rw [Run_eq, readLineLimited_empty s0.reader _ h0 hp hf]
    simp
  cases hf : s.reader.failure with
  | some t =>
    have hrd : readLineLimited s.reader maxMessageBytes =
        (.error (.msg t), { s.reader with pending := [] }) := by
      have := readLineLimitedLoop_failure maxMessageBytes t (s.reader.pending.length + 1)
        s.reader s.reader.pending [] hsize rfl hline hf (by omega) (by simpa using hfit)
      simpa [readLineLimited] using this
    have hrun : s.Run rt = ({ s with reader := { s.reader with pending := [] } },
        some (.msg ("reading input: " ++ t))) := by
      rw [Run_eq, hrd]
      simp [GoErr.Error]
    rw [hrun]
    refine ⟨rfl, ?_, ?_⟩
    · intro h; simp at h
    · intro t2 h2
      simp only [Option.some.injEq] at h2
      rw [h2]
  | none =>
    have hgoal : (s.Run rt).1.reader.pending = [] ∧ (s.Run rt).2 = none := by
      by_cases hp : s.reader.pending = []
      · exact hempty s hsize hp hf
      · by_cases hdvd : s.reader.size ∣ s.reader.pending.length
        · obtain ⟨k, hk⟩ := hdvd
          have hrd : readLineLimited s.reader maxMessageBytes =
              (.error .EOF, { s.reader with pending := [] }) := by
            have := readLineLimitedLoop_drops maxMessageBytes k (s.reader.pending.length + 1)
              s.reader s.reader.pending [] hsize rfl hline hf (by rw [hk, Nat.mul_comm])
              (by omega) (by simpa using hfit)
            simpa [readLineLimited] using this
          rw [Run_eq, hrd]
          simp
        · have hrd := readLineLimited_final s.reader maxMessageBytes hsize hline hf hdvd hfit
          rw [Run_handleFrame rt s _ _ hrd]
          apply hempty
          · rw [handleFrame_reader]; exact hsize
          · rw [handleFrame_reader]
          · rw [handleFrame_reader]; exact hf
    refine ⟨hgoal.1, fun _ => hgoal.2, ?_⟩
    intro t h
    simp at h

/-- An input whose lines are all within the bound. -/
theorem Run_lines (rt : Runtime) (frames : List (List Nat)) : ∀ (s : Server) (last : List Nat),
    0 < s.reader.size →
    s.reader.pending = (frames.map (fun l => l ++ [10])).flatten ++ last →
    (∀ l ∈ frames, 10 ∉ l ∧ l.length + 1 ≤ maxMessageBytes) →
    10 ∉ last → last.length ≤ maxMessageBytes →
    (s.Run rt).1.reader.pending = [] ∧
    (s.reader.failure = none → (s.Run rt).2 = none) ∧
    (∀ t, s.reader.failure = some t → (s.Run rt).2 = some (.msg ("reading input: " ++ t))) := by
  induction frames with
  | nil =>
    intro s last hs hp _ h10 hfit
    simp only [List.map_nil, List.flatten_nil, List.nil_append] at hp
    exact Run_last rt s hs (by rw [hp]; exact h10) (by rw [hp]; exact hfit)
  | cons l ls ih =>
    intro s last hs hp hl h10 hfit
    have hp2 : s.reader.pending = l ++ 10 :: ((ls.map (fun l => l ++ [10])).flatten ++ last) := by
      rw [hp]; simp
    have h1 := hl l (List.mem_cons_self _ _)
    have hrd := readLineLimited_line s.reader maxMessageBytes l _ hs hp2 h1.1 h1.2
    rw [Run_handleFrame rt s _ _ hrd]
    have hnext := ih
      (Server.handleFrame rt
        { s with reader := { s.reader with
            pending := (ls.map (fun l => l ++ [10])).flatten ++ last } } (l ++ [10]))
      last (by rw [handleFrame_reader]; exact hs) (by rw [handleFrame_reader])
      (fun x hx => hl x (List.mem_cons_of_mem _ hx)) h10 hfit
    rw [handleFrame_reader] at hnext
    exact hnext

/-- An input with a line over the bound, after lines within it. -/
theorem Run_lines_oversized (rt : Runtime) (frames : List (List Nat)) : ∀ (s : Server)
    (line rest : List Nat),
    0 < s.reader.size →
    s.reader.pending = (frames.map (fun l => l ++ [10])).flatten ++ (line ++ 10 :: rest) →
    (∀ l ∈ frames, 10 ∉ l ∧ l.length + 1 ≤ maxMessageBytes) →
    10 ∉ line → maxMessageBytes < line.length + 1 →
    ∃ m, (s.Run rt).2 = some (.msg ("reading input: message too large: " ++ m)) ∧
      (s.Run rt).1.reader.pending = rest := by
  induction frames with
  | nil =>
    intro s line rest hs hp _ h10 hlong
    simp only [List.map_nil, List.flatten_nil, List.nil_append] at hp
    obtain ⟨m, hm⟩ := readLineLimited_oversized s.reader maxMessageBytes line rest hs hp
      h10 hlong
    refine ⟨m, ?_⟩
    have e : "reading input: message too large: " =
        "reading input: " ++ "message too large: " := by decide
    rw [Run_eq, hm, e, String.append_assoc]
    simp [GoErr.Error]
  | cons l ls ih =>
    intro s line rest hs hp hl h10 hlong
    have hp2 : s.reader.pending =
        l ++ 10 :: ((ls.map (fun l => l ++ [10])).flatten ++ (line ++ 10 :: rest)) := by
      rw [hp]; simp
    have h1 := hl l (List.mem_cons_self _ _)
    have hrd := readLineLimited_line s.reader maxMessageBytes l _ hs hp2 h1.1 h1.2
    rw [Run_handleFrame rt s _ _ hrd]
    exact ih _ line rest (by rw [handleFrame_reader]; exact hs) (by rw [handleFrame_reader])
      (fun x hx => hl x (List.mem_cons_of_mem _ hx)) h10 hlong

theorem Run_oversized_last (rt : Runtime) (frames : List (List Nat)) : ∀ (s : Server)
    (last : List Nat),
    0 < s.reader.size →
    s.reader.pending = (frames.map (fun l => l ++ [10])).flatten ++ last →
    (∀ l ∈ frames, 10 ∉ l ∧ l.length + 1 ≤ maxMessageBytes) →
    10 ∉ last → maxMessageBytes < last.length →
    (s.Run rt).2 ≠ none ∧
    (s.reader.failure = none →
      ∃ m, (s.Run rt).2 = some (.msg ("reading input: message too large: " ++ m))) := by
  induction frames with
  | nil =>
    intro s last hs hp _ h10 hlong
    simp only [List.map_nil, List.flatten_nil, List.nil_append] at hp
    have hnone : s.reader.failure = none →
        ∃ m, (s.Run rt).2 = some (.msg ("reading input: message too large: " ++ m)) := by
      intro hf
      obtain ⟨m, hm⟩ := readLineLimitedLoop_oversized_last maxMessageBytes
        (s.reader.pending.length + 1) s.reader last [] hs hp h10 hf (by rw [hp]; omega)
        (by simp) (by simpa using hlong)
      have hrd : readLineLimited s.reader maxMessageBytes =
          (.error (.msg ("message too large: " ++ m)), { s.reader with pending := [] }) := by
        simpa [readLineLimited] using hm
      refine ⟨m, ?_⟩
      have e : "reading input: message too large: " =
          "reading input: " ++ "message too large: " := by decide
      rw [Run_eq, hrd, e, String.append_assoc]
      simp [GoErr.Error]
    refine ⟨?_, hnone⟩
    cases hf : s.reader.failure with
    | none =>
      obtain ⟨m, hm⟩ := hnone hf
      rw [hm]; simp
    | some t =>
      rcases runLoop_stops rt _ s hs (Nat.lt_succ_self _) with ⟨_, _, h3⟩ | ⟨e, he, _⟩
      · rw [hf] at h3; simp at h3
      · intro h
        have h2 : (s.Run rt).2 = some (.msg ("reading input: " ++ e.Error)) := he
        rw [h] at h2
        simp at h2
  | cons l ls ih =>
    intro s last hs hp hl h10 hlong
    have hp2 : s.reader.pending =
        l ++ 10 :: ((ls.map (fun l => l ++ [10])).flatten ++ last) := by
      rw [hp]; simp
    have h1 := hl l (List.mem_cons_self _ _)
    have hrd := readLineLimited_line s.reader maxMessageBytes l _ hs hp2 h1.1 h1.2
    rw [Run_handleFrame rt s _ _ hrd]
    refine ⟨(ih _ last (by rw [handleFrame_reader]; exact hs) (by rw [handleFrame_reader])
      (fun x hx => hl x (List.mem_cons_of_mem _ hx)) h10 hlong).1, fun hf => ?_⟩
    exact (ih _ last (by rw [handleFrame_reader]; exact hs) (by rw [handleFrame_reader])
      (fun x hx => hl x (List.mem_cons_of_mem _ hx)) h10 hlong).2
      (by rw [handleFrame_reader]; exact hf)

/-- When `Run` returns nil: exactly when the stream ended without failure and
every line of the input, the last one with or without terminator, is within
the bound. -/
theorem Run_nil_iff (rt : Runtime) (s : Server) (hsize : 0 < s.reader.size)
    (frames : List (List Nat)) (last : List Nat)
    (hp : s.reader.pending = (frames.map (fun l => l ++ [10])).flatten ++ last)
    (hl : ∀ l ∈ frames, 10 ∉ l) (h10 : 10 ∉ last) :
    (s.Run rt).2 = none ↔
      s.reader.failure = none ∧ (∀ l ∈ frames, l.length + 1 ≤ maxMessageBytes) ∧
        last.length ≤ maxMessageBytes := by
  constructor
  · intro hnil
    have hfail : s.reader.failure = none := by
      rcases runLoop_stops rt _ s hsize (Nat.lt_succ_self _) with ⟨_, _, h3⟩ | ⟨e, he, _⟩
      · exact h3
      · have h2 : (s.Run rt).2 = some (.msg ("reading input: " ++ e.Error)) := he
        rw [hnil] at h2
        simp at h2
    have hframes : ∀ l ∈ frames, l.length + 1 ≤ maxMessageBytes := by
      by_contra hex
      push_neg at hex
      -- the first line over the bound
      have hfirst : ∃ pre line post, frames = pre ++ line :: post ∧
          (∀ x ∈ pre, x.length + 1 ≤ maxMessageBytes) ∧ maxMessageBytes < line.length + 1 := by
        clear hp hnil
        induction frames with
        | nil => obtain ⟨l, hin, _⟩ := hex; simp at hin
        | cons x xs ih =>
          by_cases hx : x.length + 1 ≤ maxMessageBytes
          · obtain ⟨l, hin, hbig⟩ := hex
            rcases List.mem_cons.1 hin with rfl | hin2
            · omega
            · obtain ⟨pre, line, post, he, hpre, hline⟩ :=
                ih (fun y hy => hl y (List.mem_cons_of_mem _ hy)) ⟨l, hin2, hbig⟩
              refine ⟨x :: pre, line, post, by rw [he]; rfl, ?_, hline⟩
              intro y hy
              rcases List.mem_cons.1 hy with rfl | hy2
              · exact hx
              · exact hpre y hy2
          · exact ⟨[], x, xs, rfl, by simp, by omega⟩
      obtain ⟨pre, line, post, he, hpre, hline⟩ := hfirst
      have hp3 : s.reader.pending = (pre.map (fun l => l ++ [10])).flatten ++
          (line ++ 10 :: ((post.map (fun l => l ++ [10])).flatten ++ last)) := by
        rw [hp, he]; simp
      obtain ⟨m, hm, _⟩ := Run_lines_oversized rt pre s line _ hsize hp3
        (fun x hx => ⟨hl x (by rw [he]; exact List.mem_append_left _ hx), hpre x hx⟩)
        (hl line (by rw [he]; simp)) hline
      rw [hnil] at hm
      simp at hm
    refine ⟨hfail, hframes, ?_⟩
    by_contra hlast
    exact (Run_oversized_last rt frames s last hsize hp
      (fun x hx => ⟨hl x hx, hframes x hx⟩) h10 (by omega)).1 hnil
  · rintro ⟨hf, hframes, hlast⟩
    exact (Run_lines rt frames s last hsize hp (fun x hx => ⟨hl x hx, hframes x hx⟩) h10
      hlast).2.1 hf

/-- Every input is lines ended by a line feed and then a last line without one,
which may be empty. -/
theorem lines_exist (xs : List Nat) :
    ∃ (frames : List (List Nat)) (last : List Nat),
      xs = (frames.map (fun l => l ++ [10])).flatten ++ last ∧
      (∀ l ∈ frames, 10 ∉ l) ∧ 10 ∉ last := by
  induction xs with
  | nil => exact ⟨[], [], rfl, by simp, by simp⟩
  | cons x xs ih =>
    obtain ⟨frames, last, he, hl, h10⟩ := ih
    by_cases hx : x = 10
    · refine ⟨[] :: frames, last, by rw [he, hx]; simp, ?_, h10⟩
      intro l hin
      rcases List.mem_cons.1 hin with rfl | h2
      · simp
      · exact hl l h2
    · cases frames with
      | nil =>
        refine ⟨[], x :: last, by rw [he]; simp, by simp, ?_⟩
        intro hin
        rcases List.mem_cons.1 hin with h1 | h2
        · exact hx h1.symm
        · exact h10 h2
      | cons f fs =>
        refine ⟨(x :: f) :: fs, last, by rw [he]; simp, ?_, h10⟩
        intro l hin
        rcases List.mem_cons.1 hin with rfl | h2
        · intro h3
          rcases List.mem_cons.1 h3 with h4 | h5
          · exact hx h4.symm
          · exact hl f (List.mem_cons_self _ _) h5
        · exact hl l (List.mem_cons_of_mem _ h2)

/-- C16: `Run` stops in two ways only. It returns nil at the end of a stream
that ended without failure, with no bytes left in the reader; or it returns the
error `reading input: ` followed by the error of the read that failed, which is
either the failure the stream ended with or the message-too-large error of
`readLineLimited`. Which of the two, and where the reader then stands, depends on
the input alone: the same input gives the same return value whatever the
decoder, the router and the handlers do, so no parse, validation, dispatch or
tool failure, and no panic, ends the loop. On an input whose lines are all
within the bound, the last one with or without terminator, `Run` reads to the
end and returns nil when the stream ended without failure, and the wrapped
failure of the stream otherwise. On an input with a line over the bound it
returns the wrapped message-too-large error at that line. Every input is such
lines; and `Run` returns nil exactly when the stream ended without failure and
every line of the input is within the bound. -/
theorem Run_stops (rt : Runtime) (s : Server) (hsize : 0 < s.reader.size) :
    (((s.Run rt).2 = none ∧ (s.Run rt).1.reader.pending = [] ∧ s.reader.failure = none) ∨
      (∃ e : GoErr, (s.Run rt).2 = some (.msg ("reading input: " ++ e.Error)) ∧
        ((∃ m, e = .msg ("message too large: " ++ m)) ∨
         ∃ t, s.reader.failure = some t ∧ e = .msg t))) ∧
    (∀ (rt2 : Runtime) (s2 : Server), s2.reader = s.reader →
      (s2.Run rt2).2 = (s.Run rt).2 ∧ (s2.Run rt2).1.reader = (s.Run rt).1.reader) ∧
    (∀ (frames : List (List Nat)) (last : List Nat),
      s.reader.pending = (frames.map (fun l => l ++ [10])).flatten ++ last →
      (∀ l ∈ frames, 10 ∉ l ∧ l.length + 1 ≤ maxMessageBytes) →
      10 ∉ last → last.length ≤ maxMessageBytes →
      (s.Run rt).1.reader.pending = [] ∧
      (s.reader.failure = none → (s.Run rt).2 = none) ∧
      (∀ t, s.reader.failure = some t →
        (s.Run rt).2 = some (.msg ("reading input: " ++ t)))) ∧
    (∀ (frames : List (List Nat)) (line rest : List Nat),
      s.reader.pending = (frames.map (fun l => l ++ [10])).flatten ++ (line ++ 10 :: rest) →
      (∀ l ∈ frames, 10 ∉ l ∧ l.length + 1 ≤ maxMessageBytes) →
      10 ∉ line → maxMessageBytes < line.length + 1 →
      ∃ m, (s.Run rt).2 = some (.msg ("reading input: message too large: " ++ m)) ∧
        (s.Run rt).1.reader.pending = rest) ∧
    (∃ (frames : List (List Nat)) (last : List Nat),
      s.reader.pending = (frames.map (fun l => l ++ [10])).flatten ++ last ∧
      (∀ l ∈ frames, 10 ∉ l) ∧ 10 ∉ last) ∧
    (∀ (frames : List (List Nat)) (last : List Nat),
      s.reader.pending = (frames.map (fun l => l ++ [10])).flatten ++ last →
      (∀ l ∈ frames, 10 ∉ l) → 10 ∉ last →
      ((s.Run rt).2 = none ↔
        s.reader.failure = none ∧ (∀ l ∈ frames, l.length + 1 ≤ maxMessageBytes) ∧
          last.length ≤ maxMessageBytes)) :=
  ⟨runLoop_stops rt _ s hsize (Nat.lt_succ_self _),
   fun rt2 s2 h => Run_reader_only rt rt2 (s.reader.pending.length + 1) s s2
     (Nat.lt_succ_self _) h,
   fun frames last hp hl h10 hfit => Run_lines rt frames s last hsize hp hl h10 hfit,
   fun frames line rest hp hl h10 hlong =>
     Run_lines_oversized rt frames s line rest hsize hp hl h10 hlong,
   lines_exist s.reader.pending,
   fun frames last hp hl h10 => Run_nil_iff rt s hsize frames last hp hl h10⟩

/-- C16, at an input: a frame the decoder rejects and then a tool call. When
the stream ends without failure `Run` returns nil, also under the runtime
whose router panics; when it ends with the failure `broken pipe`, `Run`
returns that failure, wrapped. -/
theorem Run_stops_witness :
    ((Server.mk (Open 0) (NewReaderSize [120, 10, 99, 10] none 16) []).Run exampleRuntime).2 =
        none ∧
      ((Server.mk (Open 0) (NewReaderSize [120, 10, 99, 10] none 16) []).Run
        panickingRuntime).2 = none ∧
      ((Server.mk (Open 0) (NewReaderSize [120, 10, 99, 10] (some "broken pipe") 16) []).Run
        exampleRuntime).2 = some (.msg "reading input: broken pipe") :=
  ⟨((Run_stops exampleRuntime
        (Server.mk (Open 0) (NewReaderSize [120, 10, 99, 10] none 16) []) (by decide)).2.2.1
        [[120], [99]] [] (by decide) (by decide) (by decide) (by decide)).2.1 rfl,
   ((Run_stops panickingRuntime
        (Server.mk (Open 0) (NewReaderSize [120, 10, 99, 10] none 16) []) (by decide)).2.2.1
        [[120], [99]] [] (by decide) (by decide) (by decide) (by decide)).2.1 rfl,
   ((Run_stops exampleRuntime
        (Server.mk (Open 0) (NewReaderSize [120, 10, 99, 10] (some "broken pipe") 16) [])
        (by decide)).2.2.1
        [[120], [99]] [] (by decide) (by decide) (by decide) (by decide)).2.2
        "broken pipe" rfl⟩


/-! ## A caller of `send` that holds the mutex writes its line -/

theorem sendStep_pc_other (marshal : Response → Except String (List Nat))
    (resp : Nat → Response) (i j : Nat) (st : SendState) (h : j ≠ i) :
    (sendStep marshal resp i st).pc j = st.pc j := by
  unfold sendStep
  split
  · split_ifs
    · rfl
    · exact moved_other st i j _ h
  · split
    · exact moved_other st i j _ h
    · exact moved_other st i j _ h
  · exact moved_other st i j _ h
  · exact moved_other st i j _ h
  · exact moved_other st i j _ h
  · rfl

theorem sendStep_grows (marshal : Response → Except String (List Nat))
    (resp : Nat → Response) (i : Nat) (st : SendState) :
    st.writes <+: (sendStep marshal resp i st).writes ∧
      st.out <+: (sendStep marshal resp i st).out := by
  unfold sendStep
  split
  · split_ifs
    · exact ⟨List.prefix_refl _, List.prefix_refl _⟩
    · exact ⟨List.prefix_refl _, List.prefix_refl _⟩
  · split
    · exact ⟨List.prefix_refl _, List.prefix_refl _⟩
    · exact ⟨List.prefix_append _ _, List.prefix_refl _⟩
  · exact ⟨List.prefix_refl _, List.prefix_refl _⟩
  · exact ⟨List.prefix_refl _, List.prefix_append _ _⟩
  · exact ⟨List.prefix_refl _, List.prefix_refl _⟩
  · exact ⟨List.prefix_refl _, List.prefix_refl _⟩

theorem sendStep_done (marshal : Response → Except String (List Nat))
    (resp : Nat → Response) (i j : Nat) (st : SendState) (h : st.pc i = .done) :
    (sendStep marshal resp j st).pc i = .done := by
  by_cases hij : i = j
  · subst hij
    unfold sendStep
    rw [h]
    exact h
  · rw [sendStep_pc_other marshal resp j i st hij]
    exact h

/-- A goroutine that has returned from `send` stays returned, and the calls of
`Write` and the bytes on the stream are only added to. -/
theorem sendFold_done (marshal : Response → Except String (List Nat))
    (resp : Nat → Response) (i : Nat) :
    ∀ (ext : List Nat) (st : SendState), st.pc i = .done →
      (ext.foldl (fun st j => sendStep marshal resp j st) st).pc i = .done ∧
      st.writes <+: (ext.foldl (fun st j => sendStep marshal resp j st) st).writes ∧
      st.out <+: (ext.foldl (fun st j => sendStep marshal resp j st) st).out := by
  intro ext
  induction ext with
  | nil => intro st h; exact ⟨h, List.prefix_refl _, List.prefix_refl _⟩
  | cons j ext ih =>
    intro st h
    simp only [List.foldl_cons]
    obtain ⟨g1, g2, g3⟩ := ih (sendStep marshal resp j st) (sendStep_done marshal resp i j st h)
    obtain ⟨k1, k2⟩ := sendStep_grows marshal resp j st
    exact ⟨g1, k1.trans g2, k2.trans g3⟩

/-- While a goroutine holds the mutex, a step of another goroutine changes
nothing: it waits at `Lock`, or it has returned. -/
theorem sendStep_blocked (marshal : Response → Except String (List Nat))
    (resp : Nat → Response) (st : SendState) (h : sendInv marshal resp st) (i j : Nat)
    (hi : (st.pc i).holdsLock = true) (hj : j ≠ i) :
    sendStep marshal resp j st = st := by
  obtain ⟨h1, h2, _⟩ := h
  have hmu : st.mu = true := h2.2 ⟨i, hi⟩
  have hnot : (st.pc j).holdsLock ≠ true := fun hh => hj (h1 j i hh hi)
  unfold sendStep
  cases hpc : st.pc j with
  | start => simp [hmu]
  | done => rfl
  | locked => rw [hpc] at hnot; exact absurd rfl hnot
  | writing rest => rw [hpc] at hnot; exact absurd rfl hnot
  | unlocking => rw [hpc] at hnot; exact absurd rfl hnot

/-- A goroutine that holds the mutex returns from `send` once it has taken the
steps it has left, whatever steps the other goroutines take in between; the
call of `Write` it has still to make follows the calls made so far, and the
bytes it has still to move follow the bytes on the stream. -/
theorem sendFold_holder (marshal : Response → Except String (List Nat))
    (resp : Nat → Response) (i : Nat) :
    ∀ (ext : List Nat) (st : SendState), sendInv marshal resp st →
      (st.pc i).holdsLock = true →
      sendStepsLeft marshal resp i (st.pc i) ≤ ext.count i →
      (ext.foldl (fun st j => sendStep marshal resp j st) st).pc i = .done ∧
      (st.writes ++ sendWritesLeft marshal resp i (st.pc i)) <+:
        (ext.foldl (fun st j => sendStep marshal resp j st) st).writes ∧
      (st.out ++ sendBytesLeft marshal resp i (st.pc i)) <+:
        (ext.foldl (fun st j => sendStep marshal resp j st) st).out := by
  intro ext
  induction ext with
  | nil =>
    intro st _ hi hn
    exfalso
    cases hpc : st.pc i with
    | start => rw [hpc] at hi; exact absurd hi (by decide)
    | done => rw [hpc] at hi; exact absurd hi (by decide)
    | locked =>
      rw [hpc] at hn
      simp only [sendStepsLeft, List.count_nil] at hn
      split at hn <;> omega
    | writing rest => rw [hpc] at hn; simp [sendStepsLeft] at hn
    | unlocking => rw [hpc] at hn; simp [sendStepsLeft] at hn
  | cons j ext ih =>
    intro st hinv hi hn
    simp only [List.foldl_cons]
    by_cases hj : j = i
    · subst hj
      have hinv2 := sendStep_inv marshal resp j st hinv
      rw [List.count_cons_self] at hn
      cases hpc : st.pc j with
      | start => rw [hpc] at hi; exact absurd hi (by decide)
      | done => rw [hpc] at hi; exact absurd hi (by decide)
      | locked =>
        rw [hpc] at hn
        cases hm : marshal (resp j) with
        | error e =>
          have hst : sendStep marshal resp j st = { st with pc := st.moved j .unlocking } := by
            unfold sendStep; rw [hpc]; simp only [hm]
          rw [hst] at hinv2 ⊢
          have hpc2 : ({ st with pc := st.moved j .unlocking } : SendState).pc j = .unlocking :=
            moved_same st j _
          have := ih _ hinv2 (by rw [hpc2]; rfl)
            (by rw [hpc2]; simp only [sendStepsLeft, hm] at hn ⊢; omega)
          rw [hpc2] at this
          simpa [sendWritesLeft, sendBytesLeft, sendLine, hm] using this
        | ok data =>
          have hst : sendStep marshal resp j st =
              { st with pc := st.moved j (.writing (data ++ [10])),
                        writes := st.writes ++ [data ++ [10]] } := by
            unfold sendStep; rw [hpc]; simp only [hm]
          rw [hst] at hinv2 ⊢
          have hpc2 : ({ st with pc := st.moved j (.writing (data ++ [10])),
                                 writes := st.writes ++ [data ++ [10]] } : SendState).pc j =
              .writing (data ++ [10]) := moved_same st j _
          have := ih _ hinv2 (by rw [hpc2]; rfl)
            (by rw [hpc2]; simp only [sendStepsLeft, hm, List.length_append,
                  List.length_singleton] at hn ⊢; omega)
          rw [hpc2] at this
          simpa [sendWritesLeft, sendBytesLeft, sendLine, hm] using this
      | writing rest =>
        rw [hpc] at hn
        cases rest with
        | nil =>
          have hst : sendStep marshal resp j st = { st with pc := st.moved j .unlocking } := by
            unfold sendStep; rw [hpc]
          rw [hst] at hinv2 ⊢
          have hpc2 : ({ st with pc := st.moved j .unlocking } : SendState).pc j = .unlocking :=
            moved_same st j _
          have := ih _ hinv2 (by rw [hpc2]; rfl)
            (by rw [hpc2]; simp only [sendStepsLeft, List.length_nil] at hn ⊢; omega)
          rw [hpc2] at this
          simpa [sendWritesLeft, sendBytesLeft] using this
        | cons b rest =>
          have hst : sendStep marshal resp j st =
              { st with out := st.out ++ [b], pc := st.moved j (.writing rest) } := by
            unfold sendStep; rw [hpc]
          rw [hst] at hinv2 ⊢
          have hpc2 : ({ st with out := st.out ++ [b],
                                 pc := st.moved j (.writing rest) } : SendState).pc j =
              .writing rest := moved_same st j _
          have := ih _ hinv2 (by rw [hpc2]; rfl)
            (by rw [hpc2]; simp only [sendStepsLeft, List.length_cons] at hn ⊢; omega)
          rw [hpc2] at this
          simpa [sendWritesLeft, sendBytesLeft] using this
      | unlocking =>
        have hst : sendStep marshal resp j st =
            { st with mu := false, pc := st.moved j .done } := by
          unfold sendStep; rw [hpc]
        rw [hst]
        have hpc2 : ({ st with mu := false, pc := st.moved j .done } : SendState).pc j =
            .done := moved_same st j _
        have := sendFold_done marshal resp j ext _ hpc2
        simpa [sendWritesLeft, sendBytesLeft] using this
    · rw [sendStep_blocked marshal resp st hinv i j hi hj]
      rw [List.count_cons_of_ne (fun h => hj h.symm)] at hn
      exact ih st hinv hi hn

/-- The goroutine inside `Write` made the last call of `Write`, with its line;
and the line of a goroutine that is past `Write` is one of the calls made, and
stands whole on the stream after the lines of the calls before it. -/
theorem sendStep_written (marshal : Response → Except String (List Nat))
    (resp : Nat → Response) (j : Nat) (st : SendState) (hinv : sendInv marshal resp st)
    (hB : ∀ i rest, st.pc i = .writing rest → ∀ data, marshal (resp i) = .ok data →
      ∃ before, st.writes = before ++ [data ++ [10]])
    (hD : ∀ i data, marshal (resp i) = .ok data → (st.pc i = .unlocking ∨ st.pc i = .done) →
      ∃ before after, st.writes = before ++ [data ++ [10]] ++ after ∧
        (before.flatten ++ (data ++ [10])) <+: st.out) :
    (∀ i rest, (sendStep marshal resp j st).pc i = .writing rest →
      ∀ data, marshal (resp i) = .ok data →
      ∃ before, (sendStep marshal resp j st).writes = before ++ [data ++ [10]]) ∧
    (∀ i data, marshal (resp i) = .ok data →
      ((sendStep marshal resp j st).pc i = .unlocking ∨
        (sendStep marshal resp j st).pc i = .done) →
      ∃ before after, (sendStep marshal resp j st).writes = before ++ [data ++ [10]] ++ after ∧
        (before.flatten ++ (data ++ [10])) <+: (sendStep marshal resp j st).out) := by
  obtain ⟨g1, g2⟩ := sendStep_grows marshal resp j st
  have keep : ∀ i data, marshal (resp i) = .ok data →
      (st.pc i = .unlocking ∨ st.pc i = .done) →
      ∃ before after, (sendStep marshal resp j st).writes = before ++ [data ++ [10]] ++ after ∧
        (before.flatten ++ (data ++ [10])) <+: (sendStep marshal resp j st).out := by
    intro i data hm hpc
    obtain ⟨before, after, hw, ho⟩ := hD i data hm hpc
    obtain ⟨extra, he⟩ := g1
    refine ⟨before, after ++ extra, ?_, ho.trans g2⟩
    rw [← he, hw, List.append_assoc]
  constructor
  · intro i rest hpc data hm
    by_cases hij : i = j
    · subst hij
      cases hold : st.pc i with
      | start =>
        unfold sendStep at hpc
        rw [hold] at hpc
        split_ifs at hpc
        · rw [hold] at hpc; exact absurd hpc (by simp)
        · simp only [moved_same] at hpc; exact absurd hpc (by simp)
      | locked =>
        unfold sendStep at hpc ⊢
        rw [hold] at hpc ⊢
        simp only [hm, moved_same] at hpc ⊢
        exact ⟨st.writes, rfl⟩
      | writing r =>
        cases r with
        | nil =>
          unfold sendStep at hpc
          rw [hold] at hpc
          simp only [moved_same] at hpc
          exact absurd hpc (by simp)
        | cons b r =>
          obtain ⟨before, hb⟩ := hB i (b :: r) hold data hm
          refine ⟨before, ?_⟩
          unfold sendStep
          rw [hold]
          exact hb
      | unlocking =>
        unfold sendStep at hpc
        rw [hold] at hpc
        simp only [moved_same] at hpc
        exact absurd hpc (by simp)
      | done =>
        unfold sendStep at hpc
        rw [hold] at hpc
        simp only [hold] at hpc
        exact absurd hpc (by simp)
    · have hsame := sendStep_pc_other marshal resp j i st hij
      rw [hsame] at hpc
      have hblocked := sendStep_blocked marshal resp st hinv i j (by rw [hpc]; rfl)
        (fun h => hij h.symm)
      rw [hblocked]
      exact hB i rest hpc data hm
  · intro i data hm hpc
    by_cases hij : i = j
    · subst hij
      cases hold : st.pc i with
      | start =>
        unfold sendStep at hpc
        rw [hold] at hpc
        split_ifs at hpc
        · rw [hold] at hpc; simp at hpc
        · simp only [moved_same] at hpc; simp at hpc
      | locked =>
        unfold sendStep at hpc
        rw [hold] at hpc
        simp only [hm, moved_same] at hpc
        simp at hpc
      | writing r =>
        cases r with
        | nil =>
          obtain ⟨before, hb⟩ := hB i [] hold data hm
          have hout : st.out = st.writes.flatten := by
            have := hinv.2.2.2.1 i [] hold
            simpa using this
          have hst : sendStep marshal resp i st = { st with pc := st.moved i .unlocking } := by
            unfold sendStep; rw [hold]
          rw [hst]
          refine ⟨before, [], ?_, ?_⟩
          · simp only [List.append_nil]; exact hb
          · show (before.flatten ++ (data ++ [10])) <+: st.out
            rw [hout, hb]
            simp
        | cons b r =>
          unfold sendStep at hpc
          rw [hold] at hpc
          simp only [moved_same] at hpc
          simp at hpc
      | unlocking => exact keep i data hm (Or.inl hold)
      | done => exact keep i data hm (Or.inr hold)
    · rw [sendStep_pc_other marshal resp j i st hij] at hpc
      exact keep i data hm hpc

theorem sendRun_written (marshal : Response → Except String (List Nat))
    (resp : Nat → Response) (schedule : List Nat) :
    (∀ i rest, (sendRun marshal resp schedule).pc i = .writing rest →
      ∀ data, marshal (resp i) = .ok data →
      ∃ before, (sendRun marshal resp schedule).writes = before ++ [data ++ [10]]) ∧
    (∀ i data, marshal (resp i) = .ok data →
      ((sendRun marshal resp schedule).pc i = .unlocking ∨
        (sendRun marshal resp schedule).pc i = .done) →
      ∃ before after,
        (sendRun marshal resp schedule).writes = before ++ [data ++ [10]] ++ after ∧
        (before.flatten ++ (data ++ [10])) <+: (sendRun marshal resp schedule).out) := by
  induction schedule using List.reverseRecOn with
  | nil =>
    constructor
    · intro i rest h; simp [sendRun, SendState.fresh] at h
    · intro i data _ h; simp [sendRun, SendState.fresh] at h
  | append_singleton l j ih =>
    have hrun : sendRun marshal resp (l ++ [j]) =
        sendStep marshal resp j (sendRun marshal resp l) := by
      simp [sendRun, List.foldl_append]
    rw [hrun]
    exact sendStep_written marshal resp j _ (sendRun_inv marshal resp l) ih.1 ih.2

theorem sendRun_append (marshal : Response → Except String (List Nat))
    (resp : Nat → Response) (schedule ext : List Nat) :
    sendRun marshal resp (schedule ++ ext) =
      ext.foldl (fun st j => sendStep marshal resp j st) (sendRun marshal resp schedule) := by
  simp [sendRun, List.foldl_append]

/-- A goroutine that finds the mutex free takes it, and then returns from
`send` once it has taken its steps, whatever the others do in between. -/
theorem sendRun_from_start (marshal : Response → Except String (List Nat))
    (resp : Nat → Response) (schedule : List Nat) (i : Nat) (ext : List Nat)
    (hmu : (sendRun marshal resp schedule).mu = false)
    (hpc : (sendRun marshal resp schedule).pc i = .start)
    (hn : sendStepsLeft marshal resp i .locked ≤ ext.count i) :
    (sendRun marshal resp (schedule ++ i :: ext)).pc i = .done ∧
    ((sendRun marshal resp schedule).writes ++ sendWritesLeft marshal resp i .locked) <+:
      (sendRun marshal resp (schedule ++ i :: ext)).writes ∧
    ((sendRun marshal resp schedule).out ++ sendBytesLeft marshal resp i .locked) <+:
      (sendRun marshal resp (schedule ++ i :: ext)).out := by
  have hinv := sendStep_inv marshal resp i _ (sendRun_inv marshal resp schedule)
  have hst : sendStep marshal resp i (sendRun marshal resp schedule) =
      { sendRun marshal resp schedule with
        mu := true, pc := (sendRun marshal resp schedule).moved i .locked } := by
    unfold sendStep; rw [hpc]; simp [hmu]
  rw [sendRun_append, List.foldl_cons]
  rw [hst] at hinv ⊢
  have hpc2 : ({ sendRun marshal resp schedule with
        mu := true, pc := (sendRun marshal resp schedule).moved i .locked } : SendState).pc i =
      .locked := moved_same _ i _
  have := sendFold_holder marshal resp i ext _ hinv (by rw [hpc2]; rfl) (by rw [hpc2]; exact hn)
  rw [hpc2] at this
  exact this

/-- C24: for any number of goroutines calling `send` at once and any schedule
of their steps, at most one of them is past `s.mu.Lock()` and before the
deferred `s.mu.Unlock()`. Every call of `Write` on the output stream is made by
a goroutine holding the mutex and carries one whole response, its JSON
followed by one line feed; no goroutine makes two calls, and a response that
does not marshal makes none. The bytes on the stream are these lines one after
the other, whole when no call of `Write` is under way, and otherwise up to the
bytes the one goroutine inside `Write` has still to move: the bytes of two
responses are never interleaved. While a goroutine holds the mutex a step of
any other goroutine changes nothing. A goroutine that finds the mutex free
takes it, and once it has taken `len(data) + 4` further steps, with any steps
of the others in between, it has returned, its line `data` and a line feed is
the one call of `Write` made next after the calls made before, and the line
stands on the stream right after the bytes that were there; when its response
does not marshal it has returned after two further steps. The same holds of a
goroutine that already holds the mutex, for the steps, the call and the bytes
it has left. And the line of every goroutine that has returned from `send` with
a response that marshals is one of the calls of `Write` made, and stands whole
on the stream after the lines of the calls before it. -/
theorem send_never_interleaves (marshal : Response → Except String (List Nat))
    (resp : Nat → Response) (schedule : List Nat) :
    (∀ i j, ((sendRun marshal resp schedule).pc i).holdsLock = true →
      ((sendRun marshal resp schedule).pc j).holdsLock = true → i = j) ∧
    ((sendRun marshal resp schedule).mu = true ↔
      ∃ i, ((sendRun marshal resp schedule).pc i).holdsLock = true) ∧
    (∃ order : List Nat, order.Nodup ∧
      (sendRun marshal resp schedule).writes = order.filterMap (sendLine marshal resp)) ∧
    (∀ w ∈ (sendRun marshal resp schedule).writes,
      ∃ i data, marshal (resp i) = .ok data ∧ w = data ++ [10]) ∧
    (∀ i rest, (sendRun marshal resp schedule).pc i = .writing rest →
      (sendRun marshal resp schedule).out ++ rest =
        (sendRun marshal resp schedule).writes.flatten) ∧
    ((∀ i rest, (sendRun marshal resp schedule).pc i ≠ .writing rest) →
      (sendRun marshal resp schedule).out =
        (sendRun marshal resp schedule).writes.flatten) ∧
    (∀ i j, ((sendRun marshal resp schedule).pc i).holdsLock = true → j ≠ i →
      sendStep marshal resp j (sendRun marshal resp schedule) =
        sendRun marshal resp schedule) ∧
    (∀ (i : Nat) (data : List Nat) (ext : List Nat),
      (sendRun marshal resp schedule).mu = false →
      (sendRun marshal resp schedule).pc i = .start →
      marshal (resp i) = .ok data → data.length + 4 ≤ ext.count i →
      (sendRun marshal resp (schedule ++ i :: ext)).pc i = .done ∧
      ((sendRun marshal resp schedule).writes ++ [data ++ [10]]) <+:
        (sendRun marshal resp (schedule ++ i :: ext)).writes ∧
      ((sendRun marshal resp schedule).out ++ (data ++ [10])) <+:
        (sendRun marshal resp (schedule ++ i :: ext)).out) ∧
    (∀ (i : Nat) (e : String) (ext : List Nat),
      (sendRun marshal resp schedule).mu = false →
      (sendRun marshal resp schedule).pc i = .start →
      marshal (resp i) = .error e → 2 ≤ ext.count i →
      (sendRun marshal resp (schedule ++ i :: ext)).pc i = .done) ∧
    (∀ (i : Nat) (ext : List Nat),
      ((sendRun marshal resp schedule).pc i).holdsLock = true →
      sendStepsLeft marshal resp i ((sendRun marshal resp schedule).pc i) ≤ ext.count i →
      (sendRun marshal resp (schedule ++ ext)).pc i = .done ∧
      ((sendRun marshal resp schedule).writes ++
          sendWritesLeft marshal resp i ((sendRun marshal resp schedule).pc i)) <+:
        (sendRun marshal resp (schedule ++ ext)).writes ∧
      ((sendRun marshal resp schedule).out ++
          sendBytesLeft marshal resp i ((sendRun marshal resp schedule).pc i)) <+:
        (sendRun marshal resp (schedule ++ ext)).out) ∧
    (∀ (i : Nat) (data : List Nat),
      (sendRun marshal resp schedule).pc i = .done → marshal (resp i) = .ok data →
      ∃ before after,
        (sendRun marshal resp schedule).writes = before ++ [data ++ [10]] ++ after ∧
        (before.flatten ++ (data ++ [10])) <+: (sendRun marshal resp schedule).out) := by
  obtain ⟨h1, h2, ⟨order, hnd, hw, _⟩, h4, h5⟩ := sendRun_inv marshal resp schedule
  refine ⟨h1, h2, ⟨order, hnd, hw⟩, ?_, h4, h5, ?_, ?_, ?_, ?_, ?_⟩
  · intro w hwm
    rw [hw, List.mem_filterMap] at hwm
    obtain ⟨i, _, hi⟩ := hwm
    unfold sendLine at hi
    split at hi
    · simp at hi
    · next data hm =>
      simp only [Option.some.injEq] at hi
      exact ⟨i, data, hm, hi.symm⟩
  · intro i j hi hj
    exact sendStep_blocked marshal resp _ (sendRun_inv marshal resp schedule) i j hi hj
  · intro i data ext hmu hpc hm hn
    have := sendRun_from_start marshal resp schedule i ext hmu hpc
      (by simp only [sendStepsLeft, hm]; exact hn)
    simpa [sendWritesLeft, sendBytesLeft, sendLine, hm] using this
  · intro i e ext hmu hpc hm hn
    exact (sendRun_from_start marshal resp schedule i ext hmu hpc
      (by simp only [sendStepsLeft, hm]; exact hn)).1
  · intro i ext hi hn
    rw [sendRun_append]
    exact sendFold_holder marshal resp i ext _ (sendRun_inv marshal resp schedule) hi hn
  · intro i data hpc hm
    exact (sendRun_written marshal resp schedule).2 i data hm (Or.inr hpc)

/-- C24, at an input: goroutine 0, sending the result of `tools/list` with id
65, takes the free mutex first; whatever goroutine 1 tries in between, after
five further steps goroutine 0 has returned, its line is the first call of
`Write`, and the stream begins with it. -/
theorem send_never_interleaves_witness :
    (sendRun exampleMarshalResponse exampleResponses [0, 1, 0, 1, 0, 0, 1, 0, 0, 1]).pc 0 =
        .done ∧
      [[65, 10]] <+:
        (sendRun exampleMarshalResponse exampleResponses
          [0, 1, 0, 1, 0, 0, 1, 0, 0, 1]).writes ∧
      [65, 10] <+:
        (sendRun exampleMarshalResponse exampleResponses [0, 1, 0, 1, 0, 0, 1, 0, 0, 1]).out :=
  (send_never_interleaves exampleMarshalResponse exampleResponses []).2.2.2.2.2.2.2.1
    0 [65] [1, 0, 1, 0, 0, 1, 0, 0, 1] rfl rfl rfl (by decide)

end McpMemories
